import Mathlib

/-!
# librtlsdr / rtl_tcp : a shallow embedding and its verified properties

The development follows the two C sources `src/rtl_tcp.c` and `src/librtlsdr.c`.
Definitions come first (one Lean definition per C function, with the C name),
theorems follow.

Conventions of the embedding
* C `int` / `uint32_t` values are `Int` / `Nat`; truncation to a narrower unsigned
  type is written as an explicit `% 2^w`.
* A pointer that may be `NULL` is an `Option`.
* The linked list `struct llist` is a Lean `List` of its payloads, head first.
-/

set_option autoImplicit false

/-! ## Part 1 : `rtl_tcp.c`, the producer / consumer queue -/

namespace RtlTcp

/-- The globals of `rtl_tcp.c` that the queue code touches: the linked list
`ll_buffers` (head first, one entry per `struct llist` node) and the logging
counter `global_numq`. -/
structure TcpState (α : Type) where
  ll_buffers : List α
  global_numq : Int

/-- The state at program start: `ll_buffers = 0`, `global_numq = 0`. -/
def TcpState.init (α : Type) : TcpState α := { ll_buffers := [], global_numq := 0 }

/-- The producer `rtlsdr_callback` (rtl_tcp.c 177-223).  `rpt` is the freshly
allocated node holding the copy of the buffer.

* `ll_buffers == NULL` : the list becomes the single node `rpt`.
* otherwise `cur` walks to the last node, `num_queued` counts the hops (so it is
  the list length minus one); when `llbuf_num && llbuf_num == num_queued-2` the
  head node is freed and `ll_buffers` moves to its successor; then
  `cur->next = rpt` appends the new node and `global_numq = num_queued`.

When the head is freed while it is also the last node (`cur == ll_buffers`,
possible only for `llbuf_num = -2`) the C code stores through the freed node and
`ll_buffers` is left `NULL`; the model returns the empty list there. -/
def rtlsdr_callback {α : Type} (do_exit : Bool) (llbuf_num : Int)
    (st : TcpState α) (rpt : α) : TcpState α :=
  if do_exit then st
  else
    match st.ll_buffers with
    | [] => { st with ll_buffers := [rpt] }
    | hd :: tl =>
      let num_queued : Int := (tl.length : Int)
      if llbuf_num ≠ 0 ∧ llbuf_num = num_queued - 2 then
        match tl with
        | [] => { ll_buffers := [], global_numq := num_queued }
        | _ :: _ => { ll_buffers := tl ++ [rpt], global_numq := num_queued }
      else
        { ll_buffers := (hd :: tl) ++ [rpt], global_numq := num_queued }

/-- One round of the consumer loop of `tcp_worker` (rtl_tcp.c 239-280) after the
condition variable was signalled: `curelem = ll_buffers; ll_buffers = 0;` and
then every node is sent in list order and freed.  The result is the sequence of
buffers handed to `send` (all sends succeeding) and the new global state. -/
def tcp_worker {α : Type} (st : TcpState α) : List α × TcpState α :=
  (st.ll_buffers, { st with ll_buffers := [] })

/-- A step of the queue as seen from outside: the USB thread pushes a buffer,
or the consumer thread takes the whole list. -/
inductive QueueOp (α : Type) where
  | push (buf : α)
  | drain

/-- The buffers pushed by a sequence of operations, in order. -/
def pushed {α : Type} : List (QueueOp α) → List α
  | [] => []
  | QueueOp.push b :: ops => b :: pushed ops
  | QueueOp.drain :: ops => pushed ops

/-- Run a sequence of queue operations (with `do_exit = 0`) from the state `st`,
having already delivered `sent` to the socket; returns everything delivered so
far and the final state. -/
def runQueue {α : Type} (llbuf_num : Int) :
    List (QueueOp α) → List α × TcpState α → List α × TcpState α
  | [], acc => acc
  | QueueOp.push b :: ops, (sent, st) =>
      runQueue llbuf_num ops (sent, rtlsdr_callback false llbuf_num st b)
  | QueueOp.drain :: ops, (sent, st) =>
      runQueue llbuf_num ops (sent ++ (tcp_worker st).1, (tcp_worker st).2)

/-- Push the buffers `bufs` one after the other, no drain in between. -/
def pushAll {α : Type} (llbuf_num : Int) (st : TcpState α) (bufs : List α) : TcpState α :=
  bufs.foldl (fun s b => rtlsdr_callback false llbuf_num s b) st

end RtlTcp

/-! ## Part 2 : `librtlsdr.c`, data model

Further conventions for this part
* The functions are modelled for a non-`NULL` device pointer: every API function
  starts with `if (!dev) return -1;` (getters: `return 0;`) and the model starts
  right after that guard.
* The `_ENABLE_RPC` branches are left out (the local USB driver is always
  used); the `WITH_UDP_SERVER` parts are kept.
* Everything outside the two source files (libusb, the tuner chip drivers) is the
  *environment*: each call into it is recorded as an `Event` in the `World` trace
  and its result is read from the oracle of the `World`, so the theorems hold
  for every behaviour of the USB bus and of the tuner drivers.
* `fprintf` output is not modelled.
-/

namespace LibRtlSdr

/-- The C enum `rtlsdr_async_status` (librtlsdr.c 113-117). -/
inductive rtlsdr_async_status where
  | RTLSDR_INACTIVE
  | RTLSDR_CANCELING
  | RTLSDR_RUNNING
  deriving DecidableEq, Repr

/-- Modelled from the spec: the enum `rtlsdr_tuner` of `rtl-sdr.h` (not among the
sources); the spec lists the variants Unknown, E4000, FC0012, FC0013, FC2580,
R820T, R828D and the table `tuners[]` (librtlsdr.c 477-512) is in this order. -/
inductive rtlsdr_tuner where
  | RTLSDR_TUNER_UNKNOWN
  | RTLSDR_TUNER_E4000
  | RTLSDR_TUNER_FC0012
  | RTLSDR_TUNER_FC0013
  | RTLSDR_TUNER_FC2580
  | RTLSDR_TUNER_R820T
  | RTLSDR_TUNER_R828D
  deriving DecidableEq, Repr

/-- Modelled from the spec: the enum `rtlsdr_ds_mode` of `rtl-sdr.h` (not among
the sources); the spec lists {IQ, I, Q, I-below-threshold, Q-below-threshold}. -/
inductive rtlsdr_ds_mode where
  | RTLSDR_DS_IQ
  | RTLSDR_DS_I
  | RTLSDR_DS_Q
  | RTLSDR_DS_I_BELOW
  | RTLSDR_DS_Q_BELOW
  deriving DecidableEq, Repr

/-- Numeric value of a direct-sampling mode (enum order). -/
def rtlsdr_ds_mode.toNat : rtlsdr_ds_mode → Nat
  | RTLSDR_DS_IQ => 0
  | RTLSDR_DS_I => 1
  | RTLSDR_DS_Q => 2
  | RTLSDR_DS_I_BELOW => 3
  | RTLSDR_DS_Q_BELOW => 4

/-- The C enum `softagc_mode` (librtlsdr.c 140-145). -/
inductive softagc_mode where
  | SOFTAGC_OFF
  | SOFTAGC_ON_CHANGE
  | SOFTAGC_AUTO_ATTEN
  | SOFTAGC_AUTO
  deriving DecidableEq, Repr

/-- Numeric value of a soft-AGC mode (enum order). -/
def softagc_mode.toNat : softagc_mode → Nat
  | SOFTAGC_OFF => 0
  | SOFTAGC_ON_CHANGE => 1
  | SOFTAGC_AUTO_ATTEN => 2
  | SOFTAGC_AUTO => 3

/-- The C enum `softagc_stateT` (librtlsdr.c 147-153). -/
inductive softagc_stateT where
  | SOFTSTATE_OFF
  | SOFTSTATE_ON
  | SOFTSTATE_RESET_CONT
  | SOFTSTATE_RESET
  | SOFTSTATE_INIT
  deriving DecidableEq, Repr

/-- The data fields of `struct softagc_state` (librtlsdr.c 155-180); the thread,
mutex and condition variable are not data. -/
structure softagc_state where
  command_newGain : Int
  command_changeGain : Int
  agcState : softagc_stateT
  softAgcMode : softagc_mode
  scanTimeSps : Int
  deadTimeSps : Int
  remainingDeadSps : Int
  remainingScanSps : Int
  numInHisto : Int
  histo : List Int
  gainIdx : Int
  deriving DecidableEq, Repr

/-- The status of a USB transfer as reported by libusb (`enum
libusb_transfer_status`). -/
inductive libusb_transfer_status where
  | LIBUSB_TRANSFER_COMPLETED
  | LIBUSB_TRANSFER_ERROR
  | LIBUSB_TRANSFER_TIMED_OUT
  | LIBUSB_TRANSFER_CANCELLED
  | LIBUSB_TRANSFER_STALL
  | LIBUSB_TRANSFER_NO_DEVICE
  | LIBUSB_TRANSFER_OVERFLOW
  deriving DecidableEq, Repr

/-- What the library reads of a `struct libusb_transfer`: its status. -/
structure libusb_transfer where
  status : libusb_transfer_status
  deriving DecidableEq, Repr

/-- The fields of `struct rtlsdr_dev` (librtlsdr.c 182-245) that the modelled
functions read or write.

* `xfer` : `NULL` or the array of transfer pointers (each possibly `NULL`);
* `xfer_buf` : `NULL` or the array of buffer pointers, `true` for an allocated
  buffer and `false` for a `NULL` entry (the bytes of a buffer belong to the USB
  stack and arrive with a completion);
* `cb`, `cb_ctx` : the user callback (a function pointer, `none` for `NULL`) and
  its context pointer;
* `tuner` : `NULL` or a pointer to the entry of `tuners[]` for that tuner type;
* `e4k_fosc`, `r82xx_xtal` : `e4k_s.vco.fosc` and `r82xx_c.xtal`, the only parts
  of the tuner driver state that librtlsdr.c computes itself. -/
structure rtlsdr_dev where
  xfer_buf_num : Nat
  xfer_buf_len : Nat
  xfer : Option (List (Option libusb_transfer))
  xfer_buf : Option (List Bool)
  cb : Option Nat
  cb_ctx : Nat
  async_status : rtlsdr_async_status
  async_cancel : Int
  use_zerocopy : Int
  rate : Nat
  rtl_xtal : Nat
  fir : List Int
  direct_sampling : Int
  rtl_vga_control : Int
  tuner_type : rtlsdr_tuner
  tuner : Option rtlsdr_tuner
  tun_xtal : Nat
  freq : Nat
  bw : Nat
  offs_freq : Nat
  if_band_center_freq : Int
  corr : Int
  gain : Int
  direct_sampling_mode : rtlsdr_ds_mode
  direct_sampling_threshold : Nat
  e4k_fosc : Nat
  r82xx_xtal : Nat
  softagc : softagc_state
  override_if_freq : Int
  override_if_flag : Int
  last_if_freq : Int
  dev_lost : Int
  xfer_errors : Nat
  verbose : Int
  saved_27 : Nat
  handled : Int
  deriving DecidableEq, Repr

/-- `fir_default` (librtlsdr.c 134-137). -/
def fir_default : List Int :=
  [-54, -36, -41, -40, -32, -14, 14, 53, 101, 156, 215, 273, 327, 372, 404, 421]

/-- `DEF_RTL_XTAL_FREQ` (librtlsdr.c 581). -/
def DEF_RTL_XTAL_FREQ : Nat := 28800000

/-- `DEFAULT_BUF_NUMBER` (librtlsdr.c 570). -/
def DEFAULT_BUF_NUMBER : Nat := 15

/-- `DEFAULT_BUF_LENGTH` (librtlsdr.c 571). -/
def DEFAULT_BUF_LENGTH : Nat := 16 * 32 * 512

/-- `EINVAL` of `<errno.h>`. -/
def EINVAL : Int := 22

/-- `ENOMEM` of `<errno.h>`. -/
def ENOMEM : Int := 12

/-- `INT_MAX` of `<limits.h>` for a 32-bit `int`. -/
def INT_MAX : Int := 2147483647

/-- The device right after `memset(dev, 0, ...)`, `memcpy(dev->fir, fir_default)`
and the explicit initialisations at the start of `rtlsdr_open` (librtlsdr.c
2594-2623), with `rtl_xtal = DEF_RTL_XTAL_FREQ` (line 2685). -/
def rtlsdr_dev.zero : rtlsdr_dev :=
  { xfer_buf_num := 0, xfer_buf_len := 0, xfer := none, xfer_buf := none,
    cb := none, cb_ctx := 0,
    async_status := rtlsdr_async_status.RTLSDR_INACTIVE, async_cancel := 0,
    use_zerocopy := 0, rate := 0, rtl_xtal := DEF_RTL_XTAL_FREQ, fir := fir_default,
    direct_sampling := 0, rtl_vga_control := 0,
    tuner_type := rtlsdr_tuner.RTLSDR_TUNER_UNKNOWN, tuner := none,
    tun_xtal := 0, freq := 0, bw := 0, offs_freq := 0, if_band_center_freq := 0,
    corr := 0, gain := 0,
    direct_sampling_mode := rtlsdr_ds_mode.RTLSDR_DS_IQ, direct_sampling_threshold := 0,
    e4k_fosc := 0, r82xx_xtal := 0,
    softagc :=
      { command_newGain := 0, command_changeGain := 0,
        agcState := softagc_stateT.SOFTSTATE_OFF, softAgcMode := softagc_mode.SOFTAGC_OFF,
        scanTimeSps := 0, deadTimeSps := 0, remainingDeadSps := 0, remainingScanSps := 0,
        numInHisto := 0, histo := List.replicate 16 0, gainIdx := 0 },
    override_if_freq := 0, override_if_flag := 0, last_if_freq := 0,
    dev_lost := 1, xfer_errors := 0, verbose := 0, saved_27 := 0, handled := 0 }

/-! ### The environment -/

/-- The functions of the tuner chip drivers (`tuner_e4k.c`, `tuner_fc0012.c`,
`tuner_fc0013.c`, `tuner_fc2580.c`, `tuner_r82xx.c`) that the modelled part of
librtlsdr.c calls; `e4k_if_filter_bw_set` is listed once for each of its filter
arguments `E4K_IF_FILTER_MIX`, `E4K_IF_FILTER_RC`, `E4K_IF_FILTER_CHAN`. -/
inductive DriverFn where
  | e4k_init
  | e4k_standby
  | e4k_tune_freq
  | e4k_if_filter_bw_set_MIX
  | e4k_if_filter_bw_set_RC
  | e4k_if_filter_bw_set_CHAN
  | fc0012_init
  | fc0012_set_params
  | fc0013_init
  | fc0013_set_params
  | fc2580_Initialize
  | fc2580_SetRfFreqHz
  | fc2580_SetBandwidthMode
  | r82xx_init
  | r82xx_standby
  | r82xx_set_freq
  | r82xx_set_bandwidth
  | r82xx_set_i2c_register
  | r82xx_set_i2c_override
  | r82xx_read_cache_reg
  | e4k_set_lna_gain
  | e4k_mixer_gain_set
  | e4k_if_gain_set
  | e4k_enable_manual_gain
  | fc0012_set_gain
  | fc0013_set_lna_gain
  | fc0013_set_gain_mode
  | r82xx_set_gain
  | r82xx_set_agc_mode
  | r82xx_set_bw_center
  deriving DecidableEq, Repr

/-- The libusb functions (and the allocator) used by the asynchronous stream engine. -/
inductive UsbFn where
  | libusb_alloc_transfer
  | libusb_dev_mem_alloc
  | libusb_dev_mem_free
  | malloc
  | libusb_submit_transfer
  | libusb_cancel_transfer
  | libusb_free_transfer
  | libusb_handle_events
  | free
  deriving DecidableEq, Repr

/-- One call from the library into its environment.

* `control_in wValue wIndex len` / `control_out wValue wIndex data` :
  `libusb_control_transfer` with `CTRL_IN` / `CTRL_OUT`, `bRequest = 0`;
* `driver fn args` : a call of a tuner driver function with its scalar arguments;
* `usb fn i` : a libusb streaming call for transfer / buffer number `i` (for
  `libusb_handle_events`, `i` is the timeout in seconds). -/
inductive Event where
  | control_in (wValue wIndex len : Nat)
  | control_out (wValue wIndex : Nat) (data : List Nat)
  | driver (fn : DriverFn) (args : List Int)
  | usb (fn : UsbFn) (i : Nat)
  deriving DecidableEq, Repr

/-- The environment: the trace of calls made so far (oldest first) and the
oracle giving, for the `k`-th call, its return value `ret k` and the value it
stores through its out-parameter `out k` (bytes read, applied bandwidth, ...). -/
structure World where
  trace : List Event
  ret : Nat → Int
  out : Nat → Nat

/-- Perform one call into the environment. -/
def World.call (w : World) (e : Event) : Int × Nat × World :=
  (w.ret w.trace.length, w.out w.trace.length, { w with trace := w.trace ++ [e] })

/-- An environment in which every call returns `r` and outputs `0`. -/
def World.const (r : Int) : World := { trace := [], ret := fun _ => r, out := fun _ => 0 }

/-- The 32-bit two's complement bit pattern of a C `int`; conversions of an
`int` to `uint8_t` / `uint16_t` / `uint32_t` and the bitwise operators `|`, `&`
act on this pattern. -/
def bits32 (x : Int) : Nat := (x % 4294967296).toNat

/-! ### USB register bus (librtlsdr.c 674-851) -/

/-- `enum blocks` (librtlsdr.c 664-672). -/
def DEMODB : Nat := 0
/-- Block `USBB`. -/
def USBB : Nat := 1
/-- Block `SYSB`. -/
def SYSB : Nat := 2
/-- Block `IRB`. -/
def IRB : Nat := 5
/-- Block `IICB`. -/
def IICB : Nat := 6
/-- Register `GPO` of `enum sys_reg`. -/
def GPO : Nat := 0x3001

/-- `rtlsdr_read_reg` (librtlsdr.c 743-759): returns `(data[1] << 8) | data[0]`
as `uint16_t`; the two bytes are taken from the oracle output of the call. -/
def rtlsdr_read_reg (w : World) (block addr len : Nat) : Nat × World :=
  let index := if block = IRB then (SYSB <<< 8) ||| 0x01 else (block <<< 8) % 65536
  let (_, o, w1) := w.call (Event.control_in addr index len)
  let data0 := o % 256
  let data1 := (o / 256) % 256
  (((data1 <<< 8) ||| data0) % 65536, w1)

/-- `rtlsdr_write_reg` (librtlsdr.c 761-782): `data[0]` is the low byte for
`len == 1` and the high byte otherwise, `data[1]` the low byte; `len` bytes are
sent. -/
def rtlsdr_write_reg (w : World) (block addr val len : Nat) : Int × World :=
  let index := if block = IRB then (SYSB <<< 8) ||| 0x11 else ((block <<< 8) ||| 0x10) % 65536
  let data0 := if len = 1 then val &&& 0xff else (val >>> 8) % 256
  let data1 := val &&& 0xff
  let (r, _, w1) := w.call (Event.control_out addr index ([data0, data1].take len))
  (r, w1)

/-- `rtlsdr_demod_read_reg` (librtlsdr.c 784-801). -/
def rtlsdr_demod_read_reg (w : World) (page addr len : Nat) : Nat × World :=
  let index := page
  let addr' := ((addr <<< 8) ||| 0x20) % 65536
  let (_, o, w1) := w.call (Event.control_in addr' index len)
  let data0 := o % 256
  let data1 := (o / 256) % 256
  (((data1 <<< 8) ||| data0) % 65536, w1)

/-- `rtlsdr_demod_write_reg` (librtlsdr.c 803-825): one control-out transfer,
then the dummy read of page `0x0a` register `0x01`; the result is `0` when the
transfer reported `len` bytes and `-1` otherwise. -/
def rtlsdr_demod_write_reg (w : World) (page addr val len : Nat) : Int × World :=
  let index := 0x10 ||| page
  let addr' := ((addr <<< 8) ||| 0x20) % 65536
  let data0 := if len = 1 then val &&& 0xff else (val >>> 8) % 256
  let data1 := val &&& 0xff
  let (r, _, w1) := w.call (Event.control_out addr' index ([data0, data1].take len))
  let (_, w2) := rtlsdr_demod_read_reg w1 0x0a 0x01 1
  (if r = (len : Int) then 0 else -1, w2)

/-- `rtlsdr_set_gpio_bit` (librtlsdr.c 827-835). -/
def rtlsdr_set_gpio_bit (w : World) (gpio : Nat) (val : Int) : World :=
  let gpio' := (1 <<< gpio) % 256
  let (r, w1) := rtlsdr_read_reg w SYSB GPO 1
  let r' := if val ≠ 0 then r ||| gpio' else r &&& (65535 - gpio')
  (rtlsdr_write_reg w1 SYSB GPO r' 1).2

/-- `rtlsdr_set_i2c_repeater` (librtlsdr.c 848-851). -/
def rtlsdr_set_i2c_repeater (w : World) (on_ : Int) : World :=
  (rtlsdr_demod_write_reg w 1 0x01 (if on_ ≠ 0 then 0x18 else 0x10) 1).2

/-! ### FIR coefficients (librtlsdr.c 853-884) -/

/-- Body of the first loop of `rtlsdr_set_fir` for tap `i` (0..7):
`fir[i] = val` as `uint8_t`; `none` is the `return -1` for a tap outside
`[-128, 127]`. -/
def fir_low_body (fir : List Int) (i : Nat) : Option (List Nat) :=
  let val := fir.getD i 0
  if val < -128 ∨ val > 127 then none else some [bits32 val % 256]

/-- Body of the second loop of `rtlsdr_set_fir` for `i = 0, 2, 4, 6`: the three
bytes `fir[8+i*3/2] = val0 >> 4`, `fir[8+i*3/2+1] = (val0 << 4) | ((val1 >> 8) & 0x0f)`,
`fir[8+i*3/2+2] = val1`, each converted to `uint8_t`; `none` is the `return -1`
for a tap outside `[-2048, 2047]`.  (`>>` on `int` is the arithmetic shift,
`val0 << 4` is `val0 * 16`.) -/
def fir_high_body (fir : List Int) (i : Nat) : Option (List Nat) :=
  let val0 := fir.getD (8 + i) 0
  let val1 := fir.getD (8 + i + 1) 0
  if val0 < -2048 ∨ val0 > 2047 ∨ val1 < -2048 ∨ val1 > 2047 then none
  else some [bits32 (val0 >>> (4 : Nat)) % 256,
             (bits32 (val0 * 16) ||| (bits32 (val1 >>> (8 : Nat)) &&& 0x0f)) % 256,
             bits32 val1 % 256]

/-- A `for` loop over the given indices that fills consecutive bytes of the
local array and leaves the function (`none`) as soon as a body does. -/
def fir_loop (body : Nat → Option (List Nat)) : List Nat → Option (List Nat)
  | [] => some []
  | i :: rest =>
    match body i with
    | none => none
    | some bs =>
      match fir_loop body rest with
      | none => none
      | some more => some (bs ++ more)

/-- The local array `uint8_t fir[20]` of `rtlsdr_set_fir` after both loops
(`i = 0..7`, then `i = 0, 2, 4, 6`), or `none` when one of them returned `-1`. -/
def fir_bytes (fir : List Int) : Option (List Nat) :=
  match fir_loop (fir_low_body fir) [0, 1, 2, 3, 4, 5, 6, 7] with
  | none => none
  | some lo =>
    match fir_loop (fir_high_body fir) [0, 2, 4, 6] with
    | none => none
    | some hi => some (lo ++ hi)

/-- Third loop of `rtlsdr_set_fir`: write byte `i` to demod page 1 register
`0x1c + i`, returning `-1` at the first failing write. -/
def fir_write_loop : List Nat → Nat → World → Int × World
  | [], _, w => (0, w)
  | b :: bs, i, w =>
    let (r, w1) := rtlsdr_demod_write_reg w 1 (0x1c + i) b 1
    if r ≠ 0 then (-1, w1) else fir_write_loop bs (i + 1) w1

/-- `rtlsdr_set_fir` (librtlsdr.c 853-884). -/
def rtlsdr_set_fir (dev : rtlsdr_dev) (w : World) : Int × World :=
  match fir_bytes dev.fir with
  | none => (-1, w)
  | some bytes => fir_write_loop bytes 0 w

/-- Sign extension of a `w`-bit field. -/
def sign_extend (w : Nat) (x : Nat) : Int :=
  if x % 2 ^ w ≥ 2 ^ (w - 1) then ((x % 2 ^ w : Nat) : Int) - (2 ^ w : Nat) else ((x % 2 ^ w : Nat) : Int)

/-- The inverse of the FIR layout as the specification words it: bytes 0..7 are
sign-extended 8-bit taps; each following byte triple `[b0, b1, b2]` holds the two
12-bit taps `(b0 << 4) | (b1 >> 4)` and `((b1 & 0xF) << 8) | b2`, sign-extended. -/
def fir_decode (bytes : List Nat) : List Int :=
  ((List.range 8).map fun i => sign_extend 8 (bytes.getD i 0)) ++
  ([0, 1, 2, 3].map fun j =>
    let b0 := bytes.getD (8 + 3 * j) 0
    let b1 := bytes.getD (8 + 3 * j + 1) 0
    let b2 := bytes.getD (8 + 3 * j + 2) 0
    [sign_extend 12 ((b0 <<< 4) ||| (b1 >>> 4)),
     sign_extend 12 (((b1 &&& 0xf) <<< 8) ||| b2)]).flatten

/-- The taps are sixteen, taps 0..7 lie in `[-128, 127]` and taps 8..15 in
`[-2048, 2047]`. -/
def fir_in_range (fir : List Int) : Prop :=
  fir.length = 16 ∧
  (∀ i, i < 8 → -128 ≤ fir.getD i 0 ∧ fir.getD i 0 ≤ 127) ∧
  (∀ i, i < 16 → 8 ≤ i → -2048 ≤ fir.getD i 0 ∧ fir.getD i 0 ≤ 2047)

instance (fir : List Int) : Decidable (fir_in_range fir) := by
  unfold fir_in_range; infer_instance

/-- The environment calls of the third loop of `rtlsdr_set_fir` when every write
succeeds: for each byte, the control-out transfer of that byte to demod page 1
(`wIndex = 0x10 | 1`), register `0x1c + i` (`wValue = (addr << 8) | 0x20`),
followed by the dummy read of page `0x0a`, register `0x01`. -/
def fir_events : List Nat → Nat → List Event
  | [], _ => []
  | b :: bs, i =>
    Event.control_out ((((0x1c + i) <<< 8) ||| 0x20) % 65536) 0x11 [b] ::
    Event.control_in 288 10 1 :: fir_events bs (i + 1)

/-! ### Crystal, IF frequency and sample-frequency correction (librtlsdr.c 960-1078) -/

/-- The signed value of a 32-bit pattern (conversion of `uint32_t` to `int`). -/
def int_of_bits32 (n : Nat) : Int :=
  if n % 4294967296 ≥ 2147483648 then ((n % 4294967296 : Nat) : Int) - 4294967296
  else ((n % 4294967296 : Nat) : Int)

/-- The C operator `a | b` on two `int`s (as in `r |= ...`). -/
def c_or (a b : Int) : Int := int_of_bits32 (bits32 a ||| bits32 b)

/-- The macro `APPLY_PPM_CORR(val, ppm) = val * (1.0 + ppm / 1e6)` converted to
`uint32_t` (librtlsdr.c 1069-1075).  The C expression is evaluated in `double`;
the model evaluates it exactly and truncates. -/
def APPLY_PPM_CORR (val : Nat) (ppm : Int) : Nat :=
  (((val : Int) * (1000000 + ppm)) / 1000000).toNat % 4294967296

/-- `rtlsdr_get_xtal_freq` (librtlsdr.c 1057-1078): the corrected crystal
frequencies `(*rtl_freq, *tuner_freq)`; the return value is always 0. -/
def rtlsdr_get_xtal_freq (dev : rtlsdr_dev) : Nat × Nat :=
  (APPLY_PPM_CORR dev.rtl_xtal dev.corr, APPLY_PPM_CORR dev.tun_xtal dev.corr)

/-- `rtlsdr_set_if_freq` (librtlsdr.c 960-996).  `if_freq` is
`((freq * 2^22) / rtl_xtal) * (-1)` evaluated in `double` and truncated to
`int32_t`; the model evaluates the quotient exactly and truncates. -/
def rtlsdr_set_if_freq (dev : rtlsdr_dev) (freq : Nat) (w : World) : Int × rtlsdr_dev × World :=
  let rtl_xtal := (rtlsdr_get_xtal_freq dev).1
  let dev1 := { dev with last_if_freq := int_of_bits32 freq }
  let freq1 := if dev1.override_if_flag ≠ 0 then bits32 dev1.override_if_freq else freq
  let dev2 :=
    if dev1.override_if_flag ≠ 0 then
      (if dev1.override_if_flag = 1 then { dev1 with override_if_flag := 0 } else dev1)
    else dev1
  let if_freq : Int := -(((freq1 : Int) * 4194304) / (rtl_xtal : Int))
  let (r1, w1) := rtlsdr_demod_write_reg w 1 0x19 (bits32 (if_freq >>> (16 : Nat)) &&& 0x3f) 1
  let (r2, w2) := rtlsdr_demod_write_reg w1 1 0x1a (bits32 (if_freq >>> (8 : Nat)) &&& 0xff) 1
  let (r3, w3) := rtlsdr_demod_write_reg w2 1 0x1b (bits32 if_freq &&& 0xff) 1
  (c_or (c_or r1 r2) r3, dev2, w3)

/-- `rtlsdr_set_sample_freq_correction` (librtlsdr.c 998-1010).  `offs` is
`ppm * (-1) * 2^24 / 1000000` evaluated in `double` and truncated to `int16_t`. -/
def rtlsdr_set_sample_freq_correction (ppm : Int) (w : World) : Int × World :=
  let offs : Int := Int.tdiv (ppm * (-1) * 16777216) 1000000
  let (r1, w1) := rtlsdr_demod_write_reg w 1 0x3f (bits32 offs &&& 0xff) 1
  let (r2, w2) := rtlsdr_demod_write_reg w1 1 0x3e (bits32 (offs >>> (8 : Nat)) &&& 0x3f) 1
  (c_or (c_or 0 r1) r2, w2)

/-! ### Soft-AGC re-trigger (librtlsdr.c 2888-2911) -/

/-- `reactivate_softagc` (librtlsdr.c 2888-2911): returns 1 when the soft AGC is
in use (mode above `SOFTAGC_OFF`), switching to `newState` unless it is already
running in mode `SOFTAGC_AUTO`; returns 0 otherwise. -/
def reactivate_softagc (dev : rtlsdr_dev) (newState : softagc_stateT) : Int × rtlsdr_dev :=
  if dev.softagc.softAgcMode.toNat > softagc_mode.SOFTAGC_OFF.toNat then
    if dev.softagc.agcState ≠ softagc_stateT.SOFTSTATE_OFF ∧
        dev.softagc.softAgcMode.toNat ≥ softagc_mode.SOFTAGC_AUTO.toNat then
      (1, dev)
    else
      (1, { dev with softagc := { dev.softagc with agcState := newState } })
  else (0, dev)

/-! ### Tuner dispatch (librtlsdr.c 256-512)

`dev->tuner` points to the entry of `tuners[]` for a tuner type; a `NULL` slot of
that entry is `none` below.  The chip drivers are environment calls. -/

/-- Result of an operation that may run out of fuel: return value, device,
environment. -/
abbrev Res := Option (Int × rtlsdr_dev × World)

/-- What a recursive call of `rtlsdr_set_center_freq` does (device, frequency,
environment). -/
abbrev SetCenterFreq := rtlsdr_dev → Nat → World → Res

/-- `R82XX_IF_FREQ` (declared in `tuner_r82xx.h`), with the value the source
states where it is used: "the R82XX use 3.57 MHz IF" (librtlsdr.c 2765-2767). -/
def R82XX_IF_FREQ : Nat := 3570000

/-- Slot `init` of `tuners[]`: `e4000_init`, `_fc0012_init`, `_fc0013_init`,
`fc2580_init`, `r820t_init` (librtlsdr.c 257-263, 312, 323, 331, 344-363). -/
def tuner_init : rtlsdr_tuner → Option (rtlsdr_dev → World → Int × rtlsdr_dev × World)
  | rtlsdr_tuner.RTLSDR_TUNER_UNKNOWN => none
  | rtlsdr_tuner.RTLSDR_TUNER_E4000 => some fun dev w =>
      let dev1 := { dev with e4k_fosc := (rtlsdr_get_xtal_freq dev).2 }
      let (r, _, w1) := w.call (Event.driver DriverFn.e4k_init [])
      (r, dev1, w1)
  | rtlsdr_tuner.RTLSDR_TUNER_FC0012 => some fun dev w =>
      let (r, _, w1) := w.call (Event.driver DriverFn.fc0012_init [])
      (r, dev, w1)
  | rtlsdr_tuner.RTLSDR_TUNER_FC0013 => some fun dev w =>
      let (r, _, w1) := w.call (Event.driver DriverFn.fc0013_init [])
      (r, dev, w1)
  | rtlsdr_tuner.RTLSDR_TUNER_FC2580 => some fun dev w =>
      let (r, _, w1) := w.call (Event.driver DriverFn.fc2580_Initialize [])
      (r, dev, w1)
  | _ => some fun dev w =>
      let dev1 := { dev with r82xx_xtal := (rtlsdr_get_xtal_freq dev).2 }
      let (r, _, w1) := w.call (Event.driver DriverFn.r82xx_init [])
      (r, dev1, w1)

/-- Slot `exit` of `tuners[]`: `e4000_exit`, `fc0012_exit`, `fc0013_exit`,
`fc2580_exit`, `r820t_exit` (librtlsdr.c 264-267, 313, 324, 332, 364-367); no
modelled field of the device is written. -/
def tuner_exit : rtlsdr_tuner → Option (rtlsdr_dev → World → Int × World)
  | rtlsdr_tuner.RTLSDR_TUNER_UNKNOWN => none
  | rtlsdr_tuner.RTLSDR_TUNER_E4000 => some fun _ w =>
      let (r, _, w1) := w.call (Event.driver DriverFn.e4k_standby [1])
      (r, w1)
  | rtlsdr_tuner.RTLSDR_TUNER_FC0012 => some fun _ w => (0, w)
  | rtlsdr_tuner.RTLSDR_TUNER_FC0013 => some fun _ w => (0, w)
  | rtlsdr_tuner.RTLSDR_TUNER_FC2580 => some fun _ w => (0, w)
  | _ => some fun _ w =>
      let (r, _, w1) := w.call (Event.driver DriverFn.r82xx_standby [])
      (r, w1)

/-- Slot `set_freq` of `tuners[]`: `e4000_set_freq`, `fc0012_set_freq` (which
first selects the V-band/U-band filter on GPIO 6), `fc0013_set_freq`,
`_fc2580_set_freq`, `r820t_set_freq` (librtlsdr.c 268-271, 314-318, 325-327,
333-335, 369-372); no modelled field of the device is written. -/
def tuner_set_freq : rtlsdr_tuner → Option (rtlsdr_dev → Nat → World → Int × World)
  | rtlsdr_tuner.RTLSDR_TUNER_UNKNOWN => none
  | rtlsdr_tuner.RTLSDR_TUNER_E4000 => some fun _ freq w =>
      let (r, _, w1) := w.call (Event.driver DriverFn.e4k_tune_freq [freq])
      (r, w1)
  | rtlsdr_tuner.RTLSDR_TUNER_FC0012 => some fun _ freq w =>
      let w1 := rtlsdr_set_gpio_bit w 6 (if freq > 300000000 then 1 else 0)
      let (r, _, w2) := w1.call (Event.driver DriverFn.fc0012_set_params [freq, 6000000])
      (r, w2)
  | rtlsdr_tuner.RTLSDR_TUNER_FC0013 => some fun _ freq w =>
      let (r, _, w1) := w.call (Event.driver DriverFn.fc0013_set_params [freq, 6000000])
      (r, w1)
  | rtlsdr_tuner.RTLSDR_TUNER_FC2580 => some fun _ freq w =>
      let (r, _, w1) := w.call (Event.driver DriverFn.fc2580_SetRfFreqHz [freq])
      (r, w1)
  | _ => some fun _ freq w =>
      let (r, _, w1) := w.call (Event.driver DriverFn.r82xx_set_freq [freq])
      (r, w1)

/-- `r820t_set_bw` (librtlsdr.c 376-394); `scf` is the call of
`rtlsdr_set_center_freq` in its last line.  The out-parameter `applied_bw` is
not kept. -/
def r820t_set_bw (scf : SetCenterFreq) (dev : rtlsdr_dev) (bw : Int) (apply : Int)
    (w : World) : Res :=
  let (iffreq, _, w1) := w.call (Event.driver DriverFn.r82xx_set_bandwidth [bw, dev.rate, apply])
  if apply = 0 then some (0, dev, w1)
  else if iffreq < 0 then some (iffreq, dev, w1)
  else
    let iffreq1 := iffreq + dev.if_band_center_freq
    let (r, dev1, w2) := rtlsdr_set_if_freq dev (bits32 iffreq1) w1
    if r ≠ 0 then some (r, dev1, w2)
    else scf dev1 dev1.freq w2

/-- Slot `set_bw` of `tuners[]`: `e4000_set_bw`, `fc0012_set_bw`,
`fc0013_set_bw`, `fc2580_set_bw`, `r820t_set_bw` (librtlsdr.c 273-284, 319, 328,
336-340, 376-394). -/
def tuner_set_bw (scf : SetCenterFreq) :
    rtlsdr_tuner → Option (rtlsdr_dev → Int → Int → World → Res)
  | rtlsdr_tuner.RTLSDR_TUNER_UNKNOWN => none
  | rtlsdr_tuner.RTLSDR_TUNER_E4000 => some fun dev bw apply w =>
      if apply = 0 then some (0, dev, w)
      else
        let (r1, _, w1) := w.call (Event.driver DriverFn.e4k_if_filter_bw_set_MIX [bw])
        let (r2, _, w2) := w1.call (Event.driver DriverFn.e4k_if_filter_bw_set_RC [bw])
        let (r3, _, w3) := w2.call (Event.driver DriverFn.e4k_if_filter_bw_set_CHAN [bw])
        some (c_or (c_or (c_or 0 r1) r2) r3, dev, w3)
  | rtlsdr_tuner.RTLSDR_TUNER_FC0012 => some fun dev _ _ w => some (0, dev, w)
  | rtlsdr_tuner.RTLSDR_TUNER_FC0013 => some fun dev _ _ w => some (0, dev, w)
  | rtlsdr_tuner.RTLSDR_TUNER_FC2580 => some fun dev _ apply w =>
      if apply = 0 then some (0, dev, w)
      else
        let (r, _, w1) := w.call (Event.driver DriverFn.fc2580_SetBandwidthMode [1])
        some (r, dev, w1)
  | _ => some fun dev bw apply w => r820t_set_bw scf dev bw apply w

/-- Slot `set_i2c_register` of `tuners[]`: only `r820t_set_i2c_register`
(librtlsdr.c 467-470); no modelled field of the device is written. -/
def tuner_set_i2c_register :
    rtlsdr_tuner → Option (rtlsdr_dev → Nat → Nat → Nat → World → Int × World)
  | rtlsdr_tuner.RTLSDR_TUNER_R820T => some fun _ i2c_register data mask w =>
      let (r, _, w1) := w.call (Event.driver DriverFn.r82xx_set_i2c_register [i2c_register, data, mask])
      (r, w1)
  | rtlsdr_tuner.RTLSDR_TUNER_R828D => some fun _ i2c_register data mask w =>
      let (r, _, w1) := w.call (Event.driver DriverFn.r82xx_set_i2c_register [i2c_register, data, mask])
      (r, w1)
  | _ => none

/-! ### Center frequency and direct sampling (librtlsdr.c 1204-1256, 1744-1881)

`rtlsdr_set_center_freq` calls `rtlsdr_update_ds`, which calls
`rtlsdr_set_direct_sampling`, which calls `rtlsdr_set_center_freq` again.  The
two inner functions take that last call as the parameter `scf`;
`rtlsdr_set_center_freq` itself carries a fuel counter that bounds the depth of
these nested calls and answers `none` when it is used up. -/

/-- The `if (on)` branch of `rtlsdr_set_direct_sampling` (librtlsdr.c
1758-1778): tuner `exit` between two repeater writes, four demod register
writes, `dev->direct_sampling = on`.  Returns `r` so far, the device and the
environment. -/
def set_direct_sampling_on (dev : rtlsdr_dev) (on_ : Int) (w : World) :
    Int × rtlsdr_dev × World :=
  let (r0, w1) : Int × World :=
    match dev.tuner.bind tuner_exit with
    | some f =>
      let (r, w') := f dev (rtlsdr_set_i2c_repeater w 1)
      (r, rtlsdr_set_i2c_repeater w' 0)
    | none => (0, w)
  let (r1, w2) := rtlsdr_demod_write_reg w1 1 0xb1 0x1a 1
  let (r2, w3) := rtlsdr_demod_write_reg w2 1 0x15 0x00 1
  let (r3, w4) := rtlsdr_demod_write_reg w3 0 0x08 0x4d 1
  let (r4, w5) := rtlsdr_demod_write_reg w4 0 0x06 (if on_ > 1 then 0x90 else 0x80) 1
  (c_or (c_or (c_or (c_or r0 r1) r2) r3) r4, { dev with direct_sampling := on_ }, w5)

/-- The tuner `init` call of the `else` branch of `rtlsdr_set_direct_sampling`
(librtlsdr.c 1780-1784), between two repeater writes. -/
def set_direct_sampling_init (dev : rtlsdr_dev) (w : World) : Int × rtlsdr_dev × World :=
  match dev.tuner.bind tuner_init with
  | some f =>
    ((f dev (rtlsdr_set_i2c_repeater w 1)).1, (f dev (rtlsdr_set_i2c_repeater w 1)).2.1,
      rtlsdr_set_i2c_repeater (f dev (rtlsdr_set_i2c_repeater w 1)).2.2 0)
  | none => (0, dev, w)

/-- The `else` branch of `rtlsdr_set_direct_sampling` (librtlsdr.c 1779-1807):
tuner `init`, the IF frequency and the demod registers for the tuner kind,
`dev->direct_sampling = 0`. -/
def set_direct_sampling_off (dev : rtlsdr_dev) (w : World) : Int × rtlsdr_dev × World :=
  let i := set_direct_sampling_init dev w
  let r0 := c_or 0 i.1
  let (r5, dev2, w5) : Int × rtlsdr_dev × World :=
    if i.2.1.tuner_type = rtlsdr_tuner.RTLSDR_TUNER_R820T ∨
        i.2.1.tuner_type = rtlsdr_tuner.RTLSDR_TUNER_R828D then
      let s := rtlsdr_set_if_freq i.2.1 R82XX_IF_FREQ i.2.2
      let (r2, w3) := rtlsdr_demod_write_reg s.2.2 1 0x15 0x01 1
      (c_or (c_or r0 s.1) r2, s.2.1, w3)
    else
      let s := rtlsdr_set_if_freq i.2.1 0 i.2.2
      let (r2, w3) := rtlsdr_demod_write_reg s.2.2 0 0x08 0xcd 1
      let (r3, w4) := rtlsdr_demod_write_reg w3 1 0xb1 0x1b 1
      (c_or (c_or (c_or r0 s.1) r2) r3, s.2.1, w4)
  let (r6, w6) := rtlsdr_demod_write_reg w5 0 0x06 0x80 1
  (c_or r5 r6, { dev2 with direct_sampling := 0 }, w6)

/-- The body of `rtlsdr_set_direct_sampling` before its last statement
(librtlsdr.c 1758-1807). -/
def set_direct_sampling_regs (dev : rtlsdr_dev) (on_ : Int) (w : World) :
    Int × rtlsdr_dev × World :=
  if on_ ≠ 0 then set_direct_sampling_on dev on_ w else set_direct_sampling_off dev w

/-- `rtlsdr_set_direct_sampling` (librtlsdr.c 1744-1812, after the `!dev`
guard): the register programming, then `r |= rtlsdr_set_center_freq(dev,
dev->freq)`; `scf` is that call. -/
def rtlsdr_set_direct_sampling (scf : SetCenterFreq) (dev : rtlsdr_dev) (on_ : Int)
    (w : World) : Res :=
  match scf (set_direct_sampling_regs dev on_ w).2.1 (set_direct_sampling_regs dev on_ w).2.1.freq
      (set_direct_sampling_regs dev on_ w).2.2 with
  | none => none
  | some (rc, dev3, w6) => some (c_or (set_direct_sampling_regs dev on_ w).1 rc, dev3, w6)

/-- The value `new_ds` computed by the `switch` of `rtlsdr_update_ds`
(librtlsdr.c 1868-1875). -/
def update_ds_new (dev : rtlsdr_dev) (freq : Nat) : Int :=
  match dev.direct_sampling_mode with
  | rtlsdr_ds_mode.RTLSDR_DS_IQ => 0
  | rtlsdr_ds_mode.RTLSDR_DS_I => 1
  | rtlsdr_ds_mode.RTLSDR_DS_Q => 2
  | rtlsdr_ds_mode.RTLSDR_DS_I_BELOW => if freq < dev.direct_sampling_threshold then 1 else 0
  | rtlsdr_ds_mode.RTLSDR_DS_Q_BELOW => if freq < dev.direct_sampling_threshold then 2 else 0

/-- `rtlsdr_update_ds` (librtlsdr.c 1861-1881); `curr_ds` is
`rtlsdr_get_direct_sampling(dev) = dev->direct_sampling`. -/
def rtlsdr_update_ds (scf : SetCenterFreq) (dev : rtlsdr_dev) (freq : Nat) (w : World) : Res :=
  let curr_ds := dev.direct_sampling
  if curr_ds < 0 then some (-1, dev, w)
  else if curr_ds ≠ update_ds_new dev freq then
    rtlsdr_set_direct_sampling scf dev (update_ds_new dev freq) w
  else some (0, dev, w)

/-- The tuning step of `rtlsdr_set_center_freq` (librtlsdr.c 1219-1226):
program the IF when direct sampling is on; otherwise, when the tuner entry has
a `set_freq` slot, call it with `freq - dev->offs_freq` (`uint32_t` arithmetic)
between two repeater writes and re-trigger the soft AGC; otherwise `r` keeps
its initial value `-1`. -/
def set_center_freq_tune (dev : rtlsdr_dev) (freq : Nat) (w : World) :
    Int × rtlsdr_dev × World :=
  if dev.direct_sampling ≠ 0 then rtlsdr_set_if_freq dev freq w
  else
    match dev.tuner.bind tuner_set_freq with
    | some f =>
      ((f dev ((freq + 4294967296 - dev.offs_freq % 4294967296) % 4294967296)
          (rtlsdr_set_i2c_repeater w 1)).1,
       (reactivate_softagc dev softagc_stateT.SOFTSTATE_RESET).2,
       rtlsdr_set_i2c_repeater
         (f dev ((freq + 4294967296 - dev.offs_freq % 4294967296) % 4294967296)
          (rtlsdr_set_i2c_repeater w 1)).2 0)
    | none => (-1, dev, w)

/-- The "restore filters" step of `rtlsdr_set_center_freq` (librtlsdr.c
1233-1238): when the UDP controller is in charge (`handled`), write the saved
value of tuner register 27 back between two repeater writes.  (`handled` is only
ever set for an R820T, librtlsdr.c 3773-3776, so the slot `set_i2c_register` is
not `NULL` there; the model makes no driver call for a `NULL` slot.) -/
def set_center_freq_restore (dev : rtlsdr_dev) (w : World) : World :=
  if dev.handled ≠ 0 then
    match dev.tuner.bind tuner_set_i2c_register with
    | some f =>
      rtlsdr_set_i2c_repeater (f dev 27 dev.saved_27 255 (rtlsdr_set_i2c_repeater w 1)).2 0
    | none => rtlsdr_set_i2c_repeater (rtlsdr_set_i2c_repeater w 1) 0
  else w

/-- The part of `rtlsdr_set_center_freq` after the call of `rtlsdr_update_ds`
(librtlsdr.c 1219-1240): the tuning step, then `dev->freq = freq` when `r` is 0
and `dev->freq = 0` otherwise, then the restore step; returns `r`. -/
def set_center_freq_tail (dev : rtlsdr_dev) (freq : Nat) (w : World) :
    Int × rtlsdr_dev × World :=
  ((set_center_freq_tune dev freq w).1,
   { (set_center_freq_tune dev freq w).2.1 with
       freq := if (set_center_freq_tune dev freq w).1 = 0 then freq else 0 },
   set_center_freq_restore
     { (set_center_freq_tune dev freq w).2.1 with
         freq := if (set_center_freq_tune dev freq w).1 = 0 then freq else 0 }
     (set_center_freq_tune dev freq w).2.2)

/-- `rtlsdr_set_center_freq` (librtlsdr.c 1204-1241, after the `!dev` guard):
`-1` without any change when no tuner entry is bound (`!dev->tuner`); otherwise
`rtlsdr_update_ds` (its result is ignored) when the direct-sampling mode is
above `RTLSDR_DS_Q`, then the tail. -/
def rtlsdr_set_center_freq : Nat → SetCenterFreq
  | 0 => fun _ _ _ => none
  | fuel + 1 => fun dev freq w =>
    match dev.tuner with
    | none => some (-1, dev, w)
    | some _ =>
      if dev.direct_sampling_mode.toNat > rtlsdr_ds_mode.RTLSDR_DS_Q.toNat then
        match rtlsdr_update_ds (rtlsdr_set_center_freq fuel) dev freq w with
        | none => none
        | some (_, dev1, w1) => some (set_center_freq_tail dev1 freq w1)
      else some (set_center_freq_tail dev freq w)

/-- `rtlsdr_get_center_freq` (librtlsdr.c 1243-1256, after the `!dev` guard). -/
def rtlsdr_get_center_freq (dev : rtlsdr_dev) : Nat := dev.freq

/-- `rtlsdr_get_direct_sampling` (librtlsdr.c 1814-1827). -/
def rtlsdr_get_direct_sampling (dev : rtlsdr_dev) : Int := dev.direct_sampling

/-! ### Offset tuning and sample rate (librtlsdr.c 1634-1712, 1883-1927) -/

/-- The block `if (dev->tuner && dev->tuner->set_bw) { rtlsdr_set_i2c_repeater(dev, 1);
dev->tuner->set_bw(dev, bw, &applied_bw, 1); rtlsdr_set_i2c_repeater(dev, 0); }`
of `rtlsdr_set_sample_rate` and `rtlsdr_set_offset_tuning` (librtlsdr.c
1669-1674, 1909-1921); the result of `set_bw` is not used there. -/
def tuner_apply_bw (scf : SetCenterFreq) (dev : rtlsdr_dev) (bw : Int) (w : World) :
    Option (rtlsdr_dev × World) :=
  match dev.tuner.bind (tuner_set_bw scf) with
  | some f =>
    match f dev bw 1 (rtlsdr_set_i2c_repeater w 1) with
    | none => none
    | some (_, d, w') => some (d, rtlsdr_set_i2c_repeater w' 0)
  | none => some (dev, w)

/-- `rtlsdr_set_offset_tuning` (librtlsdr.c 1883-1927, after the `!dev` guard);
`scf` is `rtlsdr_set_center_freq`. -/
def rtlsdr_set_offset_tuning (scf : SetCenterFreq) (dev : rtlsdr_dev) (on_ : Int)
    (w : World) : Res :=
  if dev.tuner_type = rtlsdr_tuner.RTLSDR_TUNER_R820T ∨
      dev.tuner_type = rtlsdr_tuner.RTLSDR_TUNER_R828D then some (-2, dev, w)
  else if dev.direct_sampling ≠ 0 then some (-3, dev, w)
  else
    let dev1 := { dev with
      offs_freq := if on_ ≠ 0 then (((dev.rate / 2) * 170) % 4294967296) / 100 else 0 }
    let s := rtlsdr_set_if_freq dev1 dev1.offs_freq w
    let r := c_or 0 s.1
    let bw : Int :=
      if on_ ≠ 0 then int_of_bits32 (2 * s.2.1.offs_freq)
      else if s.2.1.bw > 0 then int_of_bits32 s.2.1.bw
      else int_of_bits32 s.2.1.rate
    match tuner_apply_bw scf s.2.1 bw s.2.2 with
    | none => none
    | some (dev3, w3) =>
      if dev3.freq > dev3.offs_freq then
        match scf dev3 dev3.freq w3 with
        | none => none
        | some (rc, dev4, w4) => some (c_or r rc, dev4, w4)
      else some (r, dev3, w3)

/-- The resampling ratio written to the chip by `rtlsdr_set_sample_rate`
(librtlsdr.c 1658-1659): `(rtl_xtal * 2^22) / samp_rate` converted to `uint32_t`
and masked with `0x0ffffffc`.  The quotient is evaluated in `double` in C; for
a crystal near 28.8 MHz and an accepted rate the exact quotient is below `2^30`
and, unless it is an integer, further than `2^-22` from the next integer, so the
truncated `double` is the integer quotient used here. -/
def rsamp_ratio (rtl_xtal samp_rate : Nat) : Nat :=
  (((rtl_xtal * 4194304) / samp_rate) % 4294967296) &&& 0x0ffffffc

/-- `real_rsamp_ratio = rsamp_ratio | ((rsamp_ratio & 0x08000000) << 1)`
(librtlsdr.c 1661). -/
def real_rsamp_ratio (rtl_xtal samp_rate : Nat) : Nat :=
  rsamp_ratio rtl_xtal samp_rate |||
    (((rsamp_ratio rtl_xtal samp_rate &&& 0x08000000) <<< 1) % 4294967296)

/-- `real_rate = (rtl_xtal * 2^22) / real_rsamp_ratio` converted to `uint32_t`
(librtlsdr.c 1662, 1667), the value stored in `dev->rate`.  The `double`
quotient is modelled by the integer quotient; the two agree whenever the
quotient is below `2^22`, as it is for every rate near an accepted one.  (A
quotient that does not fit `uint32_t` has no defined conversion in C; the model
reduces it modulo `2^32`, and a zero ratio gives 0.) -/
def real_rate (rtl_xtal samp_rate : Nat) : Nat :=
  ((rtl_xtal * 4194304) / real_rsamp_ratio rtl_xtal samp_rate) % 4294967296

/-- The register writes of `rtlsdr_set_sample_rate` (librtlsdr.c 1676-1685):
the two halves of the ratio to demod page 1 registers `0x9f` and `0xa1` as
2-byte values, the sample-frequency correction, and the demod soft reset.
Returns the accumulated `r`. -/
def set_sample_rate_regs (ratio : Nat) (corr : Int) (w : World) : Int × World :=
  let (r1, w3) := rtlsdr_demod_write_reg w 1 0x9f ((ratio >>> 16) % 65536) 2
  let (r2, w4) := rtlsdr_demod_write_reg w3 1 0xa1 (ratio &&& 0xffff) 2
  let (r3, w5) := rtlsdr_set_sample_freq_correction corr w4
  let (r4, w6) := rtlsdr_demod_write_reg w5 1 0x01 0x14 1
  let (r5, w7) := rtlsdr_demod_write_reg w6 1 0x01 0x10 1
  (c_or (c_or (c_or (c_or (c_or 0 r1) r2) r3) r4) r5, w7)

/-- The end of `rtlsdr_set_sample_rate` (librtlsdr.c 1691-1694): re-trigger the
soft AGC and, when it is in use, clear its two time windows. -/
def set_sample_rate_softagc (dev : rtlsdr_dev) : rtlsdr_dev :=
  if (reactivate_softagc dev softagc_stateT.SOFTSTATE_RESET).1 ≠ 0 then
    { (reactivate_softagc dev softagc_stateT.SOFTSTATE_RESET).2 with
      softagc :=
        { (reactivate_softagc dev softagc_stateT.SOFTSTATE_RESET).2.softagc with
          deadTimeSps := 0, scanTimeSps := 0 } }
  else (reactivate_softagc dev softagc_stateT.SOFTSTATE_RESET).2

/-- `rtlsdr_set_sample_rate` (librtlsdr.c 1634-1697, after the `!dev` guard);
`scf` is `rtlsdr_set_center_freq`, reached through the tuner's `set_bw` and
through `rtlsdr_set_offset_tuning`. -/
def rtlsdr_set_sample_rate (scf : SetCenterFreq) (dev : rtlsdr_dev) (samp_rate : Nat)
    (w : World) : Res :=
  if samp_rate ≤ 225000 ∨ samp_rate > 3200000 ∨ (samp_rate > 300000 ∧ samp_rate ≤ 900000) then
    some (-EINVAL, dev, w)
  else
    let dev1 := { dev with rate := real_rate dev.rtl_xtal samp_rate }
    match tuner_apply_bw scf dev1
        (if dev1.bw > 0 then int_of_bits32 dev1.bw else int_of_bits32 dev1.rate) w with
    | none => none
    | some (dev2, w2) =>
      let regs := set_sample_rate_regs (rsamp_ratio dev.rtl_xtal samp_rate) dev2.corr w2
      if dev2.offs_freq ≠ 0 then
        match rtlsdr_set_offset_tuning scf dev2 1 regs.2 with
        | none => none
        | some (_, dev3, w8) => some (regs.1, set_sample_rate_softagc dev3, w8)
      else some (regs.1, set_sample_rate_softagc dev2, regs.2)

/-- `rtlsdr_get_sample_rate` (librtlsdr.c 1699-1712, after the `!dev` guard). -/
def rtlsdr_get_sample_rate (dev : rtlsdr_dev) : Nat := dev.rate

/-! ### Asynchronous stream engine (librtlsdr.c 3188-3434) -/

/-- `LIBUSB_ERROR_INTERRUPTED` of `libusb.h`. -/
def LIBUSB_ERROR_INTERRUPTED : Int := -10

/-- What happens to the device while the library waits inside
`libusb_handle_events_timeout_completed`: libusb runs the completion callback
of finished transfers and updates their status, and other threads may call the
API (`rtlsdr_cancel_async`).  It is a parameter of the stream engine. -/
structure AsyncEnv where
  during_events : rtlsdr_dev → World → rtlsdr_dev × World

/-- One call of `libusb_handle_events_timeout_completed` with a timeout of
`timeout_s` seconds (`tv` is one second, `zerotv` is zero): its return value and
the device and environment afterwards. -/
def handle_events (env : AsyncEnv) (timeout_s : Nat) (dev : rtlsdr_dev) (w : World) :
    Int × rtlsdr_dev × World :=
  let (r, _, w1) := w.call (Event.usb UsbFn.libusb_handle_events timeout_s)
  let (dev1, w2) := env.during_events dev w1
  (r, dev1, w2)

/-- The loop `xfer[i] = libusb_alloc_transfer(0)` for `i = i, ..., i + n - 1`
(librtlsdr.c 3199-3200); a fresh transfer is zeroed, its status is
`LIBUSB_TRANSFER_COMPLETED`; a zero oracle value is a `NULL` result. -/
def alloc_transfer_loop : Nat → Nat → World → List (Option libusb_transfer) × World
  | 0, _, w => ([], w)
  | n + 1, i, w =>
    let (p, _, w1) := w.call (Event.usb UsbFn.libusb_alloc_transfer i)
    let x : Option libusb_transfer :=
      if p = 0 then none else some { status := libusb_transfer_status.LIBUSB_TRANSFER_COMPLETED }
    let (rest, w2) := alloc_transfer_loop n (i + 1) w1
    (x :: rest, w2)

/-- The zero-copy loop (librtlsdr.c 3213-3224): `libusb_dev_mem_alloc` for each
buffer, leaving with `use_zerocopy = 0` at the first `NULL` result.  Returns
`use_zerocopy`, the buffer array and the environment. -/
def zerocopy_alloc_loop : Nat → Nat → List Bool → World → Int × List Bool × World
  | 0, _, bufs, w => (1, bufs, w)
  | n + 1, i, bufs, w =>
    let (p, _, w1) := w.call (Event.usb UsbFn.libusb_dev_mem_alloc i)
    if p = 0 then (0, bufs, w1)
    else zerocopy_alloc_loop n (i + 1) (bufs.set i true) w1

/-- The loop freeing the zero-copy buffers already obtained (librtlsdr.c
3229-3234); the pointers stay in the array. -/
def zerocopy_free_loop : Nat → Nat → List Bool → World → World
  | 0, _, _, w => w
  | n + 1, i, bufs, w =>
    if bufs.getD i false then
      zerocopy_free_loop n (i + 1) bufs (w.call (Event.usb UsbFn.libusb_dev_mem_free i)).2.2
    else zerocopy_free_loop n (i + 1) bufs w

/-- The userspace loop (librtlsdr.c 3240-3245): `malloc` for each buffer,
returning `-ENOMEM` at the first `NULL` result. -/
def malloc_loop : Nat → Nat → List Bool → World → Int × List Bool × World
  | 0, _, bufs, w => (0, bufs, w)
  | n + 1, i, bufs, w =>
    let (p, _, w1) := w.call (Event.usb UsbFn.malloc i)
    if p = 0 then (-ENOMEM, bufs.set i false, w1)
    else malloc_loop n (i + 1) (bufs.set i true) w1

/-- `_rtlsdr_alloc_async_buffers` (librtlsdr.c 3188-3249), built for Linux with
zero-copy support. -/
def _rtlsdr_alloc_async_buffers (dev : rtlsdr_dev) (w : World) : Int × rtlsdr_dev × World :=
  let (dev1, w1) : rtlsdr_dev × World :=
    match dev.xfer with
    | some _ => (dev, w)
    | none =>
      let (xs, w') := alloc_transfer_loop dev.xfer_buf_num 0 w
      ({ dev with xfer := some xs }, w')
  match dev1.xfer_buf with
  | some _ => (-2, dev1, w1)
  | none =>
    let (zc, bufs, w2) :=
      zerocopy_alloc_loop dev1.xfer_buf_num 0 (List.replicate dev1.xfer_buf_num false) w1
    if zc ≠ 0 then
      (0, { dev1 with xfer_buf := some bufs, use_zerocopy := 1 }, w2)
    else
      let w3 := zerocopy_free_loop dev1.xfer_buf_num 0 bufs w2
      let (r, bufs', w4) := malloc_loop dev1.xfer_buf_num 0 bufs w3
      (r, { dev1 with xfer_buf := some bufs', use_zerocopy := 0 }, w4)

/-- The loop `libusb_free_transfer(dev->xfer[i])` over the non-`NULL` entries
(librtlsdr.c 3259-3263). -/
def free_transfer_loop : Nat → Nat → List (Option libusb_transfer) → World → World
  | 0, _, _, w => w
  | n + 1, i, xs, w =>
    match xs.getD i none with
    | some _ =>
      free_transfer_loop n (i + 1) xs (w.call (Event.usb UsbFn.libusb_free_transfer i)).2.2
    | none => free_transfer_loop n (i + 1) xs w

/-- The loop freeing the non-`NULL` buffers (librtlsdr.c 3270-3282), with
`libusb_dev_mem_free` for zero-copy buffers and `free` otherwise. -/
def free_buffer_loop (zerocopy : Int) : Nat → Nat → List Bool → World → World
  | 0, _, _, w => w
  | n + 1, i, bufs, w =>
    if bufs.getD i false then
      free_buffer_loop zerocopy n (i + 1) bufs
        (w.call (Event.usb (if zerocopy ≠ 0 then UsbFn.libusb_dev_mem_free else UsbFn.free) i)).2.2
    else free_buffer_loop zerocopy n (i + 1) bufs w

/-- `_rtlsdr_free_async_buffers` (librtlsdr.c 3251-3289); it returns 0. -/
def _rtlsdr_free_async_buffers (dev : rtlsdr_dev) (w : World) : rtlsdr_dev × World :=
  let (dev1, w1) : rtlsdr_dev × World :=
    match dev.xfer with
    | some xs => ({ dev with xfer := none }, free_transfer_loop dev.xfer_buf_num 0 xs w)
    | none => (dev, w)
  match dev1.xfer_buf with
  | some bufs =>
    ({ dev1 with xfer_buf := none },
      free_buffer_loop dev1.use_zerocopy dev1.xfer_buf_num 0 bufs w1)
  | none => (dev1, w1)

/-- The submit loop of `rtlsdr_read_async` (librtlsdr.c 3331-3352): submit every
transfer; at the first failing submit set the state to `RTLSDR_CANCELING` and
leave the loop.  Returns the last `r`. -/
def submit_loop : Nat → Nat → rtlsdr_dev → World → Int → Int × rtlsdr_dev × World
  | 0, _, dev, w, r => (r, dev, w)
  | n + 1, i, dev, w, _ =>
    let (r1, _, w1) := w.call (Event.usb UsbFn.libusb_submit_transfer i)
    if r1 < 0 then
      (r1, { dev with async_status := rtlsdr_async_status.RTLSDR_CANCELING }, w1)
    else submit_loop n (i + 1) dev w1 r1

/-- The inner `for` loop of the event loop (librtlsdr.c 3370-3387): cancel every
transfer whose status is not yet `LIBUSB_TRANSFER_CANCELLED`, handling events
after each cancel; `next_status` becomes `RTLSDR_CANCELING` when a cancel was
accepted. -/
def cancel_loop (env : AsyncEnv) :
    Nat → Nat → rtlsdr_dev → World → Int → rtlsdr_async_status →
      rtlsdr_dev × World × Int × rtlsdr_async_status
  | 0, _, dev, w, r, next => (dev, w, r, next)
  | n + 1, i, dev, w, r, next =>
    match (dev.xfer.getD []).getD i none with
    | none => cancel_loop env n (i + 1) dev w r next
    | some x =>
      if x.status ≠ libusb_transfer_status.LIBUSB_TRANSFER_CANCELLED then
        let (r1, _, w1) := w.call (Event.usb UsbFn.libusb_cancel_transfer i)
        let (_, dev1, w2) := handle_events env 0 dev w1
        if r1 < 0 then cancel_loop env n (i + 1) dev1 w2 r1 next
        else cancel_loop env n (i + 1) dev1 w2 r1 rtlsdr_async_status.RTLSDR_CANCELING
      else cancel_loop env n (i + 1) dev w r next

/-- The `while (RTLSDR_INACTIVE != dev->async_status)` loop of
`rtlsdr_read_async` (librtlsdr.c 3354-3398); the fuel bounds the number of
iterations, `none` means that the loop is still running when it is used up.
Returns the device, the environment, `r` and `next_status`. -/
def event_loop (env : AsyncEnv) :
    Nat → rtlsdr_dev → World → Int → rtlsdr_async_status →
      Option (rtlsdr_dev × World × Int × rtlsdr_async_status)
  | 0, _, _, _, _ => none
  | fuel + 1, dev, w, r, next =>
    if dev.async_status = rtlsdr_async_status.RTLSDR_INACTIVE then some (dev, w, r, next)
    else
      let (r1, dev1, w1) := handle_events env 1 dev w
      if r1 < 0 then
        if r1 = LIBUSB_ERROR_INTERRUPTED then event_loop env fuel dev1 w1 r1 next
        else some (dev1, w1, r1, next)
      else if dev1.async_status = rtlsdr_async_status.RTLSDR_CANCELING then
        match dev1.xfer with
        | none => some (dev1, w1, r1, rtlsdr_async_status.RTLSDR_INACTIVE)
        | some _ =>
          let (dev2, w2, r2, next2) :=
            cancel_loop env dev1.xfer_buf_num 0 dev1 w1 r1 rtlsdr_async_status.RTLSDR_INACTIVE
          if dev2.dev_lost ≠ 0 ∨ next2 = rtlsdr_async_status.RTLSDR_INACTIVE then
            let (_, dev3, w3) := handle_events env 0 dev2 w2
            some (dev3, w3, r2, next2)
          else event_loop env fuel dev2 w2 r2 next2
      else event_loop env fuel dev1 w1 r1 next

/-- `rtlsdr_read_async` (librtlsdr.c 3291-3405, after the `!dev` guard): `-2`
without any change unless the state is `RTLSDR_INACTIVE`; otherwise start the
session, run the event loop, free the buffers and store `next_status`. -/
def rtlsdr_read_async (env : AsyncEnv) (fuel : Nat) (dev : rtlsdr_dev) (cb : Option Nat)
    (ctx : Nat) (buf_num buf_len : Nat) (w : World) : Res :=
  if dev.async_status ≠ rtlsdr_async_status.RTLSDR_INACTIVE then some (-2, dev, w)
  else
    let dev1 := { dev with
      async_status := rtlsdr_async_status.RTLSDR_RUNNING, async_cancel := 0,
      cb := cb, cb_ctx := ctx,
      xfer_buf_num := if buf_num > 0 then buf_num else DEFAULT_BUF_NUMBER,
      xfer_buf_len := if buf_len > 0 ∧ buf_len % 512 = 0 then buf_len else DEFAULT_BUF_LENGTH }
    let (_, dev2, w2) := _rtlsdr_alloc_async_buffers dev1 w
    let (r, dev3, w3) := submit_loop dev2.xfer_buf_num 0 dev2 w2 0
    match event_loop env fuel dev3 w3 r rtlsdr_async_status.RTLSDR_INACTIVE with
    | none => none
    | some (dev4, w4, r4, next_status) =>
      let (dev5, w5) := _rtlsdr_free_async_buffers dev4 w4
      some (r4, { dev5 with async_status := next_status }, w5)

/-- `rtlsdr_cancel_async` (librtlsdr.c 3407-3434, after the `!dev` guard). -/
def rtlsdr_cancel_async (dev : rtlsdr_dev) : Int × rtlsdr_dev :=
  if dev.async_status = rtlsdr_async_status.RTLSDR_RUNNING then
    (0, { dev with async_status := rtlsdr_async_status.RTLSDR_CANCELING, async_cancel := 1 })
  else (-2, dev)

/-! ### Predicates and concrete inputs used in the statements -/

/-- The fields that steer `rtlsdr_update_ds` besides `direct_sampling` are the
same in both devices: the stored frequency, the direct-sampling mode and its
threshold. -/
def ds_frame (d d' : rtlsdr_dev) : Prop :=
  d'.freq = d.freq ∧ d'.direct_sampling_mode = d.direct_sampling_mode ∧
  d'.direct_sampling_threshold = d.direct_sampling_threshold

/-- Every call of the recursive function returns. -/
def Total (scf : SetCenterFreq) : Prop :=
  ∀ (dev : rtlsdr_dev) (freq : Nat) (w : World), (scf dev freq w).isSome

/-- The accuracy bound of the specification for the achieved sample rate:
`|achieved − r| ≤ rtl_xtal · 2^22 / 2^32`, written without division
(`2^32 = 4294967296`, `2^22 = 4194304`). -/
def rate_within_bound (rtl_xtal r achieved : Nat) : Prop :=
  ((achieved : Int) - (r : Int)).natAbs * 4294967296 ≤ rtl_xtal * 4194304

instance (rtl_xtal r achieved : Nat) : Decidable (rate_within_bound rtl_xtal r achieved) := by
  unfold rate_within_bound; infer_instance

/-- An opened R820T device whose crystal value was set to 28799000 Hz (inside
the ±1000 Hz that `rtlsdr_set_xtal_freq` accepts). -/
def off_nominal_dev : rtlsdr_dev :=
  { rtlsdr_dev.zero with
    rtl_xtal := 28799000, tun_xtal := 28799000, dev_lost := 0,
    tuner_type := rtlsdr_tuner.RTLSDR_TUNER_R820T,
    tuner := some rtlsdr_tuner.RTLSDR_TUNER_R820T }

/-- An environment in which every call made by
`rtlsdr_set_sample_rate off_nominal_dev 300000` succeeds: the two 2-byte
transfers (calls 16 and 18) report two bytes, the tuner driver calls (2 and 11)
return 0, every other transfer reports one byte. -/
def off_nominal_world : World :=
  { trace := [],
    ret := fun k => if k = 16 ∨ k = 18 then 2 else if k = 2 ∨ k = 11 then 0 else 1,
    out := fun _ => 0 }

/-- The recursive function keeps the stored sample rate. -/
def KeepsRate (scf : SetCenterFreq) : Prop :=
  ∀ (dev : rtlsdr_dev) (freq : Nat) (w : World) (r : Int) (d : rtlsdr_dev) (w' : World),
    scf dev freq w = some (r, d, w') → d.rate = dev.rate

/-! ### Tuner gain tables (librtlsdr.c 1319-1408) -/

/-- `e4k_gains` (librtlsdr.c 1323-1324), in tenths of a dB. -/
def e4k_gains : List Int :=
  [-10, 15, 40, 65, 90, 115, 140, 165, 190, 215, 240, 290, 340, 420]

/-- `fc0012_gains` (librtlsdr.c 1325). -/
def fc0012_gains : List Int := [-99, -40, 71, 179, 192]

/-- `fc0013_gains` (librtlsdr.c 1326-1328). -/
def fc0013_gains : List Int :=
  [-99, -73, -65, -63, -60, -58, -54, 58, 61, 63, 65, 67, 68, 70, 71, 179, 181, 182,
    184, 186, 188, 191, 197]

/-- `fc2580_gains` (librtlsdr.c 1329): one entry, "no gain values". -/
def fc2580_gains : List Int := [0]

/-- `r82xx_gains` (librtlsdr.c 1330-1333). -/
def r82xx_gains : List Int :=
  [0, 9, 14, 27, 37, 77, 87, 125, 144, 157, 166, 197, 207, 229, 254, 280, 297, 328,
    338, 364, 372, 386, 402, 421, 434, 439, 445, 480, 496]

/-- `unknown_gains` (librtlsdr.c 1334): one entry, "no gain values". -/
def unknown_gains : List Int := [0]

/-- `get_tuner_gains` (librtlsdr.c 1319-1386): the gain table of the device's
tuner type; the count stored through `pNum` is the length of the table. -/
def get_tuner_gains (dev : rtlsdr_dev) : List Int :=
  match dev.tuner_type with
  | rtlsdr_tuner.RTLSDR_TUNER_E4000 => e4k_gains
  | rtlsdr_tuner.RTLSDR_TUNER_FC0012 => fc0012_gains
  | rtlsdr_tuner.RTLSDR_TUNER_FC0013 => fc0013_gains
  | rtlsdr_tuner.RTLSDR_TUNER_FC2580 => fc2580_gains
  | rtlsdr_tuner.RTLSDR_TUNER_R820T => r82xx_gains
  | rtlsdr_tuner.RTLSDR_TUNER_R828D => r82xx_gains
  | rtlsdr_tuner.RTLSDR_TUNER_UNKNOWN => unknown_gains

/-- `rtlsdr_get_tuner_gains` (librtlsdr.c 1389-1408, after the `!dev` guard):
the number of gain steps; with a buffer `gains` the table is also copied there. -/
def rtlsdr_get_tuner_gains (dev : rtlsdr_dev) : Int := (get_tuner_gains dev).length

/-- `rtlsdr_get_tuner_type` (librtlsdr.c 1303-1317, after the `!dev` guard). -/
def rtlsdr_get_tuner_type (dev : rtlsdr_dev) : rtlsdr_tuner := dev.tuner_type

/-! ### Soft AGC classifier (librtlsdr.c 2966-3141)

The classifier runs on the USB completion thread; the worker thread that applies
a gain (`softagc_control_worker`) writes `command_changeGain` and
`remainingDeadSps` between classifier calls.  One call is modelled in isolation;
the wake-up of the worker (`safe_cond_signal`) is not data and is left out: the
request to the worker is the pair `command_newGain`, `command_changeGain`.
The C `int` counters are mathematical integers here (signed overflow is
undefined in C). -/

/-- The values of the two single-precision expressions of the `Reset` branch
(librtlsdr.c 3005, 3007) as functions of the sample rate:
`(int)((scanTimeMs * rate) / 1000)` and `(int)((deadTimeMs * rate) / 1000)`.  The
float fields `scanTimeMs`, `deadTimeMs` occur nowhere else in the classifier. -/
structure SoftAgcTimes where
  scan_sps : Nat → Int
  dead_sps : Nat → Int

/-- The histogram bin of one sample byte (librtlsdr.c 3063-3066): the top four
bits of its distance from the bias 128. -/
def histo_bin (b : Nat) : Nat :=
  if b ≥ 128 then (b - 128) >>> 3 else (127 - b) >>> 3

/-- The loop `for (i = 0; i < len; ++i) ++histo[bin(buf[i])]` (librtlsdr.c
3061-3067) for `n` remaining iterations starting at index `i`; `buf j` is the
byte at address `buf + j`. -/
def histo_loop (buf : Int → Nat) : Nat → Int → List Int → List Int
  | 0, _, histo => histo
  | n + 1, i, histo =>
    let k := histo_bin (buf i % 256)
    histo_loop buf n (i + 1) (histo.set k (histo.getD k 0 + 1))

/-- The cumulative counts (librtlsdr.c 3071-3073): `distrib_from histo j` is
`distrib[15 - j]`, with `distrib[15] = histo[15]` and
`distrib[k] = distrib[k+1] + histo[k]`. -/
def distrib_from (histo : List Int) : Nat → Int
  | 0 => histo.getD 15 0
  | j + 1 => distrib_from histo j + histo.getD (15 - (j + 1)) 0

/-- The oversteer test (librtlsdr.c 3077-3079) on the histogram `histo` holding
`N` samples. -/
def oversteer (histo : List Int) (N : Int) : Prop :=
  64 * distrib_from histo 0 ≥ N ∨ 16 * distrib_from histo 3 ≥ N ∨ 4 * distrib_from histo 7 ≥ N

instance (histo : List Int) (N : Int) : Decidable (oversteer histo N) := by
  unfold oversteer; infer_instance

/-- The value `(agc->agcState == SOFTSTATE_RESET_CONT) ? 0 : 1` returned at
several places. -/
def keep_unless_reset_cont (dev : rtlsdr_dev) : Int :=
  if dev.softagc.agcState = softagc_stateT.SOFTSTATE_RESET_CONT then 0 else 1
/-- The `Reset` branch (librtlsdr.c 2980-3027): nothing to do without a gain
table, switch the soft AGC off for a single gain, otherwise start the
measurement at the top of the gain table. -/
def softagc_reset (tm : SoftAgcTimes) (dev : rtlsdr_dev) : Int × rtlsdr_dev :=
  let gains := get_tuner_gains dev
  let numGains : Int := gains.length
  if numGains = 0 then (1, dev)
  else if numGains = 1 then
    (1, { dev with softagc := { dev.softagc with
            softAgcMode := softagc_mode.SOFTAGC_OFF,
            agcState := softagc_stateT.SOFTSTATE_OFF } })
  else
    let scan : Int :=
      if dev.softagc.scanTimeSps = 0 then tm.scan_sps dev.rate else dev.softagc.scanTimeSps
    let dead : Int :=
      if dev.softagc.deadTimeSps = 0 then tm.dead_sps dev.rate else dev.softagc.deadTimeSps
    (0, { dev with softagc := { dev.softagc with
            scanTimeSps := scan, deadTimeSps := dead,
            remainingDeadSps := INT_MAX, remainingScanSps := scan,
            numInHisto := 0, histo := List.replicate 16 0,
            gainIdx := numGains - 1,
            command_newGain := gains.getD (numGains - 1).toNat 0,
            command_changeGain := 1,
            agcState := softagc_stateT.SOFTSTATE_RESET_CONT } })

/-- The scan window is used up (librtlsdr.c 3108-3138).  In the modes
`SOFTAGC_AUTO_ATTEN` and `SOFTAGC_AUTO` the statement
`agc->agcState == SOFTSTATE_ON;` is a comparison and stores nothing. -/
def softagc_scan_end (dev : rtlsdr_dev) : Int × rtlsdr_dev :=
  let dev1 := { dev with softagc := { dev.softagc with remainingScanSps := 0 } }
  match dev1.softagc.softAgcMode with
  | softagc_mode.SOFTAGC_OFF | softagc_mode.SOFTAGC_ON_CHANGE =>
    match dev1.softagc.agcState with
    | softagc_stateT.SOFTSTATE_OFF | softagc_stateT.SOFTSTATE_RESET_CONT =>
      (1, { dev1 with softagc := { dev1.softagc with agcState := softagc_stateT.SOFTSTATE_OFF } })
    | softagc_stateT.SOFTSTATE_ON | softagc_stateT.SOFTSTATE_RESET
    | softagc_stateT.SOFTSTATE_INIT => (1, dev1)
  | softagc_mode.SOFTAGC_AUTO_ATTEN | softagc_mode.SOFTAGC_AUTO => (1, dev1)

/-- Oversteering was detected (librtlsdr.c 3080-3106): above the lowest gain,
step one gain down and restart the measurement. -/
def softagc_oversteer (dev : rtlsdr_dev) : Int × rtlsdr_dev :=
  let dev1 :=
    if dev.softagc.gainIdx > 0 then
      { dev with softagc := { dev.softagc with
          remainingDeadSps := INT_MAX, remainingScanSps := dev.softagc.scanTimeSps,
          numInHisto := 0, histo := List.replicate 16 0,
          gainIdx := dev.softagc.gainIdx - 1,
          command_newGain := (get_tuner_gains dev).getD (dev.softagc.gainIdx - 1).toNat 0,
          command_changeGain := 1 } }
    else dev
  (keep_unless_reset_cont dev1, dev1)

/-- The histogram stage and what follows it (librtlsdr.c 3057-3141) for the
`len` bytes at `buf`; `len / 2` rounds towards zero. -/
def softagc_histo (dev : rtlsdr_dev) (buf : Int → Nat) (len : Int) : Int × rtlsdr_dev :=
  let histo := histo_loop buf len.toNat 0 dev.softagc.histo
  let dev1 := { dev with softagc := { dev.softagc with
      histo := histo, numInHisto := dev.softagc.numInHisto + len,
      remainingScanSps := dev.softagc.remainingScanSps - Int.tdiv len 2 } }
  if oversteer histo dev1.softagc.numInHisto then softagc_oversteer dev1
  else if dev1.softagc.remainingScanSps < 0 then softagc_scan_end dev1
  else (keep_unless_reset_cont dev1, dev1)

/-- The classifier from the lowest-gain test on (librtlsdr.c 3047-3141). -/
def softagc_finish (dev : rtlsdr_dev) (buf : Int → Nat) (len : Int) : Int × rtlsdr_dev :=
  if dev.softagc.gainIdx = 0 ∧ dev.softagc.agcState = softagc_stateT.SOFTSTATE_RESET_CONT then
    (1, { dev with softagc := { dev.softagc with agcState := softagc_stateT.SOFTSTATE_OFF } })
  else softagc_histo dev buf len

/-- The classifier after the `Init` / `Reset` branches (librtlsdr.c 3029-3141):
the dead window; a buffer longer than the rest of the dead window is cut at its
front (`buf = buf + 2 * remainingDeadSps`). -/
def softagc_run (dev : rtlsdr_dev) (buf : Int → Nat) (len : Int) : Int × rtlsdr_dev :=
  if dev.softagc.remainingDeadSps = INT_MAX then (0, dev)
  else if dev.softagc.remainingDeadSps ≠ 0 then
    if dev.softagc.remainingDeadSps ≥ Int.tdiv len 2 then
      (keep_unless_reset_cont dev,
        { dev with softagc := { dev.softagc with
            remainingDeadSps := dev.softagc.remainingDeadSps - Int.tdiv len 2 } })
    else
      softagc_finish { dev with softagc := { dev.softagc with remainingDeadSps := 0 } }
        (fun i => buf (i + 2 * dev.softagc.remainingDeadSps))
        (len - 2 * dev.softagc.remainingDeadSps)
  else softagc_finish dev buf len

/-- `softagc` (librtlsdr.c 2966-3141): the return value `keepBlock` and the
device afterwards. -/
def softagc (tm : SoftAgcTimes) (dev : rtlsdr_dev) (buf : Int → Nat) (len : Int) :
    Int × rtlsdr_dev :=
  if dev.softagc.agcState = softagc_stateT.SOFTSTATE_INIT then
    (0, { dev with softagc := { dev.softagc with agcState := softagc_stateT.SOFTSTATE_RESET } })
  else if dev.softagc.agcState = softagc_stateT.SOFTSTATE_RESET then softagc_reset tm dev
  else softagc_run dev buf len

/-! ### Transfer completion callback (librtlsdr.c 3144-3174) -/

/-- The transfer handed to the completion callback: its position `index` in
`dev->xfer`, its `status`, the memory at `buffer` (`buffer j` is the byte at
`buffer + j`) and `actual_length`; `user_data` is the device. -/
structure completed_transfer where
  index : Nat
  status : libusb_transfer_status
  buffer : Int → Nat
  actual_length : Int

/-- The behaviour of the user callbacks: `user_cb f buf len ctx` is the call
`f(buf, len, ctx)` of the function with pointer `f`; it runs on the event-loop
thread and may call the API on the device. -/
abbrev UserCb := Nat → (Int → Nat) → Int → Nat → rtlsdr_dev → World → rtlsdr_dev × World

/-- `_libusb_callback` (librtlsdr.c 3144-3174), built for a non-Windows
platform (`_WIN32` undefined); `xfer_errors` is an `unsigned int`. -/
def _libusb_callback (tm : SoftAgcTimes) (user_cb : UserCb) (xfer : completed_transfer)
    (dev : rtlsdr_dev) (w : World) : rtlsdr_dev × World :=
  if xfer.status = libusb_transfer_status.LIBUSB_TRANSFER_COMPLETED then
    let (keepBlock, dev1) : Int × rtlsdr_dev :=
      if dev.softagc.agcState ≠ softagc_stateT.SOFTSTATE_OFF then
        softagc tm dev xfer.buffer xfer.actual_length
      else (1, dev)
    let (dev2, w2) : rtlsdr_dev × World :=
      match dev1.cb with
      | some f =>
        if keepBlock ≠ 0 then user_cb f xfer.buffer xfer.actual_length dev1.cb_ctx dev1 w
        else (dev1, w)
      | none => (dev1, w)
    let w3 := (w2.call (Event.usb UsbFn.libusb_submit_transfer xfer.index)).2.2
    ({ dev2 with xfer_errors := 0 }, w3)
  else if xfer.status ≠ libusb_transfer_status.LIBUSB_TRANSFER_CANCELLED then
    let dev1 :=
      if xfer.status = libusb_transfer_status.LIBUSB_TRANSFER_ERROR then
        { dev with xfer_errors := (dev.xfer_errors + 1) % 4294967296 }
      else dev
    if dev1.xfer_errors ≥ dev1.xfer_buf_num ∨
        xfer.status = libusb_transfer_status.LIBUSB_TRANSFER_NO_DEVICE then
      ((rtlsdr_cancel_async { dev1 with dev_lost := 1 }).2, w)
    else (dev1, w)
  else (dev, w)

/-- One thing that happens while the event loop waits inside
`libusb_handle_events_timeout_completed`: a transfer completes (libusb stores
the status in the transfer and runs `_libusb_callback`), or another thread calls
`rtlsdr_cancel_async`. -/
inductive Happening where
  | completion (xfer : completed_transfer)
  | cancel_request

/-- The status that libusb stores in transfer `i` of the ring before it runs
the callback. -/
def store_status (dev : rtlsdr_dev) (i : Nat) (st : libusb_transfer_status) : rtlsdr_dev :=
  match dev.xfer with
  | none => dev
  | some xs =>
    match xs.getD i none with
    | none => dev
    | some _ => { dev with xfer := some (xs.set i (some { status := st })) }

/-- The effect of one `Happening`. -/
def happen (tm : SoftAgcTimes) (user_cb : UserCb) :
    Happening → rtlsdr_dev → World → rtlsdr_dev × World
  | Happening.completion xfer, dev, w =>
    _libusb_callback tm user_cb xfer (store_status dev xfer.index xfer.status) w
  | Happening.cancel_request, dev, w => ((rtlsdr_cancel_async dev).2, w)

/-- The effect of a sequence of happenings, in order. -/
def run_happenings (tm : SoftAgcTimes) (user_cb : UserCb) :
    List Happening → rtlsdr_dev → World → rtlsdr_dev × World
  | [], dev, w => (dev, w)
  | h :: hs, dev, w =>
    let (dev1, w1) := happen tm user_cb h dev w
    run_happenings tm user_cb hs dev1 w1

/-- The environment of the stream engine in which the call of
`libusb_handle_events_timeout_completed` made as call number `k` of the trace
lets the happenings `sched k` take place. -/
def callback_env (tm : SoftAgcTimes) (user_cb : UserCb) (sched : Nat → List Happening) :
    AsyncEnv :=
  { during_events := fun dev w => run_happenings tm user_cb (sched (w.trace.length - 1)) dev w }

/-! ### The parts of `rtlsdr_read_async` and the changes of the stream state -/

/-- The device after the first writes of `rtlsdr_read_async` (librtlsdr.c
3313-3327): state `RTLSDR_RUNNING`, cancel flag cleared, callback and ring
sizes stored. -/
def read_async_start (dev : rtlsdr_dev) (cb : Option Nat) (ctx : Nat) (buf_num buf_len : Nat) :
    rtlsdr_dev :=
  { dev with
    async_status := rtlsdr_async_status.RTLSDR_RUNNING, async_cancel := 0,
    cb := cb, cb_ctx := ctx,
    xfer_buf_num := if buf_num > 0 then buf_num else DEFAULT_BUF_NUMBER,
    xfer_buf_len := if buf_len > 0 ∧ buf_len % 512 = 0 then buf_len else DEFAULT_BUF_LENGTH }

/-- The device and environment of `rtlsdr_read_async` after the submit loop
(librtlsdr.c 3329-3352), with the last `r`. -/
def read_async_submitted (dev : rtlsdr_dev) (cb : Option Nat) (ctx : Nat)
    (buf_num buf_len : Nat) (w : World) : Int × rtlsdr_dev × World :=
  let a := _rtlsdr_alloc_async_buffers (read_async_start dev cb ctx buf_num buf_len) w
  submit_loop a.2.1.xfer_buf_num 0 a.2.1 a.2.2 0

/-- The point of `rtlsdr_read_async` where the `while` loop has been left
(librtlsdr.c 3398), for a call that passed the guard of line 3310: the device,
the environment, `r` and `next_status` there. -/
def read_async_loop_exit (env : AsyncEnv) (fuel : Nat) (dev : rtlsdr_dev) (cb : Option Nat)
    (ctx : Nat) (buf_num buf_len : Nat) (w : World) :
    Option (rtlsdr_dev × World × Int × rtlsdr_async_status) :=
  let s := read_async_submitted dev cb ctx buf_num buf_len w
  event_loop env fuel s.2.1 s.2.2 s.1 rtlsdr_async_status.RTLSDR_INACTIVE

/-- The three state changes that the specification lists as legal:
Inactive→Running, Running→Canceling, Canceling→Inactive. -/
def legal_change (s s' : rtlsdr_async_status) : Prop :=
  (s = rtlsdr_async_status.RTLSDR_INACTIVE ∧ s' = rtlsdr_async_status.RTLSDR_RUNNING) ∨
  (s = rtlsdr_async_status.RTLSDR_RUNNING ∧ s' = rtlsdr_async_status.RTLSDR_CANCELING) ∨
  (s = rtlsdr_async_status.RTLSDR_CANCELING ∧ s' = rtlsdr_async_status.RTLSDR_INACTIVE)

instance (s s' : rtlsdr_async_status) : Decidable (legal_change s s') := by
  unfold legal_change; infer_instance

/-- The user callbacks touch the stream state only through the API, that is
through `rtlsdr_cancel_async` (`rtlsdr_read_async` refuses while a session is
active): a call leaves the state alone or moves it from Running to Canceling. -/
def UserCbViaApi (user_cb : UserCb) : Prop :=
  ∀ (f : Nat) (buf : Int → Nat) (len : Int) (ctx : Nat) (dev : rtlsdr_dev) (w : World),
    (user_cb f buf len ctx dev w).1.async_status = dev.async_status ∨
    (dev.async_status = rtlsdr_async_status.RTLSDR_RUNNING ∧
      (user_cb f buf len ctx dev w).1.async_status = rtlsdr_async_status.RTLSDR_CANCELING)

/-- While the library waits for events the stream state stays or moves from
Running to Canceling. -/
def StatusMonotone (env : AsyncEnv) : Prop :=
  ∀ (dev : rtlsdr_dev) (w : World),
    (env.during_events dev w).1.async_status = dev.async_status ∨
    (dev.async_status = rtlsdr_async_status.RTLSDR_RUNNING ∧
      (env.during_events dev w).1.async_status = rtlsdr_async_status.RTLSDR_CANCELING)

/-- A user callback that does nothing. -/
def idle_cb : UserCb := fun _ _ _ _ dev w => (dev, w)

/-- A soft-AGC timing in which both expressions give 0. -/
def zero_times : SoftAgcTimes := { scan_sps := fun _ => 0, dead_sps := fun _ => 0 }

/-- An opened device (not lost) without a tuner-specific setting. -/
def opened_dev : rtlsdr_dev := { rtlsdr_dev.zero with dev_lost := 0 }

/-- An environment in which every call returns 1 except call number `k`, which
returns `r`. -/
def World.failing_at (k : Nat) (r : Int) : World :=
  { trace := [], ret := fun i => if i = k then r else 1, out := fun _ => 0 }

/-- An environment for a session with one transfer in which the allocations
(calls 0 and 1) and the submit (call 2) succeed and the first
`libusb_handle_events_timeout_completed` (call 3) fails with
`LIBUSB_ERROR_IO = -1`. -/
def event_error_world : World :=
  { trace := [],
    ret := fun k => if k ≤ 1 then 1 else if k = 3 then -1 else 0,
    out := fun _ => 0 }

/-- An environment for a session with two transfers in which the allocations
(calls 0 to 3) succeed, every other call returns 0 except
`libusb_cancel_transfer` for transfer 0 (call 7), which returns
`LIBUSB_ERROR_NOT_FOUND = -5`. -/
def device_lost_world : World :=
  { trace := [],
    ret := fun k => if k ≤ 3 then 1 else if k = 7 then -5 else 0,
    out := fun _ => 0 }

/-- Transfer 0 completing with status `LIBUSB_TRANSFER_NO_DEVICE` and no data. -/
def lost_transfer : completed_transfer :=
  { index := 0, status := libusb_transfer_status.LIBUSB_TRANSFER_NO_DEVICE,
    buffer := fun _ => 0, actual_length := 0 }

/-- The schedule in which transfer 0 completes with status
`LIBUSB_TRANSFER_NO_DEVICE` during the first wait for events (call 6) and nothing
else happens. -/
def device_lost_sched : Nat → List Happening :=
  fun k => if k = 6 then [Happening.completion lost_transfer] else []

/-- The schedule in which nothing happens. -/
def idle_sched : Nat → List Happening := fun _ => []

/-- The relation between the stream state and `next_status` that holds all
through the event loop of a session in a monotone environment: the session is
active, `next_status` is never Running, and it is Canceling only when the state
is. -/
def SessionInv (dev : rtlsdr_dev) (next : rtlsdr_async_status) : Prop :=
  dev.async_status ≠ rtlsdr_async_status.RTLSDR_INACTIVE ∧
  (next = rtlsdr_async_status.RTLSDR_CANCELING →
    dev.async_status = rtlsdr_async_status.RTLSDR_CANCELING) ∧
  next ≠ rtlsdr_async_status.RTLSDR_RUNNING

/-! ### Soft AGC: the calls that reach the histogram stage -/

/-- The call of the classifier reaches the histogram stage (librtlsdr.c 3057):
the sub-state is neither `Init` nor `Reset`, the dead window is not "infinite"
and ends inside this buffer, and the call does not finish at gain index 0. -/
def reaches_histo (dev : rtlsdr_dev) (len : Int) : Prop :=
  dev.softagc.agcState ≠ softagc_stateT.SOFTSTATE_INIT ∧
  dev.softagc.agcState ≠ softagc_stateT.SOFTSTATE_RESET ∧
  dev.softagc.remainingDeadSps ≠ INT_MAX ∧
  (dev.softagc.remainingDeadSps ≠ 0 → dev.softagc.remainingDeadSps < Int.tdiv len 2) ∧
  ¬ (dev.softagc.gainIdx = 0 ∧ dev.softagc.agcState = softagc_stateT.SOFTSTATE_RESET_CONT)

instance (dev : rtlsdr_dev) (len : Int) : Decidable (reaches_histo dev len) := by
  unfold reaches_histo; infer_instance

/-- The start of the part of the buffer that is added to the histogram: the
buffer itself, or what follows the rest of the dead window. -/
def histo_buf (dev : rtlsdr_dev) (buf : Int → Nat) : Int → Nat :=
  if dev.softagc.remainingDeadSps ≠ 0 then fun i => buf (i + 2 * dev.softagc.remainingDeadSps)
  else buf

/-- The length of the part of the buffer that is added to the histogram. -/
def histo_len (dev : rtlsdr_dev) (len : Int) : Int :=
  if dev.softagc.remainingDeadSps ≠ 0 then len - 2 * dev.softagc.remainingDeadSps else len

/-- The histogram after the samples of this call have been added. -/
def histo_after (dev : rtlsdr_dev) (buf : Int → Nat) (len : Int) : List Int :=
  histo_loop (histo_buf dev buf) (histo_len dev len).toNat 0 dev.softagc.histo

/-- The number `N` of histogrammed samples after this call has added its own. -/
def num_after (dev : rtlsdr_dev) (len : Int) : Int :=
  dev.softagc.numInHisto + histo_len dev len

/-- The number of bytes among the `n` bytes from `buf + i` on whose histogram
bin is at least `k`. -/
def count_bins_ge (k : Nat) (buf : Int → Nat) : Nat → Int → Nat
  | 0, _ => 0
  | n + 1, i => (if k ≤ histo_bin (buf i % 256) then 1 else 0) + count_bins_ge k buf n (i + 1)

/-- A soft-AGC sub-state in the middle of a measurement at gain index 5 that
has seen 1000 samples so far, all of them in bin 0. -/
def quiet_agc (mode : softagc_mode) (st : softagc_stateT) : softagc_state :=
  { command_newGain := 0, command_changeGain := 0, agcState := st, softAgcMode := mode,
    scanTimeSps := 240000, deadTimeSps := 2400, remainingDeadSps := 0,
    remainingScanSps := 239500, numInHisto := 1000,
    histo := [1000, 0, 0, 0, 0, 0, 0, 0, 0, 0, 0, 0, 0, 0, 0, 0], gainIdx := 5 }

/-- An opened R820T device with that sub-state. -/
def quiet_dev (mode : softagc_mode) (st : softagc_stateT) : rtlsdr_dev :=
  { opened_dev with
    tuner_type := rtlsdr_tuner.RTLSDR_TUNER_R820T, rate := 2400000,
    softagc := quiet_agc mode st }

/-- A buffer of ten bytes, four of them 224 (magnitude 0.75, bin 12) and six of
them 128 (bin 0). -/
def burst_buf : Int → Nat :=
  fun i => if i = 0 ∨ i = 3 ∨ i = 5 ∨ i = 8 then 224 else 128

/-- A buffer of bytes 128 (bin 0). -/
def silent_buf : Int → Nat := fun _ => 128

/-- The device `quiet_dev` in mode `Auto`, sub-state `ResetContinuing`, right
after a gain change has been applied: the histogram is empty. -/
def fresh_dev : rtlsdr_dev :=
  { quiet_dev softagc_mode.SOFTAGC_AUTO softagc_stateT.SOFTSTATE_RESET_CONT with
    softagc :=
      { quiet_agc softagc_mode.SOFTAGC_AUTO softagc_stateT.SOFTSTATE_RESET_CONT with
        remainingScanSps := 240000, numInHisto := 0, histo := List.replicate 16 0 } }

/-! ### UDP controller: numbers (librtlsdr.c 2129-2169)

A C string is the list of its characters before the terminating NUL; `none` is
the `NULL` pointer.  The characters are taken by their code: for a byte above
127 a signed `char` is negative and an unsigned one lies above `'f'`, and in both
cases it is neither a digit nor a separator, as in the model. -/

/-- The expression for `digitValue` in `parseNum` (librtlsdr.c 2153-2154) for the
character with code `c`. -/
def digitValue (c : Int) : Int :=
  if 48 ≤ c ∧ c ≤ 57 then c - 48
  else if 65 ≤ c ∧ c ≤ 70 then c + 10 - 65
  else c + 10 - 97

/-- The `while (*pac)` loop of `parseNum` (librtlsdr.c 2151-2166) with the
current `val`; the separators are the apostrophe (code 39), `.` and `_`. -/
def parseNum_loop (numBase : Int) : List Char → Int → Int
  | [], val => val
  | c :: rest, val =>
    if digitValue c.toNat ≥ 0 ∧ digitValue c.toNat < numBase then
      parseNum_loop numBase rest (val * numBase + digitValue c.toNat)
    else if c = Char.ofNat 39 ∨ c = '.' ∨ c = '_' then parseNum_loop numBase rest val
    else val

/-- `parseNum` (librtlsdr.c 2129-2169). -/
def parseNum (pacNum : Option (List Char)) : Int :=
  match pacNum with
  | none => 0
  | some [] => 0
  | some (c0 :: rest) =>
    let numBase : Int := if c0 = 'd' then 10 else if c0 = 'x' then 16 else if c0 = 'b' then 2 else 10
    let pac : List Char := if c0 = 'd' ∨ c0 = 'x' ∨ c0 = 'b' then rest else c0 :: rest
    match pac with
    | '-' :: pac1 => parseNum_loop numBase pac1 0 * (-1)
    | _ => parseNum_loop numBase pac 0 * 1

/-! ### UDP controller: command parser (librtlsdr.c 2171-2519) -/

/-- Slot `set_i2c_override` of `tuners[]`: only `r820t_set_i2c_override`
(librtlsdr.c 471-474). -/
def tuner_set_i2c_override :
    rtlsdr_tuner → Option (rtlsdr_dev → Nat → Nat → Nat → World → Int × World)
  | rtlsdr_tuner.RTLSDR_TUNER_R820T => some fun _ i2c_register data mask w =>
      let (r, _, w1) :=
        w.call (Event.driver DriverFn.r82xx_set_i2c_override [i2c_register, data, mask])
      (r, w1)
  | rtlsdr_tuner.RTLSDR_TUNER_R828D => some fun _ i2c_register data mask w =>
      let (r, _, w1) :=
        w.call (Event.driver DriverFn.r82xx_set_i2c_override [i2c_register, data, mask])
      (r, w1)
  | _ => none

/-- Slot `get_i2c_register` of `tuners[]`: only `r820t_get_i2c_register`
(librtlsdr.c 463-466), which returns `r82xx_read_cache_reg`. -/
def tuner_get_i2c_register : rtlsdr_tuner → Option (rtlsdr_dev → Int → World → Int × World)
  | rtlsdr_tuner.RTLSDR_TUNER_R820T => some fun _ reg w =>
      let (r, _, w1) := w.call (Event.driver DriverFn.r82xx_read_cache_reg [reg])
      (r, w1)
  | rtlsdr_tuner.RTLSDR_TUNER_R828D => some fun _ reg w =>
      let (r, _, w1) := w.call (Event.driver DriverFn.r82xx_read_cache_reg [reg])
      (r, w1)
  | _ => none

/-- The UDP socket of the controller: the datagrams handed to `sendto` so far
(oldest first) and the return value `ret k` of the `k`-th `sendto`. -/
structure UdpSocket where
  sent : List (List Char)
  ret : Nat → Int

/-- `sendto(dev->udpS, response, strlen(response), ...)`. -/
def sendto (u : UdpSocket) (response : List Char) : Int × UdpSocket :=
  (u.ret u.sent.length, { u with sent := u.sent ++ [response] })

/-- `SOCKET_ERROR`. -/
def SOCKET_ERROR : Int := -1

/-- The line feed character. -/
def LF : Char := Char.ofNat 10

/-- The apostrophe character. -/
def APOSTROPHE : Char := Char.ofNat 39

/-- A delimiter of `strtok_r(..., " \t", ...)`: blank or tab. -/
def is_delim (c : Char) : Bool := c = ' ' || c = Char.ofNat 9

/-- `strtok_r` with the delimiters blank and tab on the rest `s` of the line:
`none` when only delimiters are left, otherwise the token and the rest of the
line behind the delimiter that ends it. -/
def strtok_r (s : List Char) : Option (List Char × List Char) :=
  match s.dropWhile is_delim with
  | [] => none
  | c :: cs =>
    some ((c :: cs).takeWhile (fun x => !is_delim x),
      ((c :: cs).dropWhile (fun x => !is_delim x)).drop 1)

/-- The digit loop of `formatInHex` (librtlsdr.c 2207-2212) for the nibbles
`n - 1, ..., 0` of the 32-bit pattern `v`. -/
def formatInHex_loop (v num_digits : Nat) : Nat → List Char
  | 0 => []
  | n + 1 =>
    (if n % 4 = 3 ∧ n ≠ num_digits - 1 then [APOSTROPHE] else []) ++
      ["0123456789ABCDEF".toList.getD ((v >>> (n * 4)) &&& 0x0f) '0'] ++
      formatInHex_loop v num_digits n

/-- `formatInHex` (librtlsdr.c 2203-2215): the string written to `buf`. -/
def formatInHex (v : Int) (num_digits : Nat) : List Char :=
  'x' :: formatInHex_loop (bits32 v) num_digits num_digits

/-- The digit loop of `formatInBin` (librtlsdr.c 2221-2226). -/
def formatInBin_loop (v num_digits : Nat) : Nat → List Char
  | 0 => []
  | n + 1 =>
    (if n % 4 = 3 ∧ n ≠ num_digits - 1 then [APOSTROPHE] else []) ++
      ["01".toList.getD ((v >>> n) &&& 1) '0'] ++
      formatInBin_loop v num_digits n

/-- `formatInBin` (librtlsdr.c 2217-2229): the string written to `buf`. -/
def formatInBin (v : Int) (num_digits : Nat) : List Char :=
  'b' :: formatInBin_loop (bits32 v) num_digits num_digits

/-- The text that `sprintf` writes for `%d`. -/
def fmt_d (v : Int) : List Char := (toString v).toList

/-- The response `"?\n"`. -/
def response_unknown : List Char := ['?', LF]

/-- What `parse` uses of the `double` returned by `parseFreq` (librtlsdr.c
2171-2200): whether it is negative and its conversions to `int`, `uint32_t` and
`int32_t`. -/
structure FreqVal where
  negative : Bool
  as_int : Int
  as_uint32 : Nat
  as_int32 : Int

/-- The functions of librtlsdr.c that `parse` calls and that are parameters
here: `parseFreq` (floating point), and the setters, each as its effect on the
device and the register/tuner environment (their results are only printed).
None of them calls `sendto`. -/
structure ParseApi where
  parseFreq : List Char → FreqVal
  rtlsdr_set_and_get_tuner_bandwidth : rtlsdr_dev → Nat → Int → World → rtlsdr_dev × World
  rtlsdr_set_center_freq : rtlsdr_dev → Nat → World → rtlsdr_dev × World
  rtlsdr_set_tuner_band_center : rtlsdr_dev → Int → World → rtlsdr_dev × World
  rtlsdr_set_tuner_agc_mode : rtlsdr_dev → Int → World → rtlsdr_dev × World
  rtlsdr_set_tuner_gain : rtlsdr_dev → Int → World → rtlsdr_dev × World
  rtlsdr_set_tuner_gain_mode : rtlsdr_dev → Int → World → rtlsdr_dev × World
  rtlsdr_set_agc_mode : rtlsdr_dev → Int → World → rtlsdr_dev × World
/-- The result of `parse`: `none` when the call crashes (a `NULL` function
pointer is called or `parseFreq` gets a `NULL` token), otherwise the return
value, the device, the register/tuner environment and the socket. -/
abbrev ParseRes := Option (Int × rtlsdr_dev × World × UdpSocket)

/-- The closing block of `parse` (librtlsdr.c 2514-2518): it sends `"?\n"` and
returns 0; every path that has not returned before runs through it. -/
def parse_tail (dev : rtlsdr_dev) (w : World) (u : UdpSocket) : ParseRes :=
  some (0, dev, w, (sendto u response_unknown).2)

/-- The early exits that answer `"?\n"` and return (librtlsdr.c 2315-2320,
2329-2334, 2461-2466). -/
def parse_reject (dev : rtlsdr_dev) (w : World) (u : UdpSocket) : ParseRes :=
  let (r, u1) := sendto u response_unknown
  if r = SOCKET_ERROR then some (-1, dev, w, u1) else some (0, dev, w, u1)

/-- The number `comm` that `parse` derives from the first token (librtlsdr.c
2297-2309). -/
def command_number (token : List Char) : Nat :=
  if token = ['h'] then 1024
  else if token = ['M'] then 512 + 3
  else if token = ['m'] then 512 + 2
  else if token = ['a'] then 512 + 1
  else if token = ['c'] then 256 + 3
  else if token = ['b'] then 256 + 2
  else if token = ['f'] then 256 + 1
  else if token = ['I'] then 128 + 2
  else if token = ['i'] then 128 + 1
  else if token = ['S'] then 64 + 3
  else if token = ['s'] then 64 + 2
  else if token = ['g'] then 64 + 1
  else 0

/-- The answer of the command `g` (librtlsdr.c 2353-2367). -/
def parse_get_register (reg : Nat) (dev : rtlsdr_dev) (w : World) (u : UdpSocket) : ParseRes :=
  match dev.tuner.bind tuner_get_i2c_register with
  | none => none
  | some get =>
    let (val, w1) := get dev reg w
    let response : List Char :=
      "! ".toList ++ fmt_d val ++ " = ".toList ++ formatInHex val 2 ++ " = ".toList ++
        formatInBin val 8 ++ [LF]
    let (r, u1) := sendto u response
    if r < 0 then some (-1, dev, w1, u1) else parse_tail dev w1 u1

/-- The commands `s` (`comm = 66`) and `S` (`comm = 67`) once their arguments
are parsed (librtlsdr.c 2368-2397). -/
def parse_set_register (comm reg : Nat) (iVal : Int) (mask : Nat) (dev : rtlsdr_dev) (w : World)
    (u : UdpSocket) : ParseRes :=
  match dev.tuner with
  | none => none
  | some t =>
    match tuner_get_i2c_register t with
    | none => none
    | some get =>
      let (r27, w1) := get dev 27 w
      let dev1 := { dev with saved_27 := bits32 r27 % 256 }
      let (val, w2) : Int × World :=
        match tuner_set_i2c_register t, tuner_set_i2c_override t with
        | some set_reg, some set_ovr =>
          let w' := rtlsdr_set_i2c_repeater w1 1
          let (v, w'') :=
            if comm = 64 + 2 then set_reg dev1 reg (bits32 iVal) mask w'
            else set_ovr dev1 reg (bits32 iVal) mask w'
          (v, rtlsdr_set_i2c_repeater w'' 0)
        | _, _ => (0, w1)
      let (r, u1) := sendto u ("! ".toList ++ fmt_d val ++ [LF])
      if r < 0 then some (-1, dev1, w2, u1) else parse_tail dev1 w2 u1

/-- The commands with a register argument, `g`, `s` and `S` (librtlsdr.c
2311-2407); `rest` is the line behind the command token. -/
def parse_register (comm : Nat) (rest : List Char) (dev : rtlsdr_dev) (w : World)
    (u : UdpSocket) : ParseRes :=
  match strtok_r rest with
  | none => parse_reject dev w u
  | some (token1, rest1) =>
    let parsedVal := parseNum (some token1)
    if (comm ≥ 64 + 2 ∧ parsedVal < 5) ∨ parsedVal > 32 then parse_reject dev w u
    else
      let reg : Nat := bits32 parsedVal % 256
      let t2 := strtok_r rest1
      if t2.isNone ∧ comm ≥ 64 + 2 then parse_reject dev w u
      else
        let iVal : Int := if comm ≥ 64 + 2 then parseNum (t2.map Prod.fst) else 0
        let t3 := t2.bind fun x => strtok_r x.2
        let mask : Nat :=
          match t3 with
          | none => 0xff
          | some (token3, _) => bits32 (parseNum (some token3)) &&& 0xff
        if comm = 64 + 1 then parse_get_register reg dev w u
        else if comm = 64 + 2 ∨ comm = 64 + 3 then parse_set_register comm reg iVal mask dev w u
        else parse_tail dev w (sendto u response_unknown).2

/-- The commands `i` and `I` (librtlsdr.c 2408-2423). -/
def parse_if (api : ParseApi) (comm : Nat) (rest : List Char) (dev : rtlsdr_dev) (w : World)
    (u : UdpSocket) : ParseRes :=
  match strtok_r rest with
  | none => none
  | some (token1, _) =>
    let freqVal := api.parseFreq token1
    let dev1 :=
      if freqVal.negative then { dev with override_if_freq := 0, override_if_flag := 0 }
      else { dev with
        override_if_freq := freqVal.as_int,
        override_if_flag := if comm = 128 + 1 then 1 else 2 }
    let (dev2, w2) := api.rtlsdr_set_and_get_tuner_bandwidth dev1 dev1.bw 1 w
    let (dev3, w3) := api.rtlsdr_set_center_freq dev2 dev2.freq w2
    parse_tail dev3 w3 u

/-- The commands `f`, `b` and `c` (librtlsdr.c 2424-2456). -/
def parse_freq (api : ParseApi) (comm : Nat) (rest : List Char) (dev : rtlsdr_dev) (w : World)
    (u : UdpSocket) : ParseRes :=
  match strtok_r rest with
  | none => none
  | some (token1, _) =>
    let freqVal := api.parseFreq token1
    let (dev1, w1) : rtlsdr_dev × World :=
      if comm &&& 63 = 1 then api.rtlsdr_set_center_freq dev freqVal.as_uint32 w
      else if comm &&& 63 = 2 then
        api.rtlsdr_set_and_get_tuner_bandwidth dev freqVal.as_uint32 1 w
      else if comm &&& 63 = 3 then api.rtlsdr_set_tuner_band_center dev freqVal.as_int32 w
      else (dev, w)
    parse_tail dev1 w1 u

/-- The commands `a`, `m` and `M` (librtlsdr.c 2457-2498). -/
def parse_gain (api : ParseApi) (comm : Nat) (rest : List Char) (dev : rtlsdr_dev) (w : World)
    (u : UdpSocket) : ParseRes :=
  match strtok_r rest with
  | none => parse_reject dev w u
  | some (token1, _) =>
    let parsedVal := parseNum (some token1)
    let (dev1, w1) : rtlsdr_dev × World :=
      if comm &&& 63 = 1 then api.rtlsdr_set_tuner_agc_mode dev parsedVal w
      else if comm &&& 63 = 2 then api.rtlsdr_set_tuner_gain dev parsedVal w
      else if comm &&& 63 = 3 then
        let (d, w') :=
          api.rtlsdr_set_tuner_gain_mode dev (if bits32 parsedVal &&& 1 = 0 then 1 else 0) w
        api.rtlsdr_set_agc_mode d (if bits32 parsedVal &&& 2 = 2 then 1 else 0) w'
      else (dev, w)
    parse_tail dev1 w1 u

/-- The help text of the command `h` (librtlsdr.c 2500-2509). -/
def help_text : List Char :=
  ("g <register>\ns <register> <value> [<mask>]\ni <IFfrequency>\nf <RFfrequency>\n" ++
    "b <bandwidth>\nc <frequency>\na <tunerAgcVariant>\nm <tuner gain>\nM <gainMode>\n").toList

/-- `parse` (librtlsdr.c 2231-2519) for the received line `message` (the
characters before the terminating NUL): the line is cut after 100 characters and
its last character is dropped, then the first token selects the command. -/
def parse (api : ParseApi) (message : List Char) (dev : rtlsdr_dev) (w : World)
    (u : UdpSocket) : ParseRes :=
  let str1 := (message.take 100).dropLast
  match strtok_r str1 with
  | none => some (0, dev, w, (sendto u response_unknown).2)
  | some (token, rest) =>
    let comm := command_number token
    if comm &&& 64 ≠ 0 then parse_register comm rest dev w u
    else if comm &&& 128 ≠ 0 then parse_if api comm rest dev w u
    else if comm &&& 256 ≠ 0 then parse_freq api comm rest dev w u
    else if comm &&& 512 ≠ 0 then parse_gain api comm rest dev w u
    else if comm &&& 1024 ≠ 0 then parse_tail dev w (sendto u help_text).2
    else parse_tail dev w u

/-- The answers the specification allows: exactly `"?\n"`, or `"! "` followed
by a value and a line feed. -/
def is_response (d : List Char) : Prop :=
  d = response_unknown ∨ (d.take 2 = ['!', ' '] ∧ d.getLast? = some LF ∧ d.length > 3)

instance (d : List Char) : Decidable (is_response d) := by
  unfold is_response; infer_instance

/-- Setters that do nothing and a `parseFreq` that returns 0. -/
def idle_api : ParseApi :=
  { parseFreq := fun _ => { negative := false, as_int := 0, as_uint32 := 0, as_int32 := 0 },
    rtlsdr_set_and_get_tuner_bandwidth := fun d _ _ w => (d, w),
    rtlsdr_set_center_freq := fun d _ w => (d, w),
    rtlsdr_set_tuner_band_center := fun d _ w => (d, w),
    rtlsdr_set_tuner_agc_mode := fun d _ w => (d, w),
    rtlsdr_set_tuner_gain := fun d _ w => (d, w),
    rtlsdr_set_tuner_gain_mode := fun d _ w => (d, w),
    rtlsdr_set_agc_mode := fun d _ w => (d, w) }

/-- An opened R820T device with its tuner bound. -/
def r820t_dev : rtlsdr_dev :=
  { opened_dev with
    tuner_type := rtlsdr_tuner.RTLSDR_TUNER_R820T,
    tuner := some rtlsdr_tuner.RTLSDR_TUNER_R820T }

/-- An environment in which every call returns 29, the value then read for a
tuner register. -/
def reg29_world : World := { trace := [], ret := fun _ => 29, out := fun _ => 0 }

/-- A socket on which nothing was sent and every `sendto` returns the number
of bytes it was given, here a positive number. -/
def fresh_socket : UdpSocket := { sent := [], ret := fun _ => 2 }

/-! ### Crystal frequency (librtlsdr.c 581-583, 1012-1055) -/

/-- `MIN_RTL_XTAL_FREQ` (librtlsdr.c 582). -/
def MIN_RTL_XTAL_FREQ : Nat := DEF_RTL_XTAL_FREQ - 1000

/-- `MAX_RTL_XTAL_FREQ` (librtlsdr.c 583). -/
def MAX_RTL_XTAL_FREQ : Nat := DEF_RTL_XTAL_FREQ + 1000

/-- The first block of `rtlsdr_set_xtal_freq` (librtlsdr.c 1030-1036): store a
new non-zero `rtl_freq` and, when a sample rate is set, program it again. -/
def set_xtal_freq_rtl (scf : SetCenterFreq) (dev : rtlsdr_dev) (rtl_freq : Nat)
    (w : World) : Res :=
  if rtl_freq > 0 ∧ dev.rtl_xtal ≠ rtl_freq then
    if dev.rate ≠ 0 then
      rtlsdr_set_sample_rate scf { dev with rtl_xtal := rtl_freq } dev.rate w
    else some (0, { dev with rtl_xtal := rtl_freq }, w)
  else some (0, dev, w)

/-- The device after the stores of the second block of `rtlsdr_set_xtal_freq`
(librtlsdr.c 1039-1047): the tuner crystal value, then the corrected clock read
into the E4000 and R82xx driver records. -/
def set_xtal_freq_tun (dev : rtlsdr_dev) (tuner_freq : Nat) : rtlsdr_dev :=
  { dev with
    tun_xtal := if tuner_freq = 0 then dev.rtl_xtal else tuner_freq,
    e4k_fosc :=
      (rtlsdr_get_xtal_freq
        { dev with tun_xtal := if tuner_freq = 0 then dev.rtl_xtal else tuner_freq }).2,
    r82xx_xtal :=
      (rtlsdr_get_xtal_freq
        { dev with tun_xtal := if tuner_freq = 0 then dev.rtl_xtal else tuner_freq }).2 }

/-- `rtlsdr_set_xtal_freq` (librtlsdr.c 1012-1055, after the `!dev` guard);
`scf` is `rtlsdr_set_center_freq`.  `rtlsdr_get_xtal_freq` returns 0 for every
device, so the `return -3` of line 1047 is never taken. -/
def rtlsdr_set_xtal_freq (scf : SetCenterFreq) (dev : rtlsdr_dev) (rtl_freq tuner_freq : Nat)
    (w : World) : Res :=
  if rtl_freq > 0 ∧ (rtl_freq < MIN_RTL_XTAL_FREQ ∨ rtl_freq > MAX_RTL_XTAL_FREQ) then
    some (-2, dev, w)
  else
    match set_xtal_freq_rtl scf dev rtl_freq w with
    | none => none
    | some (r, dev2, w2) =>
      if dev2.tun_xtal ≠ tuner_freq then
        if (set_xtal_freq_tun dev2 tuner_freq).freq ≠ 0 then
          scf (set_xtal_freq_tun dev2 tuner_freq) (set_xtal_freq_tun dev2 tuner_freq).freq w2
        else some (r, set_xtal_freq_tun dev2 tuner_freq, w2)
      else some (r, dev2, w2)

/-- The recursive function keeps the crystal value of the RTL2832. -/
def KeepsXtal (scf : SetCenterFreq) : Prop :=
  ∀ (dev : rtlsdr_dev) (freq : Nat) (w : World) (r : Int) (d : rtlsdr_dev) (w' : World),
    scf dev freq w = some (r, d, w') → d.rtl_xtal = dev.rtl_xtal

/-! ### Soft AGC: runs of the classifier -/

/-- The gain index is a position of the gain table of the device's tuner:
`0 ≤ gainIdx < numGains`. -/
def gain_index_in_range (dev : rtlsdr_dev) : Prop :=
  0 ≤ dev.softagc.gainIdx ∧ dev.softagc.gainIdx < ((get_tuner_gains dev).length : Int)

instance (dev : rtlsdr_dev) : Decidable (gain_index_in_range dev) := by
  unfold gain_index_in_range; infer_instance

/-- One step of a run of the soft AGC: a call `softagc(dev, buf, len)` of the
classifier, or something the rest of the library does to the device between two
calls (the worker thread applying a gain and opening the dead window,
`reactivate_softagc`, a setter of the API). -/
inductive AgcStep where
  | call (buf : Int → Nat) (len : Int)
  | other (f : rtlsdr_dev → rtlsdr_dev)

/-- The gain index is written only by `softagc` (librtlsdr.c 3016, 3100) and the
tuner type only by `rtlsdr_open`: a step between two classifier calls writes
neither. -/
def keeps_gain_index (f : rtlsdr_dev → rtlsdr_dev) : Prop :=
  ∀ d : rtlsdr_dev,
    (f d).softagc.gainIdx = d.softagc.gainIdx ∧ (f d).tuner_type = d.tuner_type

/-- The steps between the classifier calls of a run leave the gain index and the
tuner type alone. -/
def AgcStep.keeps_index : AgcStep → Prop
  | AgcStep.call _ _ => True
  | AgcStep.other f => keeps_gain_index f

/-- The device after a run of steps. -/
def run_agc (tm : SoftAgcTimes) : List AgcStep → rtlsdr_dev → rtlsdr_dev
  | [], dev => dev
  | AgcStep.call buf len :: rest, dev => run_agc tm rest (softagc tm dev buf len).2
  | AgcStep.other f :: rest, dev => run_agc tm rest (f dev)

/-- What the worker thread does when it finds a change request (librtlsdr.c
2925-2928), as far as the soft-AGC record goes: clear the request and open the
dead window. -/
def worker_applies_gain (dev : rtlsdr_dev) : rtlsdr_dev :=
  if dev.softagc.command_changeGain ≠ 0 then
    { dev with softagc := { dev.softagc with
        command_changeGain := 0, remainingDeadSps := dev.softagc.deadTimeSps } }
  else dev

/-! ### Tuner gain slots (librtlsdr.c 286-311, 320-343, 396-463) -/

/-- `rtlsdr_vga_control` (librtlsdr.c 411-424). -/
def rtlsdr_vga_control (dev : rtlsdr_dev) (rc : Int) (rtl_vga_control : Int) (w : World) :
    Int × rtlsdr_dev × World :=
  if rc < 0 then (rc, dev, w)
  else if rtl_vga_control ≠ dev.rtl_vga_control then
    ((rtlsdr_demod_write_reg w 1 0x04 (if rtl_vga_control ≠ 0 then 0x80 else 0x00) 1).1,
     { dev with rtl_vga_control := rtl_vga_control },
     (rtlsdr_demod_write_reg w 1 0x04 (if rtl_vga_control ≠ 0 then 0x80 else 0x00) 1).2)
  else (rc, dev, w)

/-- The common body of `r820t_set_gain`, `r820t_set_gain_ext`,
`r820t_set_agc_mode` and `r820t_set_gain_mode` (librtlsdr.c 426-456): one call
of the R82xx driver, which leaves a value in the local `rtl_vga_control` (the
oracle output of the call), then `rtlsdr_vga_control`. -/
def r820t_gain_call (fn : DriverFn) (args : List Int) (dev : rtlsdr_dev) (w : World) :
    Int × rtlsdr_dev × World :=
  rtlsdr_vga_control dev (w.call (Event.driver fn args)).1
    (int_of_bits32 (w.call (Event.driver fn args)).2.1) (w.call (Event.driver fn args)).2.2

/-- `r820t_set_gain` (librtlsdr.c 426-432). -/
def r820t_set_gain (dev : rtlsdr_dev) (gain : Int) (w : World) : Int × rtlsdr_dev × World :=
  r820t_gain_call DriverFn.r82xx_set_gain [1, gain, 0, 0, 0, 0] dev w

/-- `r820t_set_gain_ext` (librtlsdr.c 434-440). -/
def r820t_set_gain_ext (dev : rtlsdr_dev) (lna_gain mixer_gain vga_gain : Int) (w : World) :
    Int × rtlsdr_dev × World :=
  r820t_gain_call DriverFn.r82xx_set_gain [0, 0, 1, lna_gain, mixer_gain, vga_gain] dev w

/-- `r820t_set_agc_mode` (librtlsdr.c 442-448). -/
def r820t_set_agc_mode (dev : rtlsdr_dev) (agc_variant : Int) (w : World) :
    Int × rtlsdr_dev × World :=
  r820t_gain_call DriverFn.r82xx_set_agc_mode [agc_variant] dev w

/-- `r820t_set_gain_mode` (librtlsdr.c 450-456). -/
def r820t_set_gain_mode (dev : rtlsdr_dev) (manual : Int) (w : World) :
    Int × rtlsdr_dev × World :=
  r820t_gain_call DriverFn.r82xx_set_gain [manual, 0, 0, 0, 0, 0] dev w

/-- The two driver calls of `e4000_set_gain` (librtlsdr.c 292-295) for the mixer
gain `mixgain`: `-1` as soon as one of them answers `-EINVAL`. -/
def e4000_set_gain_calls (mixgain : Int) (dev : rtlsdr_dev) (gain : Int) (w : World) :
    Int × rtlsdr_dev × World :=
  if (w.call (Event.driver DriverFn.e4k_set_lna_gain [min 300 (gain - mixgain * 10)])).1 =
      -EINVAL then
    (-1, dev, (w.call (Event.driver DriverFn.e4k_set_lna_gain
      [min 300 (gain - mixgain * 10)])).2.2)
  else if ((w.call (Event.driver DriverFn.e4k_set_lna_gain
      [min 300 (gain - mixgain * 10)])).2.2.call
        (Event.driver DriverFn.e4k_mixer_gain_set [mixgain])).1 = -EINVAL then
    (-1, dev, ((w.call (Event.driver DriverFn.e4k_set_lna_gain
      [min 300 (gain - mixgain * 10)])).2.2.call
        (Event.driver DriverFn.e4k_mixer_gain_set [mixgain])).2.2)
  else
    (0, dev, ((w.call (Event.driver DriverFn.e4k_set_lna_gain
      [min 300 (gain - mixgain * 10)])).2.2.call
        (Event.driver DriverFn.e4k_mixer_gain_set [mixgain])).2.2)

/-- `e4000_set_gain` (librtlsdr.c 286-303): `mixgain = (gain > 340) ? 12 : 4`. -/
def e4000_set_gain (dev : rtlsdr_dev) (gain : Int) (w : World) : Int × rtlsdr_dev × World :=
  e4000_set_gain_calls (if gain > 340 then 12 else 4) dev gain w

/-- One call of a tuner driver function that writes no modelled field of the
device. -/
def driver_call (fn : DriverFn) (args : List Int) (dev : rtlsdr_dev) (w : World) :
    Int × rtlsdr_dev × World :=
  ((w.call (Event.driver fn args)).1, dev, (w.call (Event.driver fn args)).2.2)

/-- Slot `set_gain` of `tuners[]`: `e4000_set_gain`, `_fc0012_set_gain`,
`_fc0013_set_gain`, `fc2580_set_gain`, `r820t_set_gain` (librtlsdr.c 286-303,
320, 329, 342, 426-432). -/
def tuner_set_gain : rtlsdr_tuner → Option (rtlsdr_dev → Int → World → Int × rtlsdr_dev × World)
  | rtlsdr_tuner.RTLSDR_TUNER_UNKNOWN => none
  | rtlsdr_tuner.RTLSDR_TUNER_E4000 => some e4000_set_gain
  | rtlsdr_tuner.RTLSDR_TUNER_FC0012 => some fun dev gain w =>
      driver_call DriverFn.fc0012_set_gain [gain] dev w
  | rtlsdr_tuner.RTLSDR_TUNER_FC0013 => some fun dev gain w =>
      driver_call DriverFn.fc0013_set_lna_gain [gain] dev w
  | rtlsdr_tuner.RTLSDR_TUNER_FC2580 => some fun dev _ w => (0, dev, w)
  | _ => some r820t_set_gain

/-- Slot `set_if_gain` of `tuners[]`: only `e4000_set_if_gain` (librtlsdr.c
304-307), which passes `(uint8_t)stage` and `(int8_t)(gain / 10)`. -/
def tuner_set_if_gain :
    rtlsdr_tuner → Option (rtlsdr_dev → Int → Int → World → Int × rtlsdr_dev × World)
  | rtlsdr_tuner.RTLSDR_TUNER_E4000 => some fun dev stage gain w =>
      driver_call DriverFn.e4k_if_gain_set
        [((bits32 stage % 256 : Nat) : Int), sign_extend 8 (bits32 (Int.tdiv gain 10))] dev w
  | _ => none

/-- Slot `set_gain_mode` of `tuners[]`: `e4000_set_gain_mode`,
`fc0012_set_gain_mode`, `fc0013_set_gain_mode` (of `tuner_fc0013.c`),
`fc2580_set_gain_mode`, `r820t_set_gain_mode` (librtlsdr.c 308-311, 321, 343,
450-456). -/
def tuner_set_gain_mode :
    rtlsdr_tuner → Option (rtlsdr_dev → Int → World → Int × rtlsdr_dev × World)
  | rtlsdr_tuner.RTLSDR_TUNER_UNKNOWN => none
  | rtlsdr_tuner.RTLSDR_TUNER_E4000 => some fun dev manual w =>
      driver_call DriverFn.e4k_enable_manual_gain [manual] dev w
  | rtlsdr_tuner.RTLSDR_TUNER_FC0012 => some fun dev _ w => (0, dev, w)
  | rtlsdr_tuner.RTLSDR_TUNER_FC0013 => some fun dev manual w =>
      driver_call DriverFn.fc0013_set_gain_mode [manual] dev w
  | rtlsdr_tuner.RTLSDR_TUNER_FC2580 => some fun dev _ w => (0, dev, w)
  | _ => some r820t_set_gain_mode

/-- `r820t_set_bw_center` (librtlsdr.c 396-409); `scf` is the call of
`rtlsdr_set_center_freq` in its last line. -/
def r820t_set_bw_center (scf : SetCenterFreq) (dev : rtlsdr_dev) (if_band_center_freq : Int)
    (w : World) : Res :=
  if (w.call (Event.driver DriverFn.r82xx_set_bw_center [if_band_center_freq])).1 < 0 then
    some ((w.call (Event.driver DriverFn.r82xx_set_bw_center [if_band_center_freq])).1, dev,
      (w.call (Event.driver DriverFn.r82xx_set_bw_center [if_band_center_freq])).2.2)
  else
    match rtlsdr_set_if_freq { dev with if_band_center_freq := if_band_center_freq }
        (bits32 ((w.call (Event.driver DriverFn.r82xx_set_bw_center [if_band_center_freq])).1 +
          if_band_center_freq))
        (w.call (Event.driver DriverFn.r82xx_set_bw_center [if_band_center_freq])).2.2 with
    | (r, dev2, w2) => if r ≠ 0 then some (r, dev2, w2) else scf dev2 dev2.freq w2

/-- Slot `set_bw_center` of `tuners[]`: only `r820t_set_bw_center`. -/
def tuner_set_bw_center (scf : SetCenterFreq) :
    rtlsdr_tuner → Option (rtlsdr_dev → Int → World → Res)
  | rtlsdr_tuner.RTLSDR_TUNER_R820T => some (r820t_set_bw_center scf)
  | rtlsdr_tuner.RTLSDR_TUNER_R828D => some (r820t_set_bw_center scf)
  | _ => none

/-! ### Tuner setters of the API (librtlsdr.c 940-958, 1410-1631) -/

/-- A tuner call `f` between `rtlsdr_set_i2c_repeater(dev, 1)` and
`rtlsdr_set_i2c_repeater(dev, 0)`. -/
def with_repeater (f : World → Int × rtlsdr_dev × World) (w : World) :
    Int × rtlsdr_dev × World :=
  ((f (rtlsdr_set_i2c_repeater w 1)).1, (f (rtlsdr_set_i2c_repeater w 1)).2.1,
    rtlsdr_set_i2c_repeater (f (rtlsdr_set_i2c_repeater w 1)).2.2 0)

/-- `rtlsdr_set_and_get_tuner_bandwidth` (librtlsdr.c 1410-1436, after the
`!dev` guard); the out-parameter `applied_bw` is not kept; `scf` is
`rtlsdr_set_center_freq`. -/
def rtlsdr_set_and_get_tuner_bandwidth (scf : SetCenterFreq) (dev : rtlsdr_dev) (bw : Nat)
    (apply_bw : Int) (w : World) : Res :=
  match dev.tuner with
  | none => some (-1, dev, w)
  | some t =>
    match tuner_set_bw scf t with
    | none => some (0, dev, w)
    | some f =>
      if apply_bw = 0 then
        f dev (int_of_bits32 (if bw > 0 then bw else dev.rate)) apply_bw w
      else
        match f dev (int_of_bits32 (if bw > 0 then bw else dev.rate)) apply_bw
            (rtlsdr_set_i2c_repeater w 1) with
        | none => none
        | some (r, d, w1) =>
          some (r,
            (if r ≠ 0 then (reactivate_softagc d softagc_stateT.SOFTSTATE_RESET).2
             else { (reactivate_softagc d softagc_stateT.SOFTSTATE_RESET).2 with bw := bw }),
            rtlsdr_set_i2c_repeater w1 0)

/-- `rtlsdr_set_tuner_bandwidth` (librtlsdr.c 1438-1442). -/
def rtlsdr_set_tuner_bandwidth (scf : SetCenterFreq) (dev : rtlsdr_dev) (bw : Nat)
    (w : World) : Res :=
  rtlsdr_set_and_get_tuner_bandwidth scf dev bw 1 w

/-- `rtlsdr_set_tuner_band_center` (librtlsdr.c 1444-1450, after the `!dev`
guard). -/
def rtlsdr_set_tuner_band_center (scf : SetCenterFreq) (dev : rtlsdr_dev)
    (if_band_center_freq : Int) (w : World) : Res :=
  match dev.tuner.bind (tuner_set_bw_center scf) with
  | none => some (-1, dev, w)
  | some f => f dev if_band_center_freq w

/-- `rtlsdr_set_tuner_gain` (librtlsdr.c 1454-1479, after the `!dev` guard). -/
def rtlsdr_set_tuner_gain (dev : rtlsdr_dev) (gain : Int) (w : World) :
    Int × rtlsdr_dev × World :=
  match dev.tuner with
  | none => (-1, dev, w)
  | some t =>
    match tuner_set_gain t with
    | some f =>
      ((with_repeater (f dev gain) w).1,
       { (with_repeater (f dev gain) w).2.1 with
         gain := if (with_repeater (f dev gain) w).1 = 0 then gain else 0 },
       (with_repeater (f dev gain) w).2.2)
    | none => (0, { dev with gain := gain }, w)

/-- `rtlsdr_set_tuner_gain_ext` (librtlsdr.c 1481-1499, after the `!dev` guard).
Behind the tuner-type test the code reads `dev->tuner->set_gain`; `none` stands
for that read through a `NULL` tuner entry. -/
def rtlsdr_set_tuner_gain_ext (dev : rtlsdr_dev) (lna_gain mixer_gain vga_gain : Int)
    (w : World) : Res :=
  if dev.tuner_type ≠ rtlsdr_tuner.RTLSDR_TUNER_R820T ∧
      dev.tuner_type ≠ rtlsdr_tuner.RTLSDR_TUNER_R828D then some (-1, dev, w)
  else
    match dev.tuner with
    | none => none
    | some t =>
      match tuner_set_gain t with
      | some _ =>
        some ((with_repeater (r820t_set_gain_ext dev lna_gain mixer_gain vga_gain) w).1,
          { (with_repeater (r820t_set_gain_ext dev lna_gain mixer_gain vga_gain) w).2.1 with
            gain :=
              if (with_repeater (r820t_set_gain_ext dev lna_gain mixer_gain vga_gain) w).1 = 0
              then lna_gain + mixer_gain + vga_gain else 0 },
          (with_repeater (r820t_set_gain_ext dev lna_gain mixer_gain vga_gain) w).2.2)
      | none => some (0, { dev with gain := lna_gain + mixer_gain + vga_gain }, w)

/-- `rtlsdr_set_tuner_agc_mode` (librtlsdr.c 1501-1515, after the `!dev`
guard); `none` as in `rtlsdr_set_tuner_gain_ext`. -/
def rtlsdr_set_tuner_agc_mode (dev : rtlsdr_dev) (agc_variant : Int) (w : World) : Res :=
  if dev.tuner_type ≠ rtlsdr_tuner.RTLSDR_TUNER_R820T ∧
      dev.tuner_type ≠ rtlsdr_tuner.RTLSDR_TUNER_R828D then some (-1, dev, w)
  else
    match dev.tuner with
    | none => none
    | some t =>
      match tuner_set_gain t with
      | some _ => some (with_repeater (r820t_set_agc_mode dev agc_variant) w)
      | none => some (0, dev, w)

/-- `rtlsdr_set_tuner_if_gain` (librtlsdr.c 1532-1555, after the `!dev` guard). -/
def rtlsdr_set_tuner_if_gain (dev : rtlsdr_dev) (stage gain : Int) (w : World) :
    Int × rtlsdr_dev × World :=
  match dev.tuner with
  | none => (-1, dev, w)
  | some t =>
    match tuner_set_if_gain t with
    | some f =>
      ((with_repeater (f dev stage gain) w).1,
       (reactivate_softagc (with_repeater (f dev stage gain) w).2.1
         softagc_stateT.SOFTSTATE_RESET).2,
       (with_repeater (f dev stage gain) w).2.2)
    | none => (0, dev, w)

/-- `rtlsdr_set_tuner_gain_mode` (librtlsdr.c 1557-1585, after the `!dev`
guard): with the soft AGC in use the mode is forced to manual. -/
def rtlsdr_set_tuner_gain_mode (dev : rtlsdr_dev) (mode : Int) (w : World) :
    Int × rtlsdr_dev × World :=
  match dev.tuner with
  | none => (-1, dev, w)
  | some t =>
    match tuner_set_gain_mode t with
    | some f =>
      with_repeater
        (f dev (if dev.softagc.softAgcMode ≠ softagc_mode.SOFTAGC_OFF then 1 else mode)) w
    | none => (0, dev, w)

/-- `rtlsdr_set_tuner_i2c_register` (librtlsdr.c 1587-1608, after the `!dev`
guard); the slot takes `data` before `mask`. -/
def rtlsdr_set_tuner_i2c_register (dev : rtlsdr_dev) (i2c_register mask data : Nat)
    (w : World) : Int × rtlsdr_dev × World :=
  match dev.tuner with
  | none => (-1, dev, w)
  | some t =>
    match tuner_set_i2c_register t with
    | some f =>
      with_repeater (fun w1 => ((f dev i2c_register data mask w1).1, dev,
        (f dev i2c_register data mask w1).2)) w
    | none => (0, dev, w)

/-- `rtlsdr_set_tuner_i2c_override` (librtlsdr.c 1610-1631, after the `!dev`
guard). -/
def rtlsdr_set_tuner_i2c_override (dev : rtlsdr_dev) (i2c_register mask data : Nat)
    (w : World) : Int × rtlsdr_dev × World :=
  match dev.tuner with
  | none => (-1, dev, w)
  | some t =>
    match tuner_set_i2c_override t with
    | some f =>
      with_repeater (fun w1 => ((f dev i2c_register data mask w1).1, dev,
        (f dev i2c_register data mask w1).2)) w
    | none => (0, dev, w)

/-- Register `DEMOD_CTL` of `enum sys_reg` (librtlsdr.c 604). -/
def DEMOD_CTL : Nat := 0x3000

/-- `rtlsdr_deinit_baseband` (librtlsdr.c 940-958, after the `!dev` guard). -/
def rtlsdr_deinit_baseband (dev : rtlsdr_dev) (w : World) : Int × rtlsdr_dev × World :=
  match dev.tuner.bind tuner_exit with
  | some f =>
    ((with_repeater (fun w1 => ((f dev w1).1, dev, (f dev w1).2)) w).1, dev,
      (rtlsdr_write_reg (with_repeater (fun w1 => ((f dev w1).1, dev, (f dev w1).2)) w).2.2
        SYSB DEMOD_CTL 0x20 1).2)
  | none => (0, dev, (rtlsdr_write_reg w SYSB DEMOD_CTL 0x20 1).2)
/-! ### The I2C repeater around tuner calls

`rtlsdr_set_i2c_repeater` writes one byte to demod page 1, register `0x01`:
`0x18` switches the repeater on, `0x10` off; bit 3 of that byte is the repeater
enable.  (The soft reset of `rtlsdr_set_sample_rate` writes `0x14` and `0x10`
to the same register, both with bit 3 clear.) -/

/-- The repeater state that an event writes, if it writes one: a one-byte
control-out transfer to demod page 1 (`wIndex = 0x11`), register `0x01`
(`wValue = 0x0120`), with bit 3 of the byte. -/
def repeater_write : Event → Option Bool
  | Event.control_out wValue wIndex data =>
    if wValue = 0x0120 ∧ wIndex = 0x11 ∧ data.length = 1 then
      some (decide (data.headD 0 &&& 0x08 ≠ 0))
    else none
  | _ => none

/-- The calls of the tuner drivers made by the dispatch operations `init`,
`exit`, `set_freq`, `set_bw` with `apply`, `set_gain` (also in its extended and
AGC-mode forms), `set_if_gain`, `set_gain_mode`, `set_i2c_register` and
`set_i2c_override`.  Not among them: `r82xx_set_bandwidth` with `apply = 0`
(its last argument), `r82xx_set_bw_center` and the cache read
`r82xx_read_cache_reg`. -/
def touches_tuner : Event → Bool
  | Event.driver DriverFn.r82xx_read_cache_reg _ => false
  | Event.driver DriverFn.r82xx_set_bw_center _ => false
  | Event.driver DriverFn.r82xx_set_bandwidth args => decide (args.getLastD 0 ≠ 0)
  | Event.driver _ _ => true
  | _ => false

/-- Run through a sequence of events with the state of the repeater (`true` =
on): `none` when a tuner call is met while the repeater is off, otherwise the
state after the last event. -/
def repeater_scan : List Event → Bool → Option Bool
  | [], s => some s
  | e :: es, s =>
    if touches_tuner e then (if s then repeater_scan es s else none)
    else
      match repeater_write e with
      | some b => repeater_scan es b
      | none => repeater_scan es s

/-- The events of an operation that starts with the repeater off: every tuner
call is made with the repeater on, and the repeater is off at the end. -/
def bracketed (evs : List Event) : Prop := repeater_scan evs false = some false

instance (evs : List Event) : Decidable (bracketed evs) := by
  unfold bracketed; infer_instance

/-- Every tuner call in the sequence has a repeater-on write before it and a
repeater-off write after it. -/
def preceded_and_followed (evs : List Event) : Prop :=
  ∀ (pre : List Event) (e : Event) (post : List Event),
    evs = pre ++ e :: post → touches_tuner e = true →
      (∃ x ∈ pre, repeater_write x = some true) ∧ (∃ x ∈ post, repeater_write x = some false)

/-- The environment `w'` is `w` after further events that take the repeater
from state `s` to state `s'` with every tuner call made while it is on. -/
def Seg (s s' : Bool) (w w' : World) : Prop :=
  ∃ evs : List Event, w'.trace = w.trace ++ evs ∧ repeater_scan evs s = some s'

/-- The bracket property of an operation that took the environment from `w` to
`w'`: the events it added are bracketed, so each tuner call among them has a
repeater-on write before it and a repeater-off write after it. -/
def brackets_tuner_calls (w w' : World) : Prop :=
  ∃ evs : List Event, w'.trace = w.trace ++ evs ∧ bracketed evs ∧ preceded_and_followed evs

/-- Every call of the recursive function brackets its tuner calls. -/
def BracketsSCF (scf : SetCenterFreq) : Prop :=
  ∀ (dev : rtlsdr_dev) (freq : Nat) (w : World) (r : Int) (d : rtlsdr_dev) (w' : World),
    scf dev freq w = some (r, d, w') → Seg false false w w'

/-- The operation returns, and the events it added to the environment `w`
bracket every tuner call. -/
def returns_bracketed (res : Res) (w : World) : Prop :=
  ∃ (r : Int) (d : rtlsdr_dev) (w' : World), res = some (r, d, w') ∧ brackets_tuner_calls w w'

/-! ### Soft AGC: a run from `rtlsdr_open` with the default times -/

/-- The two time expressions of the `Reset` branch with the defaults that
`rtlsdr_open` stores (`scanTimeMs = 100`, `deadTimeMs = 1`, librtlsdr.c
2608-2609): `(int)((100 * rate) / 1000)` and `(int)((1 * rate) / 1000)`.  For the
rate 256000 used below the single-precision products and quotients are exact:
25600 and 256 samples. -/
def default_times : SoftAgcTimes :=
  { scan_sps := fun rate => ((100 * rate / 1000 : Nat) : Int),
    dead_sps := fun rate => ((rate / 1000 : Nat) : Int) }

/-- An R820T device as `rtlsdr_open` leaves it (soft-AGC record zeroed, gain
index 0), with the sample rate 256000 that `rtlsdr_set_sample_rate(dev, 256000)`
stores for the crystal value 28800000. -/
def streaming_dev : rtlsdr_dev := { r820t_dev with rate := 256000 }

/-- The option `softagc=3` of `rtlsdr_set_opt_string` (librtlsdr.c 3728-3735):
mode `SOFTAGC_AUTO`, sub-state `Init`. -/
def enable_softagc_auto (dev : rtlsdr_dev) : rtlsdr_dev :=
  { dev with softagc := { dev.softagc with
      softAgcMode := softagc_mode.SOFTAGC_AUTO, agcState := softagc_stateT.SOFTSTATE_INIT } }

/-- The start of a soft-AGC run on `streaming_dev` with transfers of `len`
quiet bytes: the option `softagc=3`, the first completed transfer (`Init` to
`Reset`), the second (`Reset`: gain index to the top of the table, change
request raised), and the worker thread applying the gain and opening the dead
window of 256 samples. -/
def agc_run_start (len : Int) : rtlsdr_dev :=
  run_agc default_times
    [AgcStep.other enable_softagc_auto, AgcStep.call silent_buf len,
     AgcStep.call silent_buf len, AgcStep.other worker_applies_gain] streaming_dev

end LibRtlSdr

/-! ## Part 3 : `rtl_tcp.c`, capability banner and command reader

The library functions that `rtl_tcp.c` calls on the device are its environment
here: each call is recorded with its arguments in the trace of an `ApiWorld`
and its result is read from the oracle, so the statements hold for every
behaviour of the library.  The banner uses the two getters as modelled in
Part 2. -/

namespace RtlTcp

/-! ### Capability banner (rtl_tcp.c 1081-1101) -/

/-- Modelled from the spec: the numeric values of `enum rtlsdr_tuner` of
`rtl-sdr.h` (not among the sources), in the order in which the spec lists the
variants; its scenario S1 has the value 5 for R820T. -/
def tuner_value : LibRtlSdr.rtlsdr_tuner → Int
  | LibRtlSdr.rtlsdr_tuner.RTLSDR_TUNER_UNKNOWN => 0
  | LibRtlSdr.rtlsdr_tuner.RTLSDR_TUNER_E4000 => 1
  | LibRtlSdr.rtlsdr_tuner.RTLSDR_TUNER_FC0012 => 2
  | LibRtlSdr.rtlsdr_tuner.RTLSDR_TUNER_FC0013 => 3
  | LibRtlSdr.rtlsdr_tuner.RTLSDR_TUNER_FC2580 => 4
  | LibRtlSdr.rtlsdr_tuner.RTLSDR_TUNER_R820T => 5
  | LibRtlSdr.rtlsdr_tuner.RTLSDR_TUNER_R828D => 6

/-- The four bytes in memory of the `uint32_t` value `htonl(x)`: `x` in network
byte order, most significant byte first. -/
def htonl (x : Nat) : List Nat :=
  [(x >>> 24) % 256, (x >>> 16) % 256, (x >>> 8) % 256, x % 256]

/-- The 12 bytes of `dongle_info` handed to `send` after a client was accepted
(rtl_tcp.c 1081-1101): zeroed, the magic copied in, and each of the two
counters stored when the getter did not return a negative value. -/
def dongle_info (dev : LibRtlSdr.rtlsdr_dev) : List Nat :=
  let magic : List Nat := ['R', 'T', 'L', '0'].map Char.toNat
  let r1 : Int := tuner_value (LibRtlSdr.rtlsdr_get_tuner_type dev)
  let tuner_type : List Nat := if r1 ≥ 0 then htonl (LibRtlSdr.bits32 r1) else [0, 0, 0, 0]
  let r2 : Int := LibRtlSdr.rtlsdr_get_tuner_gains dev
  let tuner_gain_count : List Nat :=
    if r2 ≥ 0 then htonl (LibRtlSdr.bits32 r2) else [0, 0, 0, 0]
  magic ++ tuner_type ++ tuner_gain_count

/-- The value of four bytes read as a 32-bit big-endian integer. -/
def be32 (b3 b2 b1 b0 : Nat) : Nat := b3 * 16777216 + b2 * 65536 + b1 * 256 + b0

/-! ### Command reader (rtl_tcp.c 350-668) -/

/-- The constants of `enum RTL_TCP_COMMANDS` (`rtl_tcp.h`, not among the
sources) that the `switch` of `command_worker` names. -/
inductive RTL_TCP_COMMANDS where
  | SET_FREQUENCY
  | SET_SAMPLE_RATE
  | SET_GAIN_MODE
  | SET_GAIN
  | SET_FREQUENCY_CORRECTION
  | SET_IF_STAGE
  | SET_TEST_MODE
  | SET_AGC_MODE
  | SET_DIRECT_SAMPLING
  | SET_OFFSET_TUNING
  | SET_RTL_CRYSTAL
  | SET_TUNER_CRYSTAL
  | SET_TUNER_GAIN_BY_INDEX
  | SET_BIAS_TEE
  | SET_TUNER_BANDWIDTH
  | SET_FREQ_HI32
  | SET_DITHERING
  | SET_I2C_TUNER_REGISTER
  | SET_I2C_TUNER_OVERRIDE
  | UDP_TERMINATE
  | SET_TUNER_BW_IF_CENTER
  | SET_TUNER_IF_MODE
  | SET_SIDEBAND
  | REPORT_I2C_REGS
  | GPIO_SET_OUTPUT_MODE
  | GPIO_SET_INPUT_MODE
  | GPIO_GET_IO_STATUS
  | GPIO_WRITE_PIN
  | GPIO_READ_PIN
  | GPIO_GET_BYTE
  | IS_TUNER_PLL_LOCKED
  deriving DecidableEq, Repr

/-- Modelled from the spec: the command codes of `rtl_tcp.h` (not among the
sources).  The spec's table gives the codes 0x01 to 0x10; the codes of the
further commands are not in the spec and are the parameter `ext`, which is asked
only for codes outside 0x01 to 0x10. -/
def command_of_code (ext : Nat → Option RTL_TCP_COMMANDS) (c : Nat) : Option RTL_TCP_COMMANDS :=
  match c with
  | 0x01 => some RTL_TCP_COMMANDS.SET_FREQUENCY
  | 0x02 => some RTL_TCP_COMMANDS.SET_SAMPLE_RATE
  | 0x03 => some RTL_TCP_COMMANDS.SET_GAIN_MODE
  | 0x04 => some RTL_TCP_COMMANDS.SET_GAIN
  | 0x05 => some RTL_TCP_COMMANDS.SET_FREQUENCY_CORRECTION
  | 0x06 => some RTL_TCP_COMMANDS.SET_IF_STAGE
  | 0x07 => some RTL_TCP_COMMANDS.SET_TEST_MODE
  | 0x08 => some RTL_TCP_COMMANDS.SET_AGC_MODE
  | 0x09 => some RTL_TCP_COMMANDS.SET_DIRECT_SAMPLING
  | 0x0a => some RTL_TCP_COMMANDS.SET_OFFSET_TUNING
  | 0x0b => some RTL_TCP_COMMANDS.SET_RTL_CRYSTAL
  | 0x0c => some RTL_TCP_COMMANDS.SET_TUNER_CRYSTAL
  | 0x0d => some RTL_TCP_COMMANDS.SET_TUNER_GAIN_BY_INDEX
  | 0x0e => some RTL_TCP_COMMANDS.SET_BIAS_TEE
  | 0x0f => some RTL_TCP_COMMANDS.SET_TUNER_BANDWIDTH
  | 0x10 => some RTL_TCP_COMMANDS.SET_FREQ_HI32
  | c' => ext c'

/-- The functions that `command_worker` calls on the device: the library API,
the helper `verbose_set_bandwidth` and the handler `sighandler`. -/
inductive ApiFn where
  | rtlsdr_set_dithering
  | rtlsdr_set_center_freq
  | rtlsdr_set_center_freq64
  | rtlsdr_set_sample_rate
  | rtlsdr_get_sample_rate
  | rtlsdr_set_tuner_gain_mode
  | rtlsdr_set_tuner_gain
  | rtlsdr_set_freq_correction
  | rtlsdr_set_tuner_if_gain
  | rtlsdr_set_testmode
  | rtlsdr_set_agc_mode
  | rtlsdr_set_direct_sampling
  | rtlsdr_set_offset_tuning
  | rtlsdr_set_xtal_freq
  | rtlsdr_get_tuner_gains
  | rtlsdr_set_bias_tee
  | verbose_set_bandwidth
  | rtlsdr_set_tuner_i2c_register
  | rtlsdr_set_tuner_i2c_override
  | sighandler
  | rtlsdr_set_tuner_band_center
  | rtlsdr_set_tuner_if_mode
  | rtlsdr_set_tuner_sideband
  | rtlsdr_set_gpio_output
  | rtlsdr_set_gpio_input
  | rtlsdr_set_gpio_status
  | rtlsdr_set_gpio_bit
  | rtlsdr_get_gpio_bit
  | rtlsdr_get_gpio_byte
  | rtlsdr_is_tuner_PLL_locked
  deriving DecidableEq, Repr

/-- One call: the function and the values of its argument expressions (the
device pointer and out-pointers left out). -/
structure ApiCall where
  fn : ApiFn
  args : List Int
  deriving DecidableEq, Repr

/-- The environment of the command reader: the calls made so far (oldest
first), and for the `k`-th call its return value `ret k` and the value it
stores through its out-pointer, `out k`. -/
structure ApiWorld where
  trace : List ApiCall
  ret : Nat → Int
  out : Nat → Int

/-- Perform one call. -/
def ApiWorld.call (w : ApiWorld) (fn : ApiFn) (args : List Int) : Int × Int × ApiWorld :=
  (w.ret w.trace.length, w.out w.trace.length,
    { w with trace := w.trace ++ [{ fn := fn, args := args }] })

/-- The variables of `command_worker` that outlive one command, the globals
`bandwidth` and `ctrldata.report_i2c`, and whether the thread is still running
(it leaves through `pthread_exit`). -/
structure CmdState where
  freqhi : Nat
  tuner_check_timeout : Nat
  last_lock_report : Int
  tuner_unsupported : Int
  bandwidth : Nat
  report_i2c : Nat
  running : Bool
  deriving DecidableEq, Repr

/-- `ntohl(cmd.param)` for the four parameter bytes as received. -/
def ntohl (p3 p2 p1 p0 : Nat) : Nat :=
  ((p3 % 256) <<< 24) ||| ((p2 % 256) <<< 16) ||| ((p1 % 256) <<< 8) ||| (p0 % 256)

/-- The conversion `(short)x` of a value below 65536. -/
def to_short (x : Nat) : Int := if x % 65536 ≥ 32768 then (x % 65536 : Nat) - 65536 else (x % 65536 : Nat)

/-- A call whose negative result is only reported (`printf`). -/
def call_report (st : CmdState) (w : ApiWorld) (fn : ApiFn) (args : List Int) :
    CmdState × ApiWorld :=
  (st, (w.call fn args).2.2)

/-- A call whose negative result also resets `last_lock_report` to -1. -/
def call_lock (st : CmdState) (w : ApiWorld) (fn : ApiFn) (args : List Int) :
    CmdState × ApiWorld :=
  let (r, _, w1) := w.call fn args
  (if r < 0 then { st with last_lock_report := -1 } else st, w1)

/-- `check_tuner_pll` (rtl_tcp.c 311-335) on the pair `tuner_unsupported`,
`last_lock_report`. -/
def check_tuner_pll (tuner_unsupported last_lock_report : Int) (w : ApiWorld) :
    Int × Int × ApiWorld :=
  let (r, _, w1) := w.call ApiFn.rtlsdr_is_tuner_PLL_locked []
  if r = 1 then (tuner_unsupported, r, w1)
  else if r = 0 then (tuner_unsupported, r, w1)
  else if r = -2 then (1, last_lock_report, w1)
  else (tuner_unsupported, last_lock_report, w1)

/-- `set_gain_by_index` (rtl_tcp.c 284-309); `gains[index]` is the value that
the second `rtlsdr_get_tuner_gains` stores. -/
def set_gain_by_index (index : Nat) (w : ApiWorld) : ApiWorld :=
  let (count, _, w1) := w.call ApiFn.rtlsdr_get_tuner_gains []
  if count > 0 ∧ (index : Int) < count then
    let (_, g, w2) := w1.call ApiFn.rtlsdr_get_tuner_gains [index]
    (w2.call ApiFn.rtlsdr_set_tuner_gain [g]).2.2
  else w1
/-- The `switch (cmd.cmd)` of `command_worker` (rtl_tcp.c 398-666) for a frame
whose code is the constant `c` (`none` : no constant has that value, the
`default` case) and whose parameter is `tmp = ntohl(cmd.param)`; `itmp` is the
same value read as an `int32_t`. -/
def command_switch (st : CmdState) (c : Option RTL_TCP_COMMANDS) (tmp : Nat) (w : ApiWorld) :
    CmdState × ApiWorld :=
  let itmp : Int := LibRtlSdr.int_of_bits32 tmp
  match c with
  | some RTL_TCP_COMMANDS.SET_DITHERING =>
    if tmp = 0 then call_report st w ApiFn.rtlsdr_set_dithering [tmp] else (st, w)
  | some RTL_TCP_COMMANDS.SET_FREQUENCY =>
    let (st1, w1) :=
      if st.freqhi = 0 then call_lock st w ApiFn.rtlsdr_set_center_freq [tmp]
      else call_lock st w ApiFn.rtlsdr_set_center_freq64 [((st.freqhi <<< 32) ||| tmp : Nat)]
    ({ st1 with freqhi := 0 }, w1)
  | some RTL_TCP_COMMANDS.SET_FREQ_HI32 => ({ st with freqhi := tmp }, w)
  | some RTL_TCP_COMMANDS.SET_SAMPLE_RATE =>
    let (r, _, w1) := w.call ApiFn.rtlsdr_set_sample_rate [tmp]
    if r < 0 then (st, (w1.call ApiFn.rtlsdr_get_sample_rate []).2.2) else (st, w1)
  | some RTL_TCP_COMMANDS.SET_GAIN_MODE => call_report st w ApiFn.rtlsdr_set_tuner_gain_mode [tmp]
  | some RTL_TCP_COMMANDS.SET_GAIN => call_report st w ApiFn.rtlsdr_set_tuner_gain [tmp]
  | some RTL_TCP_COMMANDS.SET_FREQUENCY_CORRECTION =>
    call_lock st w ApiFn.rtlsdr_set_freq_correction [itmp]
  | some RTL_TCP_COMMANDS.SET_IF_STAGE =>
    call_report st w ApiFn.rtlsdr_set_tuner_if_gain [(tmp >>> 16 : Nat), to_short (tmp &&& 0xffff)]
  | some RTL_TCP_COMMANDS.SET_TEST_MODE => call_report st w ApiFn.rtlsdr_set_testmode [tmp]
  | some RTL_TCP_COMMANDS.SET_AGC_MODE => call_report st w ApiFn.rtlsdr_set_agc_mode [tmp]
  | some RTL_TCP_COMMANDS.SET_DIRECT_SAMPLING =>
    call_report st w ApiFn.rtlsdr_set_direct_sampling [tmp]
  | some RTL_TCP_COMMANDS.SET_OFFSET_TUNING => call_lock st w ApiFn.rtlsdr_set_offset_tuning [itmp]
  | some RTL_TCP_COMMANDS.SET_RTL_CRYSTAL => call_report st w ApiFn.rtlsdr_set_xtal_freq [tmp, 0]
  | some RTL_TCP_COMMANDS.SET_TUNER_CRYSTAL => call_report st w ApiFn.rtlsdr_set_xtal_freq [0, tmp]
  | some RTL_TCP_COMMANDS.SET_TUNER_GAIN_BY_INDEX => (st, set_gain_by_index tmp w)
  | some RTL_TCP_COMMANDS.SET_BIAS_TEE => call_report st w ApiFn.rtlsdr_set_bias_tee [tmp]
  | some RTL_TCP_COMMANDS.SET_TUNER_BANDWIDTH =>
    call_report { st with bandwidth := tmp } w ApiFn.verbose_set_bandwidth [tmp]
  | some RTL_TCP_COMMANDS.SET_I2C_TUNER_REGISTER =>
    call_report st w ApiFn.rtlsdr_set_tuner_i2c_register
      [((tmp >>> 20) &&& 0xfff : Nat), ((tmp >>> 12) &&& 0xff : Nat), (tmp &&& 0xfff : Nat)]
  | some RTL_TCP_COMMANDS.SET_I2C_TUNER_OVERRIDE =>
    call_report st w ApiFn.rtlsdr_set_tuner_i2c_override
      [((tmp >>> 20) &&& 0xfff : Nat), ((tmp >>> 12) &&& 0xff : Nat), (tmp &&& 0xfff : Nat)]
  | some RTL_TCP_COMMANDS.UDP_TERMINATE =>
    ({ st with running := false }, (w.call ApiFn.sighandler [0]).2.2)
  | some RTL_TCP_COMMANDS.SET_TUNER_BW_IF_CENTER =>
    call_report st w ApiFn.rtlsdr_set_tuner_band_center [itmp]
  | some RTL_TCP_COMMANDS.SET_TUNER_IF_MODE => call_report st w ApiFn.rtlsdr_set_tuner_if_mode [itmp]
  | some RTL_TCP_COMMANDS.SET_SIDEBAND =>
    call_lock st w ApiFn.rtlsdr_set_tuner_sideband [if tmp ≠ 0 then 1 else 0]
  | some RTL_TCP_COMMANDS.REPORT_I2C_REGS =>
    ({ st with report_i2c := if tmp ≠ 0 then 1 else 0 }, w)
  | some RTL_TCP_COMMANDS.GPIO_SET_OUTPUT_MODE =>
    if 0 ≤ itmp ∧ itmp < 8 then call_report st w ApiFn.rtlsdr_set_gpio_output [itmp] else (st, w)
  | some RTL_TCP_COMMANDS.GPIO_SET_INPUT_MODE =>
    if 0 ≤ itmp ∧ itmp < 8 then call_report st w ApiFn.rtlsdr_set_gpio_input [itmp] else (st, w)
  | some RTL_TCP_COMMANDS.GPIO_GET_IO_STATUS => call_report st w ApiFn.rtlsdr_set_gpio_status []
  | some RTL_TCP_COMMANDS.GPIO_WRITE_PIN =>
    if (tmp >>> 16) &&& 0xffff < 8 then
      let w1 := (w.call ApiFn.rtlsdr_set_gpio_output [((tmp >>> 16) &&& 0xffff : Nat)]).2.2
      (st, (w1.call ApiFn.rtlsdr_set_gpio_bit
        [((tmp >>> 16) &&& 0xffff : Nat), (tmp &&& 0xffff : Nat)]).2.2)
    else (st, w)
  | some RTL_TCP_COMMANDS.GPIO_READ_PIN =>
    if 0 ≤ itmp ∧ itmp < 8 then call_report st w ApiFn.rtlsdr_get_gpio_bit [itmp] else (st, w)
  | some RTL_TCP_COMMANDS.GPIO_GET_BYTE => call_report st w ApiFn.rtlsdr_get_gpio_byte []
  | some RTL_TCP_COMMANDS.IS_TUNER_PLL_LOCKED =>
    let (tu, it, w1) := check_tuner_pll st.tuner_unsupported (-1) w
    ({ st with
        tuner_unsupported := tu,
        last_lock_report := if it ≠ -1 then it else st.last_lock_report,
        tuner_check_timeout := 0 }, w1)
  | none => (st, w)

/-- One round of `command_worker` once the five bytes of a frame have been
received into the packed `struct command`: the first byte is the code, the other
four are the parameter in network byte order.  `ext` gives the codes of the
commands beyond 0x10. -/
def command_frame (ext : Nat → Option RTL_TCP_COMMANDS) (st : CmdState)
    (c p3 p2 p1 p0 : Nat) (w : ApiWorld) : CmdState × ApiWorld :=
  command_switch st (command_of_code ext (c % 256)) (ntohl p3 p2 p1 p0) w

/-- The state of `command_worker` when the thread starts (rtl_tcp.c 352-366). -/
def CmdState.init : CmdState :=
  { freqhi := 0, tuner_check_timeout := 0, last_lock_report := -1, tuner_unsupported := 0,
    bandwidth := 0, report_i2c := 0, running := true }

/-- An environment of the command reader in which every call returns 0. -/
def ApiWorld.ok : ApiWorld := { trace := [], ret := fun _ => 0, out := fun _ => 0 }

end RtlTcp

/-! ## Theorems -/

namespace RtlTcp

/-- C1 (evaluation at the failing input): with queue bound `llbuf_num = 1`, four
pushes into the empty queue leave four items queued, more than the bound. -/
theorem C1_queue_exceeds_bound :
    (pushAll 1 (TcpState.init Nat) [1, 2, 3, 4]).ll_buffers = [1, 2, 3, 4] ∧
    ¬ ((pushAll 1 (TcpState.init Nat) [1, 2, 3, 4]).ll_buffers.length ≤ 1) := by
  decide

/-- C2 (evaluation at the failing input): with queue bound 3, pushing the buffers
labelled 1..5 and then letting the consumer take the queue delivers all five
labels `1,2,3,4,5`, not `3,4,5`. -/
theorem C2_bound3_push5_delivers_all :
    (tcp_worker (pushAll 3 (TcpState.init Nat) [1, 2, 3, 4, 5])).1 = [1, 2, 3, 4, 5] ∧
    (tcp_worker (pushAll 3 (TcpState.init Nat) [1, 2, 3, 4, 5])).1 ≠ [3, 4, 5] := by
  decide

/-- A push with a non-negative bound either appends to the list or removes the
head node and appends; nothing else happens to the list. -/
theorem rtlsdr_callback_shape {α : Type} (llbuf_num : Int) (h : 0 ≤ llbuf_num)
    (st : TcpState α) (rpt : α) :
    (rtlsdr_callback false llbuf_num st rpt).ll_buffers = st.ll_buffers ++ [rpt] ∨
    (rtlsdr_callback false llbuf_num st rpt).ll_buffers = st.ll_buffers.tail ++ [rpt] := by
  obtain ⟨q, g⟩ := st
  cases q with
  | nil => left; simp [rtlsdr_callback]
  | cons hd tl =>
    by_cases hd' : llbuf_num ≠ 0 ∧ llbuf_num = (tl.length : Int) - 2
    · cases tl with
      | nil =>
        exfalso
        have := hd'.2
        simp at this
        omega
      | cons x xs =>
        right
        simp only [rtlsdr_callback, Bool.false_eq_true, if_false, if_pos hd', List.tail_cons]
    · left
      simp only [rtlsdr_callback, Bool.false_eq_true, if_false, if_neg hd']

/-- The invariant behind the ordering property: what has been sent followed by
what is still queued is a subsequence of what has been pushed. -/
theorem runQueue_sublist {α : Type} (llbuf_num : Int) (h : 0 ≤ llbuf_num)
    (ops : List (QueueOp α)) :
    ∀ (sent : List α) (st : TcpState α) (done : List α),
      (sent ++ st.ll_buffers).Sublist done →
      ((runQueue llbuf_num ops (sent, st)).1 ++
        (runQueue llbuf_num ops (sent, st)).2.ll_buffers).Sublist (done ++ pushed ops) := by
  induction ops with
  | nil => intro sent st done hs; simpa [runQueue, pushed] using hs
  | cons op ops ih =>
    intro sent st done hs
    cases op with
    | push b =>
      have key : (sent ++ (rtlsdr_callback false llbuf_num st b).ll_buffers).Sublist
          (done ++ [b]) := by
        rcases rtlsdr_callback_shape llbuf_num h st b with e | e
        · rw [e, ← List.append_assoc]
          exact List.Sublist.append hs (List.Sublist.refl _)
        · rw [e, ← List.append_assoc]
          refine List.Sublist.append ?_ (List.Sublist.refl _)
          exact List.Sublist.trans
            (List.Sublist.append (List.Sublist.refl _) (List.tail_sublist _)) hs
      have := ih sent (rtlsdr_callback false llbuf_num st b) (done ++ [b]) key
      simpa [runQueue, pushed] using this
    | drain =>
      have key : ((sent ++ (tcp_worker st).1) ++ (tcp_worker st).2.ll_buffers).Sublist done := by
        simpa [tcp_worker] using hs
      have := ih (sent ++ (tcp_worker st).1) (tcp_worker st).2 done key
      simpa [runQueue, pushed] using this

/-- C3: for every queue bound `llbuf_num ≥ 0` and every interleaving of pushes and
consumer drains from the empty queue, the buffers the consumer has obtained
once it finally takes the queue form a subsequence of the pushed buffers in push
order; every push leaves the list either extended at the tail or with exactly
its head node removed and then extended at the tail; and the newly pushed buffer
is always the last element. -/
theorem C3_fifo_order_head_drop_only {α : Type} (llbuf_num : Int) (h : 0 ≤ llbuf_num) :
    (∀ ops : List (QueueOp α),
      (runQueue llbuf_num (ops ++ [QueueOp.drain]) ([], TcpState.init α)).1.Sublist
        (pushed ops)) ∧
    (∀ (st : TcpState α) (rpt : α),
      ((rtlsdr_callback false llbuf_num st rpt).ll_buffers = st.ll_buffers ++ [rpt] ∨
       (rtlsdr_callback false llbuf_num st rpt).ll_buffers = st.ll_buffers.tail ++ [rpt]) ∧
      (rtlsdr_callback false llbuf_num st rpt).ll_buffers.getLast? = some rpt) := by
  refine ⟨?_, ?_⟩
  · intro ops
    have hp : pushed (ops ++ [QueueOp.drain]) = pushed ops := by
      induction ops with
      | nil => rfl
      | cons op ops ih => cases op <;> simp [pushed, ih]
    have hq : ∀ (l : List (QueueOp α)) (acc : List α × TcpState α),
        (runQueue llbuf_num (l ++ [QueueOp.drain]) acc).2.ll_buffers = [] := by
      intro l
      induction l with
      | nil => intro acc; obtain ⟨s, t⟩ := acc; simp [runQueue, tcp_worker]
      | cons op l ih =>
        intro acc; obtain ⟨s, t⟩ := acc
        cases op <;> simpa [runQueue] using ih _
    have := runQueue_sublist llbuf_num h (ops ++ [QueueOp.drain]) [] (TcpState.init α) []
      (by simp [TcpState.init])
    rw [hq, hp] at this
    simpa using this
  · intro st rpt
    refine ⟨rtlsdr_callback_shape llbuf_num h st rpt, ?_⟩
    rcases rtlsdr_callback_shape llbuf_num h st rpt with e | e <;> rw [e] <;> simp

/-- C3 witness: bound 2, pushes 1..6 with a drain after the second push. -/
theorem C3_fifo_order_head_drop_only_witness :
    (0 : Int) ≤ 2 ∧
    ((∀ ops : List (QueueOp Nat),
      (runQueue 2 (ops ++ [QueueOp.drain]) ([], TcpState.init Nat)).1.Sublist (pushed ops)) ∧
    (∀ (st : TcpState Nat) (rpt : Nat),
      ((rtlsdr_callback false 2 st rpt).ll_buffers = st.ll_buffers ++ [rpt] ∨
       (rtlsdr_callback false 2 st rpt).ll_buffers = st.ll_buffers.tail ++ [rpt]) ∧
      (rtlsdr_callback false 2 st rpt).ll_buffers.getLast? = some rpt)) :=
  ⟨by decide, C3_fifo_order_head_drop_only 2 (by decide)⟩

end RtlTcp

namespace LibRtlSdr

/-! ### FIR encoding -/

/-- OR-ing a value below 16 into a multiple of 16 adds it. -/
theorem or_shift4 (a b : Nat) (hb : b < 16) : (16 * a) ||| b = 16 * a + b := by
  have := Nat.mul_add_lt_is_or (i := 4) (b := b) (by simpa using hb) a
  simpa using this.symm

/-- OR-ing a value below 256 into a multiple of 256 adds it. -/
theorem or_shift8 (a b : Nat) (hb : b < 256) : (256 * a) ||| b = 256 * a + b := by
  have := Nat.mul_add_lt_is_or (i := 8) (b := b) (by simpa using hb) a
  simpa using this.symm

/-- Masking with `0x0f` is the remainder modulo 16. -/
theorem and_15 (x : Nat) : x &&& 15 = x % 16 := by
  have := Nat.and_pow_two_sub_one_eq_mod x 4
  simpa using this

/-- An 8-bit tap survives the conversion to `uint8_t` and sign extension. -/
theorem sign_extend_8_byte (v : Int) (h1 : -128 ≤ v) (h2 : v ≤ 127) :
    sign_extend 8 (bits32 v % 256) = v := by
  unfold sign_extend bits32
  norm_num
  split <;> omega

/-- Two 12-bit taps survive the packing into three bytes and the unpacking. -/
theorem fir_pair_roundtrip (v0 v1 : Int) (h0 : -2048 ≤ v0) (h0' : v0 ≤ 2047)
    (h1 : -2048 ≤ v1) (h1' : v1 ≤ 2047) :
    sign_extend 12 (((bits32 (v0 >>> (4 : Nat)) % 256) <<< 4) |||
        (((bits32 (v0 * 16) ||| (bits32 (v1 >>> (8 : Nat)) &&& 0x0f)) % 256) >>> 4)) = v0 ∧
    sign_extend 12 (((((bits32 (v0 * 16) ||| (bits32 (v1 >>> (8 : Nat)) &&& 0x0f)) % 256) &&& 0xf) <<< 8) |||
        (bits32 v1 % 256)) = v1 := by
  have e1 : bits32 (v0 * 16) = 16 * (bits32 (v0 * 16) / 16) := by
    unfold bits32; omega
  have hy : bits32 (v1 >>> (8 : Nat)) &&& 0x0f < 16 := by rw [and_15]; omega
  rw [e1, or_shift4 _ _ hy, and_15, and_15, Nat.shiftLeft_eq, Nat.shiftLeft_eq,
    Nat.shiftRight_eq_div_pow, Int.shiftRight_eq_div_pow, Int.shiftRight_eq_div_pow]
  norm_num
  have hA : ∀ a b : Nat, b < 16 → a * 16 ||| b = a * 16 + b := fun a b hb => by
    rw [Nat.mul_comm, or_shift4 _ _ hb]
  have hB : ∀ a b : Nat, b < 256 → a * 256 ||| b = a * 256 + b := fun a b hb => by
    rw [Nat.mul_comm, or_shift8 _ _ hb]
  rw [hA _ _ (by omega), hB _ _ (by omega)]
  unfold sign_extend bits32
  norm_num
  constructor <;> split <;> omega

/-- A list of length sixteen is a list of sixteen named elements. -/
theorem list_of_length_16 {α : Type} (l : List α) (h : l.length = 16) :
    ∃ a0 a1 a2 a3 a4 a5 a6 a7 a8 a9 a10 a11 a12 a13 a14 a15 : α, l = [a0, a1, a2, a3, a4, a5, a6, a7, a8, a9, a10, a11, a12, a13, a14, a15] := by
  rcases l with _ | ⟨a0, l⟩
  · simp at h
  rcases l with _ | ⟨a1, l⟩
  · simp at h
  rcases l with _ | ⟨a2, l⟩
  · simp at h
  rcases l with _ | ⟨a3, l⟩
  · simp at h
  rcases l with _ | ⟨a4, l⟩
  · simp at h
  rcases l with _ | ⟨a5, l⟩
  · simp at h
  rcases l with _ | ⟨a6, l⟩
  · simp at h
  rcases l with _ | ⟨a7, l⟩
  · simp at h
  rcases l with _ | ⟨a8, l⟩
  · simp at h
  rcases l with _ | ⟨a9, l⟩
  · simp at h
  rcases l with _ | ⟨a10, l⟩
  · simp at h
  rcases l with _ | ⟨a11, l⟩
  · simp at h
  rcases l with _ | ⟨a12, l⟩
  · simp at h
  rcases l with _ | ⟨a13, l⟩
  · simp at h
  rcases l with _ | ⟨a14, l⟩
  · simp at h
  rcases l with _ | ⟨a15, l⟩
  · simp at h
  rcases l with _ | ⟨x, l⟩
  · exact ⟨a0, a1, a2, a3, a4, a5, a6, a7, a8, a9, a10, a11, a12, a13, a14, a15, rfl⟩
  · simp at h

/-- In-range taps are encoded (no `return -1`) into twenty bytes that decode
back to the taps. -/
theorem fir_bytes_roundtrip (fir : List Int) (h : fir_in_range fir) :
    ∃ bytes, fir_bytes fir = some bytes ∧ bytes.length = 20 ∧ fir_decode bytes = fir := by
  obtain ⟨hlen, hlow, hhigh⟩ := h
  obtain ⟨a0, a1, a2, a3, a4, a5, a6, a7, a8, a9, a10, a11, a12, a13, a14, a15, rfl⟩ :=
    list_of_length_16 fir hlen
  have l0 := hlow 0 (by norm_num)
  have l1 := hlow 1 (by norm_num)
  have l2 := hlow 2 (by norm_num)
  have l3 := hlow 3 (by norm_num)
  have l4 := hlow 4 (by norm_num)
  have l5 := hlow 5 (by norm_num)
  have l6 := hlow 6 (by norm_num)
  have l7 := hlow 7 (by norm_num)
  have l8 := hhigh 8 (by norm_num) (by norm_num)
  have l9 := hhigh 9 (by norm_num) (by norm_num)
  have l10 := hhigh 10 (by norm_num) (by norm_num)
  have l11 := hhigh 11 (by norm_num) (by norm_num)
  have l12 := hhigh 12 (by norm_num) (by norm_num)
  have l13 := hhigh 13 (by norm_num) (by norm_num)
  have l14 := hhigh 14 (by norm_num) (by norm_num)
  have l15 := hhigh 15 (by norm_num) (by norm_num)
  simp only [List.getD_cons_zero, List.getD_cons_succ] at l0 l1 l2 l3 l4 l5 l6 l7
  simp only [List.getD_cons_zero, List.getD_cons_succ] at l8 l9 l10 l11 l12 l13 l14 l15
  have n0 : ¬ (a0 < -128 ∨ a0 > 127) := by omega
  have n1 : ¬ (a1 < -128 ∨ a1 > 127) := by omega
  have n2 : ¬ (a2 < -128 ∨ a2 > 127) := by omega
  have n3 : ¬ (a3 < -128 ∨ a3 > 127) := by omega
  have n4 : ¬ (a4 < -128 ∨ a4 > 127) := by omega
  have n5 : ¬ (a5 < -128 ∨ a5 > 127) := by omega
  have n6 : ¬ (a6 < -128 ∨ a6 > 127) := by omega
  have n7 : ¬ (a7 < -128 ∨ a7 > 127) := by omega
  have m0 : ¬ (a8 < -2048 ∨ a8 > 2047 ∨ a9 < -2048 ∨ a9 > 2047) := by omega
  have m1 : ¬ (a10 < -2048 ∨ a10 > 2047 ∨ a11 < -2048 ∨ a11 > 2047) := by omega
  have m2 : ¬ (a12 < -2048 ∨ a12 > 2047 ∨ a13 < -2048 ∨ a13 > 2047) := by omega
  have m3 : ¬ (a14 < -2048 ∨ a14 > 2047 ∨ a15 < -2048 ∨ a15 > 2047) := by omega
  have p0 := fir_pair_roundtrip a8 a9 l8.1 l8.2 l9.1 l9.2
  have p1 := fir_pair_roundtrip a10 a11 l10.1 l10.2 l11.1 l11.2
  have p2 := fir_pair_roundtrip a12 a13 l12.1 l12.2 l13.1 l13.2
  have p3 := fir_pair_roundtrip a14 a15 l14.1 l14.2 l15.1 l15.2
  have hb : fir_bytes [a0, a1, a2, a3, a4, a5, a6, a7, a8, a9, a10, a11, a12, a13, a14, a15] =
      some [bits32 a0 % 256, bits32 a1 % 256, bits32 a2 % 256, bits32 a3 % 256, bits32 a4 % 256, bits32 a5 % 256, bits32 a6 % 256, bits32 a7 % 256,
        bits32 (a8 >>> (4 : Nat)) % 256, (bits32 (a8 * 16) ||| (bits32 (a9 >>> (8 : Nat)) &&& 0x0f)) % 256, bits32 a9 % 256,
        bits32 (a10 >>> (4 : Nat)) % 256, (bits32 (a10 * 16) ||| (bits32 (a11 >>> (8 : Nat)) &&& 0x0f)) % 256, bits32 a11 % 256,
        bits32 (a12 >>> (4 : Nat)) % 256, (bits32 (a12 * 16) ||| (bits32 (a13 >>> (8 : Nat)) &&& 0x0f)) % 256, bits32 a13 % 256,
        bits32 (a14 >>> (4 : Nat)) % 256, (bits32 (a14 * 16) ||| (bits32 (a15 >>> (8 : Nat)) &&& 0x0f)) % 256, bits32 a15 % 256] := by
    simp only [fir_bytes, fir_loop, fir_low_body, fir_high_body, List.getD_cons_zero,
      List.getD_cons_succ, if_neg n0, if_neg n1, if_neg n2, if_neg n3, if_neg n4, if_neg n5,
      if_neg n6, if_neg n7, if_neg m0, if_neg m1, if_neg m2, if_neg m3]
    rfl
  refine ⟨_, hb, by simp, ?_⟩
  simp only [fir_decode, List.map, List.range, List.range.loop, List.flatten, List.getD_cons_zero,
      List.getD_cons_succ, List.cons_append, List.nil_append, List.append_nil]
  simp only [sign_extend_8_byte _ l0.1 l0.2, sign_extend_8_byte _ l1.1 l1.2,
      sign_extend_8_byte _ l2.1 l2.2, sign_extend_8_byte _ l3.1 l3.2,
      sign_extend_8_byte _ l4.1 l4.2, sign_extend_8_byte _ l5.1 l5.2,
      sign_extend_8_byte _ l6.1 l6.2, sign_extend_8_byte _ l7.1 l7.2]
  rw [p0.1, p0.2, p1.1, p1.2, p2.1, p2.2, p3.1, p3.2]

/-- C7: for every sixteen taps with taps 0..7 in `[-128,127]` and taps 8..15 in
`[-2048,2047]`, `rtlsdr_set_fir` builds twenty bytes (it then writes exactly
these), and decoding them under the inverse of the layout (sign-extended 8-bit
fields, then 12-bit pairs out of byte triples) gives back the same sixteen taps;
hence two in-range tap vectors with the same bytes are equal. -/
theorem C7_fir_encode_decode_roundtrip (fir : List Int) (h : fir_in_range fir) :
    (∃ bytes, fir_bytes fir = some bytes ∧ bytes.length = 20 ∧ fir_decode bytes = fir ∧
      ∀ (dev : rtlsdr_dev) (w : World), dev.fir = fir →
        rtlsdr_set_fir dev w = fir_write_loop bytes 0 w) ∧
    (∀ fir' : List Int, fir_in_range fir' → fir_bytes fir' = fir_bytes fir → fir' = fir) := by
  obtain ⟨bytes, hb, hl, hd⟩ := fir_bytes_roundtrip fir h
  refine ⟨⟨bytes, hb, hl, hd, ?_⟩, ?_⟩
  · intro dev w hdev
    simp [rtlsdr_set_fir, hdev, hb]
  · intro fir' h' he
    obtain ⟨bytes', hb', _, hd'⟩ := fir_bytes_roundtrip fir' h'
    rw [hb, hb'] at he
    have : bytes' = bytes := Option.some.inj he
    rw [← hd, ← hd', this]

/-- C7 witness: the default coefficients `fir_default`. -/
theorem C7_fir_encode_decode_roundtrip_witness :
    fir_in_range fir_default ∧
    ((∃ bytes, fir_bytes fir_default = some bytes ∧ bytes.length = 20 ∧
        fir_decode bytes = fir_default ∧
        ∀ (dev : rtlsdr_dev) (w : World), dev.fir = fir_default →
          rtlsdr_set_fir dev w = fir_write_loop bytes 0 w) ∧
     (∀ fir' : List Int, fir_in_range fir' → fir_bytes fir' = fir_bytes fir_default →
        fir' = fir_default)) :=
  ⟨by decide, C7_fir_encode_decode_roundtrip fir_default (by decide)⟩

/-- A loop returns `-1` as soon as one of its bodies does. -/
theorem fir_loop_eq_none (body : Nat → Option (List Nat)) (l : List Nat) (i : Nat)
    (hi : i ∈ l) (hb : body i = none) : fir_loop body l = none := by
  induction l with
  | nil => simp at hi
  | cons j rest ih =>
    rcases List.mem_cons.mp hi with rfl | h
    · simp [fir_loop, hb]
    · simp only [fir_loop]
      cases body j with
      | none => rfl
      | some bs => simp [ih h]

/-- A tap outside its range makes the encoding loops return `-1`. -/
theorem fir_bytes_out_of_range (fir : List Int)
    (h : (∃ i, i < 8 ∧ (fir.getD i 0 < -128 ∨ fir.getD i 0 > 127)) ∨
         (∃ i, 8 ≤ i ∧ i < 16 ∧ (fir.getD i 0 < -2048 ∨ fir.getD i 0 > 2047))) :
    fir_bytes fir = none := by
  rcases h with ⟨i, hi, hr⟩ | ⟨i, hi8, hi16, hr⟩
  · have : fir_loop (fir_low_body fir) [0, 1, 2, 3, 4, 5, 6, 7] = none := by
      apply fir_loop_eq_none _ _ i
      · interval_cases i <;> simp
      · simp only [fir_low_body, if_pos hr]
    simp [fir_bytes, this]
  · have : fir_loop (fir_high_body fir) [0, 2, 4, 6] = none := by
      apply fir_loop_eq_none _ _ ((i - 8) / 2 * 2)
      · interval_cases i <;> simp
      · interval_cases i <;> simp [fir_high_body, -List.getD_eq_getElem?_getD] <;> omega
    unfold fir_bytes
    rw [this]
    cases fir_loop (fir_low_body fir) [0, 1, 2, 3, 4, 5, 6, 7] <;> rfl

/-- When every control-out transfer reports one byte written, the write loop
returns 0 and issues exactly the expected calls. -/
theorem fir_write_loop_ok (bytes : List Nat) :
    ∀ (i : Nat) (w : World), (∀ b ∈ bytes, b < 256) →
      (∀ k, k < bytes.length → w.ret (w.trace.length + 2 * k) = 1) →
      (fir_write_loop bytes i w).1 = 0 ∧
      (fir_write_loop bytes i w).2.trace = w.trace ++ fir_events bytes i ∧
      (fir_write_loop bytes i w).2.ret = w.ret := by
  induction bytes with
  | nil => intro i w _ _; simp [fir_write_loop, fir_events]
  | cons b bs ih =>
    intro i w hb hr
    have h0 := hr 0 (by simp)
    have hb0 : b < 256 := hb b (by simp)
    have hand : b &&& 255 = b := by
      have := Nat.and_pow_two_sub_one_eq_mod b 8
      norm_num at this
      rw [this]; omega
    simp only [Nat.mul_zero, Nat.add_zero] at h0
    have step : rtlsdr_demod_write_reg w 1 (0x1c + i) b 1 =
        (0, { w with trace := w.trace ++ [Event.control_out ((((0x1c + i) <<< 8) ||| 0x20) % 65536) 0x11 [b],
                Event.control_in 288 10 1] }) := by
      simp [rtlsdr_demod_write_reg, rtlsdr_demod_read_reg, World.call, h0, hand]
    simp only [fir_write_loop, step]
    have := ih (i + 1) { w with trace := w.trace ++ [Event.control_out ((((0x1c + i) <<< 8) ||| 0x20) % 65536) 0x11 [b],
                Event.control_in 288 10 1] } (fun x hx => hb x (by simp [hx])) (by
        intro k hk
        have := hr (k + 1) (by simpa using hk)
        simp only [List.length_append, List.length_cons, List.length_nil]
        rw [← this]; congr 1; omega)
    simp only [ne_eq, not_true_eq_false, if_false]
    refine ⟨this.1, ?_, this.2.2⟩
    rw [this.2.1]
    simp [fir_events]


/-- Every byte produced by a loop whose bodies produce bytes is a byte. -/
theorem fir_loop_lt_256 (body : Nat → Option (List Nat))
    (hbody : ∀ i bs, body i = some bs → ∀ b ∈ bs, b < 256) :
    ∀ (l : List Nat) (out : List Nat), fir_loop body l = some out → ∀ b ∈ out, b < 256 := by
  intro l
  induction l with
  | nil => intro out h b hb; simp [fir_loop] at h; subst h; simp at hb
  | cons j rest ih =>
    intro out h b hb
    simp only [fir_loop] at h
    cases hj : body j with
    | none => simp [hj] at h
    | some bs =>
      cases hrest : fir_loop body rest with
      | none => simp [hj, hrest] at h
      | some more =>
        simp [hj, hrest] at h
        subst h
        rcases List.mem_append.mp hb with h1 | h1
        · exact hbody j bs hj b h1
        · exact ih more hrest b h1

/-- Every entry of the local array `fir[20]` is a byte. -/
theorem fir_bytes_lt_256 (fir : List Int) (bytes : List Nat) (h : fir_bytes fir = some bytes) :
    ∀ b ∈ bytes, b < 256 := by
  unfold fir_bytes at h
  cases hlo : fir_loop (fir_low_body fir) [0, 1, 2, 3, 4, 5, 6, 7] with
  | none => simp [hlo] at h
  | some lo =>
    cases hhi : fir_loop (fir_high_body fir) [0, 2, 4, 6] with
    | none => simp [hlo, hhi] at h
    | some hi =>
      simp [hlo, hhi] at h
      subst h
      intro b hb
      rcases List.mem_append.mp hb with h1 | h1
      · refine fir_loop_lt_256 (fir_low_body fir) ?_ _ lo hlo b h1
        intro i bs hbs x hx
        simp only [fir_low_body] at hbs
        split at hbs
        · simp at hbs
        · simp at hbs; subst hbs; simp at hx; subst hx; omega
      · refine fir_loop_lt_256 (fir_high_body fir) ?_ _ hi hhi b h1
        intro i bs hbs x hx
        simp only [fir_high_body] at hbs
        split at hbs
        · simp at hbs
        · simp at hbs; subst hbs; simp at hx; rcases hx with rfl | rfl | rfl <;> omega

/-- C8: `rtlsdr_set_fir` returns the error `-1` (before any register write)
whenever one of taps 0..7 lies outside `[-128,127]` or one of taps 8..15 lies
outside `[-2048,2047]`; when all sixteen taps are in range and each of the twenty
control-out transfers reports its byte written, it returns 0 and the calls it
made are exactly the writes of the twenty encoded bytes to demod page 1 registers
`0x1c`, `0x1d`, ..., `0x2f` in this order (each followed by the dummy read). -/
theorem C8_set_fir_error_and_success (dev : rtlsdr_dev) (w : World) :
    (((∃ i, i < 8 ∧ (dev.fir.getD i 0 < -128 ∨ dev.fir.getD i 0 > 127)) ∨
      (∃ i, 8 ≤ i ∧ i < 16 ∧ (dev.fir.getD i 0 < -2048 ∨ dev.fir.getD i 0 > 2047))) →
        rtlsdr_set_fir dev w = (-1, w)) ∧
    (fir_in_range dev.fir → (∀ k, k < 20 → w.ret (w.trace.length + 2 * k) = 1) →
      ∃ bytes, fir_bytes dev.fir = some bytes ∧ bytes.length = 20 ∧
        (rtlsdr_set_fir dev w).1 = 0 ∧
        (rtlsdr_set_fir dev w).2.trace = w.trace ++ fir_events bytes 0) := by
  refine ⟨?_, ?_⟩
  · intro h
    simp [rtlsdr_set_fir, fir_bytes_out_of_range dev.fir h]
  · intro h hr
    obtain ⟨bytes, hb, hl, _⟩ := fir_bytes_roundtrip dev.fir h
    have := fir_write_loop_ok bytes 0 w (fir_bytes_lt_256 dev.fir bytes hb) (by rw [hl]; exact hr)
    refine ⟨bytes, hb, hl, ?_, ?_⟩
    · simp only [rtlsdr_set_fir, hb]; exact this.1
    · simp only [rtlsdr_set_fir, hb]; exact this.2.1

/-- C8 witness: a first tap of 200 is rejected; the default taps are written
when every transfer reports one byte. -/
theorem C8_set_fir_error_and_success_witness :
    rtlsdr_set_fir { rtlsdr_dev.zero with fir := [200, 0, 0, 0, 0, 0, 0, 0, 0, 0, 0, 0, 0, 0, 0, 0] }
        (World.const 1) = (-1, World.const 1) ∧
    (∃ bytes, fir_bytes rtlsdr_dev.zero.fir = some bytes ∧ bytes.length = 20 ∧
        (rtlsdr_set_fir rtlsdr_dev.zero (World.const 1)).1 = 0 ∧
        (rtlsdr_set_fir rtlsdr_dev.zero (World.const 1)).2.trace =
          (World.const 1).trace ++ fir_events bytes 0) :=
  ⟨(C8_set_fir_error_and_success
      { rtlsdr_dev.zero with fir := [200, 0, 0, 0, 0, 0, 0, 0, 0, 0, 0, 0, 0, 0, 0, 0] }
      (World.const 1)).1 (Or.inl ⟨0, by decide, Or.inr (by decide)⟩),
   (C8_set_fir_error_and_success rtlsdr_dev.zero (World.const 1)).2 (by decide)
      (fun _ _ => rfl)⟩

/-! ### Center frequency -/

/-- `rtlsdr_set_if_freq` writes only `last_if_freq` and the one-shot override flag. -/
theorem set_if_freq_dev (dev : rtlsdr_dev) (freq : Nat) (w : World) :
    (rtlsdr_set_if_freq dev freq w).2.1 =
      { dev with
        last_if_freq := int_of_bits32 freq,
        override_if_flag := if dev.override_if_flag = 1 then 0 else dev.override_if_flag } := by
  unfold rtlsdr_set_if_freq
  simp only []
  by_cases h : dev.override_if_flag = 0
  · simp [h]
  · by_cases h1 : dev.override_if_flag = 1
    · simp [h, h1]
    · simp [h, h1]

/-- `rtlsdr_set_if_freq` keeps the frequency and the direct-sampling mode. -/
theorem set_if_freq_frame (dev : rtlsdr_dev) (freq : Nat) (w : World) :
    ds_frame dev (rtlsdr_set_if_freq dev freq w).2.1 := by
  rw [set_if_freq_dev]; exact ⟨rfl, rfl, rfl⟩

/-- After the tail the stored frequency is `freq` when `r` is 0 and 0 otherwise. -/
theorem set_center_freq_tail_freq (dev : rtlsdr_dev) (freq : Nat) (w : World) :
    (set_center_freq_tail dev freq w).2.1.freq =
      if (set_center_freq_tail dev freq w).1 = 0 then freq else 0 := rfl

/-- A tuner `init` keeps the frequency and the direct-sampling mode. -/
theorem tuner_init_frame (t : rtlsdr_tuner) (f : rtlsdr_dev → World → Int × rtlsdr_dev × World)
    (h : tuner_init t = some f) (dev : rtlsdr_dev) (w : World) :
    ds_frame dev (f dev w).2.1 := by
  cases t <;> simp [tuner_init] at h <;> subst h <;> exact ⟨rfl, rfl, rfl⟩

/-- The register programming of `rtlsdr_set_direct_sampling` keeps the frequency
and the mode and sets `direct_sampling` to its argument. -/
theorem set_direct_sampling_regs_frame (dev : rtlsdr_dev) (on_ : Int) (w : World) :
    ds_frame dev (set_direct_sampling_regs dev on_ w).2.1 ∧
    (set_direct_sampling_regs dev on_ w).2.1.direct_sampling = on_ := by
  unfold set_direct_sampling_regs
  by_cases h : on_ = 0
  · subst h
    simp only [ne_eq, not_true_eq_false, if_false]
    unfold set_direct_sampling_off
    have hi : ds_frame dev (set_direct_sampling_init dev w).2.1 := by
      unfold set_direct_sampling_init
      cases ht : dev.tuner.bind tuner_init with
      | none => exact ⟨rfl, rfl, rfl⟩
      | some f =>
        cases hd : dev.tuner with
        | none => simp [hd] at ht
        | some t =>
          simp [hd] at ht
          exact tuner_init_frame t f ht dev _
    simp only []
    split
    · have := set_if_freq_frame (set_direct_sampling_init dev w).2.1 R82XX_IF_FREQ (set_direct_sampling_init dev w).2.2
      unfold ds_frame at *
      refine ⟨⟨?_, ?_, ?_⟩, by first | rfl | trivial⟩
      · exact this.1.trans hi.1
      · exact this.2.1.trans hi.2.1
      · exact this.2.2.trans hi.2.2
    · have := set_if_freq_frame (set_direct_sampling_init dev w).2.1 0 (set_direct_sampling_init dev w).2.2
      unfold ds_frame at *
      refine ⟨⟨?_, ?_, ?_⟩, by first | rfl | trivial⟩
      · exact this.1.trans hi.1
      · exact this.2.1.trans hi.2.1
      · exact this.2.2.trans hi.2.2
  · simp only [ne_eq, h, not_false_eq_true, if_true]
    unfold set_direct_sampling_on
    exact ⟨⟨rfl, rfl, rfl⟩, rfl⟩



/-- `new_ds` at the stored frequency depends on the frame fields only. -/
theorem update_ds_new_frame (d d' : rtlsdr_dev) (h : ds_frame d d') :
    update_ds_new d' d'.freq = update_ds_new d d.freq := by
  obtain ⟨h1, h2, h3⟩ := h
  unfold update_ds_new
  rw [h1, h2, h3]

/-- `rtlsdr_update_ds` returns as soon as the nested call of
`rtlsdr_set_center_freq` does. -/
theorem update_ds_isSome (scf : SetCenterFreq) (dev : rtlsdr_dev) (freq : Nat) (w : World)
    (h : ∀ (d : rtlsdr_dev) (w' : World), ds_frame dev d →
      d.direct_sampling = update_ds_new dev freq → (scf d d.freq w').isSome) :
    (rtlsdr_update_ds scf dev freq w).isSome := by
  unfold rtlsdr_update_ds
  simp only []
  split
  · rfl
  · split
    · unfold rtlsdr_set_direct_sampling
      have hf := set_direct_sampling_regs_frame dev (update_ds_new dev freq) w
      have := h _ (set_direct_sampling_regs dev (update_ds_new dev freq) w).2.2 hf.1 hf.2
      cases hs : scf (set_direct_sampling_regs dev (update_ds_new dev freq) w).2.1
          (set_direct_sampling_regs dev (update_ds_new dev freq) w).2.1.freq
          (set_direct_sampling_regs dev (update_ds_new dev freq) w).2.2 with
      | none => rw [hs] at this; simp at this
      | some res => rfl
    · rfl

/-- One level of `rtlsdr_set_center_freq` returns when its nested call does. -/
theorem set_center_freq_succ_isSome (k : Nat) (dev : rtlsdr_dev) (freq : Nat) (w : World)
    (h : ∀ (d : rtlsdr_dev) (w' : World), ds_frame dev d →
      d.direct_sampling = update_ds_new dev freq →
      (rtlsdr_set_center_freq k d d.freq w').isSome) :
    (rtlsdr_set_center_freq (k + 1) dev freq w).isSome := by
  unfold rtlsdr_set_center_freq
  split
  · rfl
  · split
    · have := update_ds_isSome (rtlsdr_set_center_freq k) dev freq w h
      cases hu : rtlsdr_update_ds (rtlsdr_set_center_freq k) dev freq w with
      | none => rw [hu] at this; simp at this
      | some res => rfl
    · rfl

/-- When the direct-sampling input already is what the mode asks for,
`rtlsdr_update_ds` changes nothing. -/
theorem update_ds_settled (scf : SetCenterFreq) (dev : rtlsdr_dev) (freq : Nat) (w : World)
    (h : dev.direct_sampling = update_ds_new dev freq) :
    ∃ r, rtlsdr_update_ds scf dev freq w = some (r, dev, w) := by
  unfold rtlsdr_update_ds
  simp only []
  by_cases h1 : dev.direct_sampling < 0
  · exact ⟨-1, by rw [if_pos h1]⟩
  · exact ⟨0, by rw [if_neg h1, if_neg (by simpa using h)]⟩

/-- When `rtlsdr_update_ds` has nothing to change, one level suffices. -/
theorem set_center_freq_isSome_of_settled (k : Nat) (dev : rtlsdr_dev) (freq : Nat) (w : World)
    (h : dev.direct_sampling = update_ds_new dev freq) :
    (rtlsdr_set_center_freq (k + 1) dev freq w).isSome := by
  obtain ⟨r, hr⟩ := update_ds_settled (rtlsdr_set_center_freq k) dev freq w h
  unfold rtlsdr_set_center_freq
  split
  · rfl
  · split
    · rw [hr]; rfl
    · rfl

/-- Retuning to the stored frequency returns with two levels. -/
theorem set_center_freq_isSome_same (k : Nat) (dev : rtlsdr_dev) (w : World) :
    (rtlsdr_set_center_freq (k + 2) dev dev.freq w).isSome := by
  apply set_center_freq_succ_isSome
  intro d w' hf hd
  apply set_center_freq_isSome_of_settled
  rw [hd, update_ds_new_frame dev d hf]

/-- `rtlsdr_set_center_freq` returns whenever it is given three levels of nested
calls: it is total. -/
theorem set_center_freq_isSome (fuel : Nat) (hf : 3 ≤ fuel) (dev : rtlsdr_dev) (freq : Nat)
    (w : World) : (rtlsdr_set_center_freq fuel dev freq w).isSome := by
  obtain ⟨k, rfl⟩ : ∃ k, fuel = k + 3 := ⟨fuel - 3, by omega⟩
  apply set_center_freq_succ_isSome
  intro d w' _ _
  exact set_center_freq_isSome_same k d w'

/-- With a bound tuner entry, the result of `rtlsdr_set_center_freq` is the
result of its tail on some device and environment. -/
theorem set_center_freq_eq_tail (fuel : Nat) (hf : 3 ≤ fuel) (dev : rtlsdr_dev) (freq : Nat)
    (w : World) (ht : dev.tuner ≠ none) :
    ∃ (d : rtlsdr_dev) (w' : World),
      rtlsdr_set_center_freq fuel dev freq w = some (set_center_freq_tail d freq w') := by
  have hs := set_center_freq_isSome fuel hf dev freq w
  obtain ⟨k, rfl⟩ : ∃ k, fuel = k + 1 := ⟨fuel - 1, by omega⟩
  unfold rtlsdr_set_center_freq at hs ⊢
  cases hd : dev.tuner with
  | none => exact absurd hd ht
  | some t =>
    simp only [hd] at hs ⊢
    split
    · rename_i hm
      cases hu : rtlsdr_update_ds (rtlsdr_set_center_freq k) dev freq w with
      | none => simp [hu] at hs; omega
      | some res => exact ⟨res.2.1, res.2.2, rfl⟩
    · exact ⟨dev, w, rfl⟩

/-- C9: for every device with a bound tuner entry (as every device returned by
`rtlsdr_open` has) and every frequency `freq`, `rtlsdr_set_center_freq` returns,
and afterwards `rtlsdr_get_center_freq` gives `freq` when the call returned 0
and gives 0 when it returned a non-zero result. -/
theorem C9_get_center_freq_after_set (fuel : Nat) (hf : 3 ≤ fuel) (dev : rtlsdr_dev)
    (freq : Nat) (w : World) (ht : dev.tuner ≠ none) :
    ∃ (r : Int) (dev' : rtlsdr_dev) (w' : World),
      rtlsdr_set_center_freq fuel dev freq w = some (r, dev', w') ∧
      (r = 0 → rtlsdr_get_center_freq dev' = freq) ∧
      (r ≠ 0 → rtlsdr_get_center_freq dev' = 0) := by
  obtain ⟨d, w1, h⟩ := set_center_freq_eq_tail fuel hf dev freq w ht
  refine ⟨(set_center_freq_tail d freq w1).1, (set_center_freq_tail d freq w1).2.1,
    (set_center_freq_tail d freq w1).2.2, h, ?_, ?_⟩
  · intro h0
    unfold rtlsdr_get_center_freq
    rw [set_center_freq_tail_freq, if_pos h0]
  · intro h0
    unfold rtlsdr_get_center_freq
    rw [set_center_freq_tail_freq, if_neg h0]


/-- C9 witness: an R820T device tuned to 100 MHz with three levels of fuel. -/
theorem C9_get_center_freq_after_set_witness :
    (3 : Nat) ≤ 3 ∧
    ({ rtlsdr_dev.zero with tuner := some rtlsdr_tuner.RTLSDR_TUNER_R820T } : rtlsdr_dev).tuner
      ≠ none ∧
    ∃ (r : Int) (dev' : rtlsdr_dev) (w' : World),
      rtlsdr_set_center_freq 3
        { rtlsdr_dev.zero with tuner := some rtlsdr_tuner.RTLSDR_TUNER_R820T } 100000000
        (World.const 0) = some (r, dev', w') ∧
      (r = 0 → rtlsdr_get_center_freq dev' = 100000000) ∧
      (r ≠ 0 → rtlsdr_get_center_freq dev' = 0) :=
  ⟨by decide, by decide,
   C9_get_center_freq_after_set 3 (by decide)
     { rtlsdr_dev.zero with tuner := some rtlsdr_tuner.RTLSDR_TUNER_R820T } 100000000
     (World.const 0) (by decide)⟩

/-! ### Stream engine guard -/

/-- C10: for every device whose stream state is not `RTLSDR_INACTIVE` (so it is
Running or Canceling), `rtlsdr_read_async` returns `-2` at once, whatever the
fuel and the environment: the device (stream state, callback, buffer count and
length, transfer ring, buffer ring and every other field) and the environment
trace are unchanged. -/
theorem C10_read_async_refuses_when_active (env : AsyncEnv) (fuel : Nat) (dev : rtlsdr_dev)
    (cb : Option Nat) (ctx buf_num buf_len : Nat) (w : World)
    (h : dev.async_status ≠ rtlsdr_async_status.RTLSDR_INACTIVE) :
    rtlsdr_read_async env fuel dev cb ctx buf_num buf_len w = some (-2, dev, w) := by
  unfold rtlsdr_read_async
  rw [if_pos h]

/-- C10 witness: a Running device with allocated rings. -/
theorem C10_read_async_refuses_when_active_witness :
    ({ rtlsdr_dev.zero with
        async_status := rtlsdr_async_status.RTLSDR_RUNNING, xfer_buf_num := 1,
        xfer := some [some { status := libusb_transfer_status.LIBUSB_TRANSFER_COMPLETED }],
        xfer_buf := some [true] } : rtlsdr_dev).async_status
      ≠ rtlsdr_async_status.RTLSDR_INACTIVE ∧
    rtlsdr_read_async { during_events := fun d w => (d, w) } 0
      { rtlsdr_dev.zero with
        async_status := rtlsdr_async_status.RTLSDR_RUNNING, xfer_buf_num := 1,
        xfer := some [some { status := libusb_transfer_status.LIBUSB_TRANSFER_COMPLETED }],
        xfer_buf := some [true] } (some 7) 0 15 512 (World.const 0) =
      some (-2,
        { rtlsdr_dev.zero with
          async_status := rtlsdr_async_status.RTLSDR_RUNNING, xfer_buf_num := 1,
          xfer := some [some { status := libusb_transfer_status.LIBUSB_TRANSFER_COMPLETED }],
          xfer_buf := some [true] }, World.const 0) :=
  ⟨by decide,
   C10_read_async_refuses_when_active { during_events := fun d w => (d, w) } 0
     { rtlsdr_dev.zero with
        async_status := rtlsdr_async_status.RTLSDR_RUNNING, xfer_buf_num := 1,
        xfer := some [some { status := libusb_transfer_status.LIBUSB_TRANSFER_COMPLETED }],
        xfer_buf := some [true] } (some 7) 0 15 512 (World.const 0) (by decide)⟩

/-! ### Sample rate -/

/-- `rtlsdr_demod_write_reg` returns 0 or -1. -/
theorem demod_write_reg_ret (w : World) (page addr val len : Nat) :
    (rtlsdr_demod_write_reg w page addr val len).1 = 0 ∨
    (rtlsdr_demod_write_reg w page addr val len).1 = -1 := by
  unfold rtlsdr_demod_write_reg
  simp only []
  split_ifs <;> simp

/-- `|` of two values out of {0, -1} is in {0, -1}. -/
theorem c_or_ret (a b : Int) (ha : a = 0 ∨ a = -1) (hb : b = 0 ∨ b = -1) :
    c_or a b = 0 ∨ c_or a b = -1 := by
  rcases ha with rfl | rfl <;> rcases hb with rfl | rfl <;> decide

/-- `rtlsdr_set_sample_freq_correction` returns 0 or -1. -/
theorem set_sample_freq_correction_ret (ppm : Int) (w : World) :
    (rtlsdr_set_sample_freq_correction ppm w).1 = 0 ∨
    (rtlsdr_set_sample_freq_correction ppm w).1 = -1 := by
  unfold rtlsdr_set_sample_freq_correction
  simp only []
  exact c_or_ret _ _ (c_or_ret _ _ (Or.inl rfl) (demod_write_reg_ret _ _ _ _ _))
    (demod_write_reg_ret _ _ _ _ _)

/-- The register writes of `rtlsdr_set_sample_rate` accumulate 0 or -1. -/
theorem set_sample_rate_regs_ret (ratio : Nat) (corr : Int) (w : World) :
    (set_sample_rate_regs ratio corr w).1 = 0 ∨ (set_sample_rate_regs ratio corr w).1 = -1 := by
  unfold set_sample_rate_regs
  simp only []
  exact c_or_ret _ _ (c_or_ret _ _ (c_or_ret _ _ (c_or_ret _ _ (c_or_ret _ _ (Or.inl rfl)
    (demod_write_reg_ret _ _ _ _ _)) (demod_write_reg_ret _ _ _ _ _))
    (set_sample_freq_correction_ret _ _)) (demod_write_reg_ret _ _ _ _ _))
    (demod_write_reg_ret _ _ _ _ _)

/-- `r820t_set_bw` returns when `rtlsdr_set_center_freq` does. -/
theorem r820t_set_bw_isSome (scf : SetCenterFreq) (hs : Total scf) (dev : rtlsdr_dev)
    (bw apply : Int) (w : World) : (r820t_set_bw scf dev bw apply w).isSome := by
  unfold r820t_set_bw
  simp only []
  split
  · rfl
  · split
    · rfl
    · split
      · rfl
      · exact hs _ _ _

/-- Every `set_bw` slot returns when `rtlsdr_set_center_freq` does. -/
theorem tuner_set_bw_isSome (scf : SetCenterFreq) (hs : Total scf) (t : rtlsdr_tuner)
    (f : rtlsdr_dev → Int → Int → World → Res) (h : tuner_set_bw scf t = some f)
    (dev : rtlsdr_dev) (bw apply : Int) (w : World) : (f dev bw apply w).isSome := by
  cases t <;> simp only [tuner_set_bw, Option.some.injEq] at h
  · cases h
  · subst h; simp only []; split <;> rfl
  · subst h; rfl
  · subst h; rfl
  · subst h; simp only []; split <;> rfl
  · subst h; exact r820t_set_bw_isSome scf hs dev bw apply w
  · subst h; exact r820t_set_bw_isSome scf hs dev bw apply w

/-- The bracketed `set_bw` block returns when `rtlsdr_set_center_freq` does. -/
theorem tuner_apply_bw_isSome (scf : SetCenterFreq) (hs : Total scf) (dev : rtlsdr_dev)
    (bw : Int) (w : World) : (tuner_apply_bw scf dev bw w).isSome := by
  unfold tuner_apply_bw
  cases hf : dev.tuner.bind (tuner_set_bw scf) with
  | none => rfl
  | some f =>
    cases hd : dev.tuner with
    | none => simp [hd] at hf
    | some t =>
      simp only [hd, Option.some_bind] at hf
      have := tuner_set_bw_isSome scf hs t f hf dev bw 1 (rtlsdr_set_i2c_repeater w 1)
      cases hr : f dev bw 1 (rtlsdr_set_i2c_repeater w 1) with
      | none => rw [hr] at this; simp at this
      | some res => simp [hr]

/-- `rtlsdr_set_offset_tuning` returns when `rtlsdr_set_center_freq` does. -/
theorem set_offset_tuning_isSome (scf : SetCenterFreq) (hs : Total scf) (dev : rtlsdr_dev)
    (on_ : Int) (w : World) : (rtlsdr_set_offset_tuning scf dev on_ w).isSome := by
  unfold rtlsdr_set_offset_tuning
  simp only []
  split
  · rfl
  · split
    · rfl
    · split
      · rename_i hn
        have h2 := congrArg Option.isSome hn
        rw [tuner_apply_bw_isSome scf hs] at h2
        simp at h2
      · rename_i dev3 w3 _
        split
        · have := hs dev3 dev3.freq w3
          cases hr : scf dev3 dev3.freq w3 with
          | none => rw [hr] at this; simp at this
          | some res => rfl
        · rfl

/-- For an accepted rate `rtlsdr_set_sample_rate` returns (when
`rtlsdr_set_center_freq` does) and its result is 0 or -1. -/
theorem set_sample_rate_in_range (scf : SetCenterFreq) (hs : Total scf) (dev : rtlsdr_dev)
    (samp_rate : Nat) (w : World)
    (h : ¬ (samp_rate ≤ 225000 ∨ samp_rate > 3200000 ∨ (samp_rate > 300000 ∧ samp_rate ≤ 900000))) :
    ∃ (r : Int) (dev' : rtlsdr_dev) (w' : World),
      rtlsdr_set_sample_rate scf dev samp_rate w = some (r, dev', w') ∧ (r = 0 ∨ r = -1) := by
  unfold rtlsdr_set_sample_rate
  rw [if_neg h]
  simp only []
  split
  · rename_i hn
    have h2 := congrArg Option.isSome hn
    rw [tuner_apply_bw_isSome scf hs] at h2
    simp at h2
  · rename_i dev2 w2 _
    split
    · have := set_offset_tuning_isSome scf hs dev2 1
        (set_sample_rate_regs (rsamp_ratio dev.rtl_xtal samp_rate) dev2.corr w2).2
      cases hr : rtlsdr_set_offset_tuning scf dev2 1
          (set_sample_rate_regs (rsamp_ratio dev.rtl_xtal samp_rate) dev2.corr w2).2 with
      | none => rw [hr] at this; simp at this
      | some res => exact ⟨_, _, _, rfl, set_sample_rate_regs_ret _ _ _⟩
    · exact ⟨_, _, _, rfl, set_sample_rate_regs_ret _ _ _⟩


/-- Whenever `rtlsdr_set_sample_rate` returns for an accepted rate, it returns 0
or -1. -/
theorem set_sample_rate_ret_of_some (scf : SetCenterFreq) (dev : rtlsdr_dev)
    (samp_rate : Nat) (w : World)
    (h : ¬ (samp_rate ≤ 225000 ∨ samp_rate > 3200000 ∨ (samp_rate > 300000 ∧ samp_rate ≤ 900000)))
    (r : Int) (dev' : rtlsdr_dev) (w' : World)
    (hres : rtlsdr_set_sample_rate scf dev samp_rate w = some (r, dev', w')) :
    r = 0 ∨ r = -1 := by
  unfold rtlsdr_set_sample_rate at hres
  rw [if_neg h] at hres
  simp only [] at hres
  split at hres
  · cases hres
  · split at hres
    · split at hres
      · cases hres
      · cases hres; exact set_sample_rate_regs_ret _ _ _
    · cases hres; exact set_sample_rate_regs_ret _ _ _

/-- The recursive function with at least three levels of fuel is total. -/
theorem set_center_freq_total (fuel : Nat) (hf : 3 ≤ fuel) :
    Total (rtlsdr_set_center_freq fuel) :=
  fun dev freq w => set_center_freq_isSome fuel hf dev freq w

/-- C4: for every device and every sample rate `samp_rate`,
`rtlsdr_set_sample_rate` returns, and it returns the invalid-argument error
`-EINVAL` if and only if `samp_rate <= 225000`, or `300000 < samp_rate <= 900000`,
or `samp_rate > 3200000`, that is, iff the rate is outside
(225000, 300000] ∪ (900000, 3200000]. -/
theorem C4_set_sample_rate_einval_iff (fuel : Nat) (hf : 3 ≤ fuel) (dev : rtlsdr_dev)
    (samp_rate : Nat) (w : World) :
    ∃ (r : Int) (dev' : rtlsdr_dev) (w' : World),
      rtlsdr_set_sample_rate (rtlsdr_set_center_freq fuel) dev samp_rate w = some (r, dev', w') ∧
      (r = -EINVAL ↔
        (samp_rate ≤ 225000 ∨ (300000 < samp_rate ∧ samp_rate ≤ 900000) ∨ 3200000 < samp_rate)) := by
  by_cases h : samp_rate ≤ 225000 ∨ samp_rate > 3200000 ∨ (samp_rate > 300000 ∧ samp_rate ≤ 900000)
  · refine ⟨-EINVAL, dev, w, ?_, ?_⟩
    · unfold rtlsdr_set_sample_rate
      rw [if_pos h]
    · constructor
      · intro _; omega
      · intro _; rfl
  · obtain ⟨r, dev', w', hres, hr⟩ :=
      set_sample_rate_in_range (rtlsdr_set_center_freq fuel) (set_center_freq_total fuel hf)
        dev samp_rate w h
    refine ⟨r, dev', w', hres, ?_⟩
    constructor
    · intro he
      exfalso
      unfold EINVAL at he
      rcases hr with h0 | h1 <;> omega
    · intro hout
      exfalso
      omega

/-- C4 witness: three levels of fuel, the freshly opened device. -/
theorem C4_set_sample_rate_einval_iff_witness :
    (3 : Nat) ≤ 3 ∧
    ∃ (r : Int) (dev' : rtlsdr_dev) (w' : World),
      rtlsdr_set_sample_rate (rtlsdr_set_center_freq 3) rtlsdr_dev.zero 250000 (World.const 1) =
        some (r, dev', w') ∧
      (r = -EINVAL ↔
        ((250000 : Nat) ≤ 225000 ∨ (300000 < (250000 : Nat) ∧ (250000 : Nat) ≤ 900000) ∨
          3200000 < (250000 : Nat))) :=
  ⟨by decide,
   C4_set_sample_rate_einval_iff 3 (by decide) rtlsdr_dev.zero 250000 (World.const 1)⟩

/-- C5: whenever `rtlsdr_set_sample_rate` rejects a rate as invalid (returns
`-EINVAL`), the device is left exactly as it was (the stored rate and every other
field) and the environment too (no register write, no tuner call), so
`rtlsdr_get_sample_rate` gives the same value as before the call. -/
theorem C5_rejected_rate_changes_nothing (scf : SetCenterFreq) (dev : rtlsdr_dev)
    (samp_rate : Nat) (w : World) (r : Int) (dev' : rtlsdr_dev) (w' : World)
    (hres : rtlsdr_set_sample_rate scf dev samp_rate w = some (r, dev', w'))
    (hrej : r = -EINVAL) :
    dev' = dev ∧ w' = w ∧ rtlsdr_get_sample_rate dev' = rtlsdr_get_sample_rate dev := by
  by_cases h : samp_rate ≤ 225000 ∨ samp_rate > 3200000 ∨ (samp_rate > 300000 ∧ samp_rate ≤ 900000)
  · unfold rtlsdr_set_sample_rate at hres
    rw [if_pos h] at hres
    cases hres
    exact ⟨rfl, rfl, rfl⟩
  · exfalso
    have := set_sample_rate_ret_of_some scf dev samp_rate w h r dev' w' hres
    unfold EINVAL at hrej
    rcases this with h0 | h1 <;> omega

/-- C5 witness: the rate 500000 on a device whose stored rate is 2048000. -/
theorem C5_rejected_rate_changes_nothing_witness :
    rtlsdr_set_sample_rate (rtlsdr_set_center_freq 3) { rtlsdr_dev.zero with rate := 2048000 }
        500000 (World.const 1) =
      some (-EINVAL, { rtlsdr_dev.zero with rate := 2048000 }, World.const 1) ∧
    rtlsdr_get_sample_rate { rtlsdr_dev.zero with rate := 2048000 } = 2048000 :=
  ⟨rfl,
   (C5_rejected_rate_changes_nothing (rtlsdr_set_center_freq 3)
      { rtlsdr_dev.zero with rate := 2048000 } 500000 (World.const 1) (-EINVAL)
      { rtlsdr_dev.zero with rate := 2048000 } (World.const 1) rfl rfl).2.2⟩

/-- C6 (evaluation at the failing input): on an R820T device whose crystal value
is 28799000 Hz (inside the allowed ±1000 Hz), with every transfer and tuner call
succeeding, `rtlsdr_set_sample_rate(dev, 300000)` accepts the rate, returns 0 and
stores 900062 Hz, which `rtlsdr_get_sample_rate` then reports: the ratio
`⌊28799000·2^22/300000⌋ = 402639202` has bit 28 set and bit 27 clear, the mask
`0x0ffffffc` drops bit 28 and nothing restores it.  The error 600062 Hz is far
above the bound `rtl_xtal · 2^22 / 2^32` (about 28124 Hz). -/
theorem C6_rate_error_off_nominal_crystal :
    (rtlsdr_set_sample_rate (rtlsdr_set_center_freq 3) off_nominal_dev 300000
        off_nominal_world).map
      (fun x => (x.1, rtlsdr_get_sample_rate x.2.1)) = some (0, 900062) ∧
    rsamp_ratio 28799000 300000 = 134203744 ∧
    ¬ rate_within_bound 28799000 300000 900062 := by
  refine ⟨by decide, by decide, by decide⟩

/-! ### Accuracy of the stored sample rate -/

/-- Masking with `0x0ffffffc` keeps bits 2..27. -/
theorem and_mask_0ffffffc (q : Nat) : q &&& 0x0ffffffc = 4 * ((q / 4) % 67108864) := by
  have hM : (0x0ffffffc : Nat) = (2 ^ 26 - 1) <<< 2 := by decide
  have hR : 4 * ((q / 4) % 67108864) = ((q >>> 2) % 2 ^ 26) <<< 2 := by
    rw [Nat.shiftLeft_eq, Nat.shiftRight_eq_div_pow]; norm_num; ring
  rw [hR, hM]
  apply Nat.eq_of_testBit_eq
  intro j
  simp only [Nat.testBit_and, Nat.testBit_shiftLeft, Nat.testBit_two_pow_sub_one,
    Nat.testBit_mod_two_pow, Nat.testBit_shiftRight]
  by_cases h : 2 ≤ j
  · have : 2 + (j - 2) = j := by omega
    simp [h, this, Bool.and_comm]
  · simp [h]

/-- Masking with `0x08000000` keeps bit 27. -/
theorem and_bit27 (q : Nat) : q &&& 0x08000000 = 134217728 * ((q / 134217728) % 2) := by
  have hM : (0x08000000 : Nat) = 2 ^ 27 := by decide
  have hR : 134217728 * ((q / 134217728) % 2) = ((q >>> 27) % 2 ^ 1) <<< 27 := by
    rw [Nat.shiftLeft_eq, Nat.shiftRight_eq_div_pow]; norm_num; ring
  rw [hR, hM]
  apply Nat.eq_of_testBit_eq
  intro j
  simp only [Nat.testBit_and, Nat.testBit_shiftLeft, Nat.testBit_two_pow,
    Nat.testBit_mod_two_pow, Nat.testBit_shiftRight]
  by_cases h : 27 = j
  · subst h; simp
  · by_cases h2 : 27 ≤ j
    · have : ¬ (j - 27 < 1) := by omega
      simp [h, this]
    · simp [h, h2]

/-- OR-ing a multiple of `2^28` into a value below `2^28` adds it. -/
theorem or_bit28 (a b : Nat) (ha : a < 268435456) : a ||| 268435456 * b = a + 268435456 * b := by
  have := Nat.mul_add_lt_is_or (i := 28) (b := a) (by simpa using ha) b
  rw [Nat.lor_comm]
  simp at this
  omega

/-- Where the quotient is below `2^27`, or at least `3·2^27` and below `2^29`,
masking and the bit-27 propagation only clear its two lowest bits. -/
theorem real_rsamp_ratio_eq (rtl_xtal samp_rate : Nat)
    (h : (rtl_xtal * 4194304) / samp_rate < 134217728 ∨
      (402653184 ≤ (rtl_xtal * 4194304) / samp_rate ∧
        (rtl_xtal * 4194304) / samp_rate < 536870912)) :
    real_rsamp_ratio rtl_xtal samp_rate = 4 * (((rtl_xtal * 4194304) / samp_rate) / 4) := by
  unfold real_rsamp_ratio rsamp_ratio
  generalize (rtl_xtal * 4194304) / samp_rate = q at h ⊢
  have hq : q % 4294967296 = q := by omega
  rw [hq, and_mask_0ffffffc, and_bit27, Nat.shiftLeft_eq]
  have e : (134217728 * (4 * (q / 4 % 67108864) / 134217728 % 2) * 2 ^ 1) % 4294967296 =
      268435456 * (4 * (q / 4 % 67108864) / 134217728 % 2) := by omega
  rw [e, or_bit28 _ _ (by omega)]
  omega


/-- In the region where the ratio is representable the stored rate is the
requested rate or one more. -/
theorem real_rate_close (rtl_xtal samp_rate : Nat)
    (hx1 : 28799000 ≤ rtl_xtal) (hx2 : rtl_xtal ≤ 28801000)
    (hr : (225000 < samp_rate ∧ samp_rate ≤ 300000 ∧
            96 * samp_rate ≤ rtl_xtal ∧ rtl_xtal < 128 * samp_rate) ∨
          (900000 < samp_rate ∧ samp_rate ≤ 3200000 ∧ rtl_xtal < 32 * samp_rate)) :
    samp_rate ≤ real_rate rtl_xtal samp_rate ∧ real_rate rtl_xtal samp_rate ≤ samp_rate + 1 := by
  have hr0 : 0 < samp_rate := by omega
  have hrmax : samp_rate ≤ 3200000 := by omega
  have hdm := Nat.div_add_mod (rtl_xtal * 4194304) samp_rate
  have hml := Nat.mod_lt (rtl_xtal * 4194304) hr0
  have hregion : (rtl_xtal * 4194304) / samp_rate < 134217728 ∨
      (402653184 ≤ (rtl_xtal * 4194304) / samp_rate ∧
        (rtl_xtal * 4194304) / samp_rate < 536870912) := by
    rcases hr with ⟨_, _, h96, h128⟩ | ⟨_, _, h32⟩
    · right
      refine ⟨(Nat.le_div_iff_mul_le hr0).mpr (by omega), (Nat.div_lt_iff_lt_mul hr0).mpr (by omega)⟩
    · left
      exact (Nat.div_lt_iff_lt_mul hr0).mpr (by omega)
  have hqlow : 30000000 ≤ (rtl_xtal * 4194304) / samp_rate :=
    (Nat.le_div_iff_mul_le hr0).mpr (by omega)
  unfold real_rate
  rw [real_rsamp_ratio_eq rtl_xtal samp_rate hregion]
  generalize (rtl_xtal * 4194304) / samp_rate = q at hdm hqlow ⊢
  generalize rtl_xtal * 4194304 = X at hdm hml ⊢
  have hreal0 : 0 < 4 * (q / 4) := by omega
  have hreal_le : 4 * (q / 4) ≤ q := by omega
  have hreal_ge : q ≤ 4 * (q / 4) + 3 := by omega
  generalize 4 * (q / 4) = real at hreal0 hreal_le hreal_ge ⊢
  generalize X % samp_rate = m at hdm hml
  have hm1 := Nat.mul_le_mul_left samp_rate hreal_le
  have hm2 := Nat.mul_le_mul_left samp_rate hreal_ge
  have hlo : samp_rate ≤ X / real :=
    (Nat.le_div_iff_mul_le hreal0).mpr (by linarith)
  have hhi : X / real < samp_rate + 2 :=
    (Nat.div_lt_iff_lt_mul hreal0).mpr (by nlinarith)
  have hmod : X / real % 4294967296 = X / real := by omega
  rw [hmod]
  omega

/-- In the region where the ratio is representable the stored rate is within the
accuracy bound of the requested one. -/
theorem real_rate_within_bound (rtl_xtal samp_rate : Nat)
    (hx1 : 28799000 ≤ rtl_xtal) (hx2 : rtl_xtal ≤ 28801000)
    (hr : (225000 < samp_rate ∧ samp_rate ≤ 300000 ∧
            96 * samp_rate ≤ rtl_xtal ∧ rtl_xtal < 128 * samp_rate) ∨
          (900000 < samp_rate ∧ samp_rate ≤ 3200000 ∧ rtl_xtal < 32 * samp_rate)) :
    rate_within_bound rtl_xtal samp_rate (real_rate rtl_xtal samp_rate) := by
  obtain ⟨h1, h2⟩ := real_rate_close rtl_xtal samp_rate hx1 hx2 hr
  unfold rate_within_bound
  omega


/-- `rtlsdr_set_if_freq` keeps the stored rate. -/
theorem set_if_freq_rate (dev : rtlsdr_dev) (freq : Nat) (w : World) :
    (rtlsdr_set_if_freq dev freq w).2.1.rate = dev.rate := by
  rw [set_if_freq_dev]

/-- `reactivate_softagc` keeps the stored rate. -/
theorem reactivate_softagc_rate (dev : rtlsdr_dev) (s : softagc_stateT) :
    (reactivate_softagc dev s).2.rate = dev.rate := by
  unfold reactivate_softagc
  split
  · split <;> rfl
  · rfl

/-- A tuner `init` keeps the stored rate. -/
theorem tuner_init_rate (t : rtlsdr_tuner) (f : rtlsdr_dev → World → Int × rtlsdr_dev × World)
    (h : tuner_init t = some f) (dev : rtlsdr_dev) (w : World) :
    (f dev w).2.1.rate = dev.rate := by
  cases t <;> simp [tuner_init] at h <;> subst h <;> rfl

/-- The register programming of `rtlsdr_set_direct_sampling` keeps the stored rate. -/
theorem set_direct_sampling_regs_rate (dev : rtlsdr_dev) (on_ : Int) (w : World) :
    (set_direct_sampling_regs dev on_ w).2.1.rate = dev.rate := by
  unfold set_direct_sampling_regs
  split
  · rfl
  · unfold set_direct_sampling_off
    have hi : (set_direct_sampling_init dev w).2.1.rate = dev.rate := by
      unfold set_direct_sampling_init
      cases ht : dev.tuner.bind tuner_init with
      | none => rfl
      | some f =>
        cases hd : dev.tuner with
        | none => simp [hd] at ht
        | some t =>
          simp [hd] at ht
          exact tuner_init_rate t f ht dev _
    simp only []
    split
    · exact (set_if_freq_rate (set_direct_sampling_init dev w).2.1 R82XX_IF_FREQ
        (set_direct_sampling_init dev w).2.2).trans hi
    · exact (set_if_freq_rate (set_direct_sampling_init dev w).2.1 0
        (set_direct_sampling_init dev w).2.2).trans hi

/-- The tail of `rtlsdr_set_center_freq` keeps the stored rate. -/
theorem set_center_freq_tail_rate (dev : rtlsdr_dev) (freq : Nat) (w : World) :
    (set_center_freq_tail dev freq w).2.1.rate = dev.rate := by
  have : (set_center_freq_tune dev freq w).2.1.rate = dev.rate := by
    unfold set_center_freq_tune
    split
    · exact set_if_freq_rate _ _ _
    · split
      · exact reactivate_softagc_rate _ _
      · rfl
  exact this

/-- `rtlsdr_set_direct_sampling` keeps the stored rate. -/
theorem set_direct_sampling_rate (scf : SetCenterFreq) (hk : KeepsRate scf) (dev : rtlsdr_dev)
    (on_ : Int) (w : World) (r : Int) (d : rtlsdr_dev) (w' : World)
    (h : rtlsdr_set_direct_sampling scf dev on_ w = some (r, d, w')) : d.rate = dev.rate := by
  unfold rtlsdr_set_direct_sampling at h
  split at h
  · cases h
  · rename_i rc dev3 w6 hs
    cases h
    exact (hk _ _ _ _ _ _ hs).trans (set_direct_sampling_regs_rate dev on_ w)

/-- `rtlsdr_update_ds` keeps the stored rate. -/
theorem update_ds_rate (scf : SetCenterFreq) (hk : KeepsRate scf) (dev : rtlsdr_dev)
    (freq : Nat) (w : World) (r : Int) (d : rtlsdr_dev) (w' : World)
    (h : rtlsdr_update_ds scf dev freq w = some (r, d, w')) : d.rate = dev.rate := by
  unfold rtlsdr_update_ds at h
  simp only [] at h
  split at h
  · cases h; rfl
  · split at h
    · exact set_direct_sampling_rate scf hk dev _ w r d w' h
    · cases h; rfl

/-- `rtlsdr_set_center_freq` keeps the stored rate. -/
theorem set_center_freq_keeps_rate (fuel : Nat) : KeepsRate (rtlsdr_set_center_freq fuel) := by
  induction fuel with
  | zero => intro dev freq w r d w' h; simp [rtlsdr_set_center_freq] at h
  | succ k ih =>
    intro dev freq w r d w' h
    unfold rtlsdr_set_center_freq at h
    split at h
    · cases h; rfl
    · split at h
      · split at h
        · cases h
        · rename_i r1 dev1 w1 hu
          cases h
          exact (set_center_freq_tail_rate dev1 freq w1).trans
            (update_ds_rate _ ih dev freq w _ dev1 w1 hu)
      · cases h
        exact set_center_freq_tail_rate dev freq w

/-- `r820t_set_bw` keeps the stored rate. -/
theorem r820t_set_bw_rate (scf : SetCenterFreq) (hk : KeepsRate scf) (dev : rtlsdr_dev)
    (bw apply : Int) (w : World) (r : Int) (d : rtlsdr_dev) (w' : World)
    (h : r820t_set_bw scf dev bw apply w = some (r, d, w')) : d.rate = dev.rate := by
  unfold r820t_set_bw at h
  simp only [] at h
  split at h
  · cases h; rfl
  · split at h
    · cases h; rfl
    · split at h
      · cases h; exact set_if_freq_rate _ _ _
      · exact (hk _ _ _ _ _ _ h).trans (set_if_freq_rate _ _ _)

/-- Every `set_bw` slot keeps the stored rate. -/
theorem tuner_set_bw_rate (scf : SetCenterFreq) (hk : KeepsRate scf) (t : rtlsdr_tuner)
    (f : rtlsdr_dev → Int → Int → World → Res) (hf : tuner_set_bw scf t = some f)
    (dev : rtlsdr_dev) (bw apply : Int) (w : World) (r : Int) (d : rtlsdr_dev) (w' : World)
    (h : f dev bw apply w = some (r, d, w')) : d.rate = dev.rate := by
  cases t <;> simp only [tuner_set_bw, Option.some.injEq] at hf
  · cases hf
  · subst hf; simp only [] at h; split at h <;> cases h <;> rfl
  · subst hf; cases h; rfl
  · subst hf; cases h; rfl
  · subst hf; simp only [] at h; split at h <;> cases h <;> rfl
  · subst hf; exact r820t_set_bw_rate scf hk dev bw apply w r d w' h
  · subst hf; exact r820t_set_bw_rate scf hk dev bw apply w r d w' h

/-- The bracketed `set_bw` block keeps the stored rate. -/
theorem tuner_apply_bw_rate (scf : SetCenterFreq) (hk : KeepsRate scf) (dev : rtlsdr_dev)
    (bw : Int) (w : World) (d : rtlsdr_dev) (w' : World)
    (h : tuner_apply_bw scf dev bw w = some (d, w')) : d.rate = dev.rate := by
  unfold tuner_apply_bw at h
  split at h
  · rename_i f hf
    split at h
    · cases h
    · rename_i r1 d1 w1 hr
      cases h
      cases hd : dev.tuner with
      | none => simp [hd] at hf
      | some t =>
        simp only [hd, Option.some_bind] at hf
        exact tuner_set_bw_rate scf hk t f hf dev bw 1 _ r1 d w1 hr
  · cases h; rfl

/-- `rtlsdr_set_offset_tuning` keeps the stored rate. -/
theorem set_offset_tuning_rate (scf : SetCenterFreq) (hk : KeepsRate scf) (dev : rtlsdr_dev)
    (on_ : Int) (w : World) (r : Int) (d : rtlsdr_dev) (w' : World)
    (h : rtlsdr_set_offset_tuning scf dev on_ w = some (r, d, w')) : d.rate = dev.rate := by
  unfold rtlsdr_set_offset_tuning at h
  simp only [] at h
  split at h
  · cases h; rfl
  · split at h
    · cases h; rfl
    · split at h
      · cases h
      · rename_i dev3 w3 hb
        have h3 := tuner_apply_bw_rate scf hk _ _ _ dev3 w3 hb
        rw [set_if_freq_rate] at h3
        split at h
        · split at h
          · cases h
          · rename_i rc dev4 w4 hs
            cases h
            exact (hk _ _ _ _ _ _ hs).trans h3
        · cases h; exact h3

/-- The soft-AGC re-trigger keeps the stored rate. -/
theorem set_sample_rate_softagc_rate (dev : rtlsdr_dev) :
    (set_sample_rate_softagc dev).rate = dev.rate := by
  unfold set_sample_rate_softagc
  split
  · exact reactivate_softagc_rate _ _
  · exact reactivate_softagc_rate _ _

/-- For an accepted rate, the rate that `rtlsdr_set_sample_rate` leaves in the
device is `real_rate` of the crystal value and the requested rate. -/
theorem set_sample_rate_stores (scf : SetCenterFreq) (hk : KeepsRate scf) (dev : rtlsdr_dev)
    (samp_rate : Nat) (w : World)
    (h : ¬ (samp_rate ≤ 225000 ∨ samp_rate > 3200000 ∨ (samp_rate > 300000 ∧ samp_rate ≤ 900000)))
    (r : Int) (dev' : rtlsdr_dev) (w' : World)
    (hres : rtlsdr_set_sample_rate scf dev samp_rate w = some (r, dev', w')) :
    rtlsdr_get_sample_rate dev' = real_rate dev.rtl_xtal samp_rate := by
  unfold rtlsdr_set_sample_rate at hres
  rw [if_neg h] at hres
  simp only [] at hres
  unfold rtlsdr_get_sample_rate
  split at hres
  · cases hres
  · rename_i dev2 w2 hb
    have h2 := tuner_apply_bw_rate scf hk _ _ _ dev2 w2 hb
    split at hres
    · split at hres
      · cases hres
      · rename_i r3 dev3 w8 ho
        cases hres
        rw [set_sample_rate_softagc_rate]
        exact (set_offset_tuning_rate scf hk dev2 1 _ r3 dev3 _ ho).trans h2
    · cases hres
      rw [set_sample_rate_softagc_rate]
      exact h2


/-- Where the ratio is representable (`96·r ≤ rtl_xtal < 128·r` in the low band,
`rtl_xtal < 32·r` in the high band; for the nominal crystal 28800000 these are
all accepted rates), `rtlsdr_set_sample_rate` returns and the rate it stores,
which `rtlsdr_get_sample_rate` reports, is within `rtl_xtal · 2^22 / 2^32` of the
requested rate. -/
theorem set_sample_rate_rate_within_bound (fuel : Nat) (hf : 3 ≤ fuel) (dev : rtlsdr_dev)
    (samp_rate : Nat) (w : World)
    (hx1 : 28799000 ≤ dev.rtl_xtal) (hx2 : dev.rtl_xtal ≤ 28801000)
    (hr : (225000 < samp_rate ∧ samp_rate ≤ 300000 ∧
            96 * samp_rate ≤ dev.rtl_xtal ∧ dev.rtl_xtal < 128 * samp_rate) ∨
          (900000 < samp_rate ∧ samp_rate ≤ 3200000 ∧ dev.rtl_xtal < 32 * samp_rate)) :
    ∃ (r : Int) (dev' : rtlsdr_dev) (w' : World),
      rtlsdr_set_sample_rate (rtlsdr_set_center_freq fuel) dev samp_rate w = some (r, dev', w') ∧
      rate_within_bound dev.rtl_xtal samp_rate (rtlsdr_get_sample_rate dev') := by
  have h : ¬ (samp_rate ≤ 225000 ∨ samp_rate > 3200000 ∨
      (samp_rate > 300000 ∧ samp_rate ≤ 900000)) := by omega
  obtain ⟨r, dev', w', hres, _⟩ :=
    set_sample_rate_in_range (rtlsdr_set_center_freq fuel) (set_center_freq_total fuel hf)
      dev samp_rate w h
  refine ⟨r, dev', w', hres, ?_⟩
  rw [set_sample_rate_stores (rtlsdr_set_center_freq fuel) (set_center_freq_keeps_rate fuel)
    dev samp_rate w h r dev' w' hres]
  exact real_rate_within_bound dev.rtl_xtal samp_rate hx1 hx2 hr

/-- For the nominal crystal 28800000 Hz every accepted rate is stored within the
accuracy bound. -/
theorem set_sample_rate_nominal_within_bound (fuel : Nat) (hf : 3 ≤ fuel) (dev : rtlsdr_dev)
    (samp_rate : Nat) (w : World) (hx : dev.rtl_xtal = DEF_RTL_XTAL_FREQ)
    (hr : (225000 < samp_rate ∧ samp_rate ≤ 300000) ∨ (900000 < samp_rate ∧ samp_rate ≤ 3200000)) :
    ∃ (r : Int) (dev' : rtlsdr_dev) (w' : World),
      rtlsdr_set_sample_rate (rtlsdr_set_center_freq fuel) dev samp_rate w = some (r, dev', w') ∧
      rate_within_bound dev.rtl_xtal samp_rate (rtlsdr_get_sample_rate dev') := by
  unfold DEF_RTL_XTAL_FREQ at hx
  exact set_sample_rate_rate_within_bound fuel hf dev samp_rate w (by omega) (by omega)
    (by omega)

/-! ### Cancel request -/

/-- C11: `rtlsdr_cancel_async` returns 0 exactly when the stream state is
`RTLSDR_RUNNING`; in that case the state becomes `RTLSDR_CANCELING`, the cancel
flag `async_cancel` is 1 and nothing else changes; in every other state it
returns -2 and the device is unchanged. -/
theorem C11_cancel_async_contract (dev : rtlsdr_dev) :
    ((rtlsdr_cancel_async dev).1 = 0 ↔
        dev.async_status = rtlsdr_async_status.RTLSDR_RUNNING) ∧
    (dev.async_status = rtlsdr_async_status.RTLSDR_RUNNING →
        (rtlsdr_cancel_async dev).2 =
          { dev with async_status := rtlsdr_async_status.RTLSDR_CANCELING, async_cancel := 1 } ∧
        (rtlsdr_cancel_async dev).2.async_status = rtlsdr_async_status.RTLSDR_CANCELING ∧
        (rtlsdr_cancel_async dev).2.async_cancel = 1) ∧
    (dev.async_status ≠ rtlsdr_async_status.RTLSDR_RUNNING →
        rtlsdr_cancel_async dev = (-2, dev)) := by
  unfold rtlsdr_cancel_async
  by_cases h : dev.async_status = rtlsdr_async_status.RTLSDR_RUNNING
  · simp [h]
  · simp [h]

/-! ### Soft AGC and the completion callback -/

/-- Frame of the `Reset` branch: only the soft-AGC sub-state changes. -/
theorem softagc_reset_frame (tm : SoftAgcTimes) (dev : rtlsdr_dev) :
    (softagc_reset tm dev).2 = { dev with softagc := (softagc_reset tm dev).2.softagc } := by
  unfold softagc_reset
  simp only []
  split_ifs <;> rfl

/-- Frame of the end-of-scan branch. -/
theorem softagc_scan_end_frame (dev : rtlsdr_dev) :
    (softagc_scan_end dev).2 = { dev with softagc := (softagc_scan_end dev).2.softagc } := by
  unfold softagc_scan_end
  simp only []
  split <;> (try split) <;> rfl

/-- Frame of the oversteer branch. -/
theorem softagc_oversteer_frame (dev : rtlsdr_dev) :
    (softagc_oversteer dev).2 = { dev with softagc := (softagc_oversteer dev).2.softagc } := by
  unfold softagc_oversteer
  simp only []
  split_ifs <;> rfl

/-- Frame of the histogram stage. -/
theorem softagc_histo_frame (dev : rtlsdr_dev) (buf : Int → Nat) (len : Int) :
    (softagc_histo dev buf len).2 =
      { dev with softagc := (softagc_histo dev buf len).2.softagc } := by
  unfold softagc_histo
  simp only []
  split_ifs
  · rw [softagc_oversteer_frame]
  · rw [softagc_scan_end_frame]
  · rfl

/-- Frame of the classifier from the lowest-gain test on. -/
theorem softagc_finish_frame (dev : rtlsdr_dev) (buf : Int → Nat) (len : Int) :
    (softagc_finish dev buf len).2 =
      { dev with softagc := (softagc_finish dev buf len).2.softagc } := by
  unfold softagc_finish
  split_ifs
  · rfl
  · exact softagc_histo_frame dev buf len

/-- Frame of the classifier after the `Init` / `Reset` branches. -/
theorem softagc_run_frame (dev : rtlsdr_dev) (buf : Int → Nat) (len : Int) :
    (softagc_run dev buf len).2 = { dev with softagc := (softagc_run dev buf len).2.softagc } := by
  unfold softagc_run
  split_ifs
  · rfl
  · rfl
  · rw [softagc_finish_frame]
  · exact softagc_finish_frame dev buf len

/-- The classifier changes nothing of the device but its soft-AGC sub-state. -/
theorem softagc_frame (tm : SoftAgcTimes) (dev : rtlsdr_dev) (buf : Int → Nat) (len : Int) :
    (softagc tm dev buf len).2 = { dev with softagc := (softagc tm dev buf len).2.softagc } := by
  unfold softagc
  split_ifs
  · rfl
  · exact softagc_reset_frame tm dev
  · exact softagc_run_frame dev buf len
/-- C18: `_libusb_callback` on a non-Windows platform.  A Completed transfer
leaves the error counter at 0 (and, without a user callback, leaves the lost
flag, the stream state and the cancel flag alone); a Cancelled transfer changes
nothing; a transfer with status Error increments the `unsigned int` error
counter by one; and for every status that is neither Completed nor Cancelled
the device is marked lost and `rtlsdr_cancel_async` is called exactly when the
updated counter has reached `xfer_buf_num` or the status is NoDevice: otherwise
nothing but the counter changes. -/
theorem C18_libusb_callback_contract (tm : SoftAgcTimes) (user_cb : UserCb)
    (xfer : completed_transfer) (dev : rtlsdr_dev) (w : World) :
    (xfer.status = libusb_transfer_status.LIBUSB_TRANSFER_COMPLETED →
      (_libusb_callback tm user_cb xfer dev w).1.xfer_errors = 0 ∧
      (dev.cb = none →
        (_libusb_callback tm user_cb xfer dev w).1.dev_lost = dev.dev_lost ∧
        (_libusb_callback tm user_cb xfer dev w).1.async_status = dev.async_status ∧
        (_libusb_callback tm user_cb xfer dev w).1.async_cancel = dev.async_cancel)) ∧
    (xfer.status = libusb_transfer_status.LIBUSB_TRANSFER_CANCELLED →
      _libusb_callback tm user_cb xfer dev w = (dev, w)) ∧
    (xfer.status = libusb_transfer_status.LIBUSB_TRANSFER_ERROR →
      (_libusb_callback tm user_cb xfer dev w).1.xfer_errors =
        (dev.xfer_errors + 1) % 4294967296 ∧
      (dev.xfer_errors + 1 < 4294967296 →
        (_libusb_callback tm user_cb xfer dev w).1.xfer_errors = dev.xfer_errors + 1)) ∧
    (xfer.status ≠ libusb_transfer_status.LIBUSB_TRANSFER_COMPLETED →
      xfer.status ≠ libusb_transfer_status.LIBUSB_TRANSFER_CANCELLED →
      ∀ errs : Nat,
        errs = (if xfer.status = libusb_transfer_status.LIBUSB_TRANSFER_ERROR then
                  (dev.xfer_errors + 1) % 4294967296 else dev.xfer_errors) →
        ((errs ≥ dev.xfer_buf_num ∨
            xfer.status = libusb_transfer_status.LIBUSB_TRANSFER_NO_DEVICE) →
          _libusb_callback tm user_cb xfer dev w =
            ((rtlsdr_cancel_async { dev with xfer_errors := errs, dev_lost := 1 }).2, w)) ∧
        (¬ (errs ≥ dev.xfer_buf_num ∨
            xfer.status = libusb_transfer_status.LIBUSB_TRANSFER_NO_DEVICE) →
          _libusb_callback tm user_cb xfer dev w = ({ dev with xfer_errors := errs }, w))) := by
  refine ⟨?_, ?_, ?_, ?_⟩
  · intro hc
    refine ⟨?_, ?_⟩
    · simp only [_libusb_callback, if_pos hc]
    · intro hcb
      have hf := softagc_frame tm dev xfer.buffer xfer.actual_length
      have hcb1 : (softagc tm dev xfer.buffer xfer.actual_length).2.cb = none := by
        rw [hf]; exact hcb
      simp only [_libusb_callback, if_pos hc]
      by_cases hs : dev.softagc.agcState ≠ softagc_stateT.SOFTSTATE_OFF
      · simp only [if_pos hs, hcb1]
        rw [hf]
        exact ⟨rfl, rfl, rfl⟩
      · simp only [if_neg hs, hcb]
        trivial
  · intro hc
    simp [_libusb_callback, hc]
  · intro he
    have h1 : (_libusb_callback tm user_cb xfer dev w).1.xfer_errors =
        (dev.xfer_errors + 1) % 4294967296 := by
      simp only [_libusb_callback, he]
      simp only [rtlsdr_cancel_async]
      split_ifs <;> first | rfl | (exfalso; simp_all)
    refine ⟨h1, ?_⟩
    intro hlt
    rw [h1, Nat.mod_eq_of_lt hlt]
  · intro hnc hncan errs herrs
    subst herrs
    refine ⟨?_, ?_⟩
    · intro hcond
      simp only [_libusb_callback, if_neg hnc]
      by_cases he : xfer.status = libusb_transfer_status.LIBUSB_TRANSFER_ERROR
      · simp only [if_pos he] at hcond ⊢
        simp only [ne_eq, hncan, not_false_eq_true, if_true]
        rw [if_pos hcond]
      · simp only [if_neg he] at hcond ⊢
        simp only [ne_eq, hncan, not_false_eq_true, if_true]
        rw [if_pos hcond]
    · intro hcond
      simp only [_libusb_callback, if_neg hnc]
      by_cases he : xfer.status = libusb_transfer_status.LIBUSB_TRANSFER_ERROR
      · simp only [if_pos he] at hcond ⊢
        simp only [ne_eq, hncan, not_false_eq_true, if_true]
        rw [if_neg hcond]
      · simp only [if_neg he] at hcond ⊢
        simp only [ne_eq, hncan, not_false_eq_true, if_true]
        rw [if_neg hcond]

/-! ### Changes of the stream state -/

/-- A step that leaves the stream state alone or moves it from Running to
Canceling. -/
theorem cancel_async_status (dev : rtlsdr_dev) :
    (rtlsdr_cancel_async dev).2.async_status = dev.async_status ∨
    (dev.async_status = rtlsdr_async_status.RTLSDR_RUNNING ∧
      (rtlsdr_cancel_async dev).2.async_status = rtlsdr_async_status.RTLSDR_CANCELING) := by
  unfold rtlsdr_cancel_async
  by_cases h : dev.async_status = rtlsdr_async_status.RTLSDR_RUNNING
  · right; simp [h]
  · left; simp [h]

/-- Storing a transfer status does not touch the stream state. -/
theorem store_status_status (dev : rtlsdr_dev) (i : Nat) (st : libusb_transfer_status) :
    (store_status dev i st).async_status = dev.async_status := by
  unfold store_status
  split
  · rfl
  · split <;> rfl

/-- The completion callback leaves the stream state alone or moves it from
Running to Canceling, when the user callback does. -/
theorem libusb_callback_status (tm : SoftAgcTimes) (user_cb : UserCb) (huc : UserCbViaApi user_cb)
    (xfer : completed_transfer) (dev : rtlsdr_dev) (w : World) :
    (_libusb_callback tm user_cb xfer dev w).1.async_status = dev.async_status ∨
    (dev.async_status = rtlsdr_async_status.RTLSDR_RUNNING ∧
      (_libusb_callback tm user_cb xfer dev w).1.async_status =
        rtlsdr_async_status.RTLSDR_CANCELING) := by
  by_cases hc : xfer.status = libusb_transfer_status.LIBUSB_TRANSFER_COMPLETED
  · have hf := softagc_frame tm dev xfer.buffer xfer.actual_length
    have hst : (softagc tm dev xfer.buffer xfer.actual_length).2.async_status =
        dev.async_status := by rw [hf]
    simp only [_libusb_callback, if_pos hc]
    by_cases hs : dev.softagc.agcState ≠ softagc_stateT.SOFTSTATE_OFF
    · simp only [if_pos hs]
      cases hcb : (softagc tm dev xfer.buffer xfer.actual_length).2.cb with
      | none => simp only []; left; exact hst
      | some f =>
        simp only []
        split_ifs
        · have := huc f xfer.buffer xfer.actual_length
            (softagc tm dev xfer.buffer xfer.actual_length).2.cb_ctx
            (softagc tm dev xfer.buffer xfer.actual_length).2 w
          rw [hst] at this
          exact this
        · left; exact hst
    · simp only [if_neg hs]
      cases hcb : dev.cb with
      | none => simp only []; left; trivial
      | some f =>
        simp only []
        split_ifs
        · exact huc f xfer.buffer xfer.actual_length dev.cb_ctx dev w
        · left; trivial
  · have key : ∀ d : rtlsdr_dev, d.async_status = dev.async_status →
        ((rtlsdr_cancel_async { d with dev_lost := 1 }).2.async_status = dev.async_status ∨
          (dev.async_status = rtlsdr_async_status.RTLSDR_RUNNING ∧
            (rtlsdr_cancel_async { d with dev_lost := 1 }).2.async_status =
              rtlsdr_async_status.RTLSDR_CANCELING)) := by
      intro d hd
      rcases cancel_async_status { d with dev_lost := 1 } with h | ⟨h1, h2⟩
      · exact Or.inl (h.trans hd)
      · exact Or.inr ⟨hd.symm.trans h1, h2⟩
    simp only [_libusb_callback, if_neg hc]
    by_cases hcan : xfer.status = libusb_transfer_status.LIBUSB_TRANSFER_CANCELLED
    · simp only [ne_eq, hcan, not_true_eq_false, if_false]; left; trivial
    · simp only [ne_eq, hcan, not_false_eq_true, if_true]
      by_cases he : xfer.status = libusb_transfer_status.LIBUSB_TRANSFER_ERROR
      · simp only [if_pos he]
        split_ifs
        · exact key { dev with xfer_errors := (dev.xfer_errors + 1) % 4294967296 } rfl
        · left; rfl
      · simp only [if_neg he]
        split_ifs
        · exact key dev rfl
        · left; rfl
/-- A sequence of happenings leaves the stream state alone or moves it from
Running to Canceling. -/
theorem run_happenings_status (tm : SoftAgcTimes) (user_cb : UserCb)
    (huc : UserCbViaApi user_cb) (hs : List Happening) :
    ∀ (dev : rtlsdr_dev) (w : World),
      (run_happenings tm user_cb hs dev w).1.async_status = dev.async_status ∨
      (dev.async_status = rtlsdr_async_status.RTLSDR_RUNNING ∧
        (run_happenings tm user_cb hs dev w).1.async_status =
          rtlsdr_async_status.RTLSDR_CANCELING) := by
  induction hs with
  | nil => intro dev w; left; rfl
  | cons h hs ih =>
    intro dev w
    have h1 : (happen tm user_cb h dev w).1.async_status = dev.async_status ∨
        (dev.async_status = rtlsdr_async_status.RTLSDR_RUNNING ∧
          (happen tm user_cb h dev w).1.async_status =
            rtlsdr_async_status.RTLSDR_CANCELING) := by
      cases h with
      | completion xfer =>
        have := libusb_callback_status tm user_cb huc xfer
          (store_status dev xfer.index xfer.status) w
        rw [store_status_status] at this
        exact this
      | cancel_request => exact cancel_async_status dev
    have h2 := ih (happen tm user_cb h dev w).1 (happen tm user_cb h dev w).2
    have e : run_happenings tm user_cb (h :: hs) dev w =
        run_happenings tm user_cb hs (happen tm user_cb h dev w).1
          (happen tm user_cb h dev w).2 := rfl
    rw [e]
    rcases h1 with h1 | ⟨h1a, h1b⟩
    · rw [h1] at h2; exact h2
    · rcases h2 with h2 | ⟨h2a, _⟩
      · right; exact ⟨h1a, h2.trans h1b⟩
      · rw [h1b] at h2a; cases h2a

/-- The environment built from completions and cancel requests is monotone. -/
theorem callback_env_monotone (tm : SoftAgcTimes) (user_cb : UserCb)
    (huc : UserCbViaApi user_cb) (sched : Nat → List Happening) :
    StatusMonotone (callback_env tm user_cb sched) := by
  intro dev w
  exact run_happenings_status tm user_cb huc _ dev w

/-- One wait for events in a monotone environment. -/
theorem handle_events_status (env : AsyncEnv) (hm : StatusMonotone env) (t : Nat)
    (dev : rtlsdr_dev) (w : World) :
    (handle_events env t dev w).2.1.async_status = dev.async_status ∨
    (dev.async_status = rtlsdr_async_status.RTLSDR_RUNNING ∧
      (handle_events env t dev w).2.1.async_status = rtlsdr_async_status.RTLSDR_CANCELING) :=
  hm dev _

/-- In a monotone environment the cancel pass keeps the state Canceling, and
`next_status` stays or becomes Canceling. -/
theorem cancel_loop_canceling (env : AsyncEnv) (hm : StatusMonotone env) (n : Nat) :
    ∀ (i : Nat) (dev : rtlsdr_dev) (w : World) (r : Int) (next : rtlsdr_async_status),
      dev.async_status = rtlsdr_async_status.RTLSDR_CANCELING →
      (cancel_loop env n i dev w r next).1.async_status = rtlsdr_async_status.RTLSDR_CANCELING ∧
      ((cancel_loop env n i dev w r next).2.2.2 = next ∨
        (cancel_loop env n i dev w r next).2.2.2 = rtlsdr_async_status.RTLSDR_CANCELING) := by
  induction n with
  | zero => intro i dev w r next hc; exact ⟨hc, Or.inl rfl⟩
  | succ n ih =>
    intro i dev w r next hc
    have hstep : ∀ (t : Nat) (w' : World),
        (handle_events env t dev w').2.1.async_status =
          rtlsdr_async_status.RTLSDR_CANCELING := by
      intro t w'
      rcases handle_events_status env hm t dev w' with h | ⟨h, _⟩
      · exact h.trans hc
      · rw [hc] at h; cases h
    unfold cancel_loop
    split
    · exact ih _ _ _ _ _ hc
    · split_ifs with h1
      · split
        rename_i r1 o1 w1 hcall
        split
        rename_i r2 dev1 w2 hev
        have hd1 : dev1.async_status = rtlsdr_async_status.RTLSDR_CANCELING := by
          have := hstep 0 w1
          rw [hev] at this
          exact this
        split_ifs
        · exact ih _ _ _ _ _ hd1
        · have := ih (i + 1) dev1 w2 r1 rtlsdr_async_status.RTLSDR_CANCELING hd1
          refine ⟨this.1, Or.inr ?_⟩
          rcases this.2 with h | h <;> exact h
      · exact ih _ _ _ _ _ hc
/-- The event loop keeps `SessionInv` in a monotone environment. -/
theorem event_loop_inv (env : AsyncEnv) (hm : StatusMonotone env) (fuel : Nat) :
    ∀ (dev : rtlsdr_dev) (w : World) (r : Int) (next : rtlsdr_async_status),
      SessionInv dev next →
      ∀ res, event_loop env fuel dev w r next = some res → SessionInv res.1 res.2.2.2 := by
  induction fuel with
  | zero => intro dev w r next _ res h; simp [event_loop] at h
  | succ fuel ih =>
    intro dev w r next hinv res h
    obtain ⟨hna, hnc, hnr⟩ := hinv
    unfold event_loop at h
    split_ifs at h with h0
    · exact absurd h0 hna
    · split at h
      rename_i r1 dev1 w1 hev
      have hd1 := handle_events_status env hm 1 dev w
      rw [hev] at hd1
      simp only [] at hd1
      have hinv1 : SessionInv dev1 next := by
        refine ⟨?_, ?_, hnr⟩
        · rcases hd1 with h1 | ⟨_, h1⟩
          · rw [h1]; exact hna
          · rw [h1]; decide
        · intro hn
          rcases hd1 with h1 | ⟨_, h1⟩
          · rw [h1]; exact hnc hn
          · exact h1
      split_ifs at h with h1 h2 h3
      · exact ih _ _ _ _ hinv1 res h
      · cases h; exact hinv1
      · split at h
        · cases h
          exact ⟨by rw [h3]; decide, fun _ => h3, by simp⟩
        · split at h
          rename_i dev2 w2 r2 next2 hcl
          have hc := cancel_loop_canceling env hm dev1.xfer_buf_num 0 dev1 w1 r1
            rtlsdr_async_status.RTLSDR_INACTIVE h3
          rw [hcl] at hc
          simp only [] at hc
          have hinv2 : SessionInv dev2 next2 := by
            refine ⟨by rw [hc.1]; decide, fun _ => hc.1, ?_⟩
            rcases hc.2 with h4 | h4 <;> rw [h4] <;> decide
          split_ifs at h
          · split at h
            rename_i r3 dev3 w3 hev3
            cases h
            have hd3 := handle_events_status env hm 0 dev2 w2
            rw [hev3] at hd3
            simp only [] at hd3
            have hd3c : dev3.async_status = rtlsdr_async_status.RTLSDR_CANCELING := by
              rcases hd3 with h5 | ⟨h5, _⟩
              · exact h5.trans hc.1
              · rw [hc.1] at h5; cases h5
            exact ⟨by rw [hd3c]; decide, fun _ => hd3c, hinv2.2.2⟩
          · exact ih _ _ _ _ hinv2 res h
      · exact ih _ _ _ _ hinv1 res h

/-- Allocating the rings does not touch the stream state. -/
theorem alloc_async_buffers_status (dev : rtlsdr_dev) (w : World) :
    (_rtlsdr_alloc_async_buffers dev w).2.1.async_status = dev.async_status := by
  unfold _rtlsdr_alloc_async_buffers
  cases hx : dev.xfer <;> simp only [] <;> split <;> first | rfl | (split_ifs <;> rfl)

/-- The submit loop leaves the stream state alone or stores Canceling. -/
theorem submit_loop_status (n : Nat) :
    ∀ (i : Nat) (dev : rtlsdr_dev) (w : World) (r : Int),
      (submit_loop n i dev w r).2.1.async_status = dev.async_status ∨
      (submit_loop n i dev w r).2.1.async_status = rtlsdr_async_status.RTLSDR_CANCELING := by
  induction n with
  | zero => intro i dev w r; left; rfl
  | succ n ih =>
    intro i dev w r
    unfold submit_loop
    split
    split_ifs
    · right; rfl
    · exact ih _ _ _ _
/-- `rtlsdr_read_async` in terms of its parts: the guard, the session up to the
exit of the event loop, then freeing the rings and storing `next_status`. -/
theorem read_async_eq (env : AsyncEnv) (fuel : Nat) (dev : rtlsdr_dev) (cb : Option Nat)
    (ctx buf_num buf_len : Nat) (w : World) :
    rtlsdr_read_async env fuel dev cb ctx buf_num buf_len w =
      if dev.async_status ≠ rtlsdr_async_status.RTLSDR_INACTIVE then some (-2, dev, w)
      else
        match read_async_loop_exit env fuel dev cb ctx buf_num buf_len w with
        | none => none
        | some x =>
          some (x.2.2.1,
            { (_rtlsdr_free_async_buffers x.1 x.2.1).1 with async_status := x.2.2.2 },
            (_rtlsdr_free_async_buffers x.1 x.2.1).2) := by
  unfold rtlsdr_read_async
  by_cases h : dev.async_status ≠ rtlsdr_async_status.RTLSDR_INACTIVE
  · rw [if_pos h, if_pos h]
  · rw [if_neg h, if_neg h]
    simp only [read_async_loop_exit, read_async_submitted, read_async_start]
    split
    · rename_i heq
      simp only [heq]
    · rename_i heq
      simp only [heq]

/-- C12 (amended): every change of the stream state made by
`rtlsdr_cancel_async`, by the completion callback or by `rtlsdr_read_async`, for
every outcome of the USB calls and every schedule of completions and cancel
requests, is one of Inactive→Running, Running→Canceling, Canceling→Inactive, or,
at the final store of `rtlsdr_read_async`, Running→Inactive (the event loop was
left while the state was still Running).  A refused `rtlsdr_read_async` changes
nothing; a started one stores Running over Inactive, its submit loop leaves
Running or stores Canceling over it, and its final store `next_status` equals
the state at the loop exit or is one of the changes above. -/
theorem C12_state_changes_legal_or_teardown (tm : SoftAgcTimes) (user_cb : UserCb)
    (huc : UserCbViaApi user_cb) (sched : Nat → List Happening) (fuel : Nat)
    (dev : rtlsdr_dev) (cb : Option Nat) (ctx buf_num buf_len : Nat) (w : World)
    (xfer : completed_transfer) :
    ((rtlsdr_cancel_async dev).2.async_status = dev.async_status ∨
      legal_change dev.async_status (rtlsdr_cancel_async dev).2.async_status) ∧
    ((_libusb_callback tm user_cb xfer dev w).1.async_status = dev.async_status ∨
      legal_change dev.async_status (_libusb_callback tm user_cb xfer dev w).1.async_status) ∧
    (dev.async_status ≠ rtlsdr_async_status.RTLSDR_INACTIVE →
      rtlsdr_read_async (callback_env tm user_cb sched) fuel dev cb ctx buf_num buf_len w =
        some (-2, dev, w)) ∧
    (dev.async_status = rtlsdr_async_status.RTLSDR_INACTIVE →
      legal_change dev.async_status (read_async_start dev cb ctx buf_num buf_len).async_status ∧
      ((read_async_submitted dev cb ctx buf_num buf_len w).2.1.async_status =
          rtlsdr_async_status.RTLSDR_RUNNING ∨
        legal_change rtlsdr_async_status.RTLSDR_RUNNING
          (read_async_submitted dev cb ctx buf_num buf_len w).2.1.async_status) ∧
      ∀ (dev4 : rtlsdr_dev) (w4 : World) (r4 : Int) (next : rtlsdr_async_status),
        read_async_loop_exit (callback_env tm user_cb sched) fuel dev cb ctx buf_num buf_len w =
          some (dev4, w4, r4, next) →
        (∃ (dev' : rtlsdr_dev) (w' : World),
          rtlsdr_read_async (callback_env tm user_cb sched) fuel dev cb ctx buf_num buf_len w =
            some (r4, dev', w') ∧ dev'.async_status = next) ∧
        (dev4.async_status = next ∨ legal_change dev4.async_status next ∨
          (dev4.async_status = rtlsdr_async_status.RTLSDR_RUNNING ∧
            next = rtlsdr_async_status.RTLSDR_INACTIVE))) := by
  have hsub : (read_async_submitted dev cb ctx buf_num buf_len w).2.1.async_status =
        rtlsdr_async_status.RTLSDR_RUNNING ∨
      (read_async_submitted dev cb ctx buf_num buf_len w).2.1.async_status =
        rtlsdr_async_status.RTLSDR_CANCELING := by
    unfold read_async_submitted
    simp only []
    rcases submit_loop_status
      (_rtlsdr_alloc_async_buffers (read_async_start dev cb ctx buf_num buf_len) w).2.1.xfer_buf_num
      0 (_rtlsdr_alloc_async_buffers (read_async_start dev cb ctx buf_num buf_len) w).2.1
      (_rtlsdr_alloc_async_buffers (read_async_start dev cb ctx buf_num buf_len) w).2.2 0
      with h | h
    · left; rw [h, alloc_async_buffers_status]; rfl
    · right; exact h
  refine ⟨?_, ?_, ?_, ?_⟩
  · rcases cancel_async_status dev with h | ⟨h1, h2⟩
    · exact Or.inl h
    · exact Or.inr (Or.inr (Or.inl ⟨h1, h2⟩))
  · rcases libusb_callback_status tm user_cb huc xfer dev w with h | ⟨h1, h2⟩
    · exact Or.inl h
    · exact Or.inr (Or.inr (Or.inl ⟨h1, h2⟩))
  · intro h
    unfold rtlsdr_read_async
    rw [if_pos h]
  · intro hi
    refine ⟨Or.inl ⟨hi, rfl⟩, ?_, ?_⟩
    · rcases hsub with h | h
      · exact Or.inl h
      · exact Or.inr (Or.inr (Or.inl ⟨rfl, h⟩))
    · intro dev4 w4 r4 next hex
      refine ⟨?_, ?_⟩
      · refine ⟨{ (_rtlsdr_free_async_buffers dev4 w4).1 with async_status := next },
          (_rtlsdr_free_async_buffers dev4 w4).2, ?_, rfl⟩
        rw [read_async_eq, if_neg (by simp [hi]), hex]
      · have hinv0 : SessionInv (read_async_submitted dev cb ctx buf_num buf_len w).2.1
            rtlsdr_async_status.RTLSDR_INACTIVE := by
          refine ⟨?_, by simp, by simp⟩
          rcases hsub with h | h <;> rw [h] <;> decide
        have hinv := event_loop_inv (callback_env tm user_cb sched)
          (callback_env_monotone tm user_cb huc sched) fuel _ _ _ _ hinv0 _ hex
        obtain ⟨h1, h2, h3⟩ := hinv
        simp only [] at h1 h2 h3
        cases hs : dev4.async_status <;> cases hn : next <;> simp_all [legal_change]

/-- C12 (counterexample): a session with one transfer in which the submit
succeeds and the first `libusb_handle_events_timeout_completed` fails with
`LIBUSB_ERROR_IO`: the event loop is left while the state is Running, the call
returns -1 and stores Inactive, a change Running→Inactive that is none of
Inactive→Running, Running→Canceling, Canceling→Inactive. -/
theorem C12_counterexample_running_to_inactive :
    (read_async_loop_exit (callback_env zero_times idle_cb idle_sched) 5 opened_dev none 0 1 512
        event_error_world).map (fun x => (x.1.async_status, x.2.2.2)) =
      some (rtlsdr_async_status.RTLSDR_RUNNING, rtlsdr_async_status.RTLSDR_INACTIVE) ∧
    (rtlsdr_read_async (callback_env zero_times idle_cb idle_sched) 5 opened_dev none 0 1 512
        event_error_world).map (fun x => (x.1, x.2.1.async_status)) =
      some (-1, rtlsdr_async_status.RTLSDR_INACTIVE) ∧
    ¬ legal_change rtlsdr_async_status.RTLSDR_RUNNING rtlsdr_async_status.RTLSDR_INACTIVE := by
  decide

/-- C12 witness: the idle user callback, no happenings, an opened device and a
failing first wait for events. -/
theorem C12_state_changes_legal_or_teardown_witness :
    UserCbViaApi idle_cb ∧
    ((rtlsdr_cancel_async opened_dev).2.async_status = opened_dev.async_status ∨
      legal_change opened_dev.async_status (rtlsdr_cancel_async opened_dev).2.async_status) ∧
    ((_libusb_callback zero_times idle_cb lost_transfer opened_dev event_error_world).1.async_status
        = opened_dev.async_status ∨
      legal_change opened_dev.async_status
        (_libusb_callback zero_times idle_cb lost_transfer opened_dev
          event_error_world).1.async_status) ∧
    legal_change opened_dev.async_status (read_async_start opened_dev none 0 1 512).async_status :=
  ⟨fun _ _ _ _ _ _ => Or.inl rfl,
   (C12_state_changes_legal_or_teardown zero_times idle_cb (fun _ _ _ _ _ _ => Or.inl rfl)
      idle_sched 5 opened_dev none 0 1 512 event_error_world lost_transfer).1,
   (C12_state_changes_legal_or_teardown zero_times idle_cb (fun _ _ _ _ _ _ => Or.inl rfl)
      idle_sched 5 opened_dev none 0 1 512 event_error_world lost_transfer).2.1,
   ((C12_state_changes_legal_or_teardown zero_times idle_cb (fun _ _ _ _ _ _ => Or.inl rfl)
      idle_sched 5 opened_dev none 0 1 512 event_error_world lost_transfer).2.2.2 rfl).1⟩

/-! ### End of a session -/

/-- After `_rtlsdr_free_async_buffers` both rings are `NULL`. -/
theorem free_async_buffers_none (dev : rtlsdr_dev) (w : World) :
    (_rtlsdr_free_async_buffers dev w).1.xfer = none ∧
    (_rtlsdr_free_async_buffers dev w).1.xfer_buf = none := by
  unfold _rtlsdr_free_async_buffers
  cases hx : dev.xfer <;> cases hb : dev.xfer_buf <;> simp [hx, hb]

/-- Whenever `rtlsdr_read_async` returns after having started a session, the
transfer ring and the buffer ring have been freed, in every environment. -/
theorem read_async_frees_rings (env : AsyncEnv) (fuel : Nat) (dev : rtlsdr_dev)
    (cb : Option Nat) (ctx buf_num buf_len : Nat) (w : World)
    (hi : dev.async_status = rtlsdr_async_status.RTLSDR_INACTIVE)
    (r : Int) (dev' : rtlsdr_dev) (w' : World)
    (h : rtlsdr_read_async env fuel dev cb ctx buf_num buf_len w = some (r, dev', w')) :
    dev'.xfer = none ∧ dev'.xfer_buf = none := by
  rw [read_async_eq, if_neg (by simp [hi])] at h
  split at h
  · cases h
  · rename_i x hx
    simp only [Option.some.injEq, Prod.mk.injEq] at h
    obtain ⟨_, h2, _⟩ := h
    subst h2
    exact free_async_buffers_none x.1 x.2.1

/-- C13 (evaluation at the failing input): a session with two transfers on an
opened device; during the first wait for events transfer 0 completes with
status NoDevice, so the callback marks the device lost and requests the cancel;
`libusb_cancel_transfer` fails for transfer 0 and is accepted for transfer 1.
`rtlsdr_read_async` returns 0 with both rings freed and the device marked lost,
but the stream state it stores is Canceling, not Inactive; afterwards
`rtlsdr_cancel_async` and `rtlsdr_read_async` both refuse with -2. -/
theorem C13_device_lost_ends_canceling :
    (rtlsdr_read_async (callback_env zero_times idle_cb device_lost_sched) 5 opened_dev none 0
        2 512 device_lost_world).map
      (fun x => (x.1, x.2.1.async_status, x.2.1.dev_lost, x.2.1.xfer.isNone,
        x.2.1.xfer_buf.isNone)) =
      some (0, rtlsdr_async_status.RTLSDR_CANCELING, 1, true, true) ∧
    (rtlsdr_read_async (callback_env zero_times idle_cb device_lost_sched) 5 opened_dev none 0
        2 512 device_lost_world).map
      (fun x => ((rtlsdr_cancel_async x.2.1).1,
        (rtlsdr_read_async (callback_env zero_times idle_cb idle_sched) 5 x.2.1 none 0 2 512
          x.2.2).map (fun y => y.1))) = some (-2, some (-2)) := by
  decide

/-! ### Soft AGC: oversteer and end of the scan window -/

/-- A device whose dead window is 0 is the device with the dead window set to 0. -/
theorem dead_zero_eq (dev : rtlsdr_dev) (h : dev.softagc.remainingDeadSps = 0) :
    ({ dev with softagc := { dev.softagc with remainingDeadSps := 0 } } : rtlsdr_dev) = dev := by
  obtain ⟨⟩ := dev
  rename_i agc _ _ _ _ _ _ _ _
  obtain ⟨⟩ := agc
  simp only [] at h
  subst h
  rfl

/-- A call that reaches the histogram stage is the histogram stage run on the
part of the buffer behind the dead window, with the dead window at 0. -/
theorem softagc_eq_histo (tm : SoftAgcTimes) (dev : rtlsdr_dev) (buf : Int → Nat) (len : Int)
    (h : reaches_histo dev len) :
    softagc tm dev buf len =
      softagc_histo { dev with softagc := { dev.softagc with remainingDeadSps := 0 } }
        (histo_buf dev buf) (histo_len dev len) := by
  obtain ⟨h1, h2, h3, h4, h5⟩ := h
  unfold softagc softagc_run histo_buf histo_len
  rw [if_neg h1, if_neg h2, if_neg h3]
  by_cases hd : dev.softagc.remainingDeadSps ≠ 0
  · rw [if_pos hd, if_pos hd, if_pos hd, if_neg (not_le.mpr (h4 hd))]
    unfold softagc_finish
    rw [if_neg h5]
  · rw [if_neg hd, if_neg hd, if_neg hd]
    unfold softagc_finish
    rw [if_neg h5, dead_zero_eq dev (not_not.mp hd)]
/-- A classifier call that reaches the histogram stage, finds no oversteer and
finds the scan window used up (`remainingScanSps < 0` after the samples of this
call).  In the modes `Off` and `OnChange` the sub-state after the call is `Off`
when it was `ResetContinuing` before; a sub-state `On` before the call would be
`On` afterwards, in every mode.  The call returns 1 and leaves
`remainingScanSps` at 0. -/
theorem softagc_scan_end_substate (tm : SoftAgcTimes) (dev : rtlsdr_dev) (buf : Int → Nat)
    (len : Int) (hr : reaches_histo dev len)
    (hno : ¬ oversteer (histo_after dev buf len) (num_after dev len))
    (hscan : dev.softagc.remainingScanSps - Int.tdiv (histo_len dev len) 2 < 0) :
    ((dev.softagc.softAgcMode = softagc_mode.SOFTAGC_OFF ∨
        dev.softagc.softAgcMode = softagc_mode.SOFTAGC_ON_CHANGE) →
      dev.softagc.agcState = softagc_stateT.SOFTSTATE_RESET_CONT →
      (softagc tm dev buf len).2.softagc.agcState = softagc_stateT.SOFTSTATE_OFF) ∧
    (dev.softagc.agcState = softagc_stateT.SOFTSTATE_ON →
      (softagc tm dev buf len).2.softagc.agcState = softagc_stateT.SOFTSTATE_ON) ∧
    (softagc tm dev buf len).1 = 1 ∧
    (softagc tm dev buf len).2.softagc.remainingScanSps = 0 := by
  rw [softagc_eq_histo tm dev buf len hr]
  unfold softagc_histo
  simp only []
  rw [if_neg (by exact hno), if_pos (by exact hscan)]
  unfold softagc_scan_end
  simp only []
  cases hm : dev.softagc.softAgcMode <;> cases hs : dev.softagc.agcState <;> simp
/-- The bin of a byte is below 16. -/
theorem histo_bin_lt (x : Nat) (h : x < 256) : histo_bin x < 16 := by
  unfold histo_bin
  split_ifs <;> rw [Nat.shiftRight_eq_div_pow] <;> omega

/-- Counting one more sample in bin `b` raises `distrib[12]` exactly when
`b ≥ 12`. -/
theorem distrib12_set (histo : List Int) (hl : histo.length = 16) (b : Nat) (hb : b < 16) :
    distrib_from (histo.set b (histo.getD b 0 + 1)) 3 =
      distrib_from histo 3 + (if 12 ≤ b then 1 else 0) := by
  obtain ⟨a0, a1, a2, a3, a4, a5, a6, a7, a8, a9, a10, a11, a12, a13, a14, a15, rfl⟩ :=
    list_of_length_16 histo hl
  interval_cases b <;> simp [distrib_from] <;> omega

/-- The histogram loop keeps the length of the histogram. -/
theorem histo_loop_length (buf : Int → Nat) (n : Nat) :
    ∀ (i : Int) (histo : List Int), (histo_loop buf n i histo).length = histo.length := by
  induction n with
  | zero => intro i histo; rfl
  | succ n ih =>
    intro i histo
    simp only [histo_loop]
    rw [ih, List.length_set]

/-- After the histogram loop `distrib[12]` has grown by the number of samples
in the bins 12 to 15. -/
theorem histo_loop_distrib12 (buf : Int → Nat) (n : Nat) :
    ∀ (i : Int) (histo : List Int), histo.length = 16 →
      distrib_from (histo_loop buf n i histo) 3 =
        distrib_from histo 3 + (count_bins_ge 12 buf n i : Int) := by
  induction n with
  | zero => intro i histo _; simp [histo_loop, count_bins_ge]
  | succ n ih =>
    intro i histo hl
    simp only [histo_loop, count_bins_ge]
    rw [ih _ _ (by rw [List.length_set]; exact hl),
      distrib12_set histo hl _ (histo_bin_lt _ (Nat.mod_lt _ (by decide)))]
    split_ifs <;> push_cast <;> ring

/-- With counts that are not negative, `distrib[12]` is not negative. -/
theorem distrib12_nonneg (histo : List Int) (hl : histo.length = 16)
    (hn : ∀ x ∈ histo, 0 ≤ x) : 0 ≤ distrib_from histo 3 := by
  obtain ⟨a0, a1, a2, a3, a4, a5, a6, a7, a8, a9, a10, a11, a12, a13, a14, a15, rfl⟩ :=
    list_of_length_16 histo hl
  have h12 := hn a12 (by simp)
  have h13 := hn a13 (by simp)
  have h14 := hn a14 (by simp)
  have h15 := hn a15 (by simp)
  simp [distrib_from]
  omega

/-- The oversteer branch above gain index 0. -/
theorem softagc_oversteer_step (dev : rtlsdr_dev) (hg : 0 < dev.softagc.gainIdx) :
    (softagc_oversteer dev).2.softagc =
      { dev.softagc with
        remainingDeadSps := INT_MAX, remainingScanSps := dev.softagc.scanTimeSps,
        numInHisto := 0, histo := List.replicate 16 0,
        gainIdx := dev.softagc.gainIdx - 1,
        command_newGain := (get_tuner_gains dev).getD (dev.softagc.gainIdx - 1).toNat 0,
        command_changeGain := 1 } := by
  unfold softagc_oversteer
  simp only []
  rw [if_pos hg]

/-- The end of the scan window keeps the gain index. -/
theorem softagc_scan_end_gainIdx (dev : rtlsdr_dev) :
    (softagc_scan_end dev).2.softagc.gainIdx = dev.softagc.gainIdx := by
  unfold softagc_scan_end
  simp only []
  split <;> (try split) <;> rfl
/-- C14 (amended): a classifier call that reaches the histogram stage with gain
index `g > 0`, with `N` the number of histogrammed samples after the samples of
this call have been added.  If any of `64·distrib[15] ≥ N`, `16·distrib[12] ≥ N`,
`4·distrib[8] ≥ N` holds, the gain index becomes `g − 1`, the commanded gain is
`gains[g − 1]` with the change request set, the histogram and its count are
zeroed, the scan window is reset and the dead window is "infinite" (`INT_MAX`).
In particular a call whose histogrammed samples have at least 40% in the bins
12 to 15 lowers the gain index by one provided the histogram held, before the
call, at most 5.4 times as many samples as the call adds (so also when it was
empty).  If none of the three tests holds the gain index is unchanged. -/
theorem C14_oversteer_lowers_gain (tm : SoftAgcTimes) (dev : rtlsdr_dev) (buf : Int → Nat)
    (len : Int) (hr : reaches_histo dev len) (hg : 0 < dev.softagc.gainIdx) :
    (oversteer (histo_after dev buf len) (num_after dev len) →
      (softagc tm dev buf len).2.softagc.gainIdx = dev.softagc.gainIdx - 1 ∧
      (softagc tm dev buf len).2.softagc.command_newGain =
        (get_tuner_gains dev).getD (dev.softagc.gainIdx - 1).toNat 0 ∧
      (softagc tm dev buf len).2.softagc.command_changeGain = 1 ∧
      (softagc tm dev buf len).2.softagc.histo = List.replicate 16 0 ∧
      (softagc tm dev buf len).2.softagc.numInHisto = 0 ∧
      (softagc tm dev buf len).2.softagc.remainingScanSps = dev.softagc.scanTimeSps ∧
      (softagc tm dev buf len).2.softagc.remainingDeadSps = INT_MAX) ∧
    (dev.softagc.histo.length = 16 → (∀ x ∈ dev.softagc.histo, 0 ≤ x) →
      2 * histo_len dev len ≤
        5 * (count_bins_ge 12 (histo_buf dev buf) (histo_len dev len).toNat 0 : Int) →
      5 * dev.softagc.numInHisto ≤ 27 * histo_len dev len →
      (softagc tm dev buf len).2.softagc.gainIdx = dev.softagc.gainIdx - 1) ∧
    (¬ oversteer (histo_after dev buf len) (num_after dev len) →
      (softagc tm dev buf len).2.softagc.gainIdx = dev.softagc.gainIdx) := by
  have hover : oversteer (histo_after dev buf len) (num_after dev len) →
      (softagc tm dev buf len).2.softagc =
        { dev.softagc with
          remainingDeadSps := INT_MAX, remainingScanSps := dev.softagc.scanTimeSps,
          numInHisto := 0, histo := List.replicate 16 0,
          gainIdx := dev.softagc.gainIdx - 1,
          command_newGain := (get_tuner_gains dev).getD (dev.softagc.gainIdx - 1).toNat 0,
          command_changeGain := 1 } := by
    intro ho
    rw [softagc_eq_histo tm dev buf len hr]
    unfold softagc_histo
    simp only []
    rw [if_pos (by exact ho), softagc_oversteer_step _ (by exact hg)]
    rfl
  refine ⟨?_, ?_, ?_⟩
  · intro ho
    rw [hover ho]
    exact ⟨rfl, rfl, rfl, rfl, rfl, rfl, rfl⟩
  · intro hl hn h40 hold
    have ho : oversteer (histo_after dev buf len) (num_after dev len) := by
      unfold oversteer
      right; left
      unfold histo_after num_after
      rw [histo_loop_distrib12 _ _ _ _ hl]
      have := distrib12_nonneg _ hl hn
      omega
    rw [hover ho]
  · intro hno
    rw [softagc_eq_histo tm dev buf len hr]
    unfold softagc_histo
    simp only []
    rw [if_neg (by exact hno)]
    split_ifs
    · rw [softagc_scan_end_gainIdx]
    · rfl

/-- C14 (counterexample): gain index 5, a histogram that already holds 1000
quiet samples, and a buffer of ten samples of which four (40%) are in bin 12:
the call reaches the histogram stage, none of the three tests holds for the
accumulated histogram (`16·4 < 1010`), and the gain index stays 5. -/
theorem C14_counterexample_burst_after_quiet :
    reaches_histo (quiet_dev softagc_mode.SOFTAGC_AUTO softagc_stateT.SOFTSTATE_RESET_CONT) 10 ∧
    (quiet_dev softagc_mode.SOFTAGC_AUTO softagc_stateT.SOFTSTATE_RESET_CONT).softagc.gainIdx = 5 ∧
    count_bins_ge 12 burst_buf 10 0 = 4 ∧
    (softagc zero_times (quiet_dev softagc_mode.SOFTAGC_AUTO softagc_stateT.SOFTSTATE_RESET_CONT)
        burst_buf 10).2.softagc.gainIdx = 5 ∧
    (softagc zero_times (quiet_dev softagc_mode.SOFTAGC_AUTO softagc_stateT.SOFTSTATE_RESET_CONT)
        burst_buf 10).2.softagc.histo = [1006, 0, 0, 0, 0, 0, 0, 0, 0, 0, 0, 0, 4, 0, 0, 0] ∧
    (softagc zero_times (quiet_dev softagc_mode.SOFTAGC_AUTO softagc_stateT.SOFTSTATE_RESET_CONT)
        burst_buf 10).2.softagc.numInHisto = 1010 := by
  decide

/-- C14 witness: gain index 5, an empty histogram, and the buffer of ten samples
of which four are in bin 12: the gain index becomes 4. -/
theorem C14_oversteer_lowers_gain_witness :
    reaches_histo fresh_dev 10 ∧ 0 < fresh_dev.softagc.gainIdx ∧
    (softagc zero_times fresh_dev burst_buf 10).2.softagc.gainIdx =
      fresh_dev.softagc.gainIdx - 1 :=
  ⟨by decide, by decide,
   (C14_oversteer_lowers_gain zero_times fresh_dev burst_buf 10 (by decide) (by decide)).2.1
     (by decide) (by decide) (by decide) (by decide)⟩

/-! ### UDP controller: numbers -/

/-- C19 (evaluation at the failing input): the digit expression maps the
characters with codes 87 to 96, among them the separator `_` (95), to the
values 0 to 9, and the digit test comes before the separator test.  So in
decimal and hexadecimal `_` is read as the digit 8: `1_000` gives 18000 and
`x1_0` gives 0x180, and `W` does not stop the parse (`1W` gives 10); with the
separator apostrophe the value is the expected 1000, and in binary `_` is
skipped. -/
theorem C19_parseNum_underscore_is_digit :
    digitValue ('_').toNat = 8 ∧
    parseNum (some ['1', '_', '0', '0', '0']) = 18000 ∧
    parseNum (some ['x', '1', '_', '0']) = 384 ∧
    parseNum (some ['-', '2', '_', '5']) = -285 ∧
    parseNum (some ['1', 'W']) = 10 ∧
    parseNum (some ['1', Char.ofNat 39, '0', '0', '0']) = 1000 ∧
    parseNum (some ['b', '1', '_', '0']) = 2 ∧
    parseNum (some []) = 0 := by
  decide

/-! ### UDP controller: responses -/

/-- C20 (evaluation at the failing input): the line `g 5` on an R820T device
whose register 5 reads 29.  `parse` sends the answer `! 29 = x1D = b0001'1101`
and then, from the closing block that every path without an early `return` runs
through, a second datagram `?`: two datagrams for one command, an answer with
`!` that is also answered with `?`.  The same happens for `s 5 1`; the line `h`
is answered with the help text, which has neither form, and then `?`. -/
theorem C20_get_register_answers_twice :
    (parse idle_api "g 5\n".toList r820t_dev reg29_world fresh_socket).map
        (fun x => (x.1, x.2.2.2.sent)) =
      some (0, ["! 29 = x1D = b0001'1101\n".toList, "?\n".toList]) ∧
    (parse idle_api "s 5 1\n".toList r820t_dev reg29_world fresh_socket).map
        (fun x => (x.1, x.2.2.2.sent)) =
      some (0, ["! 29\n".toList, "?\n".toList]) ∧
    (parse idle_api "h\n".toList r820t_dev reg29_world fresh_socket).map
        (fun x => (x.1, x.2.2.2.sent)) = some (0, [help_text, "?\n".toList]) ∧
    is_response "! 29 = x1D = b0001'1101\n".toList ∧
    is_response "?\n".toList ∧
    ¬ is_response help_text := by
  decide

/-- The closing block sends `"?\n"` last. -/
theorem parse_tail_last (dev : rtlsdr_dev) (w : World) (u : UdpSocket) (x : Int × rtlsdr_dev × World × UdpSocket)
    (h : parse_tail dev w u = some x) :
    x.1 = 0 ∧ x.2.2.2.sent.getLast? = some response_unknown := by
  unfold parse_tail sendto at h
  cases h
  simp

/-- An early exit sends `"?\n"` last. -/
theorem parse_reject_last (dev : rtlsdr_dev) (w : World) (u : UdpSocket)
    (x : Int × rtlsdr_dev × World × UdpSocket) (h : parse_reject dev w u = some x) :
    x.2.2.2.sent.getLast? = some response_unknown := by
  unfold parse_reject sendto at h
  simp only [] at h
  split_ifs at h <;> cases h <;> simp

/-- After an answer was sent, `parse` returns -1 or runs into the closing
block. -/
theorem parse_answer_last (r : Int × UdpSocket) (dev : rtlsdr_dev) (w : World)
    (x : Int × rtlsdr_dev × World × UdpSocket)
    (h : (if r.1 < 0 then some (-1, dev, w, r.2) else parse_tail dev w r.2) = some x)
    (h0 : x.1 = 0) : x.2.2.2.sent.getLast? = some response_unknown := by
  split_ifs at h
  · cases h; simp at h0
  · exact (parse_tail_last _ _ _ _ h).2

/-- The command `g` ends with `"?\n"` when it returns 0. -/
theorem parse_get_register_last (reg : Nat) (dev : rtlsdr_dev) (w : World) (u : UdpSocket)
    (x : Int × rtlsdr_dev × World × UdpSocket)
    (h : parse_get_register reg dev w u = some x) (h0 : x.1 = 0) :
    x.2.2.2.sent.getLast? = some response_unknown := by
  unfold parse_get_register at h
  split at h
  · cases h
  · simp only [] at h
    exact parse_answer_last _ _ _ _ h h0

/-- The commands `s` and `S` end with `"?\n"` when they return 0. -/
theorem parse_set_register_last (comm reg : Nat) (iVal : Int) (mask : Nat) (dev : rtlsdr_dev)
    (w : World) (u : UdpSocket) (x : Int × rtlsdr_dev × World × UdpSocket)
    (h : parse_set_register comm reg iVal mask dev w u = some x) (h0 : x.1 = 0) :
    x.2.2.2.sent.getLast? = some response_unknown := by
  unfold parse_set_register at h
  split at h
  · cases h
  · split at h
    · cases h
    · simp only [] at h
      exact parse_answer_last _ _ _ _ h h0

/-- Whatever the command line, a call of `parse` that returns 0 has sent
`"?\n"` as its last datagram: also after an answer that starts with `!`. -/
theorem parse_returns_zero_after_unknown (api : ParseApi) (message : List Char)
    (dev : rtlsdr_dev) (w : World) (u : UdpSocket) (x : Int × rtlsdr_dev × World × UdpSocket)
    (h : parse api message dev w u = some x) (h0 : x.1 = 0) :
    x.2.2.2.sent.getLast? = some response_unknown := by
  unfold parse at h
  simp only [] at h
  split at h
  · cases h; simp [sendto]
  · split_ifs at h
    · unfold parse_register at h
      split at h
      · exact parse_reject_last _ _ _ _ h
      · simp only [] at h
        split_ifs at h <;>
          first
          | exact parse_reject_last _ _ _ _ h
          | exact parse_get_register_last _ _ _ _ _ h h0
          | exact parse_set_register_last _ _ _ _ _ _ _ _ h h0
          | exact (parse_tail_last _ _ _ _ h).2
    · unfold parse_if at h
      split at h
      · cases h
      · exact (parse_tail_last _ _ _ _ h).2
    · unfold parse_freq at h
      split at h
      · cases h
      · exact (parse_tail_last _ _ _ _ h).2
    · unfold parse_gain at h
      split at h
      · exact parse_reject_last _ _ _ _ h
      · exact (parse_tail_last _ _ _ _ h).2
    · exact (parse_tail_last _ _ _ _ h).2
    · exact (parse_tail_last _ _ _ _ h).2

/-- Allocating the rings does not touch the ring sizes. -/
theorem alloc_async_buffers_sizes (dev : rtlsdr_dev) (w : World) :
    (_rtlsdr_alloc_async_buffers dev w).2.1.xfer_buf_len = dev.xfer_buf_len ∧
    (_rtlsdr_alloc_async_buffers dev w).2.1.xfer_buf_num = dev.xfer_buf_num := by
  unfold _rtlsdr_alloc_async_buffers
  cases hx : dev.xfer <;> simp only [] <;> split <;>
    first | exact ⟨rfl, rfl⟩ | (split_ifs <;> exact ⟨rfl, rfl⟩)

/-- The submit loop does not touch the ring sizes. -/
theorem submit_loop_sizes (n : Nat) :
    ∀ (i : Nat) (dev : rtlsdr_dev) (w : World) (r : Int),
      (submit_loop n i dev w r).2.1.xfer_buf_len = dev.xfer_buf_len ∧
      (submit_loop n i dev w r).2.1.xfer_buf_num = dev.xfer_buf_num := by
  induction n with
  | zero => intro i dev w r; exact ⟨rfl, rfl⟩
  | succ n ih =>
    intro i dev w r
    unfold submit_loop
    split
    split_ifs
    · exact ⟨rfl, rfl⟩
    · exact ih _ _ _ _

/-- C21: for every device, callback, context, `buf_num`, `buf_len` and
environment, the ring sizes that `rtlsdr_read_async` stores (and still holds
after allocating the rings and submitting the transfers) are: the buffer length
`buf_len` when that is a non-zero multiple of 512 and 262144 otherwise, and the
number of transfers `buf_num` when that is greater than zero and 15 otherwise;
so the buffer length is always a non-zero multiple of 512. -/
theorem C21_read_async_ring_sizes (dev : rtlsdr_dev) (cb : Option Nat)
    (ctx buf_num buf_len : Nat) (w : World) :
    (read_async_start dev cb ctx buf_num buf_len).xfer_buf_len =
      (if buf_len ≠ 0 ∧ 512 ∣ buf_len then buf_len else 262144) ∧
    (read_async_start dev cb ctx buf_num buf_len).xfer_buf_num =
      (if buf_num > 0 then buf_num else 15) ∧
    (read_async_submitted dev cb ctx buf_num buf_len w).2.1.xfer_buf_len =
      (read_async_start dev cb ctx buf_num buf_len).xfer_buf_len ∧
    (read_async_submitted dev cb ctx buf_num buf_len w).2.1.xfer_buf_num =
      (read_async_start dev cb ctx buf_num buf_len).xfer_buf_num ∧
    (read_async_submitted dev cb ctx buf_num buf_len w).2.1.xfer_buf_len ≠ 0 ∧
    512 ∣ (read_async_submitted dev cb ctx buf_num buf_len w).2.1.xfer_buf_len := by
  have hlen : (read_async_start dev cb ctx buf_num buf_len).xfer_buf_len =
      (if buf_len ≠ 0 ∧ 512 ∣ buf_len then buf_len else 262144) := by
    simp only [read_async_start, DEFAULT_BUF_LENGTH]
    by_cases h : buf_len > 0 ∧ buf_len % 512 = 0
    · rw [if_pos h, if_pos ⟨Nat.pos_iff_ne_zero.mp h.1, Nat.dvd_of_mod_eq_zero h.2⟩]
    · rw [if_neg h, if_neg]
      rintro ⟨h1, h2⟩
      exact h ⟨Nat.pos_of_ne_zero h1, Nat.mod_eq_zero_of_dvd h2⟩
  have hs : (read_async_submitted dev cb ctx buf_num buf_len w).2.1.xfer_buf_len =
        (read_async_start dev cb ctx buf_num buf_len).xfer_buf_len ∧
      (read_async_submitted dev cb ctx buf_num buf_len w).2.1.xfer_buf_num =
        (read_async_start dev cb ctx buf_num buf_len).xfer_buf_num := by
    unfold read_async_submitted
    have h1 := submit_loop_sizes
      (_rtlsdr_alloc_async_buffers (read_async_start dev cb ctx buf_num buf_len) w).2.1.xfer_buf_num
      0 (_rtlsdr_alloc_async_buffers (read_async_start dev cb ctx buf_num buf_len) w).2.1
      (_rtlsdr_alloc_async_buffers (read_async_start dev cb ctx buf_num buf_len) w).2.2 0
    have h2 := alloc_async_buffers_sizes (read_async_start dev cb ctx buf_num buf_len) w
    exact ⟨h1.1.trans h2.1, h1.2.trans h2.2⟩
  refine ⟨hlen, ?_, hs.1, hs.2, ?_, ?_⟩
  · simp only [read_async_start, DEFAULT_BUF_NUMBER]
  · rw [hs.1, hlen]
    split_ifs with h
    · exact h.1
    · decide
  · rw [hs.1, hlen]
    split_ifs with h
    · exact h.2
    · decide

/-- C26: for every byte value `b` in 0..255 the histogram loop increments
exactly one bin: one pass of the loop over a sample `b` adds one to the entry
with index `(b − 128) >> 3` when `b ≥ 128` and `(127 − b) >> 3` otherwise and
leaves every other entry (and the length 16) as it was; that index is always in
0..15, and `b` and `255 − b` fall in the same bin. -/
theorem C26_histogram_bin (buf : Int → Nat) (i : Int) (histo : List Int)
    (hl : histo.length = 16) (hb : buf i < 256) :
    histo_bin (buf i) =
      (if buf i ≥ 128 then (buf i - 128) >>> 3 else (127 - buf i) >>> 3) ∧
    histo_bin (buf i) < 16 ∧
    histo_bin (255 - buf i) = histo_bin (buf i) ∧
    (histo_loop buf 1 i histo).length = 16 ∧
    ∀ k : Nat, (histo_loop buf 1 i histo).getD k 0 =
      histo.getD k 0 + (if k = histo_bin (buf i) then 1 else 0) := by
  have hlt := histo_bin_lt (buf i) hb
  refine ⟨rfl, hlt, ?_, ?_, ?_⟩
  · unfold histo_bin
    simp only [Nat.shiftRight_eq_div_pow]
    split_ifs <;> omega
  · rw [histo_loop_length]; exact hl
  · intro k
    simp only [histo_loop, Nat.mod_eq_of_lt hb]
    rw [List.getD_eq_getElem?_getD, List.getD_eq_getElem?_getD, List.getElem?_set]
    by_cases hk : k = histo_bin (buf i)
    · subst hk
      rw [if_pos rfl, if_pos rfl, if_pos (by rw [hl]; exact hlt)]
      simp [List.getD_eq_getElem?_getD]
    · rw [if_neg (Ne.symm hk), if_neg hk]; simp

/-- The statement of C26 at the sample 200 (bin 9, like its mirror 55) counted
into an empty histogram. -/
theorem C26_histogram_bin_witness :
    (List.replicate 16 (0 : Int)).length = 16 ∧ (200 : Nat) < 256 ∧
    (histo_bin 200 = (if 200 ≥ 128 then (200 - 128) >>> 3 else (127 - 200) >>> 3) ∧
     histo_bin 200 < 16 ∧
     histo_bin (255 - 200) = histo_bin 200 ∧
     (histo_loop (fun _ => 200) 1 0 (List.replicate 16 0)).length = 16 ∧
     ∀ k : Nat, (histo_loop (fun _ => 200) 1 0 (List.replicate 16 0)).getD k 0 =
       (List.replicate 16 (0 : Int)).getD k 0 + (if k = histo_bin 200 then 1 else 0)) :=
  ⟨by decide, by decide,
    C26_histogram_bin (fun _ => 200) 0 (List.replicate 16 0) (by decide) (by decide)⟩

/-- Each of the sixteen characters of the table of `formatInHex` is read by
`parseNum` as the digit it stands for, and none of them is the minus sign. -/
theorem hex_digit_value (d : Nat) (hd : d < 16) :
    digitValue ("0123456789ABCDEF".toList.getD d '0').toNat = d ∧
    "0123456789ABCDEF".toList.getD d '0' ≠ '-' := by
  interval_cases d <;> decide

/-- The digit loop of `parseNum` in base 16 over the text that the digit loop of
`formatInHex` writes for the `k` low nibbles of `v`: the value is shifted by
`k` nibbles and those nibbles are added. -/
theorem parseNum_loop_formatInHex (v num_digits : Nat) :
    ∀ (k : Nat) (val : Int),
      parseNum_loop 16 (formatInHex_loop v num_digits k) val =
        val * 16 ^ k + ((v % 16 ^ k : Nat) : Int) := by
  intro k
  induction k with
  | zero => intro val; simp [formatInHex_loop, parseNum_loop, Nat.mod_one]
  | succ k ih =>
    intro val
    have hd : (v >>> (k * 4)) &&& 0x0f < 16 := by
      have := and_15 (v >>> (k * 4))
      rw [show (0x0f : Nat) = 15 from rfl, this]
      exact Nat.mod_lt _ (by decide)
    have hdv := (hex_digit_value _ hd).1
    have hval : (v >>> (k * 4)) &&& 0x0f = v / 16 ^ k % 16 := by
      rw [show (0x0f : Nat) = 15 from rfl, and_15, Nat.shiftRight_eq_div_pow,
        Nat.mul_comm k 4, pow_mul]
      norm_num
    have hstep : ∀ val : Int,
        parseNum_loop 16 ("0123456789ABCDEF".toList.getD ((v >>> (k * 4)) &&& 0x0f) '0' ::
            formatInHex_loop v num_digits k) val =
          val * 16 ^ (k + 1) + ((v % 16 ^ (k + 1) : Nat) : Int) := by
      intro val
      rw [parseNum_loop, if_pos ⟨by rw [hdv]; exact Int.natCast_nonneg _,
        by rw [hdv]; exact_mod_cast hd⟩, ih, hdv, hval, Nat.mod_pow_succ]
      push_cast
      ring
    unfold formatInHex_loop
    by_cases hs : k % 4 = 3 ∧ k ≠ num_digits - 1
    · rw [if_pos hs]
      simp only [List.singleton_append, List.cons_append, List.nil_append]
      rw [parseNum_loop, if_neg (by decide),
        if_pos (show APOSTROPHE = Char.ofNat 39 ∨ APOSTROPHE = '.' ∨ APOSTROPHE = '_' from
          Or.inl rfl)]
      exact hstep val
    · rw [if_neg hs]
      simp only [List.singleton_append, List.cons_append, List.nil_append]
      exact hstep val

/-- A text that starts with `x` and then a character other than the minus
sign is read by `parseNum` in base 16 with sign `+1`. -/
theorem parseNum_hex_cons (c : Char) (cs : List Char) (hc : c ≠ '-') :
    parseNum (some ('x' :: c :: cs)) = parseNum_loop 16 (c :: cs) 0 * 1 := by
  simp only [parseNum, show ¬ ('x' = 'd') from by decide, if_false, if_true, true_or, or_true]
  split
  · rename_i pac1 heq
    simp only [List.cons.injEq] at heq
    exact absurd heq.1 hc
  · rfl

/-- C30: for every digit count `n` with `1 ≤ n ≤ 7` and every value `v` with
`0 ≤ v < 16^n`, `parseNum` applied to the text written by
`formatInHex(buf, v, n)` gives back `v`. -/
theorem C30_parseNum_formatInHex (n : Nat) (v : Int) (h1 : 1 ≤ n) (h7 : n ≤ 7)
    (h0 : 0 ≤ v) (hv : v < 16 ^ n) :
    parseNum (some (formatInHex v n)) = v := by
  obtain ⟨m, rfl⟩ : ∃ m, n = m + 1 := ⟨n - 1, by omega⟩
  have hb : bits32 v = v.toNat := by
    unfold bits32
    have h16 : (16 : Int) ^ (m + 1) ≤ 16 ^ 7 := pow_le_pow_right₀ (by norm_num) h7
    rw [Int.emod_eq_of_lt h0 (by norm_num at h16 ⊢; omega)]
  have hlt : v.toNat < 16 ^ (m + 1) := by
    have : ((v.toNat : Nat) : Int) < ((16 ^ (m + 1) : Nat) : Int) := by
      rw [Int.toNat_of_nonneg h0]; push_cast; exact hv
    exact_mod_cast this
  have key := parseNum_loop_formatInHex (bits32 v) (m + 1) (m + 1) 0
  have hd : (bits32 v >>> (m * 4)) &&& 0x0f < 16 := by
    have := and_15 (bits32 v >>> (m * 4))
    rw [show (0x0f : Nat) = 15 from rfl, this]
    exact Nat.mod_lt _ (by decide)
  have hne := (hex_digit_value _ hd).2
  have hshape : formatInHex_loop (bits32 v) (m + 1) (m + 1) =
      "0123456789ABCDEF".toList.getD ((bits32 v >>> (m * 4)) &&& 0x0f) '0' ::
        formatInHex_loop (bits32 v) (m + 1) m := by
    rw [formatInHex_loop, if_neg (by simp)]
    rfl
  have hp : parseNum (some (formatInHex v (m + 1))) =
      parseNum_loop 16 (formatInHex_loop (bits32 v) (m + 1) (m + 1)) 0 * 1 := by
    unfold formatInHex
    rw [hshape]
    exact parseNum_hex_cons _ _ hne
  rw [hp, key, hb, Nat.mod_eq_of_lt hlt, Int.toNat_of_nonneg h0]
  ring

/-- C30 witness: five digits, the value `0x1A2B3`, printed as `x1'A2B3`. -/
theorem C30_parseNum_formatInHex_witness :
    1 ≤ 5 ∧ 5 ≤ 7 ∧ (0 : Int) ≤ 107187 ∧ (107187 : Int) < 16 ^ 5 ∧
    formatInHex 107187 5 = ['x', '1', APOSTROPHE, 'A', '2', 'B', '3'] ∧
    parseNum (some (formatInHex 107187 5)) = 107187 :=
  ⟨by decide, by decide, by decide, by decide, by decide,
    C30_parseNum_formatInHex 5 107187 (by decide) (by decide) (by decide) (by decide)⟩

/-- C23: `rtlsdr_set_offset_tuning` on an R820T or R828D tuner returns -2, and
on any other tuner with direct sampling on returns -3; in both cases, for
`on = 0` and `on ≠ 0` alike, the device record is returned as it was and the
environment has received no call (no register write, no tuner call), whatever
the nested `rtlsdr_set_center_freq` would do. -/
theorem C23_offset_tuning_rejected (scf : SetCenterFreq) (dev : rtlsdr_dev) (on_ : Int)
    (w : World) :
    ((dev.tuner_type = rtlsdr_tuner.RTLSDR_TUNER_R820T ∨
        dev.tuner_type = rtlsdr_tuner.RTLSDR_TUNER_R828D) →
      rtlsdr_set_offset_tuning scf dev on_ w = some (-2, dev, w)) ∧
    (¬ (dev.tuner_type = rtlsdr_tuner.RTLSDR_TUNER_R820T ∨
        dev.tuner_type = rtlsdr_tuner.RTLSDR_TUNER_R828D) →
      dev.direct_sampling ≠ 0 →
      rtlsdr_set_offset_tuning scf dev on_ w = some (-3, dev, w)) := by
  refine ⟨fun h => ?_, fun h hd => ?_⟩
  · unfold rtlsdr_set_offset_tuning
    rw [if_pos h]
  · unfold rtlsdr_set_offset_tuning
    rw [if_neg h, if_pos hd]

/-- C23 at concrete devices: an R820T device with `on = 1` and with `on = 0`,
and an E4000 device in direct sampling mode. -/
theorem C23_offset_tuning_rejected_witness :
    rtlsdr_set_offset_tuning (rtlsdr_set_center_freq 3) r820t_dev 1 (World.const 0) =
      some (-2, r820t_dev, World.const 0) ∧
    rtlsdr_set_offset_tuning (rtlsdr_set_center_freq 3) r820t_dev 0 (World.const 0) =
      some (-2, r820t_dev, World.const 0) ∧
    rtlsdr_set_offset_tuning (rtlsdr_set_center_freq 3)
        { opened_dev with tuner_type := rtlsdr_tuner.RTLSDR_TUNER_E4000,
                          tuner := some rtlsdr_tuner.RTLSDR_TUNER_E4000,
                          direct_sampling := 1 } 1 (World.const 0) =
      some (-3, { opened_dev with tuner_type := rtlsdr_tuner.RTLSDR_TUNER_E4000,
                                  tuner := some rtlsdr_tuner.RTLSDR_TUNER_E4000,
                                  direct_sampling := 1 }, World.const 0) :=
  ⟨(C23_offset_tuning_rejected _ r820t_dev 1 _).1 (Or.inl rfl),
   (C23_offset_tuning_rejected _ r820t_dev 0 _).1 (Or.inl rfl),
   (C23_offset_tuning_rejected _ _ 1 _).2 (by decide) (by decide)⟩

/-- `rtlsdr_set_if_freq` keeps the crystal value. -/
theorem set_if_freq_xtal (dev : rtlsdr_dev) (freq : Nat) (w : World) :
    (rtlsdr_set_if_freq dev freq w).2.1.rtl_xtal = dev.rtl_xtal := by
  rw [set_if_freq_dev]

/-- `reactivate_softagc` keeps the crystal value. -/
theorem reactivate_softagc_xtal (dev : rtlsdr_dev) (s : softagc_stateT) :
    (reactivate_softagc dev s).2.rtl_xtal = dev.rtl_xtal := by
  unfold reactivate_softagc
  split
  · split <;> rfl
  · rfl

/-- A tuner `init` keeps the crystal value. -/
theorem tuner_init_xtal (t : rtlsdr_tuner) (f : rtlsdr_dev → World → Int × rtlsdr_dev × World)
    (h : tuner_init t = some f) (dev : rtlsdr_dev) (w : World) :
    (f dev w).2.1.rtl_xtal = dev.rtl_xtal := by
  cases t <;> simp [tuner_init] at h <;> subst h <;> rfl

/-- The register programming of `rtlsdr_set_direct_sampling` keeps the crystal value. -/
theorem set_direct_sampling_regs_xtal (dev : rtlsdr_dev) (on_ : Int) (w : World) :
    (set_direct_sampling_regs dev on_ w).2.1.rtl_xtal = dev.rtl_xtal := by
  unfold set_direct_sampling_regs
  split
  · rfl
  · unfold set_direct_sampling_off
    have hi : (set_direct_sampling_init dev w).2.1.rtl_xtal = dev.rtl_xtal := by
      unfold set_direct_sampling_init
      cases ht : dev.tuner.bind tuner_init with
      | none => rfl
      | some f =>
        cases hd : dev.tuner with
        | none => simp [hd] at ht
        | some t =>
          simp [hd] at ht
          exact tuner_init_xtal t f ht dev _
    simp only []
    split
    · exact (set_if_freq_xtal (set_direct_sampling_init dev w).2.1 R82XX_IF_FREQ
        (set_direct_sampling_init dev w).2.2).trans hi
    · exact (set_if_freq_xtal (set_direct_sampling_init dev w).2.1 0
        (set_direct_sampling_init dev w).2.2).trans hi

/-- The tail of `rtlsdr_set_center_freq` keeps the crystal value. -/
theorem set_center_freq_tail_xtal (dev : rtlsdr_dev) (freq : Nat) (w : World) :
    (set_center_freq_tail dev freq w).2.1.rtl_xtal = dev.rtl_xtal := by
  have : (set_center_freq_tune dev freq w).2.1.rtl_xtal = dev.rtl_xtal := by
    unfold set_center_freq_tune
    split
    · exact set_if_freq_xtal _ _ _
    · split
      · exact reactivate_softagc_xtal _ _
      · rfl
  exact this

/-- `rtlsdr_set_direct_sampling` keeps the crystal value. -/
theorem set_direct_sampling_xtal (scf : SetCenterFreq) (hk : KeepsXtal scf) (dev : rtlsdr_dev)
    (on_ : Int) (w : World) (r : Int) (d : rtlsdr_dev) (w' : World)
    (h : rtlsdr_set_direct_sampling scf dev on_ w = some (r, d, w')) : d.rtl_xtal = dev.rtl_xtal := by
  unfold rtlsdr_set_direct_sampling at h
  split at h
  · cases h
  · rename_i rc dev3 w6 hs
    cases h
    exact (hk _ _ _ _ _ _ hs).trans (set_direct_sampling_regs_xtal dev on_ w)

/-- `rtlsdr_update_ds` keeps the crystal value. -/
theorem update_ds_xtal (scf : SetCenterFreq) (hk : KeepsXtal scf) (dev : rtlsdr_dev)
    (freq : Nat) (w : World) (r : Int) (d : rtlsdr_dev) (w' : World)
    (h : rtlsdr_update_ds scf dev freq w = some (r, d, w')) : d.rtl_xtal = dev.rtl_xtal := by
  unfold rtlsdr_update_ds at h
  simp only [] at h
  split at h
  · cases h; rfl
  · split at h
    · exact set_direct_sampling_xtal scf hk dev _ w r d w' h
    · cases h; rfl

/-- `rtlsdr_set_center_freq` keeps the crystal value. -/
theorem set_center_freq_keeps_xtal (fuel : Nat) : KeepsXtal (rtlsdr_set_center_freq fuel) := by
  induction fuel with
  | zero => intro dev freq w r d w' h; simp [rtlsdr_set_center_freq] at h
  | succ k ih =>
    intro dev freq w r d w' h
    unfold rtlsdr_set_center_freq at h
    split at h
    · cases h; rfl
    · split at h
      · split at h
        · cases h
        · rename_i r1 dev1 w1 hu
          cases h
          exact (set_center_freq_tail_xtal dev1 freq w1).trans
            (update_ds_xtal _ ih dev freq w _ dev1 w1 hu)
      · cases h
        exact set_center_freq_tail_xtal dev freq w

/-- `r820t_set_bw` keeps the crystal value. -/
theorem r820t_set_bw_xtal (scf : SetCenterFreq) (hk : KeepsXtal scf) (dev : rtlsdr_dev)
    (bw apply : Int) (w : World) (r : Int) (d : rtlsdr_dev) (w' : World)
    (h : r820t_set_bw scf dev bw apply w = some (r, d, w')) : d.rtl_xtal = dev.rtl_xtal := by
  unfold r820t_set_bw at h
  simp only [] at h
  split at h
  · cases h; rfl
  · split at h
    · cases h; rfl
    · split at h
      · cases h; exact set_if_freq_xtal _ _ _
      · exact (hk _ _ _ _ _ _ h).trans (set_if_freq_xtal _ _ _)

/-- Every `set_bw` slot keeps the crystal value. -/
theorem tuner_set_bw_xtal (scf : SetCenterFreq) (hk : KeepsXtal scf) (t : rtlsdr_tuner)
    (f : rtlsdr_dev → Int → Int → World → Res) (hf : tuner_set_bw scf t = some f)
    (dev : rtlsdr_dev) (bw apply : Int) (w : World) (r : Int) (d : rtlsdr_dev) (w' : World)
    (h : f dev bw apply w = some (r, d, w')) : d.rtl_xtal = dev.rtl_xtal := by
  cases t <;> simp only [tuner_set_bw, Option.some.injEq] at hf
  · cases hf
  · subst hf; simp only [] at h; split at h <;> cases h <;> rfl
  · subst hf; cases h; rfl
  · subst hf; cases h; rfl
  · subst hf; simp only [] at h; split at h <;> cases h <;> rfl
  · subst hf; exact r820t_set_bw_xtal scf hk dev bw apply w r d w' h
  · subst hf; exact r820t_set_bw_xtal scf hk dev bw apply w r d w' h

/-- The bracketed `set_bw` block keeps the crystal value. -/
theorem tuner_apply_bw_xtal (scf : SetCenterFreq) (hk : KeepsXtal scf) (dev : rtlsdr_dev)
    (bw : Int) (w : World) (d : rtlsdr_dev) (w' : World)
    (h : tuner_apply_bw scf dev bw w = some (d, w')) : d.rtl_xtal = dev.rtl_xtal := by
  unfold tuner_apply_bw at h
  split at h
  · rename_i f hf
    split at h
    · cases h
    · rename_i r1 d1 w1 hr
      cases h
      cases hd : dev.tuner with
      | none => simp [hd] at hf
      | some t =>
        simp only [hd, Option.some_bind] at hf
        exact tuner_set_bw_xtal scf hk t f hf dev bw 1 _ r1 d w1 hr
  · cases h; rfl

/-- `rtlsdr_set_offset_tuning` keeps the crystal value. -/
theorem set_offset_tuning_xtal (scf : SetCenterFreq) (hk : KeepsXtal scf) (dev : rtlsdr_dev)
    (on_ : Int) (w : World) (r : Int) (d : rtlsdr_dev) (w' : World)
    (h : rtlsdr_set_offset_tuning scf dev on_ w = some (r, d, w')) : d.rtl_xtal = dev.rtl_xtal := by
  unfold rtlsdr_set_offset_tuning at h
  simp only [] at h
  split at h
  · cases h; rfl
  · split at h
    · cases h; rfl
    · split at h
      · cases h
      · rename_i dev3 w3 hb
        have h3 := tuner_apply_bw_xtal scf hk _ _ _ dev3 w3 hb
        rw [set_if_freq_xtal] at h3
        split at h
        · split at h
          · cases h
          · rename_i rc dev4 w4 hs
            cases h
            exact (hk _ _ _ _ _ _ hs).trans h3
        · cases h; exact h3

/-- The soft-AGC re-trigger keeps the crystal value. -/
theorem set_sample_rate_softagc_xtal (dev : rtlsdr_dev) :
    (set_sample_rate_softagc dev).rtl_xtal = dev.rtl_xtal := by
  unfold set_sample_rate_softagc
  split
  · exact reactivate_softagc_xtal _ _
  · exact reactivate_softagc_xtal _ _

/-- `rtlsdr_set_sample_rate` keeps the crystal value. -/
theorem set_sample_rate_xtal (scf : SetCenterFreq) (hk : KeepsXtal scf) (dev : rtlsdr_dev)
    (samp_rate : Nat) (w : World) (r : Int) (dev' : rtlsdr_dev) (w' : World)
    (hres : rtlsdr_set_sample_rate scf dev samp_rate w = some (r, dev', w')) :
    dev'.rtl_xtal = dev.rtl_xtal := by
  unfold rtlsdr_set_sample_rate at hres
  split at hres
  · cases hres; rfl
  · simp only [] at hres
    split at hres
    · cases hres
    · rename_i dev2 w2 hb
      have h2 := tuner_apply_bw_xtal scf hk _ _ _ dev2 w2 hb
      split at hres
      · split at hres
        · cases hres
        · rename_i r3 dev3 w8 ho
          cases hres
          rw [set_sample_rate_softagc_xtal]
          exact (set_offset_tuning_xtal scf hk dev2 1 _ r3 dev3 _ ho).trans h2
      · cases hres
        rw [set_sample_rate_softagc_xtal]
        exact h2

/-- The first block of `rtlsdr_set_xtal_freq` leaves the crystal value at the
accepted `rtl_freq`, or where it was when `rtl_freq` is 0. -/
theorem set_xtal_freq_rtl_xtal (scf : SetCenterFreq) (hk : KeepsXtal scf) (dev : rtlsdr_dev)
    (rtl_freq : Nat) (w : World) (r : Int) (d : rtlsdr_dev) (w' : World)
    (h : set_xtal_freq_rtl scf dev rtl_freq w = some (r, d, w')) :
    d.rtl_xtal = if rtl_freq > 0 then rtl_freq else dev.rtl_xtal := by
  unfold set_xtal_freq_rtl at h
  split at h
  · rename_i hc
    rw [if_pos hc.1]
    split at h
    · exact set_sample_rate_xtal scf hk _ _ _ _ _ _ h
    · cases h; rfl
  · rename_i hc
    cases h
    split_ifs with h0
    · by_contra hne
      exact hc ⟨h0, hne⟩
    · rfl

/-- The first block of `rtlsdr_set_xtal_freq` returns when the nested calls do. -/
theorem set_xtal_freq_rtl_isSome (scf : SetCenterFreq) (hs : Total scf) (dev : rtlsdr_dev)
    (rtl_freq : Nat) (w : World) : (set_xtal_freq_rtl scf dev rtl_freq w).isSome := by
  unfold set_xtal_freq_rtl
  split
  · split
    · by_cases hr : dev.rate ≤ 225000 ∨ dev.rate > 3200000 ∨
        (dev.rate > 300000 ∧ dev.rate ≤ 900000)
      · unfold rtlsdr_set_sample_rate
        rw [if_pos hr]; rfl
      · obtain ⟨r, d, w', h, _⟩ := set_sample_rate_in_range scf hs _ dev.rate w hr
        rw [h]; rfl
    · rfl
  · rfl

/-- What `rtlsdr_set_xtal_freq` leaves in `rtl_xtal` whenever it returns. -/
theorem set_xtal_freq_xtal (scf : SetCenterFreq) (hk : KeepsXtal scf) (dev : rtlsdr_dev)
    (rtl_freq tuner_freq : Nat) (w : World) (r : Int) (d : rtlsdr_dev) (w' : World)
    (h : rtlsdr_set_xtal_freq scf dev rtl_freq tuner_freq w = some (r, d, w')) :
    d.rtl_xtal =
      if rtl_freq > 0 ∧ ¬ (rtl_freq < MIN_RTL_XTAL_FREQ ∨ rtl_freq > MAX_RTL_XTAL_FREQ) then
        rtl_freq
      else dev.rtl_xtal := by
  unfold rtlsdr_set_xtal_freq at h
  split at h
  · rename_i hc
    cases h
    rw [if_neg (fun hx => hx.2 hc.2)]
  · rename_i hc
    split at h
    · cases h
    · rename_i r2 dev2 w2 h1
      have h2 := set_xtal_freq_rtl_xtal scf hk dev rtl_freq w r2 dev2 w2 h1
      have h3 : d.rtl_xtal = dev2.rtl_xtal := by
        split at h
        · split at h
          · exact (hk _ _ _ _ _ _ h).trans rfl
          · cases h; rfl
        · cases h; rfl
      rw [h3, h2]
      by_cases h0 : rtl_freq > 0
      · rw [if_pos h0, if_pos ⟨h0, fun hx => hc ⟨h0, hx⟩⟩]
      · rw [if_neg h0, if_neg (fun hx => h0 hx.1)]

/-- `rtlsdr_set_xtal_freq` returns when the nested calls do. -/
theorem set_xtal_freq_isSome (scf : SetCenterFreq) (hs : Total scf) (dev : rtlsdr_dev)
    (rtl_freq tuner_freq : Nat) (w : World) :
    (rtlsdr_set_xtal_freq scf dev rtl_freq tuner_freq w).isSome := by
  unfold rtlsdr_set_xtal_freq
  split
  · rfl
  · have h1 := set_xtal_freq_rtl_isSome scf hs dev rtl_freq w
    split
    · rename_i hn; rw [hn] at h1; cases h1
    · split
      · split
        · exact hs _ _ _
        · rfl
      · rfl

/-- C22: the crystal value `rtl_xtal` stays in [28799000, 28801000] under
`rtlsdr_set_xtal_freq`.  The device record at the start of `rtlsdr_open` holds
28800000.  For every device, arguments and environment the call returns; with a
non-zero `rtl_freq` outside [28799000, 28801000] it returns -2 with the device
record and the environment as they were (so `rtl_xtal`, `tun_xtal` and all
other state are unchanged); with `rtl_freq = 0` the result holds the old
`rtl_xtal`; and whenever `rtl_xtal` was inside the interval before the call it
is inside afterwards. -/
theorem C22_rtl_xtal_stays_in_range (fuel : Nat) (hf : 3 ≤ fuel) (dev : rtlsdr_dev)
    (rtl_freq tuner_freq : Nat) (w : World) :
    rtlsdr_dev.zero.rtl_xtal = 28800000 ∧
    (rtl_freq ≠ 0 → (rtl_freq < 28799000 ∨ 28801000 < rtl_freq) →
      rtlsdr_set_xtal_freq (rtlsdr_set_center_freq fuel) dev rtl_freq tuner_freq w =
        some (-2, dev, w)) ∧
    ∃ (r : Int) (d : rtlsdr_dev) (w' : World),
      rtlsdr_set_xtal_freq (rtlsdr_set_center_freq fuel) dev rtl_freq tuner_freq w =
        some (r, d, w') ∧
      (rtl_freq = 0 → d.rtl_xtal = dev.rtl_xtal) ∧
      (28799000 ≤ dev.rtl_xtal ∧ dev.rtl_xtal ≤ 28801000 →
        28799000 ≤ d.rtl_xtal ∧ d.rtl_xtal ≤ 28801000) := by
  refine ⟨rfl, ?_, ?_⟩
  · intro h0 hr
    unfold rtlsdr_set_xtal_freq
    rw [if_pos]
    refine ⟨Nat.pos_of_ne_zero h0, ?_⟩
    simp only [MIN_RTL_XTAL_FREQ, MAX_RTL_XTAL_FREQ, DEF_RTL_XTAL_FREQ]
    omega
  · have hsome := set_xtal_freq_isSome (rtlsdr_set_center_freq fuel)
      (set_center_freq_total fuel hf) dev rtl_freq tuner_freq w
    obtain ⟨⟨r, d, w'⟩, hres⟩ := Option.isSome_iff_exists.mp hsome
    refine ⟨r, d, w', hres, ?_, ?_⟩
    · intro h0
      rw [set_xtal_freq_xtal _ (set_center_freq_keeps_xtal fuel) dev rtl_freq tuner_freq w r d w'
        hres, if_neg]
      intro hx
      omega
    · intro hin
      rw [set_xtal_freq_xtal _ (set_center_freq_keeps_xtal fuel) dev rtl_freq tuner_freq w r d w'
        hres]
      simp only [MIN_RTL_XTAL_FREQ, MAX_RTL_XTAL_FREQ, DEF_RTL_XTAL_FREQ]
      split_ifs with hc
      · omega
      · exact hin

/-- C22 at an R820T device with a sample rate set: the crystal value 28800500 is
accepted and stored, 28802000 is refused with -2. -/
theorem C22_rtl_xtal_stays_in_range_witness :
    3 ≤ 3 ∧
    (rtlsdr_set_xtal_freq (rtlsdr_set_center_freq 3) r820t_dev 28802000 0 (World.const 0) =
        some (-2, r820t_dev, World.const 0)) ∧
    ((rtlsdr_set_xtal_freq (rtlsdr_set_center_freq 3) r820t_dev 28800500 0
        (World.const 0)).map (fun x => x.2.1.rtl_xtal) = some 28800500) :=
  ⟨le_refl 3,
   (C22_rtl_xtal_stays_in_range 3 (le_refl 3) r820t_dev 28802000 0 (World.const 0)).2.1
     (by decide) (by decide),
   by decide⟩

/-! ### Soft AGC: the gain index stays inside the gain table -/

/-- The classifier keeps the tuner type, hence the gain table. -/
theorem softagc_gains (tm : SoftAgcTimes) (dev : rtlsdr_dev) (buf : Int → Nat) (len : Int) :
    get_tuner_gains (softagc tm dev buf len).2 = get_tuner_gains dev := by
  rw [softagc_frame]
  rfl

/-- The oversteer branch lowers the index by one above 0 and keeps it otherwise. -/
theorem softagc_oversteer_gainIdx (dev : rtlsdr_dev) :
    (softagc_oversteer dev).2.softagc.gainIdx =
      if dev.softagc.gainIdx > 0 then dev.softagc.gainIdx - 1 else dev.softagc.gainIdx := by
  unfold softagc_oversteer
  simp only []
  split_ifs <;> rfl

/-- After the `Init` / `Reset` branches the classifier keeps the index or lowers
it by one, the latter only above 0. -/
theorem softagc_run_gainIdx (dev : rtlsdr_dev) (buf : Int → Nat) (len : Int) :
    (softagc_run dev buf len).2.softagc.gainIdx = dev.softagc.gainIdx ∨
    (0 < dev.softagc.gainIdx ∧
      (softagc_run dev buf len).2.softagc.gainIdx = dev.softagc.gainIdx - 1) := by
  have hh : ∀ (d : rtlsdr_dev) (b : Int → Nat) (l : Int),
      (softagc_histo d b l).2.softagc.gainIdx = d.softagc.gainIdx ∨
      (0 < d.softagc.gainIdx ∧
        (softagc_histo d b l).2.softagc.gainIdx = d.softagc.gainIdx - 1) := by
    intro d b l
    unfold softagc_histo
    simp only []
    split_ifs
    · rw [softagc_oversteer_gainIdx]
      by_cases hg : d.softagc.gainIdx > 0
      · right; exact ⟨hg, by rw [if_pos hg]⟩
      · left; rw [if_neg hg]
    · left; rw [softagc_scan_end_gainIdx]
    · left; rfl
  have hf : ∀ (d : rtlsdr_dev) (b : Int → Nat) (l : Int),
      (softagc_finish d b l).2.softagc.gainIdx = d.softagc.gainIdx ∨
      (0 < d.softagc.gainIdx ∧
        (softagc_finish d b l).2.softagc.gainIdx = d.softagc.gainIdx - 1) := by
    intro d b l
    unfold softagc_finish
    split_ifs
    · left; rfl
    · exact hh d b l
  unfold softagc_run
  split_ifs
  · left; rfl
  · left; rfl
  · exact hf _ _ _
  · exact hf _ _ _

/-- Every call of the classifier keeps an index that is inside the gain table
inside it. -/
theorem softagc_keeps_in_range (tm : SoftAgcTimes) (dev : rtlsdr_dev) (buf : Int → Nat)
    (len : Int) (h : gain_index_in_range dev) :
    gain_index_in_range (softagc tm dev buf len).2 := by
  unfold gain_index_in_range at h ⊢
  rw [softagc_gains]
  unfold softagc
  split_ifs with h1 h2
  · exact h
  · unfold softagc_reset
    simp only []
    split_ifs <;> first | exact h | (simp only []; omega)
  · rcases softagc_run_gainIdx dev buf len with e | ⟨hg, e⟩ <;> rw [e] <;> omega

/-- A call in sub-state `Reset` on a gain table of at least two entries puts the
index at the top of the table. -/
theorem softagc_reset_in_range (tm : SoftAgcTimes) (dev : rtlsdr_dev) (buf : Int → Nat)
    (len : Int) (hs : dev.softagc.agcState = softagc_stateT.SOFTSTATE_RESET)
    (h2 : 2 ≤ (get_tuner_gains dev).length) :
    (softagc tm dev buf len).2.softagc.gainIdx = ((get_tuner_gains dev).length : Int) - 1 := by
  unfold softagc
  rw [if_neg (by rw [hs]; decide), if_pos hs]
  unfold softagc_reset
  simp only []
  rw [if_neg (by omega), if_neg (by omega)]

/-- A run keeps an index that is inside the gain table inside it. -/
theorem run_agc_keeps_in_range (tm : SoftAgcTimes) (steps : List AgcStep) :
    ∀ dev : rtlsdr_dev, (∀ s ∈ steps, s.keeps_index) → gain_index_in_range dev →
      gain_index_in_range (run_agc tm steps dev) := by
  induction steps with
  | nil => intro dev _ h; exact h
  | cons s rest ih =>
    intro dev hk h
    have hrest : ∀ s ∈ rest, s.keeps_index := fun x hx => hk x (List.mem_cons_of_mem _ hx)
    cases s with
    | call buf len =>
      exact ih _ hrest (softagc_keeps_in_range tm dev buf len h)
    | other f =>
      have hf : keeps_gain_index f := hk _ (List.mem_cons_self _ _)
      apply ih _ hrest
      unfold gain_index_in_range at h ⊢
      have e : get_tuner_gains (f dev) = get_tuner_gains dev := by
        unfold get_tuner_gains
        rw [(hf dev).2]
      rw [e, (hf dev).1]
      exact h

/-! ### Soft AGC: a transfer without samples -/

/-- The histogram stage on an empty buffer whose accumulated histogram does not
meet the oversteer test keeps the gain index and the request to the worker. -/
theorem softagc_histo_empty (dev : rtlsdr_dev) (buf : Int → Nat)
    (hno : ¬ oversteer dev.softagc.histo dev.softagc.numInHisto) :
    (softagc_histo dev buf 0).2.softagc.gainIdx = dev.softagc.gainIdx ∧
    (softagc_histo dev buf 0).2.softagc.command_newGain = dev.softagc.command_newGain ∧
    (softagc_histo dev buf 0).2.softagc.command_changeGain = dev.softagc.command_changeGain := by
  unfold softagc_histo
  simp only [Int.toNat_zero, histo_loop, add_zero]
  rw [if_neg hno]
  split_ifs
  · unfold softagc_scan_end
    simp only []
    split <;> (try split) <;> exact ⟨rfl, rfl, rfl⟩
  · exact ⟨rfl, rfl, rfl⟩

/-- For every soft-AGC state that is not in sub-state `Reset`, whose dead-window
counter is not negative and whose accumulated histogram does not meet the
oversteer test, a classifier call for a completed transfer of length 0 leaves
the gain index, the commanded gain and the change request as they were. -/
theorem softagc_empty_transfer_keeps_gain (tm : SoftAgcTimes) (dev : rtlsdr_dev) (buf : Int → Nat)
    (hs : dev.softagc.agcState ≠ softagc_stateT.SOFTSTATE_RESET)
    (hd : 0 ≤ dev.softagc.remainingDeadSps)
    (hno : ¬ oversteer dev.softagc.histo dev.softagc.numInHisto) :
    (softagc tm dev buf 0).2.softagc.gainIdx = dev.softagc.gainIdx ∧
    (softagc tm dev buf 0).2.softagc.command_newGain = dev.softagc.command_newGain ∧
    (softagc tm dev buf 0).2.softagc.command_changeGain = dev.softagc.command_changeGain := by
  unfold softagc
  split_ifs with h1
  · exact ⟨rfl, rfl, rfl⟩
  · unfold softagc_run
    split_ifs with h2 h3 h4
    · exact ⟨rfl, rfl, rfl⟩
    · exact ⟨rfl, rfl, rfl⟩
    · exfalso
      apply h4
      simp only [Int.tdiv_zero, Int.zero_tdiv]
      exact hd
    · unfold softagc_finish
      split_ifs
      · exact ⟨rfl, rfl, rfl⟩
      · exact softagc_histo_empty dev buf hno

/-! ### The I2C repeater around tuner calls -/

/-- Scanning a concatenation is scanning the parts one after the other. -/
theorem repeater_scan_append (a b : List Event) :
    ∀ s : Bool, repeater_scan (a ++ b) s = (repeater_scan a s).bind (repeater_scan b) := by
  induction a with
  | nil => intro s; rfl
  | cons e es ih =>
    intro s
    simp only [List.cons_append, repeater_scan]
    split_ifs
    · exact ih s
    · rfl
    · split
      · exact ih _
      · exact ih _

/-- A scan that succeeds from "off" succeeds from "on". -/
theorem repeater_scan_mono (evs : List Event) :
    ∀ b : Bool, repeater_scan evs false = some b → ∃ b', repeater_scan evs true = some b' := by
  induction evs with
  | nil => intro b _; exact ⟨true, rfl⟩
  | cons e es ih =>
    intro b h
    simp only [repeater_scan] at h ⊢
    by_cases ht : touches_tuner e = true
    · rw [if_pos ht] at h
      simp at h
    · rw [if_neg ht] at h ⊢
      split at h
      · rename_i b1 hb1
        exact ⟨b, h⟩
      · exact ih b h

/-- A scan that ends "on" started "on" or passed a repeater-on write. -/
theorem repeater_scan_on_before (evs : List Event) :
    ∀ s : Bool, repeater_scan evs s = some true →
      s = true ∨ ∃ x ∈ evs, repeater_write x = some true := by
  induction evs with
  | nil => intro s h; left; simpa [repeater_scan] using h
  | cons e es ih =>
    intro s h
    simp only [repeater_scan] at h
    split_ifs at h with ht hs
    · left; exact hs
    · split at h
      · rename_i b hb
        rcases ih b h with h1 | ⟨x, hx, hw⟩
        · right; exact ⟨e, List.mem_cons_self _ _, by rw [hb, h1]⟩
        · right; exact ⟨x, List.mem_cons_of_mem _ hx, hw⟩
      · rcases ih s h with h1 | ⟨x, hx, hw⟩
        · left; exact h1
        · right; exact ⟨x, List.mem_cons_of_mem _ hx, hw⟩

/-- A scan that starts "on" ends "on" or passes a repeater-off write. -/
theorem repeater_scan_off_after (evs : List Event) :
    ∀ s' : Bool, repeater_scan evs true = some s' →
      s' = true ∨ ∃ x ∈ evs, repeater_write x = some false := by
  induction evs with
  | nil => intro s' h; left; simpa [repeater_scan] using h.symm
  | cons e es ih =>
    intro s' h
    simp only [repeater_scan] at h
    split_ifs at h with ht
    · rcases ih s' h with h1 | ⟨x, hx, hw⟩
      · left; exact h1
      · right; exact ⟨x, List.mem_cons_of_mem _ hx, hw⟩
    · split at h
      · rename_i b hb
        cases b with
        | false => right; exact ⟨e, List.mem_cons_self _ _, hb⟩
        | true =>
          rcases ih s' h with h1 | ⟨x, hx, hw⟩
          · left; exact h1
          · right; exact ⟨x, List.mem_cons_of_mem _ hx, hw⟩
      · rcases ih s' h with h1 | ⟨x, hx, hw⟩
        · left; exact h1
        · right; exact ⟨x, List.mem_cons_of_mem _ hx, hw⟩

/-- In a bracketed sequence every tuner call has a repeater-on write before it
and a repeater-off write after it. -/
theorem bracketed_preceded_and_followed (evs : List Event) (h : bracketed evs) :
    preceded_and_followed evs := by
  intro pre e post he ht
  unfold bracketed at h
  rw [he, repeater_scan_append] at h
  cases hp : repeater_scan pre false with
  | none => rw [hp] at h; simp at h
  | some t =>
    rw [hp] at h
    simp only [Option.some_bind, repeater_scan, ht, if_true] at h
    cases t with
    | false => simp at h
    | true =>
      simp only [if_true] at h
      refine ⟨?_, ?_⟩
      · rcases repeater_scan_on_before pre false hp with h1 | h1
        · cases h1
        · exact h1
      · rcases repeater_scan_off_after post false h with h1 | h1
        · cases h1
        · exact h1

/-- No further event. -/
theorem seg_refl (s : Bool) (w : World) : Seg s s w w := ⟨[], by simp, rfl⟩

/-- One segment after the other. -/
theorem seg_trans {a b c : Bool} {w w1 w2 : World} (h1 : Seg a b w w1) (h2 : Seg b c w1 w2) :
    Seg a c w w2 := by
  obtain ⟨e1, ht1, hs1⟩ := h1
  obtain ⟨e2, ht2, hs2⟩ := h2
  refine ⟨e1 ++ e2, ?_, ?_⟩
  · rw [ht2, ht1, List.append_assoc]
  · rw [repeater_scan_append, hs1]; exact hs2

/-- A segment that is fine with the repeater off at its start is fine with the
repeater on. -/
theorem seg_mono {b : Bool} {w w' : World} (h : Seg false b w w') : ∃ b', Seg true b' w w' := by
  obtain ⟨evs, ht, hs⟩ := h
  obtain ⟨b', hb'⟩ := repeater_scan_mono evs b hs
  exact ⟨b', evs, ht, hb'⟩

/-- A segment that ends with the repeater off, whatever it was at the start. -/
theorem seg_off_any {w w' : World} (h : Seg false false w w') (s : Bool) :
    ∃ b', Seg s b' w w' := by
  cases s with
  | false => exact ⟨false, h⟩
  | true => exact seg_mono h

/-- A segment from "off" to "off" has the bracket property. -/
theorem seg_brackets {w w' : World} (h : Seg false false w w') : brackets_tuner_calls w w' := by
  obtain ⟨evs, ht, hs⟩ := h
  exact ⟨evs, ht, hs, bracketed_preceded_and_followed evs hs⟩

/-- One call into the environment. -/
theorem seg_call (w : World) (e : Event) (s s' : Bool) (h : repeater_scan [e] s = some s') :
    Seg s s' w (w.call e).2.2 := ⟨[e], rfl, h⟩

/-- A control-in transfer changes nothing for the repeater. -/
theorem seg_control_in (w : World) (a b c : Nat) (s : Bool) :
    Seg s s w (w.call (Event.control_in a b c)).2.2 := seg_call w _ s s rfl

/-- A libusb streaming call changes nothing for the repeater. -/
theorem seg_usb (w : World) (fn : UsbFn) (i : Nat) (s : Bool) :
    Seg s s w (w.call (Event.usb fn i)).2.2 := seg_call w _ s s rfl

/-- A tuner driver call with the repeater on. -/
theorem seg_driver (w : World) (fn : DriverFn) (args : List Int) :
    Seg true true w (w.call (Event.driver fn args)).2.2 := by
  apply seg_call
  simp only [repeater_scan]
  split_ifs
  · rfl
  · cases fn <;> simp [repeater_write]

/-- `rtlsdr_demod_read_reg` changes nothing for the repeater. -/
theorem seg_demod_read_reg (w : World) (page addr len : Nat) (s : Bool) :
    Seg s s w (rtlsdr_demod_read_reg w page addr len).2 := seg_control_in w _ _ _ s

/-- `rtlsdr_demod_write_reg` to a register other than page 1, `0x01` changes
nothing for the repeater. -/
theorem seg_demod_write_reg (w : World) (page addr val len : Nat) (s : Bool)
    (h : ¬ (((addr <<< 8) ||| 0x20) % 65536 = 0x0120 ∧ (0x10 ||| page) = 0x11)) :
    Seg s s w (rtlsdr_demod_write_reg w page addr val len).2 := by
  have h1 : Seg s s w (w.call (Event.control_out (((addr <<< 8) ||| 0x20) % 65536) (0x10 ||| page)
      ([if len = 1 then val &&& 0xff else (val >>> 8) % 256, val &&& 0xff].take len))).2.2 := by
    apply seg_call
    simp only [repeater_scan, touches_tuner, repeater_write]
    rw [if_neg (by simp), if_neg (fun hx => h ⟨hx.1, hx.2.1⟩)]
  exact seg_trans h1 (seg_demod_read_reg _ _ _ _ s)

/-- A one-byte write to demod page 1, register `0x01` sets the repeater state to
bit 3 of the byte. -/
theorem seg_demod_write_reg_01 (w : World) (val : Nat) (s : Bool) :
    Seg s (decide (val &&& 0xff &&& 0x08 ≠ 0)) w (rtlsdr_demod_write_reg w 1 0x01 val 1).2 := by
  have h1 : Seg s (decide (val &&& 0xff &&& 0x08 ≠ 0)) w
      (w.call (Event.control_out 0x0120 0x11 [val &&& 0xff])).2.2 := by
    apply seg_call
    simp [repeater_scan, touches_tuner, repeater_write]
  exact seg_trans h1 (seg_demod_read_reg _ _ _ _ _)

/-- `rtlsdr_set_i2c_repeater(dev, 1)` switches the repeater on. -/
theorem seg_repeater_on (w : World) (s : Bool) : Seg s true w (rtlsdr_set_i2c_repeater w 1) :=
  seg_demod_write_reg_01 w 0x18 s

/-- `rtlsdr_set_i2c_repeater(dev, 0)` switches the repeater off. -/
theorem seg_repeater_off (w : World) (s : Bool) : Seg s false w (rtlsdr_set_i2c_repeater w 0) :=
  seg_demod_write_reg_01 w 0x10 s
/-- `rtlsdr_write_reg` to a block other than the demodulator pages changes
nothing for the repeater. -/
theorem seg_write_reg (w : World) (block addr val len : Nat) (s : Bool)
    (h : ¬ (addr = 0x0120 ∧
      (if block = IRB then (SYSB <<< 8) ||| 0x11 else ((block <<< 8) ||| 0x10) % 65536) = 0x11)) :
    Seg s s w (rtlsdr_write_reg w block addr val len).2 := by
  apply seg_call
  simp only [repeater_scan, touches_tuner, repeater_write]
  rw [if_neg (by simp), if_neg (fun hx => h ⟨hx.1, hx.2.1⟩)]

/-- `rtlsdr_read_reg` changes nothing for the repeater. -/
theorem seg_read_reg (w : World) (block addr len : Nat) (s : Bool) :
    Seg s s w (rtlsdr_read_reg w block addr len).2 := seg_control_in w _ _ _ s

/-- `rtlsdr_set_gpio_bit` changes nothing for the repeater. -/
theorem seg_set_gpio_bit (w : World) (gpio : Nat) (val : Int) (s : Bool) :
    Seg s s w (rtlsdr_set_gpio_bit w gpio val) :=
  seg_trans (seg_read_reg w SYSB GPO 1 s) (seg_write_reg _ SYSB GPO _ 1 s (by decide))

/-- `rtlsdr_set_if_freq` changes nothing for the repeater. -/
theorem seg_set_if_freq (dev : rtlsdr_dev) (freq : Nat) (w : World) (s : Bool) :
    Seg s s w (rtlsdr_set_if_freq dev freq w).2.2 :=
  seg_trans (seg_trans (seg_demod_write_reg w 1 0x19 _ 1 s (by decide))
    (seg_demod_write_reg _ 1 0x1a _ 1 s (by decide)))
    (seg_demod_write_reg _ 1 0x1b _ 1 s (by decide))

/-- `rtlsdr_set_sample_freq_correction` changes nothing for the repeater. -/
theorem seg_set_sample_freq_correction (ppm : Int) (w : World) (s : Bool) :
    Seg s s w (rtlsdr_set_sample_freq_correction ppm w).2 :=
  seg_trans (seg_demod_write_reg w 1 0x3f _ 1 s (by decide))
    (seg_demod_write_reg _ 1 0x3e _ 1 s (by decide))

/-- The register writes of `rtlsdr_set_sample_rate` end with the soft reset,
which leaves bit 3 of page 1 register `0x01` clear. -/
theorem seg_set_sample_rate_regs (ratio : Nat) (corr : Int) (w : World) (s : Bool) :
    Seg s false w (set_sample_rate_regs ratio corr w).2 :=
  seg_trans (seg_trans (seg_trans (seg_trans (seg_demod_write_reg w 1 0x9f _ 2 s (by decide))
    (seg_demod_write_reg _ 1 0xa1 _ 2 s (by decide)))
    (seg_set_sample_freq_correction corr _ s))
    (seg_demod_write_reg_01 _ 0x14 s))
    (seg_demod_write_reg_01 _ 0x10 false)

/-- A tuner `exit` with the repeater on. -/
theorem seg_tuner_exit (t : rtlsdr_tuner) (f : rtlsdr_dev → World → Int × World)
    (h : tuner_exit t = some f) (dev : rtlsdr_dev) (w : World) :
    Seg true true w (f dev w).2 := by
  cases t <;> simp only [tuner_exit, Option.some.injEq] at h <;>
    first
    | (subst h; exact seg_refl _ _)
    | (subst h; exact seg_driver _ _ _)
    | cases h

/-- A tuner `init` with the repeater on. -/
theorem seg_tuner_init (t : rtlsdr_tuner) (f : rtlsdr_dev → World → Int × rtlsdr_dev × World)
    (h : tuner_init t = some f) (dev : rtlsdr_dev) (w : World) :
    Seg true true w (f dev w).2.2 := by
  cases t <;> simp only [tuner_init, Option.some.injEq] at h <;>
    first
    | (subst h; exact seg_driver _ _ _)
    | cases h

/-- A tuner `set_freq` with the repeater on. -/
theorem seg_tuner_set_freq (t : rtlsdr_tuner) (f : rtlsdr_dev → Nat → World → Int × World)
    (h : tuner_set_freq t = some f) (dev : rtlsdr_dev) (freq : Nat) (w : World) :
    Seg true true w (f dev freq w).2 := by
  cases t <;> simp only [tuner_set_freq, Option.some.injEq] at h <;>
    first
    | (subst h; exact seg_driver _ _ _)
    | (subst h; exact seg_trans (seg_set_gpio_bit _ _ _ _) (seg_driver _ _ _))
    | cases h

/-- A tuner `set_i2c_register` with the repeater on. -/
theorem seg_tuner_set_i2c_register (t : rtlsdr_tuner)
    (f : rtlsdr_dev → Nat → Nat → Nat → World → Int × World)
    (h : tuner_set_i2c_register t = some f) (dev : rtlsdr_dev) (a b c : Nat) (w : World) :
    Seg true true w (f dev a b c w).2 := by
  cases t <;> simp only [tuner_set_i2c_register, Option.some.injEq] at h <;>
    first
    | (subst h; exact seg_driver _ _ _)
    | cases h

/-- A tuner `set_i2c_override` with the repeater on. -/
theorem seg_tuner_set_i2c_override (t : rtlsdr_tuner)
    (f : rtlsdr_dev → Nat → Nat → Nat → World → Int × World)
    (h : tuner_set_i2c_override t = some f) (dev : rtlsdr_dev) (a b c : Nat) (w : World) :
    Seg true true w (f dev a b c w).2 := by
  cases t <;> simp only [tuner_set_i2c_override, Option.some.injEq] at h <;>
    first
    | (subst h; exact seg_driver _ _ _)
    | cases h

/-- A slot of the bound tuner entry is a slot of some tuner type. -/
theorem tuner_bind_some {α : Type} (dev : rtlsdr_dev) (slot : rtlsdr_tuner → Option α) (f : α)
    (h : dev.tuner.bind slot = some f) : ∃ t, slot t = some f := by
  cases hd : dev.tuner with
  | none => rw [hd] at h; cases h
  | some t => rw [hd] at h; exact ⟨t, h⟩

/-- The `if (on)` branch of `rtlsdr_set_direct_sampling` brackets the tuner
`exit`. -/
theorem seg_set_direct_sampling_on (dev : rtlsdr_dev) (on_ : Int) (w : World) :
    Seg false false w (set_direct_sampling_on dev on_ w).2.2 := by
  unfold set_direct_sampling_on
  have key : ∀ w1 : World, Seg false false w w1 →
      Seg false false w
        (rtlsdr_demod_write_reg (rtlsdr_demod_write_reg (rtlsdr_demod_write_reg
          (rtlsdr_demod_write_reg w1 1 0xb1 0x1a 1).2 1 0x15 0x00 1).2 0 0x08 0x4d 1).2 0 0x06
          (if on_ > 1 then 0x90 else 0x80) 1).2 := by
    intro w1 h1
    exact seg_trans (seg_trans (seg_trans (seg_trans h1
      (seg_demod_write_reg _ 1 0xb1 _ 1 false (by decide)))
      (seg_demod_write_reg _ 1 0x15 _ 1 false (by decide)))
      (seg_demod_write_reg _ 0 0x08 _ 1 false (by decide)))
      (seg_demod_write_reg _ 0 0x06 _ 1 false (by decide))
  cases hb : dev.tuner.bind tuner_exit with
  | none => exact key w (seg_refl _ _)
  | some f =>
    obtain ⟨t, ht⟩ := tuner_bind_some dev tuner_exit f hb
    exact key _ (seg_trans (seg_trans (seg_repeater_on w false) (seg_tuner_exit t f ht dev _))
      (seg_repeater_off _ true))

/-- The tuner `init` block of `rtlsdr_set_direct_sampling` is bracketed. -/
theorem seg_set_direct_sampling_init (dev : rtlsdr_dev) (w : World) :
    Seg false false w (set_direct_sampling_init dev w).2.2 := by
  unfold set_direct_sampling_init
  cases hb : dev.tuner.bind tuner_init with
  | none => exact seg_refl _ _
  | some f =>
    obtain ⟨t, ht⟩ := tuner_bind_some dev tuner_init f hb
    exact seg_trans (seg_trans (seg_repeater_on w false) (seg_tuner_init t f ht dev _))
      (seg_repeater_off _ true)

/-- The `else` branch of `rtlsdr_set_direct_sampling` brackets the tuner `init`. -/
theorem seg_set_direct_sampling_off (dev : rtlsdr_dev) (w : World) :
    Seg false false w (set_direct_sampling_off dev w).2.2 := by
  unfold set_direct_sampling_off
  simp only []
  have hi := seg_set_direct_sampling_init dev w
  split_ifs
  · exact seg_trans (seg_trans (seg_trans hi (seg_set_if_freq _ _ _ false))
      (seg_demod_write_reg _ 1 0x15 _ 1 false (by decide)))
      (seg_demod_write_reg _ 0 0x06 _ 1 false (by decide))
  · exact seg_trans (seg_trans (seg_trans (seg_trans hi (seg_set_if_freq _ _ _ false))
      (seg_demod_write_reg _ 0 0x08 _ 1 false (by decide)))
      (seg_demod_write_reg _ 1 0xb1 _ 1 false (by decide)))
      (seg_demod_write_reg _ 0 0x06 _ 1 false (by decide))

/-- The register programming of `rtlsdr_set_direct_sampling` brackets its tuner
call. -/
theorem seg_set_direct_sampling_regs (dev : rtlsdr_dev) (on_ : Int) (w : World) :
    Seg false false w (set_direct_sampling_regs dev on_ w).2.2 := by
  unfold set_direct_sampling_regs
  split_ifs
  · exact seg_set_direct_sampling_on dev on_ w
  · exact seg_set_direct_sampling_off dev w

/-- `rtlsdr_set_direct_sampling` brackets its tuner calls. -/
theorem seg_set_direct_sampling (scf : SetCenterFreq) (hb : BracketsSCF scf) (dev : rtlsdr_dev)
    (on_ : Int) (w : World) (r : Int) (d : rtlsdr_dev) (w' : World)
    (h : rtlsdr_set_direct_sampling scf dev on_ w = some (r, d, w')) : Seg false false w w' := by
  unfold rtlsdr_set_direct_sampling at h
  split at h
  · cases h
  · rename_i rc dev3 w6 hs
    cases h
    exact seg_trans (seg_set_direct_sampling_regs dev on_ w) (hb _ _ _ _ _ _ hs)

/-- `rtlsdr_update_ds` brackets its tuner calls. -/
theorem seg_update_ds (scf : SetCenterFreq) (hb : BracketsSCF scf) (dev : rtlsdr_dev)
    (freq : Nat) (w : World) (r : Int) (d : rtlsdr_dev) (w' : World)
    (h : rtlsdr_update_ds scf dev freq w = some (r, d, w')) : Seg false false w w' := by
  unfold rtlsdr_update_ds at h
  simp only [] at h
  split at h
  · cases h; exact seg_refl _ _
  · split at h
    · exact seg_set_direct_sampling scf hb dev _ w r d w' h
    · cases h; exact seg_refl _ _

/-- The tuning step of `rtlsdr_set_center_freq` brackets the tuner `set_freq`. -/
theorem seg_set_center_freq_tune (dev : rtlsdr_dev) (freq : Nat) (w : World) :
    Seg false false w (set_center_freq_tune dev freq w).2.2 := by
  unfold set_center_freq_tune
  split_ifs
  · exact seg_set_if_freq _ _ _ false
  · cases hb : dev.tuner.bind tuner_set_freq with
    | none => exact seg_refl _ _
    | some f =>
      obtain ⟨t, ht⟩ := tuner_bind_some dev tuner_set_freq f hb
      exact seg_trans (seg_trans (seg_repeater_on w false) (seg_tuner_set_freq t f ht dev _ _))
        (seg_repeater_off _ true)

/-- The restore step of `rtlsdr_set_center_freq` brackets the register write. -/
theorem seg_set_center_freq_restore (dev : rtlsdr_dev) (w : World) :
    Seg false false w (set_center_freq_restore dev w) := by
  unfold set_center_freq_restore
  split_ifs
  · cases hb : dev.tuner.bind tuner_set_i2c_register with
    | none => exact seg_trans (seg_repeater_on w false) (seg_repeater_off _ true)
    | some f =>
      obtain ⟨t, ht⟩ := tuner_bind_some dev tuner_set_i2c_register f hb
      exact seg_trans (seg_trans (seg_repeater_on w false)
        (seg_tuner_set_i2c_register t f ht dev _ _ _ _)) (seg_repeater_off _ true)
  · exact seg_refl _ _

/-- The tail of `rtlsdr_set_center_freq` brackets its tuner calls. -/
theorem seg_set_center_freq_tail (dev : rtlsdr_dev) (freq : Nat) (w : World) :
    Seg false false w (set_center_freq_tail dev freq w).2.2 :=
  seg_trans (seg_set_center_freq_tune dev freq w) (seg_set_center_freq_restore _ _)

/-- `rtlsdr_set_center_freq` brackets its tuner calls, at every depth of the
nested calls. -/
theorem set_center_freq_brackets (fuel : Nat) : BracketsSCF (rtlsdr_set_center_freq fuel) := by
  induction fuel with
  | zero => intro dev freq w r d w' h; simp [rtlsdr_set_center_freq] at h
  | succ k ih =>
    intro dev freq w r d w' h
    unfold rtlsdr_set_center_freq at h
    split at h
    · cases h; exact seg_refl _ _
    · split at h
      · split at h
        · cases h
        · rename_i r1 dev1 w1 hu
          cases h
          exact seg_trans (seg_update_ds _ ih dev freq w _ dev1 w1 hu)
            (seg_set_center_freq_tail dev1 freq w1)
      · cases h
        exact seg_set_center_freq_tail dev freq w

/-- `r820t_set_bw`: without `apply` nothing that touches the tuner happens; with
`apply` the driver call needs the repeater on, and it is off or on afterwards. -/
theorem seg_r820t_set_bw (scf : SetCenterFreq) (hb : BracketsSCF scf) (dev : rtlsdr_dev)
    (bw apply : Int) (w : World) (r : Int) (d : rtlsdr_dev) (w' : World)
    (h : r820t_set_bw scf dev bw apply w = some (r, d, w')) :
    (apply = 0 → ∀ s, Seg s s w w') ∧ (apply ≠ 0 → ∃ b, Seg true b w w') := by
  unfold r820t_set_bw at h
  simp only [] at h
  have hcall0 : apply = 0 → ∀ s, Seg s s w
      (w.call (Event.driver DriverFn.r82xx_set_bandwidth [bw, dev.rate, apply])).2.2 := by
    intro ha s
    apply seg_call
    subst ha
    simp [repeater_scan, touches_tuner, repeater_write]
  have hcall1 : Seg true true w
      (w.call (Event.driver DriverFn.r82xx_set_bandwidth [bw, dev.rate, apply])).2.2 :=
    seg_driver _ _ _
  split at h
  · rename_i ha
    cases h
    exact ⟨fun _ s => hcall0 ha s, fun hn => absurd ha hn⟩
  · rename_i ha
    refine ⟨fun h0 => absurd h0 ha, fun _ => ?_⟩
    split at h
    · cases h; exact ⟨true, hcall1⟩
    · split at h
      · cases h
        exact ⟨true, seg_trans hcall1 (seg_set_if_freq _ _ _ true)⟩
      · obtain ⟨b, hb'⟩ := seg_mono (hb _ _ _ _ _ _ h)
        exact ⟨b, seg_trans (seg_trans hcall1 (seg_set_if_freq _ _ _ true)) hb'⟩

/-- Every `set_bw` slot: as `r820t_set_bw`. -/
theorem seg_tuner_set_bw (scf : SetCenterFreq) (hb : BracketsSCF scf) (t : rtlsdr_tuner)
    (f : rtlsdr_dev → Int → Int → World → Res) (hf : tuner_set_bw scf t = some f)
    (dev : rtlsdr_dev) (bw apply : Int) (w : World) (r : Int) (d : rtlsdr_dev) (w' : World)
    (h : f dev bw apply w = some (r, d, w')) :
    (apply = 0 → ∀ s, Seg s s w w') ∧ (apply ≠ 0 → ∃ b, Seg true b w w') := by
  cases t <;> simp only [tuner_set_bw, Option.some.injEq] at hf
  · cases hf
  · subst hf
    simp only [] at h
    split at h
    · rename_i ha
      cases h
      exact ⟨fun _ s => seg_refl _ _, fun hn => absurd ha hn⟩
    · rename_i ha
      cases h
      exact ⟨fun h0 => absurd h0 ha, fun _ => ⟨true,
        seg_trans (seg_trans (seg_driver _ _ _) (seg_driver _ _ _)) (seg_driver _ _ _)⟩⟩
  · subst hf; cases h; exact ⟨fun _ s => seg_refl _ _, fun _ => ⟨true, seg_refl _ _⟩⟩
  · subst hf; cases h; exact ⟨fun _ s => seg_refl _ _, fun _ => ⟨true, seg_refl _ _⟩⟩
  · subst hf
    simp only [] at h
    split at h
    · rename_i ha
      cases h
      exact ⟨fun _ s => seg_refl _ _, fun hn => absurd ha hn⟩
    · rename_i ha
      cases h
      exact ⟨fun h0 => absurd h0 ha, fun _ => ⟨true, seg_driver _ _ _⟩⟩
  · subst hf; exact seg_r820t_set_bw scf hb dev bw apply w r d w' h
  · subst hf; exact seg_r820t_set_bw scf hb dev bw apply w r d w' h

/-- The bracketed `set_bw` block of `rtlsdr_set_sample_rate` and
`rtlsdr_set_offset_tuning`. -/
theorem seg_tuner_apply_bw (scf : SetCenterFreq) (hb : BracketsSCF scf) (dev : rtlsdr_dev)
    (bw : Int) (w : World) (d : rtlsdr_dev) (w' : World)
    (h : tuner_apply_bw scf dev bw w = some (d, w')) : Seg false false w w' := by
  unfold tuner_apply_bw at h
  split at h
  · rename_i f hf
    split at h
    · cases h
    · rename_i r1 d1 w1 hr
      cases h
      obtain ⟨t, ht⟩ := tuner_bind_some dev (tuner_set_bw scf) f hf
      obtain ⟨b, hs⟩ := (seg_tuner_set_bw scf hb t f ht dev bw 1 _ r1 d w1 hr).2 (by decide)
      exact seg_trans (seg_trans (seg_repeater_on w false) hs) (seg_repeater_off _ b)
  · cases h; exact seg_refl _ _

/-- `rtlsdr_set_offset_tuning` brackets its tuner calls. -/
theorem seg_set_offset_tuning (scf : SetCenterFreq) (hb : BracketsSCF scf) (dev : rtlsdr_dev)
    (on_ : Int) (w : World) (r : Int) (d : rtlsdr_dev) (w' : World)
    (h : rtlsdr_set_offset_tuning scf dev on_ w = some (r, d, w')) : Seg false false w w' := by
  unfold rtlsdr_set_offset_tuning at h
  simp only [] at h
  split at h
  · cases h; exact seg_refl _ _
  · split at h
    · cases h; exact seg_refl _ _
    · split at h
      · cases h
      · rename_i dev3 w3 hbw
        have h3 := seg_trans (seg_set_if_freq _ _ w false)
          (seg_tuner_apply_bw scf hb _ _ _ dev3 w3 hbw)
        split at h
        · split at h
          · cases h
          · rename_i rc dev4 w4 hs
            cases h
            exact seg_trans h3 (hb _ _ _ _ _ _ hs)
        · cases h; exact h3

/-- `rtlsdr_set_sample_rate` brackets its tuner calls; its events go on from the
register writes of the ratio. -/
theorem seg_set_sample_rate (scf : SetCenterFreq) (hb : BracketsSCF scf) (dev : rtlsdr_dev)
    (samp_rate : Nat) (w : World) (r : Int) (dev' : rtlsdr_dev) (w' : World)
    (hres : rtlsdr_set_sample_rate scf dev samp_rate w = some (r, dev', w')) :
    Seg false false w w' := by
  unfold rtlsdr_set_sample_rate at hres
  split at hres
  · cases hres; exact seg_refl _ _
  · simp only [] at hres
    split at hres
    · cases hres
    · rename_i dev2 w2 hbw
      have h2 := seg_trans (seg_tuner_apply_bw scf hb _ _ _ dev2 w2 hbw)
        (seg_set_sample_rate_regs (rsamp_ratio dev.rtl_xtal samp_rate) dev2.corr w2 false)
      split at hres
      · split at hres
        · cases hres
        · rename_i r3 dev3 w8 ho
          cases hres
          exact seg_trans h2 (seg_set_offset_tuning scf hb dev2 1 _ r3 dev3 _ ho)
      · cases hres
        exact h2

/-- `rtlsdr_vga_control` changes nothing for the repeater. -/
theorem seg_vga_control (dev : rtlsdr_dev) (rc v : Int) (w : World) (s : Bool) :
    Seg s s w (rtlsdr_vga_control dev rc v w).2.2 := by
  unfold rtlsdr_vga_control
  by_cases h1 : rc < 0
  · rw [if_pos h1]; exact seg_refl _ _
  · rw [if_neg h1]
    by_cases h2 : v ≠ dev.rtl_vga_control
    · rw [if_pos h2]; exact seg_demod_write_reg w 1 0x04 _ 1 s (by decide)
    · rw [if_neg h2]; exact seg_refl _ _

/-- The R82xx gain calls with the repeater on. -/
theorem seg_r820t_gain_call (fn : DriverFn) (args : List Int) (dev : rtlsdr_dev) (w : World) :
    Seg true true w (r820t_gain_call fn args dev w).2.2 :=
  seg_trans (seg_driver w fn args) (seg_vga_control _ _ _ _ true)

/-- The driver calls of `e4000_set_gain` with the repeater on. -/
theorem seg_e4000_set_gain_calls (mixgain : Int) (dev : rtlsdr_dev) (gain : Int) (w : World) :
    Seg true true w (e4000_set_gain_calls mixgain dev gain w).2.2 := by
  unfold e4000_set_gain_calls
  split
  · exact seg_driver _ _ _
  · split
    · exact seg_trans (seg_driver _ _ _) (seg_driver _ _ _)
    · exact seg_trans (seg_driver _ _ _) (seg_driver _ _ _)

/-- `e4000_set_gain` with the repeater on. -/
theorem seg_e4000_set_gain (dev : rtlsdr_dev) (gain : Int) (w : World) :
    Seg true true w (e4000_set_gain dev gain w).2.2 :=
  seg_e4000_set_gain_calls _ dev gain w

/-- A single driver call with the repeater on. -/
theorem seg_driver_call (fn : DriverFn) (args : List Int) (dev : rtlsdr_dev) (w : World) :
    Seg true true w (driver_call fn args dev w).2.2 := seg_driver w fn args

/-- A tuner `set_gain` with the repeater on. -/
theorem seg_tuner_set_gain (t : rtlsdr_tuner)
    (f : rtlsdr_dev → Int → World → Int × rtlsdr_dev × World)
    (h : tuner_set_gain t = some f) (dev : rtlsdr_dev) (gain : Int) (w : World) :
    Seg true true w (f dev gain w).2.2 := by
  cases t <;> simp only [tuner_set_gain, Option.some.injEq] at h <;>
    first
    | (subst h; exact seg_e4000_set_gain _ _ _)
    | (subst h; exact seg_driver_call _ _ _ _)
    | (subst h; exact seg_refl _ _)
    | (subst h; exact seg_r820t_gain_call _ _ _ _)
    | cases h

/-- A tuner `set_if_gain` with the repeater on. -/
theorem seg_tuner_set_if_gain (t : rtlsdr_tuner)
    (f : rtlsdr_dev → Int → Int → World → Int × rtlsdr_dev × World)
    (h : tuner_set_if_gain t = some f) (dev : rtlsdr_dev) (stage gain : Int) (w : World) :
    Seg true true w (f dev stage gain w).2.2 := by
  cases t <;> simp only [tuner_set_if_gain, Option.some.injEq] at h <;>
    first
    | (subst h; exact seg_driver_call _ _ _ _)
    | cases h

/-- A tuner `set_gain_mode` with the repeater on. -/
theorem seg_tuner_set_gain_mode (t : rtlsdr_tuner)
    (f : rtlsdr_dev → Int → World → Int × rtlsdr_dev × World)
    (h : tuner_set_gain_mode t = some f) (dev : rtlsdr_dev) (mode : Int) (w : World) :
    Seg true true w (f dev mode w).2.2 := by
  cases t <;> simp only [tuner_set_gain_mode, Option.some.injEq] at h <;>
    first
    | (subst h; exact seg_driver_call _ _ _ _)
    | (subst h; exact seg_refl _ _)
    | (subst h; exact seg_r820t_gain_call _ _ _ _)
    | cases h

/-- A call that wants the repeater on, between the two repeater writes. -/
theorem seg_with_repeater (f : World → Int × rtlsdr_dev × World)
    (hf : ∀ w1 : World, ∃ b, Seg true b w1 (f w1).2.2) (w : World) (s : Bool) :
    Seg s false w (with_repeater f w).2.2 := by
  obtain ⟨b, hb⟩ := hf (rtlsdr_set_i2c_repeater w 1)
  exact seg_trans (seg_trans (seg_repeater_on w s) hb) (seg_repeater_off _ b)

/-- `rtlsdr_set_and_get_tuner_bandwidth` brackets the tuner `set_bw` when it
applies the bandwidth. -/
theorem seg_set_and_get_tuner_bandwidth (scf : SetCenterFreq) (hb : BracketsSCF scf)
    (dev : rtlsdr_dev) (bw : Nat) (apply_bw : Int) (w : World) (r : Int) (d : rtlsdr_dev)
    (w' : World)
    (h : rtlsdr_set_and_get_tuner_bandwidth scf dev bw apply_bw w = some (r, d, w')) :
    Seg false false w w' := by
  unfold rtlsdr_set_and_get_tuner_bandwidth at h
  split at h
  · cases h; exact seg_refl _ _
  · rename_i t ht
    split at h
    · cases h; exact seg_refl _ _
    · rename_i f hf
      split at h
      · rename_i ha
        exact (seg_tuner_set_bw scf hb t f hf dev _ apply_bw w r d w' h).1 ha false
      · rename_i ha
        split at h
        · cases h
        · rename_i r1 d1 w1 hr
          cases h
          obtain ⟨b, hs⟩ := (seg_tuner_set_bw scf hb t f hf dev _ apply_bw _ r d1 w1 hr).2 ha
          exact seg_trans (seg_trans (seg_repeater_on w false) hs) (seg_repeater_off _ b)

/-- `r820t_set_bw_center`: the nested `rtlsdr_set_center_freq` brackets its
tuner call. -/
theorem seg_r820t_set_bw_center (scf : SetCenterFreq) (hb : BracketsSCF scf) (dev : rtlsdr_dev)
    (c : Int) (w : World) (r : Int) (d : rtlsdr_dev) (w' : World)
    (h : r820t_set_bw_center scf dev c w = some (r, d, w')) : Seg false false w w' := by
  unfold r820t_set_bw_center at h
  have hcall : Seg false false w
      (w.call (Event.driver DriverFn.r82xx_set_bw_center [c])).2.2 := by
    apply seg_call
    simp [repeater_scan, touches_tuner, repeater_write]
  split at h
  · cases h; exact hcall
  · split at h
    rename_i r2 dev2 w2 hi
    have h2 : Seg false false w w2 := by
      have := seg_set_if_freq { dev with if_band_center_freq := c }
        (bits32 ((w.call (Event.driver DriverFn.r82xx_set_bw_center [c])).1 + c))
        (w.call (Event.driver DriverFn.r82xx_set_bw_center [c])).2.2 false
      rw [hi] at this
      exact seg_trans hcall this
    split at h
    · cases h; exact h2
    · exact seg_trans h2 (hb _ _ _ _ _ _ h)

/-- `rtlsdr_set_tuner_band_center` brackets the tuner `set_freq` of the nested
`rtlsdr_set_center_freq`. -/
theorem seg_set_tuner_band_center (scf : SetCenterFreq) (hb : BracketsSCF scf)
    (dev : rtlsdr_dev) (c : Int) (w : World) (r : Int) (d : rtlsdr_dev) (w' : World)
    (h : rtlsdr_set_tuner_band_center scf dev c w = some (r, d, w')) : Seg false false w w' := by
  unfold rtlsdr_set_tuner_band_center at h
  split at h
  · cases h; exact seg_refl _ _
  · rename_i f hf
    obtain ⟨t, ht⟩ := tuner_bind_some dev (tuner_set_bw_center scf) f hf
    cases t <;> simp only [tuner_set_bw_center, Option.some.injEq] at ht <;>
      first
      | (subst ht; exact seg_r820t_set_bw_center scf hb dev c w r d w' h)
      | cases ht

/-- `rtlsdr_set_tuner_gain` brackets the tuner `set_gain`. -/
theorem seg_set_tuner_gain (dev : rtlsdr_dev) (gain : Int) (w : World) :
    Seg false false w (rtlsdr_set_tuner_gain dev gain w).2.2 := by
  unfold rtlsdr_set_tuner_gain
  split
  · exact seg_refl _ _
  · rename_i t ht
    split
    · rename_i f hf
      exact seg_with_repeater _ (fun w1 => ⟨true, seg_tuner_set_gain t f hf dev gain w1⟩) w false
    · exact seg_refl _ _

/-- `rtlsdr_set_tuner_gain_ext` brackets `r820t_set_gain_ext`. -/
theorem seg_set_tuner_gain_ext (dev : rtlsdr_dev) (lna mixer vga : Int) (w : World) (r : Int)
    (d : rtlsdr_dev) (w' : World)
    (h : rtlsdr_set_tuner_gain_ext dev lna mixer vga w = some (r, d, w')) :
    Seg false false w w' := by
  unfold rtlsdr_set_tuner_gain_ext at h
  split at h
  · cases h; exact seg_refl _ _
  · split at h
    · cases h
    · split at h
      · cases h
        exact seg_with_repeater _ (fun w1 => ⟨true, seg_r820t_gain_call _ _ dev w1⟩) w false
      · cases h; exact seg_refl _ _

/-- `rtlsdr_set_tuner_agc_mode` brackets `r820t_set_agc_mode`. -/
theorem seg_set_tuner_agc_mode (dev : rtlsdr_dev) (agc_variant : Int) (w : World) (r : Int)
    (d : rtlsdr_dev) (w' : World)
    (h : rtlsdr_set_tuner_agc_mode dev agc_variant w = some (r, d, w')) :
    Seg false false w w' := by
  unfold rtlsdr_set_tuner_agc_mode at h
  split at h
  · cases h; exact seg_refl _ _
  · split at h
    · cases h
    · split at h
      · cases h
        exact seg_with_repeater _ (fun w1 => ⟨true, seg_r820t_gain_call _ _ dev w1⟩) w false
      · cases h; exact seg_refl _ _

/-- `rtlsdr_set_tuner_if_gain` brackets the tuner `set_if_gain`. -/
theorem seg_set_tuner_if_gain (dev : rtlsdr_dev) (stage gain : Int) (w : World) :
    Seg false false w (rtlsdr_set_tuner_if_gain dev stage gain w).2.2 := by
  unfold rtlsdr_set_tuner_if_gain
  split
  · exact seg_refl _ _
  · rename_i t ht
    split
    · rename_i f hf
      exact seg_with_repeater _
        (fun w1 => ⟨true, seg_tuner_set_if_gain t f hf dev stage gain w1⟩) w false
    · exact seg_refl _ _

/-- `rtlsdr_set_tuner_gain_mode` brackets the tuner `set_gain_mode`. -/
theorem seg_set_tuner_gain_mode (dev : rtlsdr_dev) (mode : Int) (w : World) :
    Seg false false w (rtlsdr_set_tuner_gain_mode dev mode w).2.2 := by
  unfold rtlsdr_set_tuner_gain_mode
  split
  · exact seg_refl _ _
  · rename_i t ht
    split
    · rename_i f hf
      exact seg_with_repeater _
        (fun w1 => ⟨true, seg_tuner_set_gain_mode t f hf dev _ w1⟩) w false
    · exact seg_refl _ _

/-- `rtlsdr_set_tuner_i2c_register` brackets the tuner `set_i2c_register`. -/
theorem seg_set_tuner_i2c_register (dev : rtlsdr_dev) (reg mask data : Nat) (w : World) :
    Seg false false w (rtlsdr_set_tuner_i2c_register dev reg mask data w).2.2 := by
  unfold rtlsdr_set_tuner_i2c_register
  split
  · exact seg_refl _ _
  · rename_i t ht
    split
    · rename_i f hf
      exact seg_with_repeater _
        (fun w1 => ⟨true, seg_tuner_set_i2c_register t f hf dev reg data mask w1⟩) w false
    · exact seg_refl _ _

/-- `rtlsdr_set_tuner_i2c_override` brackets the tuner `set_i2c_override`. -/
theorem seg_set_tuner_i2c_override (dev : rtlsdr_dev) (reg mask data : Nat) (w : World) :
    Seg false false w (rtlsdr_set_tuner_i2c_override dev reg mask data w).2.2 := by
  unfold rtlsdr_set_tuner_i2c_override
  split
  · exact seg_refl _ _
  · rename_i t ht
    split
    · rename_i f hf
      exact seg_with_repeater _
        (fun w1 => ⟨true, seg_tuner_set_i2c_override t f hf dev reg data mask w1⟩) w false
    · exact seg_refl _ _

/-- `rtlsdr_deinit_baseband` brackets the tuner `exit`. -/
theorem seg_deinit_baseband (dev : rtlsdr_dev) (w : World) :
    Seg false false w (rtlsdr_deinit_baseband dev w).2.2 := by
  unfold rtlsdr_deinit_baseband
  split
  · rename_i f hf
    obtain ⟨t, ht⟩ := tuner_bind_some dev tuner_exit f hf
    exact seg_trans
      (seg_with_repeater _ (fun w1 => ⟨true, seg_tuner_exit t f ht dev w1⟩) w false)
      (seg_write_reg _ SYSB DEMOD_CTL _ 1 false (by decide))
  · exact seg_write_reg _ SYSB DEMOD_CTL _ 1 false (by decide)

/-- `rtlsdr_set_xtal_freq` brackets the tuner calls of the operations it runs. -/
theorem seg_set_xtal_freq (scf : SetCenterFreq) (hb : BracketsSCF scf) (dev : rtlsdr_dev)
    (rtl_freq tuner_freq : Nat) (w : World) (r : Int) (d : rtlsdr_dev) (w' : World)
    (h : rtlsdr_set_xtal_freq scf dev rtl_freq tuner_freq w = some (r, d, w')) :
    Seg false false w w' := by
  unfold rtlsdr_set_xtal_freq at h
  split at h
  · cases h; exact seg_refl _ _
  · split at h
    · cases h
    · rename_i r2 dev2 w2 h1
      have h2 : Seg false false w w2 := by
        unfold set_xtal_freq_rtl at h1
        split at h1
        · split at h1
          · exact seg_set_sample_rate scf hb _ _ _ _ _ _ h1
          · cases h1; exact seg_refl _ _
        · cases h1; exact seg_refl _ _
      split at h
      · split at h
        · exact seg_trans h2 (hb _ _ _ _ _ _ h)
        · cases h; exact h2
      · cases h; exact h2
/-- A result together with a bracketed segment gives `returns_bracketed`. -/
theorem returns_bracketed_of (res : Res) (w : World) (hs : res.isSome)
    (hb : ∀ (r : Int) (d : rtlsdr_dev) (w' : World), res = some (r, d, w') →
      Seg false false w w') : returns_bracketed res w := by
  obtain ⟨⟨r, d, w'⟩, hres⟩ := Option.isSome_iff_exists.mp hs
  exact ⟨r, d, w', hres, seg_brackets (hb r d w' hres)⟩

/-- `rtlsdr_set_direct_sampling` returns when the nested calls do. -/
theorem set_direct_sampling_isSome (scf : SetCenterFreq) (hs : Total scf) (dev : rtlsdr_dev)
    (on_ : Int) (w : World) : (rtlsdr_set_direct_sampling scf dev on_ w).isSome := by
  unfold rtlsdr_set_direct_sampling
  have := hs (set_direct_sampling_regs dev on_ w).2.1 (set_direct_sampling_regs dev on_ w).2.1.freq
    (set_direct_sampling_regs dev on_ w).2.2
  split
  · rename_i hn; rw [hn] at this; cases this
  · rfl

/-- `rtlsdr_set_sample_rate` returns when the nested calls do. -/
theorem set_sample_rate_isSome (scf : SetCenterFreq) (hs : Total scf) (dev : rtlsdr_dev)
    (samp_rate : Nat) (w : World) : (rtlsdr_set_sample_rate scf dev samp_rate w).isSome := by
  by_cases hr : samp_rate ≤ 225000 ∨ samp_rate > 3200000 ∨
      (samp_rate > 300000 ∧ samp_rate ≤ 900000)
  · unfold rtlsdr_set_sample_rate
    rw [if_pos hr]; rfl
  · obtain ⟨r, d, w', h, _⟩ := set_sample_rate_in_range scf hs dev samp_rate w hr
    rw [h]; rfl

/-- `rtlsdr_set_and_get_tuner_bandwidth` returns when the nested calls do. -/
theorem set_and_get_tuner_bandwidth_isSome (scf : SetCenterFreq) (hs : Total scf)
    (dev : rtlsdr_dev) (bw : Nat) (apply_bw : Int) (w : World) :
    (rtlsdr_set_and_get_tuner_bandwidth scf dev bw apply_bw w).isSome := by
  unfold rtlsdr_set_and_get_tuner_bandwidth
  split
  · rfl
  · rename_i t ht
    split
    · rfl
    · rename_i f hf
      split
      · exact tuner_set_bw_isSome scf hs t f hf dev _ _ _
      · have := tuner_set_bw_isSome scf hs t f hf dev
          (int_of_bits32 (if bw > 0 then bw else dev.rate)) apply_bw (rtlsdr_set_i2c_repeater w 1)
        split
        · rename_i hn; rw [hn] at this; cases this
        · rfl

/-- `rtlsdr_set_tuner_band_center` returns when the nested calls do. -/
theorem set_tuner_band_center_isSome (scf : SetCenterFreq) (hs : Total scf)
    (dev : rtlsdr_dev) (c : Int) (w : World) :
    (rtlsdr_set_tuner_band_center scf dev c w).isSome := by
  unfold rtlsdr_set_tuner_band_center
  split
  · rfl
  · rename_i f hf
    obtain ⟨t, ht⟩ := tuner_bind_some dev (tuner_set_bw_center scf) f hf
    have hr : ∀ (d : rtlsdr_dev) (w1 : World), (r820t_set_bw_center scf d c w1).isSome := by
      intro d w1
      unfold r820t_set_bw_center
      split_ifs
      · rfl
      · split
        split_ifs
        · rfl
        · exact hs _ _ _
    cases t <;> simp only [tuner_set_bw_center, Option.some.injEq] at ht <;>
      first
      | (subst ht; exact hr dev w)
      | cases ht

/-! ### Sample rate: the resampling ratio and its registers -/

/-- The ratio of `rtlsdr_set_sample_rate` is the quotient masked with
`0x0ffffffc`; the conversion to `uint32_t` before the mask changes nothing. -/
theorem rsamp_ratio_eq (rtl_xtal samp_rate : Nat) :
    rsamp_ratio rtl_xtal samp_rate = ((rtl_xtal * 4194304) / samp_rate) &&& 0x0ffffffc := by
  unfold rsamp_ratio
  rw [and_mask_0ffffffc, and_mask_0ffffffc]
  omega

/-- The ratio fits 28 bits. -/
theorem rsamp_ratio_lt (rtl_xtal samp_rate : Nat) :
    rsamp_ratio rtl_xtal samp_rate < 268435456 := by
  unfold rsamp_ratio
  rw [and_mask_0ffffffc]
  omega

/-- The real ratio is the ratio with bit 28 set when its bit 27 is set. -/
theorem real_rsamp_ratio_bit (rtl_xtal samp_rate : Nat) :
    real_rsamp_ratio rtl_xtal samp_rate =
      if (rsamp_ratio rtl_xtal samp_rate).testBit 27 then
        rsamp_ratio rtl_xtal samp_rate ||| 268435456
      else rsamp_ratio rtl_xtal samp_rate := by
  unfold real_rsamp_ratio
  have hlt := rsamp_ratio_lt rtl_xtal samp_rate
  generalize rsamp_ratio rtl_xtal samp_rate = r at hlt ⊢
  rw [and_bit27, Nat.shiftLeft_eq, Nat.testBit_to_div_mod]
  have h2 : r / 134217728 % 2 = 0 ∨ r / 134217728 % 2 = 1 := by omega
  rcases h2 with h2 | h2
  · rw [h2]
    simp
  · rw [h2]
    simp

/-- The trace of the register writes of `rtlsdr_set_sample_rate`: the two halves
of the ratio go first, each followed by the dummy read. -/
theorem set_sample_rate_regs_trace (ratio : Nat) (corr : Int) (w : World)
    (hr : ratio < 268435456) :
    ∃ post : List Event,
      (set_sample_rate_regs ratio corr w).2.trace =
        w.trace ++
          [Event.control_out 0x9f20 0x11 [((ratio >>> 16) >>> 8) % 256, (ratio >>> 16) &&& 0xff],
           Event.control_in 0x0120 0x0a 1,
           Event.control_out 0xa120 0x11 [((ratio &&& 0xffff) >>> 8) % 256,
             (ratio &&& 0xffff) &&& 0xff],
           Event.control_in 0x0120 0x0a 1] ++ post := by
  have h16 : (ratio >>> 16) % 65536 = ratio >>> 16 := by
    rw [Nat.shiftRight_eq_div_pow]
    apply Nat.mod_eq_of_lt
    have : ratio / 2 ^ 16 < 4096 := by
      rw [Nat.div_lt_iff_lt_mul (by norm_num)]
      omega
    omega
  have hrest : ∀ w4 : World, ∃ post : List Event,
      (rtlsdr_demod_write_reg (rtlsdr_demod_write_reg
        (rtlsdr_set_sample_freq_correction corr w4).2 1 0x01 0x14 1).2 1 0x01 0x10 1).2.trace =
        w4.trace ++ post := by
    intro w4
    obtain ⟨evs, ht, _⟩ := seg_trans (seg_trans (seg_set_sample_freq_correction corr w4 false)
      (seg_demod_write_reg_01 _ 0x14 false)) (seg_demod_write_reg_01 _ 0x10 false)
    exact ⟨evs, ht⟩
  obtain ⟨post, hp⟩ := hrest
    (rtlsdr_demod_write_reg (rtlsdr_demod_write_reg w 1 0x9f ((ratio >>> 16) % 65536) 2).2
      1 0xa1 (ratio &&& 0xffff) 2).2
  refine ⟨post, ?_⟩
  have hw : (rtlsdr_demod_write_reg (rtlsdr_demod_write_reg w 1 0x9f
      ((ratio >>> 16) % 65536) 2).2 1 0xa1 (ratio &&& 0xffff) 2).2.trace =
      w.trace ++
          [Event.control_out 0x9f20 0x11 [((ratio >>> 16) >>> 8) % 256, (ratio >>> 16) &&& 0xff],
           Event.control_in 0x0120 0x0a 1,
           Event.control_out 0xa120 0x11 [((ratio &&& 0xffff) >>> 8) % 256,
             (ratio &&& 0xffff) &&& 0xff],
           Event.control_in 0x0120 0x0a 1] := by
    rw [h16]
    simp [rtlsdr_demod_write_reg, rtlsdr_demod_read_reg, World.call]
  rw [← hw]
  exact hp

/-- C24: for every accepted sample rate `rtlsdr_set_sample_rate` returns, and
with `ratio = floor(rtl_xtal · 2^22 / samp_rate) & 0x0FFFFFFC` and `real_ratio`
equal to `ratio` with bit 28 set when bit 27 of `ratio` is set: the rate it
stores is `floor(rtl_xtal · 2^22 / real_ratio)` (whenever that quotient fits the
`uint32_t` field, as it does for the crystal value 28800000), and among the
control transfers it issues behind those already in the trace are the 2-byte
writes of `ratio >> 16` to demod page 1 register `0x9f` and of `ratio & 0xFFFF`
to register `0xa1`, high byte first, each followed by the dummy read.  For
`rtl_xtal = 28800000` the masking loses no information: `real_ratio` is the
quotient with its two lowest bits cleared. -/
theorem C24_sample_rate_ratio (fuel : Nat) (hf : 3 ≤ fuel) (dev : rtlsdr_dev)
    (samp_rate : Nat) (w : World)
    (h : ¬ (samp_rate ≤ 225000 ∨ samp_rate > 3200000 ∨
      (samp_rate > 300000 ∧ samp_rate ≤ 900000))) :
    ∃ (ratio real_ratio : Nat),
      ratio = ((dev.rtl_xtal * 4194304) / samp_rate) &&& 0x0FFFFFFC ∧
      real_ratio = (if ratio.testBit 27 then ratio ||| 268435456 else ratio) ∧
      (∃ (r : Int) (dev' : rtlsdr_dev) (w' : World) (pre post : List Event),
        rtlsdr_set_sample_rate (rtlsdr_set_center_freq fuel) dev samp_rate w =
          some (r, dev', w') ∧
        (dev.rtl_xtal * 4194304 / real_ratio < 4294967296 →
          dev'.rate = dev.rtl_xtal * 4194304 / real_ratio) ∧
        w'.trace = w.trace ++ pre ++
          [Event.control_out 0x9f20 0x11 [((ratio >>> 16) >>> 8) % 256, (ratio >>> 16) &&& 0xff],
           Event.control_in 0x0120 0x0a 1,
           Event.control_out 0xa120 0x11 [((ratio &&& 0xffff) >>> 8) % 256,
             (ratio &&& 0xffff) &&& 0xff],
           Event.control_in 0x0120 0x0a 1] ++ post) ∧
      (dev.rtl_xtal = 28800000 →
        real_ratio = 4 * (((dev.rtl_xtal * 4194304) / samp_rate) / 4) ∧
        dev.rtl_xtal * 4194304 / real_ratio < 4294967296) := by
  refine ⟨rsamp_ratio dev.rtl_xtal samp_rate, real_rsamp_ratio dev.rtl_xtal samp_rate,
    rsamp_ratio_eq _ _, real_rsamp_ratio_bit _ _, ?_, ?_⟩
  · obtain ⟨r, dev', w', hres, _⟩ :=
      set_sample_rate_in_range (rtlsdr_set_center_freq fuel) (set_center_freq_total fuel hf)
        dev samp_rate w h
    have hrate := set_sample_rate_stores (rtlsdr_set_center_freq fuel)
      (set_center_freq_keeps_rate fuel) dev samp_rate w h r dev' w' hres
    have hb := set_center_freq_brackets fuel
    have htrace : ∃ pre post : List Event, w'.trace = w.trace ++ pre ++
          [Event.control_out 0x9f20 0x11
             [((rsamp_ratio dev.rtl_xtal samp_rate >>> 16) >>> 8) % 256,
              (rsamp_ratio dev.rtl_xtal samp_rate >>> 16) &&& 0xff],
           Event.control_in 0x0120 0x0a 1,
           Event.control_out 0xa120 0x11
             [((rsamp_ratio dev.rtl_xtal samp_rate &&& 0xffff) >>> 8) % 256,
              (rsamp_ratio dev.rtl_xtal samp_rate &&& 0xffff) &&& 0xff],
           Event.control_in 0x0120 0x0a 1] ++ post := by
      have hres2 := hres
      unfold rtlsdr_set_sample_rate at hres2
      rw [if_neg h] at hres2
      simp only [] at hres2
      split at hres2
      · cases hres2
      · rename_i dev2 w2 hbw
        obtain ⟨pre, hpre, _⟩ := seg_tuner_apply_bw _ hb _ _ _ dev2 w2 hbw
        obtain ⟨post1, hpost1⟩ := set_sample_rate_regs_trace
          (rsamp_ratio dev.rtl_xtal samp_rate) dev2.corr w2 (rsamp_ratio_lt _ _)
        split at hres2
        · split at hres2
          · cases hres2
          · rename_i r3 dev3 w8 ho
            cases hres2
            obtain ⟨post2, hpost2, _⟩ := seg_set_offset_tuning _ hb dev2 1 _ r3 dev3 _ ho
            refine ⟨pre, post1 ++ post2, ?_⟩
            rw [hpost2, hpost1, hpre]
            simp only [List.append_assoc]
        · cases hres2
          refine ⟨pre, post1, ?_⟩
          rw [hpost1, hpre]
    obtain ⟨pre, post, ht⟩ := htrace
    refine ⟨r, dev', w', pre, post, hres, ?_, ht⟩
    intro hfit
    unfold rtlsdr_get_sample_rate at hrate
    rw [hrate]
    unfold real_rate
    exact Nat.mod_eq_of_lt hfit
  · intro hx
    generalize dev.rtl_xtal = x at hx ⊢
    subst hx
    have hge : 37748736 ≤ (28800000 * 4194304) / samp_rate := by
      rw [Nat.le_div_iff_mul_le (by omega)]
      omega
    have hq : (28800000 * 4194304) / samp_rate < 134217728 ∨
        (402653184 ≤ (28800000 * 4194304) / samp_rate ∧
          (28800000 * 4194304) / samp_rate < 536870912) := by
      by_cases hlow : samp_rate ≤ 300000
      · right
        refine ⟨?_, ?_⟩
        · rw [Nat.le_div_iff_mul_le (by omega)]
          omega
        · rw [Nat.div_lt_iff_lt_mul (by omega)]
          omega
      · left
        rw [Nat.div_lt_iff_lt_mul (by omega)]
        omega
    have he := real_rsamp_ratio_eq 28800000 samp_rate hq
    refine ⟨he, ?_⟩
    rw [he]
    generalize (28800000 * 4194304) / samp_rate = q at hge
    rw [Nat.div_lt_iff_lt_mul (by omega)]
    omega

/-- C24 at an opened R820T device with the crystal value 28800000 and the rate
2400000: the quotient is 50331648 = `0x3000000`, written as `0x0300` and
`0x0000`. -/
theorem C24_sample_rate_ratio_witness :
    3 ≤ 3 ∧
    ¬ ((2400000 : Nat) ≤ 225000 ∨ (2400000 : Nat) > 3200000 ∨
      ((2400000 : Nat) > 300000 ∧ (2400000 : Nat) ≤ 900000)) ∧
    (rtlsdr_set_sample_rate (rtlsdr_set_center_freq 3) r820t_dev 2400000
      (World.const 2)).map (fun x => x.2.1.rate) = some 2400000 ∧
    ∃ (ratio real_ratio : Nat),
      ratio = ((r820t_dev.rtl_xtal * 4194304) / 2400000) &&& 0x0FFFFFFC ∧
      real_ratio = (if ratio.testBit 27 then ratio ||| 268435456 else ratio) ∧
      (∃ (r : Int) (dev' : rtlsdr_dev) (w' : World) (pre post : List Event),
        rtlsdr_set_sample_rate (rtlsdr_set_center_freq 3) r820t_dev 2400000 (World.const 2) =
          some (r, dev', w') ∧
        (r820t_dev.rtl_xtal * 4194304 / real_ratio < 4294967296 →
          dev'.rate = r820t_dev.rtl_xtal * 4194304 / real_ratio) ∧
        w'.trace = (World.const 2).trace ++ pre ++
          [Event.control_out 0x9f20 0x11 [((ratio >>> 16) >>> 8) % 256, (ratio >>> 16) &&& 0xff],
           Event.control_in 0x0120 0x0a 1,
           Event.control_out 0xa120 0x11 [((ratio &&& 0xffff) >>> 8) % 256,
             (ratio &&& 0xffff) &&& 0xff],
           Event.control_in 0x0120 0x0a 1] ++ post) ∧
      (r820t_dev.rtl_xtal = 28800000 →
        real_ratio = 4 * (((r820t_dev.rtl_xtal * 4194304) / 2400000) / 4) ∧
        r820t_dev.rtl_xtal * 4194304 / real_ratio < 4294967296) :=
  ⟨le_refl 3, by decide, by decide,
    C24_sample_rate_ratio 3 (le_refl 3) r820t_dev 2400000 (World.const 2) (by decide)⟩

/-- C25: every public device operation that reaches a tuner-dispatch operation
touching the tuner (`init`, `exit`, `set_freq`, `set_bw` with `apply`,
`set_gain`, `set_if_gain`, `set_gain_mode`, `set_i2c_register`,
`set_i2c_override`) returns, and in the events it adds to the trace every such
tuner call is made while the I2C repeater is on and the repeater is off at the
end: the call is preceded by a `set_i2c_repeater(on)` write and followed by a
`set_i2c_repeater(off)` write before the operation returns.  The environment
`w` is arbitrary, so this holds also when the tuner call (or any other call)
returns an error.  The operations are `rtlsdr_set_center_freq`,
`rtlsdr_set_direct_sampling`, `rtlsdr_set_sample_rate`,
`rtlsdr_set_offset_tuning`, `rtlsdr_set_xtal_freq`,
`rtlsdr_set_and_get_tuner_bandwidth`, `rtlsdr_set_tuner_bandwidth`,
`rtlsdr_set_tuner_band_center`, `rtlsdr_set_tuner_gain`,
`rtlsdr_set_tuner_gain_ext` and `rtlsdr_set_tuner_agc_mode` (with a tuner entry
bound), `rtlsdr_set_tuner_if_gain`, `rtlsdr_set_tuner_gain_mode`,
`rtlsdr_set_tuner_i2c_register`, `rtlsdr_set_tuner_i2c_override` and
`rtlsdr_deinit_baseband`. -/
theorem C25_tuner_calls_bracketed (fuel : Nat) (hf : 3 ≤ fuel) (dev : rtlsdr_dev) (w : World) :
    (∀ freq : Nat, returns_bracketed (rtlsdr_set_center_freq fuel dev freq w) w) ∧
    (∀ on_ : Int,
      returns_bracketed (rtlsdr_set_direct_sampling (rtlsdr_set_center_freq fuel) dev on_ w) w) ∧
    (∀ samp_rate : Nat,
      returns_bracketed (rtlsdr_set_sample_rate (rtlsdr_set_center_freq fuel) dev samp_rate w)
        w) ∧
    (∀ on_ : Int,
      returns_bracketed (rtlsdr_set_offset_tuning (rtlsdr_set_center_freq fuel) dev on_ w) w) ∧
    (∀ rtl_freq tuner_freq : Nat,
      returns_bracketed
        (rtlsdr_set_xtal_freq (rtlsdr_set_center_freq fuel) dev rtl_freq tuner_freq w) w) ∧
    (∀ (bw : Nat) (apply_bw : Int),
      returns_bracketed
        (rtlsdr_set_and_get_tuner_bandwidth (rtlsdr_set_center_freq fuel) dev bw apply_bw w) w) ∧
    (∀ bw : Nat,
      returns_bracketed (rtlsdr_set_tuner_bandwidth (rtlsdr_set_center_freq fuel) dev bw w) w) ∧
    (∀ c : Int,
      returns_bracketed (rtlsdr_set_tuner_band_center (rtlsdr_set_center_freq fuel) dev c w) w) ∧
    (∀ gain : Int, brackets_tuner_calls w (rtlsdr_set_tuner_gain dev gain w).2.2) ∧
    (dev.tuner ≠ none → ∀ lna_gain mixer_gain vga_gain : Int,
      returns_bracketed (rtlsdr_set_tuner_gain_ext dev lna_gain mixer_gain vga_gain w) w) ∧
    (dev.tuner ≠ none → ∀ agc_variant : Int,
      returns_bracketed (rtlsdr_set_tuner_agc_mode dev agc_variant w) w) ∧
    (∀ stage gain : Int, brackets_tuner_calls w (rtlsdr_set_tuner_if_gain dev stage gain w).2.2) ∧
    (∀ mode : Int, brackets_tuner_calls w (rtlsdr_set_tuner_gain_mode dev mode w).2.2) ∧
    (∀ i2c_register mask data : Nat,
      brackets_tuner_calls w (rtlsdr_set_tuner_i2c_register dev i2c_register mask data w).2.2) ∧
    (∀ i2c_register mask data : Nat,
      brackets_tuner_calls w (rtlsdr_set_tuner_i2c_override dev i2c_register mask data w).2.2) ∧
    brackets_tuner_calls w (rtlsdr_deinit_baseband dev w).2.2 := by
  have hb := set_center_freq_brackets fuel
  have ht := set_center_freq_total fuel hf
  refine ⟨?_, ?_, ?_, ?_, ?_, ?_, ?_, ?_, ?_, ?_, ?_, ?_, ?_, ?_, ?_, ?_⟩
  · intro freq
    exact returns_bracketed_of _ w (ht dev freq w) (fun r d w' h => hb dev freq w r d w' h)
  · intro on_
    exact returns_bracketed_of _ w (set_direct_sampling_isSome _ ht dev on_ w)
      (fun r d w' h => seg_set_direct_sampling _ hb dev on_ w r d w' h)
  · intro samp_rate
    exact returns_bracketed_of _ w (set_sample_rate_isSome _ ht dev samp_rate w)
      (fun r d w' h => seg_set_sample_rate _ hb dev samp_rate w r d w' h)
  · intro on_
    exact returns_bracketed_of _ w (set_offset_tuning_isSome _ ht dev on_ w)
      (fun r d w' h => seg_set_offset_tuning _ hb dev on_ w r d w' h)
  · intro rtl_freq tuner_freq
    exact returns_bracketed_of _ w (set_xtal_freq_isSome _ ht dev rtl_freq tuner_freq w)
      (fun r d w' h => seg_set_xtal_freq _ hb dev rtl_freq tuner_freq w r d w' h)
  · intro bw apply_bw
    exact returns_bracketed_of _ w (set_and_get_tuner_bandwidth_isSome _ ht dev bw apply_bw w)
      (fun r d w' h => seg_set_and_get_tuner_bandwidth _ hb dev bw apply_bw w r d w' h)
  · intro bw
    exact returns_bracketed_of _ w (set_and_get_tuner_bandwidth_isSome _ ht dev bw 1 w)
      (fun r d w' h => seg_set_and_get_tuner_bandwidth _ hb dev bw 1 w r d w' h)
  · intro c
    exact returns_bracketed_of _ w (set_tuner_band_center_isSome _ ht dev c w)
      (fun r d w' h => seg_set_tuner_band_center _ hb dev c w r d w' h)
  · intro gain
    exact seg_brackets (seg_set_tuner_gain dev gain w)
  · intro hne lna_gain mixer_gain vga_gain
    apply returns_bracketed_of _ w
    · unfold rtlsdr_set_tuner_gain_ext
      split
      · rfl
      · split
        · rename_i hn; exact absurd hn hne
        · split <;> rfl
    · exact fun r d w' h => seg_set_tuner_gain_ext dev lna_gain mixer_gain vga_gain w r d w' h
  · intro hne agc_variant
    apply returns_bracketed_of _ w
    · unfold rtlsdr_set_tuner_agc_mode
      split
      · rfl
      · split
        · rename_i hn; exact absurd hn hne
        · split <;> rfl
    · exact fun r d w' h => seg_set_tuner_agc_mode dev agc_variant w r d w' h
  · intro stage gain
    exact seg_brackets (seg_set_tuner_if_gain dev stage gain w)
  · intro mode
    exact seg_brackets (seg_set_tuner_gain_mode dev mode w)
  · intro i2c_register mask data
    exact seg_brackets (seg_set_tuner_i2c_register dev i2c_register mask data w)
  · intro i2c_register mask data
    exact seg_brackets (seg_set_tuner_i2c_override dev i2c_register mask data w)
  · exact seg_brackets (seg_deinit_baseband dev w)

/-- C25 at an opened R820T device in an environment where every call fails with
-1: `rtlsdr_set_tuner_gain` returns -1 and its events are the repeater-on write,
the driver call and the repeater-off write (each register write followed by the
dummy read); `rtlsdr_set_center_freq` fails likewise between the two writes. -/
theorem C25_tuner_calls_bracketed_witness :
    3 ≤ 3 ∧
    (rtlsdr_set_tuner_gain r820t_dev 100 (World.const (-1))).1 = -1 ∧
    (rtlsdr_set_tuner_gain r820t_dev 100 (World.const (-1))).2.2.trace =
      [Event.control_out 0x0120 0x11 [0x18], Event.control_in 0x0120 0x0a 1,
       Event.driver DriverFn.r82xx_set_gain [1, 100, 0, 0, 0, 0],
       Event.control_out 0x0120 0x11 [0x10], Event.control_in 0x0120 0x0a 1] ∧
    (rtlsdr_set_center_freq 3 r820t_dev 100000000 (World.const (-1))).map
        (fun x => (x.1, x.2.2.trace)) =
      some (-1,
        [Event.control_out 0x0120 0x11 [0x18], Event.control_in 0x0120 0x0a 1,
         Event.driver DriverFn.r82xx_set_freq [100000000],
         Event.control_out 0x0120 0x11 [0x10], Event.control_in 0x0120 0x0a 1]) ∧
    brackets_tuner_calls (World.const (-1))
      (rtlsdr_set_tuner_gain r820t_dev 100 (World.const (-1))).2.2 ∧
    returns_bracketed (rtlsdr_set_center_freq 3 r820t_dev 100000000 (World.const (-1)))
      (World.const (-1)) :=
  ⟨le_refl 3, by decide, by decide, by decide,
   (C25_tuner_calls_bracketed 3 (le_refl 3) r820t_dev (World.const (-1))).2.2.2.2.2.2.2.2.1 100,
   (C25_tuner_calls_bracketed 3 (le_refl 3) r820t_dev (World.const (-1))).1 100000000⟩

/-! ### Soft AGC: runs from `rtlsdr_open` -/

/-- `rtlsdr_set_sample_rate(dev, 256000)` on an opened R820T device stores the
rate 256000. -/
theorem streaming_dev_rate :
    (rtlsdr_set_sample_rate (rtlsdr_set_center_freq 3) r820t_dev 256000 (World.const 1)).map
      (fun x => x.2.1.rate) = some streaming_dev.rate := by
  decide

/-- A buffer of bytes 128 adds all its samples to bin 0. -/
theorem histo_loop_quiet (buf : Int → Nat) (hb : ∀ i, buf i = 128) (n : Nat) :
    ∀ (i : Int) (x : Int) (rest : List Int),
      histo_loop buf n i (x :: rest) = (x + (n : Int)) :: rest := by
  induction n with
  | zero => intro i x rest; simp [histo_loop]
  | succ n ih =>
    intro i x rest
    have hk : histo_bin (buf i % 256) = 0 := by rw [hb i]; decide
    simp only [histo_loop, hk, List.set_cons_zero, List.getD_cons_zero]
    rw [ih]
    push_cast
    ring_nf

/-- In the modes `AutoAttenuate` and `Auto` the end of the scan window stores no
sub-state (`agc->agcState == SOFTSTATE_ON;`, librtlsdr.c 3135, is a
comparison): a call that reaches the histogram stage, finds no oversteer and
finds the scan window used up leaves the sub-state as it was and returns 1. -/
theorem softagc_auto_scan_end (tm : SoftAgcTimes) (dev : rtlsdr_dev) (buf : Int → Nat)
    (len : Int) (hr : reaches_histo dev len)
    (hno : ¬ oversteer (histo_after dev buf len) (num_after dev len))
    (hscan : dev.softagc.remainingScanSps - Int.tdiv (histo_len dev len) 2 < 0)
    (hm : dev.softagc.softAgcMode = softagc_mode.SOFTAGC_AUTO ∨
      dev.softagc.softAgcMode = softagc_mode.SOFTAGC_AUTO_ATTEN) :
    (softagc tm dev buf len).2.softagc.agcState = dev.softagc.agcState ∧
    (softagc tm dev buf len).1 = 1 := by
  rw [softagc_eq_histo tm dev buf len hr]
  unfold softagc_histo
  simp only []
  rw [if_neg (by exact hno), if_pos (by exact hscan)]
  unfold softagc_scan_end
  simp only []
  rcases hm with hm | hm <;> rw [hm] <;> exact ⟨rfl, rfl⟩

/-- C15: a run from `rtlsdr_open` in mode `Auto` with the default times at
256000 S/s and transfers of 262144 quiet bytes.  The third transfer reaches the
histogram stage (the dead window of 256 samples ends inside it), finds no
oversteer and finds the scan window of 25600 samples used up; the sub-state
before the call is `ResetContinuing` and after the call it is still
`ResetContinuing`, not `On`. -/
theorem C15_auto_scan_end_not_on :
    (agc_run_start 262144).softagc.softAgcMode = softagc_mode.SOFTAGC_AUTO ∧
    (agc_run_start 262144).softagc.agcState = softagc_stateT.SOFTSTATE_RESET_CONT ∧
    reaches_histo (agc_run_start 262144) 262144 ∧
    ¬ oversteer (histo_after (agc_run_start 262144) silent_buf 262144)
      (num_after (agc_run_start 262144) 262144) ∧
    (agc_run_start 262144).softagc.remainingScanSps -
      Int.tdiv (histo_len (agc_run_start 262144) 262144) 2 < 0 ∧
    (softagc default_times (agc_run_start 262144) silent_buf 262144).2.softagc.agcState =
      softagc_stateT.SOFTSTATE_RESET_CONT ∧
    (softagc default_times (agc_run_start 262144) silent_buf 262144).2.softagc.agcState ≠
      softagc_stateT.SOFTSTATE_ON := by
  have hm : (agc_run_start 262144).softagc.softAgcMode = softagc_mode.SOFTAGC_AUTO := by decide
  have hs : (agc_run_start 262144).softagc.agcState = softagc_stateT.SOFTSTATE_RESET_CONT := by
    decide
  have hr : reaches_histo (agc_run_start 262144) 262144 := by decide
  have hscan : (agc_run_start 262144).softagc.remainingScanSps -
      Int.tdiv (histo_len (agc_run_start 262144) 262144) 2 < 0 := by decide
  have hh : (agc_run_start 262144).softagc.histo = 0 :: List.replicate 15 0 := by decide
  have hn : num_after (agc_run_start 262144) 262144 = 261632 := by decide
  have hb : ∀ i, histo_buf (agc_run_start 262144) silent_buf i = 128 := by
    intro i
    unfold histo_buf
    split_ifs <;> rfl
  have hno : ¬ oversteer (histo_after (agc_run_start 262144) silent_buf 262144)
      (num_after (agc_run_start 262144) 262144) := by
    unfold histo_after
    rw [hh, histo_loop_quiet _ hb, hn]
    unfold oversteer
    simp [distrib_from]
  have key := softagc_auto_scan_end default_times (agc_run_start 262144) silent_buf 262144
    hr hno hscan (Or.inl hm)
  refine ⟨hm, hs, hr, hno, hscan, key.1.trans hs, ?_⟩
  rw [key.1, hs]
  decide

/-- Every gain table has at least one entry. -/
theorem get_tuner_gains_pos (dev : rtlsdr_dev) : 1 ≤ (get_tuner_gains dev).length := by
  unfold get_tuner_gains
  cases dev.tuner_type <;> decide

/-- The steps of a run keep the tuner type, hence the gain table. -/
theorem run_agc_gains (tm : SoftAgcTimes) (steps : List AgcStep) :
    ∀ dev : rtlsdr_dev, (∀ s ∈ steps, s.keeps_index) →
      get_tuner_gains (run_agc tm steps dev) = get_tuner_gains dev := by
  induction steps with
  | nil => intro dev _; rfl
  | cons s rest ih =>
    intro dev hk
    have hrest : ∀ s ∈ rest, s.keeps_index := fun x hx => hk x (List.mem_cons_of_mem _ hx)
    cases s with
    | call buf len => exact (ih _ hrest).trans (softagc_gains tm dev buf len)
    | other f =>
      have hf : keeps_gain_index f := hk _ (List.mem_cons_self _ _)
      refine (ih _ hrest).trans ?_
      unfold get_tuner_gains
      rw [(hf dev).2]

/-- A run of two parts is the second part run after the first. -/
theorem run_agc_append (tm : SoftAgcTimes) (a b : List AgcStep) :
    ∀ dev : rtlsdr_dev, run_agc tm (a ++ b) dev = run_agc tm b (run_agc tm a dev) := by
  induction a with
  | nil => intro dev; rfl
  | cons s rest ih =>
    intro dev
    cases s with
    | call buf len => exact ih _
    | other f => exact ih _

/-- C28: for every tuner type, on every run from the device record that
`rtlsdr_open` zeroes (`gainIdx = 0`) and binds to that tuner type: whatever the
library did before (`pre`: any classifier calls and any steps of the rest of the
library, which write neither the gain index nor the tuner type), once a
classifier call is made in sub-state `Reset` and is followed by any further
calls and steps, `0 ≤ gainIdx < numGains` holds after that call and after every
later one; so every lookup `gains[gainIdx]` of the classifier is inside the
table and the index is never lowered below 0.  For a table of two or more
entries the `Reset` call puts the index at `numGains − 1`. -/
theorem C28_gain_index_in_range (tm : SoftAgcTimes) (t : rtlsdr_tuner) (pre : List AgcStep)
    (buf : Int → Nat) (len : Int) (steps : List AgcStep)
    (hpre : ∀ s ∈ pre, s.keeps_index) (hk : ∀ s ∈ steps, s.keeps_index)
    (hs : (run_agc tm pre { rtlsdr_dev.zero with tuner_type := t }).softagc.agcState =
      softagc_stateT.SOFTSTATE_RESET) :
    gain_index_in_range
      (run_agc tm (pre ++ AgcStep.call buf len :: steps)
        { rtlsdr_dev.zero with tuner_type := t }) ∧
    (2 ≤ (get_tuner_gains { rtlsdr_dev.zero with tuner_type := t }).length →
      (softagc tm (run_agc tm pre { rtlsdr_dev.zero with tuner_type := t }) buf
          len).2.softagc.gainIdx =
        ((get_tuner_gains { rtlsdr_dev.zero with tuner_type := t }).length : Int) - 1) := by
  have h0 : gain_index_in_range { rtlsdr_dev.zero with tuner_type := t } := by
    have := get_tuner_gains_pos { rtlsdr_dev.zero with tuner_type := t }
    unfold gain_index_in_range
    refine ⟨le_refl _, ?_⟩
    show (0 : Int) < _
    omega
  refine ⟨?_, fun h2 => ?_⟩
  · apply run_agc_keeps_in_range tm _ _ _ h0
    intro s hmem
    rcases List.mem_append.mp hmem with h | h
    · exact hpre s h
    · rcases List.mem_cons.mp h with h | h
      · rw [h]; trivial
      · exact hk s h
  · have hg := run_agc_gains tm pre { rtlsdr_dev.zero with tuner_type := t } hpre
    rw [← hg] at h2 ⊢
    exact softagc_reset_in_range tm _ buf len hs h2

/-- C28 on an R820T device: the option `softagc=3` and the first transfer lead to
sub-state `Reset`; then the `Reset` call (index 28, the top of the table of 29
gains), the worker applying the gain, and two transfers of strong samples, each
followed by the worker: the index is 26 at the end. -/
theorem C28_gain_index_in_range_witness :
    (run_agc zero_times
      ([AgcStep.other enable_softagc_auto, AgcStep.call silent_buf 512] ++
        AgcStep.call silent_buf 512 ::
          [AgcStep.other worker_applies_gain, AgcStep.call (fun _ => 255) 16,
           AgcStep.other worker_applies_gain, AgcStep.call (fun _ => 255) 16])
      { rtlsdr_dev.zero with
        tuner_type := rtlsdr_tuner.RTLSDR_TUNER_R820T }).softagc.gainIdx = 26 ∧
    gain_index_in_range
      (run_agc zero_times
        ([AgcStep.other enable_softagc_auto, AgcStep.call silent_buf 512] ++
          AgcStep.call silent_buf 512 ::
            [AgcStep.other worker_applies_gain, AgcStep.call (fun _ => 255) 16,
             AgcStep.other worker_applies_gain, AgcStep.call (fun _ => 255) 16])
        { rtlsdr_dev.zero with tuner_type := rtlsdr_tuner.RTLSDR_TUNER_R820T }) :=
  have hw : keeps_gain_index worker_applies_gain := by
    intro d
    unfold worker_applies_gain
    split_ifs <;> exact ⟨rfl, rfl⟩
  have he : keeps_gain_index enable_softagc_auto := fun _ => ⟨rfl, rfl⟩
  ⟨by decide,
   (C28_gain_index_in_range zero_times rtlsdr_tuner.RTLSDR_TUNER_R820T
      [AgcStep.other enable_softagc_auto, AgcStep.call silent_buf 512] silent_buf 512
      [AgcStep.other worker_applies_gain, AgcStep.call (fun _ => 255) 16,
       AgcStep.other worker_applies_gain, AgcStep.call (fun _ => 255) 16]
      (by
        intro s hs
        simp only [List.mem_cons, List.mem_singleton, List.not_mem_nil, or_false] at hs
        rcases hs with rfl | rfl
        · exact he
        · trivial)
      (by
        intro s hs
        simp only [List.mem_cons, List.mem_singleton, List.not_mem_nil, or_false] at hs
        rcases hs with rfl | rfl | rfl | rfl
        · exact hw
        · trivial
        · exact hw
        · trivial)
      (by decide)).1⟩

/-- In sub-state `Reset` the classifier starts the measurement without looking
at the buffer: on the run `softagc=3`, first transfer, a second transfer of
length 0 moves the gain index from 0 to the top of the table (28), commands that
gain (49.6 dB) and raises the change request. -/
theorem softagc_reset_ignores_buffer :
    (run_agc default_times
      [AgcStep.other enable_softagc_auto, AgcStep.call silent_buf 512]
      streaming_dev).softagc.agcState = softagc_stateT.SOFTSTATE_RESET ∧
    (softagc default_times
      (run_agc default_times
        [AgcStep.other enable_softagc_auto, AgcStep.call silent_buf 512] streaming_dev)
      silent_buf 0).2.softagc.gainIdx = 28 ∧
    (softagc default_times
      (run_agc default_times
        [AgcStep.other enable_softagc_auto, AgcStep.call silent_buf 512] streaming_dev)
      silent_buf 0).2.softagc.command_newGain = 496 ∧
    (softagc default_times
      (run_agc default_times
        [AgcStep.other enable_softagc_auto, AgcStep.call silent_buf 512] streaming_dev)
      silent_buf 0).2.softagc.command_changeGain = 1 := by
  decide

end LibRtlSdr

namespace RtlTcp

/-! ### Capability banner -/

/-- C16: the banner is 12 bytes: the ASCII bytes of `RTL0`, the tuner type as a
32-bit big-endian integer and the number of gain steps reported by
`rtlsdr_get_tuner_gains` as a 32-bit big-endian integer; for a device whose
tuner is R820T it is `52 54 4C 30 00 00 00 05 00 00 00 1D`. -/
theorem C16_banner_bytes (dev : LibRtlSdr.rtlsdr_dev) :
    (∃ t3 t2 t1 t0 g3 g2 g1 g0 : Nat,
      dongle_info dev = [0x52, 0x54, 0x4C, 0x30, t3, t2, t1, t0, g3, g2, g1, g0] ∧
      t3 < 256 ∧ t2 < 256 ∧ t1 < 256 ∧ t0 < 256 ∧
      g3 < 256 ∧ g2 < 256 ∧ g1 < 256 ∧ g0 < 256 ∧
      (be32 t3 t2 t1 t0 : Int) = tuner_value dev.tuner_type ∧
      (be32 g3 g2 g1 g0 : Int) = LibRtlSdr.rtlsdr_get_tuner_gains dev) ∧
    (dev.tuner_type = LibRtlSdr.rtlsdr_tuner.RTLSDR_TUNER_R820T →
      dongle_info dev = [0x52, 0x54, 0x4C, 0x30, 0, 0, 0, 5, 0, 0, 0, 0x1D]) := by
  have key : ∀ t : LibRtlSdr.rtlsdr_tuner, dev.tuner_type = t →
      dongle_info dev =
        ['R', 'T', 'L', '0'].map Char.toNat ++
          (if tuner_value t ≥ 0 then htonl (LibRtlSdr.bits32 (tuner_value t)) else [0, 0, 0, 0]) ++
          (if ((LibRtlSdr.get_tuner_gains { LibRtlSdr.rtlsdr_dev.zero with tuner_type := t }).length
                : Int) ≥ 0 then
            htonl (LibRtlSdr.bits32
              (LibRtlSdr.get_tuner_gains
                { LibRtlSdr.rtlsdr_dev.zero with tuner_type := t }).length)
          else [0, 0, 0, 0]) := by
    intro t ht
    unfold dongle_info LibRtlSdr.rtlsdr_get_tuner_type LibRtlSdr.rtlsdr_get_tuner_gains
      LibRtlSdr.get_tuner_gains
    simp only [ht]
  have hg : ∀ t : LibRtlSdr.rtlsdr_tuner, dev.tuner_type = t →
      LibRtlSdr.rtlsdr_get_tuner_gains dev =
        (LibRtlSdr.get_tuner_gains
          { LibRtlSdr.rtlsdr_dev.zero with tuner_type := t }).length := by
    intro t ht
    unfold LibRtlSdr.rtlsdr_get_tuner_gains LibRtlSdr.get_tuner_gains
    simp only [ht]
  refine ⟨?_, ?_⟩
  · cases ht : dev.tuner_type
    · rw [key _ ht, hg _ ht]; exact ⟨0, 0, 0, 0, 0, 0, 0, 1, by decide⟩
    · rw [key _ ht, hg _ ht]; exact ⟨0, 0, 0, 1, 0, 0, 0, 14, by decide⟩
    · rw [key _ ht, hg _ ht]; exact ⟨0, 0, 0, 2, 0, 0, 0, 5, by decide⟩
    · rw [key _ ht, hg _ ht]; exact ⟨0, 0, 0, 3, 0, 0, 0, 23, by decide⟩
    · rw [key _ ht, hg _ ht]; exact ⟨0, 0, 0, 4, 0, 0, 0, 1, by decide⟩
    · rw [key _ ht, hg _ ht]; exact ⟨0, 0, 0, 5, 0, 0, 0, 29, by decide⟩
    · rw [key _ ht, hg _ ht]; exact ⟨0, 0, 0, 6, 0, 0, 0, 29, by decide⟩
  · intro ht
    rw [key _ ht]
    decide

/-! ### Command reader -/

/-- For four bytes, `ntohl` is the big-endian value. -/
theorem ntohl_eq_be32 (p3 p2 p1 p0 : Nat) (h3 : p3 < 256) (h2 : p2 < 256) (h1 : p1 < 256)
    (h0 : p0 < 256) : ntohl p3 p2 p1 p0 = be32 p3 p2 p1 p0 := by
  unfold ntohl be32
  rw [Nat.mod_eq_of_lt h3, Nat.mod_eq_of_lt h2, Nat.mod_eq_of_lt h1, Nat.mod_eq_of_lt h0]
  simp only [Nat.shiftLeft_eq]
  have e1 : p3 * 2 ^ 24 ||| p2 * 2 ^ 16 = p3 * 2 ^ 24 + p2 * 2 ^ 16 := by
    have := Nat.mul_add_lt_is_or (i := 24) (b := p2 * 2 ^ 16) (by omega) p3
    rw [Nat.mul_comm (2 ^ 24) p3] at this
    exact this.symm
  have e2 : (p3 * 2 ^ 24 + p2 * 2 ^ 16) ||| p1 * 2 ^ 8 =
      p3 * 2 ^ 24 + p2 * 2 ^ 16 + p1 * 2 ^ 8 := by
    have := Nat.mul_add_lt_is_or (i := 16) (b := p1 * 2 ^ 8) (by omega) (p3 * 2 ^ 8 + p2)
    have e : 2 ^ 16 * (p3 * 2 ^ 8 + p2) = p3 * 2 ^ 24 + p2 * 2 ^ 16 := by ring
    rw [e] at this
    exact this.symm
  have e3 : (p3 * 2 ^ 24 + p2 * 2 ^ 16 + p1 * 2 ^ 8) ||| p0 =
      p3 * 2 ^ 24 + p2 * 2 ^ 16 + p1 * 2 ^ 8 + p0 := by
    have := Nat.mul_add_lt_is_or (i := 8) (b := p0) (by omega) (p3 * 2 ^ 16 + p2 * 2 ^ 8 + p1)
    have e : 2 ^ 8 * (p3 * 2 ^ 16 + p2 * 2 ^ 8 + p1) = p3 * 2 ^ 24 + p2 * 2 ^ 16 + p1 * 2 ^ 8 := by
      ring
    rw [e] at this
    exact this.symm
  rw [e1, e2, e3]
  norm_num

/-- C17: a command frame with code 0x01 and parameter bytes `p3 p2 p1 p0`
(big-endian value `p`).  If the stored high word `freqhi` is 0 the reader makes
exactly one call, `rtlsdr_set_center_freq(dev, p)`; otherwise exactly one call,
`rtlsdr_set_center_freq64(dev, (freqhi << 32) | p)`; in both cases `freqhi` is 0
afterwards.  A frame with code 0x10 stores its parameter in `freqhi` and calls
nothing, and a frame of any other command leaves `freqhi` as it is, so `freqhi`
is 0 unless a SET_FREQ_HI32 with a non-zero value came after the last
set-frequency command.  The frame `01 05 F5 E1 00` at the start of a session
calls `rtlsdr_set_center_freq(dev, 100000000)`. -/
theorem C17_set_frequency_frame (ext : Nat → Option RTL_TCP_COMMANDS) (st : CmdState)
    (p3 p2 p1 p0 : Nat) (w : ApiWorld)
    (h3 : p3 < 256) (h2 : p2 < 256) (h1 : p1 < 256) (h0 : p0 < 256) :
    (st.freqhi = 0 →
      (command_frame ext st 0x01 p3 p2 p1 p0 w).2.trace =
        w.trace ++ [{ fn := ApiFn.rtlsdr_set_center_freq, args := [(be32 p3 p2 p1 p0 : Nat)] }]) ∧
    (st.freqhi ≠ 0 →
      (command_frame ext st 0x01 p3 p2 p1 p0 w).2.trace =
        w.trace ++ [{ fn := ApiFn.rtlsdr_set_center_freq64,
                      args := [((st.freqhi <<< 32) ||| be32 p3 p2 p1 p0 : Nat)] }]) ∧
    (command_frame ext st 0x01 p3 p2 p1 p0 w).1.freqhi = 0 ∧
    (command_frame ext st 0x10 p3 p2 p1 p0 w).1.freqhi = be32 p3 p2 p1 p0 ∧
    (command_frame ext st 0x10 p3 p2 p1 p0 w).2.trace = w.trace ∧
    (∀ c : Nat,
      command_of_code ext (c % 256) ≠ some RTL_TCP_COMMANDS.SET_FREQUENCY →
      command_of_code ext (c % 256) ≠ some RTL_TCP_COMMANDS.SET_FREQ_HI32 →
      (command_frame ext st c p3 p2 p1 p0 w).1.freqhi = st.freqhi) ∧
    (command_frame ext CmdState.init 0x01 0x05 0xF5 0xE1 0x00 ApiWorld.ok).2.trace =
      [{ fn := ApiFn.rtlsdr_set_center_freq, args := [100000000] }] := by
  have hn := ntohl_eq_be32 p3 p2 p1 p0 h3 h2 h1 h0
  have hc1 : command_of_code ext (0x01 % 256) = some RTL_TCP_COMMANDS.SET_FREQUENCY := rfl
  have hc16 : command_of_code ext (0x10 % 256) = some RTL_TCP_COMMANDS.SET_FREQ_HI32 := rfl
  refine ⟨?_, ?_, ?_, ?_, ?_, ?_, ?_⟩
  · intro hz
    simp only [command_frame, hc1, command_switch, hn, if_pos hz, call_lock, ApiWorld.call]
  · intro hz
    simp only [command_frame, hc1, command_switch, hn, if_neg hz, call_lock, ApiWorld.call]
  · simp only [command_frame, hc1, command_switch]
  · simp only [command_frame, hc16, command_switch, hn]
  · simp only [command_frame, hc16, command_switch]
  · intro c hf hh
    unfold command_frame
    generalize command_of_code ext (c % 256) = oc at hf hh
    rcases oc with _ | cmd
    · rfl
    · cases cmd <;>
        first
        | exact absurd rfl hf
        | exact absurd rfl hh
        | (simp only [command_switch, call_report, call_lock, ApiWorld.call]
           try (split_ifs <;> rfl))
  · have e : command_frame ext CmdState.init 0x01 0x05 0xF5 0xE1 0x00 ApiWorld.ok =
        command_switch CmdState.init (some RTL_TCP_COMMANDS.SET_FREQUENCY)
          (ntohl 0x05 0xF5 0xE1 0x00) ApiWorld.ok := by
      unfold command_frame
      rw [hc1]
    rw [e]
    decide
/-- C17 witness: the frame `01 05 F5 E1 00` at the start of a session, with no
command codes beyond 0x10. -/
theorem C17_set_frequency_frame_witness :
    ((5 : Nat) < 256 ∧ (245 : Nat) < 256 ∧ (225 : Nat) < 256 ∧ (0 : Nat) < 256) ∧
    (CmdState.init.freqhi = 0 →
      (command_frame (fun _ => none) CmdState.init 0x01 5 245 225 0 ApiWorld.ok).2.trace =
        ApiWorld.ok.trace ++
          [{ fn := ApiFn.rtlsdr_set_center_freq, args := [(be32 5 245 225 0 : Nat)] }]) ∧
    (command_frame (fun _ => none) CmdState.init 0x01 5 245 225 0 ApiWorld.ok).1.freqhi = 0 :=
  ⟨by decide,
   (C17_set_frequency_frame (fun _ => none) CmdState.init 5 245 225 0 ApiWorld.ok
      (by decide) (by decide) (by decide) (by decide)).1,
   (C17_set_frequency_frame (fun _ => none) CmdState.init 5 245 225 0 ApiWorld.ok
      (by decide) (by decide) (by decide) (by decide)).2.2.1⟩

/-- One push, with the list given explicitly: the new list and whether the head
was dropped, in terms of the length of the list before the push. -/
theorem rtlsdr_callback_step {α : Type} (llbuf_num : Int) (st : TcpState α) (rpt : α) :
    (llbuf_num ≠ 0 ∧ (st.ll_buffers.length : Int) = llbuf_num + 3 ∧
      (rtlsdr_callback false llbuf_num st rpt).ll_buffers = st.ll_buffers.tail ++ [rpt] ∧
      st.ll_buffers.length ≥ 2) ∨
    ((llbuf_num = 0 ∨ (st.ll_buffers.length : Int) ≠ llbuf_num + 3 ∨ st.ll_buffers.length < 2) ∧
      (llbuf_num ≥ 0 →
        (rtlsdr_callback false llbuf_num st rpt).ll_buffers = st.ll_buffers ++ [rpt])) := by
  obtain ⟨l, g⟩ := st
  cases l with
  | nil =>
    right
    refine ⟨Or.inr (Or.inr (by simp)), fun _ => ?_⟩
    simp [rtlsdr_callback]
  | cons hd tl =>
    simp only [rtlsdr_callback, Bool.false_eq_true, if_false]
    by_cases hc : llbuf_num ≠ 0 ∧ llbuf_num = (tl.length : Int) - 2
    · rw [if_pos hc]
      cases tl with
      | nil =>
        right
        refine ⟨Or.inr (Or.inr (by simp)), fun h0 => ?_⟩
        exfalso
        have := hc.2
        simp at this
        omega
      | cons t ts =>
        left
        refine ⟨hc.1, ?_, by simp, by simp⟩
        have := hc.2
        simp only [List.length_cons] at this ⊢
        push_cast at this ⊢
        omega
    · rw [if_neg hc]
      right
      refine ⟨?_, fun _ => rfl⟩
      by_cases h0 : llbuf_num = 0
      · exact Or.inl h0
      · right; left
        intro hl
        apply hc
        refine ⟨h0, ?_⟩
        simp only [List.length_cons] at hl
        push_cast at hl
        omega

/-- With a positive bound a push keeps a list of at most `llbuf_num + 3` nodes
that short. -/
theorem rtlsdr_callback_length_le {α : Type} (llbuf_num : Int) (h : 0 < llbuf_num)
    (st : TcpState α) (rpt : α) (hl : (st.ll_buffers.length : Int) ≤ llbuf_num + 3) :
    ((rtlsdr_callback false llbuf_num st rpt).ll_buffers.length : Int) ≤ llbuf_num + 3 := by
  rcases rtlsdr_callback_step llbuf_num st rpt with ⟨_, h1, h2, h3⟩ | ⟨h1, h2⟩
  · rw [h2]
    simp only [List.length_append, List.length_tail, List.length_singleton]
    push_cast
    omega
  · rw [h2 (le_of_lt h)]
    simp only [List.length_append, List.length_singleton]
    push_cast
    rcases h1 with h1 | h1 | h1
    · omega
    · omega
    · omega

/-- With a positive bound the list never grows beyond `llbuf_num + 3` nodes,
whatever the interleaving of pushes and drains. -/
theorem runQueue_length_le {α : Type} (llbuf_num : Int) (h : 0 < llbuf_num) :
    ∀ (ops : List (QueueOp α)) (acc : List α × TcpState α),
      (acc.2.ll_buffers.length : Int) ≤ llbuf_num + 3 →
      ((runQueue llbuf_num ops acc).2.ll_buffers.length : Int) ≤ llbuf_num + 3 := by
  intro ops
  induction ops with
  | nil => intro acc hl; exact hl
  | cons op ops ih =>
    intro acc hl
    obtain ⟨s, st⟩ := acc
    cases op with
    | push b =>
      simp only [runQueue]
      exact ih _ (rtlsdr_callback_length_le llbuf_num h st b hl)
    | drain =>
      simp only [runQueue]
      apply ih
      simp only [tcp_worker, List.length_nil]
      push_cast
      omega

/-- C27: for every positive queue bound `llbuf_num`, starting from the empty
queue and after any interleaving of producer pushes and whole-queue consumer
drains, the queue holds at most `llbuf_num + 3` items, and a further push drops
an item (the list is not the old list with the new buffer appended) only when
the queue holds exactly `llbuf_num + 3` items, in which case the head is
removed; with bound 0 no push ever drops an item, whatever the queue holds. -/
theorem C27_queue_depth_bound {α : Type} (llbuf_num : Int) (h : 0 < llbuf_num)
    (ops : List (QueueOp α)) (rpt : α) :
    (((runQueue llbuf_num ops ([], TcpState.init α)).2.ll_buffers.length : Int) ≤
      llbuf_num + 3) ∧
    ((rtlsdr_callback false llbuf_num (runQueue llbuf_num ops ([], TcpState.init α)).2
        rpt).ll_buffers ≠
        (runQueue llbuf_num ops ([], TcpState.init α)).2.ll_buffers ++ [rpt] →
      ((runQueue llbuf_num ops ([], TcpState.init α)).2.ll_buffers.length : Int) =
        llbuf_num + 3) ∧
    (((runQueue llbuf_num ops ([], TcpState.init α)).2.ll_buffers.length : Int) =
        llbuf_num + 3 →
      (rtlsdr_callback false llbuf_num (runQueue llbuf_num ops ([], TcpState.init α)).2
        rpt).ll_buffers =
        (runQueue llbuf_num ops ([], TcpState.init α)).2.ll_buffers.tail ++ [rpt]) ∧
    (∀ st : TcpState α, (rtlsdr_callback false 0 st rpt).ll_buffers = st.ll_buffers ++ [rpt]) := by
  refine ⟨?_, ?_, ?_, ?_⟩
  · exact runQueue_length_le llbuf_num h ops _ (by simp [TcpState.init]; omega)
  · intro hne
    rcases rtlsdr_callback_step llbuf_num (runQueue llbuf_num ops ([], TcpState.init α)).2 rpt
      with ⟨_, h1, _, _⟩ | ⟨_, h2⟩
    · exact h1
    · exact absurd (h2 (le_of_lt h)) hne
  · intro hl
    rcases rtlsdr_callback_step llbuf_num (runQueue llbuf_num ops ([], TcpState.init α)).2 rpt
      with ⟨_, _, h2, _⟩ | ⟨h1, _⟩
    · exact h2
    · exfalso
      rcases h1 with h1 | h1 | h1
      · omega
      · exact h1 hl
      · omega
  · intro st
    rcases rtlsdr_callback_step 0 st rpt with ⟨h0, _⟩ | ⟨_, h2⟩
    · exact absurd rfl h0
    · exact h2 (le_refl 0)

/-- C27 witness: bound 1, the queue after four pushes (it then holds 1 + 3
items) and a fifth push, which drops the head. -/
theorem C27_queue_depth_bound_witness :
    (0 : Int) < 1 ∧
    (runQueue 1 [QueueOp.push 1, QueueOp.push 2, QueueOp.push 3, QueueOp.push 4]
      ([], TcpState.init Nat)).2.ll_buffers = [1, 2, 3, 4] ∧
    (rtlsdr_callback false 1 (runQueue 1
      [QueueOp.push 1, QueueOp.push 2, QueueOp.push 3, QueueOp.push 4]
      ([], TcpState.init Nat)).2 5).ll_buffers = [2, 3, 4, 5] ∧
    (((runQueue 1 [QueueOp.push 1, QueueOp.push 2, QueueOp.push 3, QueueOp.push 4]
      ([], TcpState.init Nat)).2.ll_buffers.length : Int) ≤ 1 + 3) :=
  ⟨by decide, by decide, by decide,
    (C27_queue_depth_bound 1 (by decide)
      [QueueOp.push 1, QueueOp.push 2, QueueOp.push 3, QueueOp.push 4] 5).1⟩

end RtlTcp
